import Mathlib

/-!
# RIPv2 agent of ns-3 (`src/internet/model/ripv2*.cc`): embedding and properties

Machine integers are natural numbers, reduced modulo `2 ^ w` where the C++
code stores them in a `w`-bit field.  IPv4 addresses and masks are the 32-bit
host-order values returned by `Ipv4Address::Get` and `Ipv4Mask::Get`.
-/

namespace ns3

/-! ## Byte buffers -/

/-- Modelled from the spec: `Buffer::Iterator` of the ns-3 network module,
whose code is not under `src/`.  The buffer is the list of its bytes, the
iterator the buffer together with a cursor.  A copy of an iterator shares
the bytes and has a cursor of its own. -/
structure BufferIterator where
  data : List Nat
  cur : Nat
deriving DecidableEq, Repr

namespace BufferIterator

/-- Modelled from the spec: `Buffer::Iterator::GetSize`, the size of the
whole buffer the iterator walks. -/
def GetSize (i : BufferIterator) : Nat := i.data.length % 2 ^ 32

/-- Modelled from the spec: `Buffer::Iterator::Next (delta)`. -/
def Next (i : BufferIterator) (delta : Nat) : BufferIterator :=
  { i with cur := i.cur + delta }

/-- Modelled from the spec: `Buffer::Iterator::WriteU8`, one byte stored at
the cursor, which then advances. -/
def WriteU8 (i : BufferIterator) (v : Nat) : BufferIterator :=
  { data := i.data.set i.cur (v % 256), cur := i.cur + 1 }

/-- Modelled from the spec: `Buffer::Iterator::WriteU16`, host order, which
is the low byte first. -/
def WriteU16 (i : BufferIterator) (v : Nat) : BufferIterator :=
  (i.WriteU8 (v % 256)).WriteU8 (v / 256 % 256)

/-- Modelled from the spec: `Buffer::Iterator::WriteHtonU16`, network order
(spec 4.1: all multi-byte integers big-endian). -/
def WriteHtonU16 (i : BufferIterator) (v : Nat) : BufferIterator :=
  (i.WriteU8 (v / 256 % 256)).WriteU8 (v % 256)

/-- Modelled from the spec: `Buffer::Iterator::WriteHtonU32`, network order. -/
def WriteHtonU32 (i : BufferIterator) (v : Nat) : BufferIterator :=
  (((i.WriteU8 (v / 16777216 % 256)).WriteU8 (v / 65536 % 256)).WriteU8
    (v / 256 % 256)).WriteU8 (v % 256)

/-- Modelled from the spec: `Buffer::Iterator::ReadU8`. -/
def ReadU8 (i : BufferIterator) : Nat × BufferIterator :=
  (i.data.getD i.cur 0, { i with cur := i.cur + 1 })

/-- Modelled from the spec: `Buffer::Iterator::ReadU16`, host order. -/
def ReadU16 (i : BufferIterator) : Nat × BufferIterator :=
  let r0 := i.ReadU8
  let r1 := r0.2.ReadU8
  (r0.1 + r1.1 * 256, r1.2)

/-- Modelled from the spec: `Buffer::Iterator::ReadNtohU16`, network order. -/
def ReadNtohU16 (i : BufferIterator) : Nat × BufferIterator :=
  let r0 := i.ReadU8
  let r1 := r0.2.ReadU8
  (r0.1 * 256 + r1.1, r1.2)

/-- Modelled from the spec: `Buffer::Iterator::ReadNtohU32`, network order. -/
def ReadNtohU32 (i : BufferIterator) : Nat × BufferIterator :=
  let r0 := i.ReadU8
  let r1 := r0.2.ReadU8
  let r2 := r1.2.ReadU8
  let r3 := r2.2.ReadU8
  (((r0.1 * 256 + r1.1) * 256 + r2.1) * 256 + r3.1, r3.2)

end BufferIterator

/-! ## Wire codec (`ripv2-header.cc`) -/

/-- The class `Ripv2Rte`: one route table entry of a message. -/
structure Ripv2Rte where
  m_AFI : Nat := 2
  m_tag : Nat := 0
  m_IpAddress : Nat := 0
  m_SubnetMask : Nat := 0
  m_NextHop : Nat := 0
  m_metric : Nat := 16
deriving DecidableEq, Repr

/-- Every field of the RTE fits the width of its C++ type. -/
def Ripv2Rte.InRange (r : Ripv2Rte) : Prop :=
  r.m_AFI < 2 ^ 16 ∧ r.m_tag < 2 ^ 16 ∧ r.m_IpAddress < 2 ^ 32 ∧
    r.m_SubnetMask < 2 ^ 32 ∧ r.m_NextHop < 2 ^ 32 ∧ r.m_metric < 2 ^ 32

instance (r : Ripv2Rte) : Decidable r.InRange := by
  unfold Ripv2Rte.InRange; infer_instance

/-- The method `Ripv2Rte::GetSerializedSize`. -/
def Ripv2Rte.GetSerializedSize (_r : Ripv2Rte) : Nat := 20

/-- The method `Ripv2Rte::Serialize`. -/
def Ripv2Rte.Serialize (r : Ripv2Rte) (i : BufferIterator) : BufferIterator :=
  let i := i.WriteHtonU16 r.m_AFI
  let i := i.WriteHtonU16 r.m_tag
  let i := i.WriteHtonU32 r.m_IpAddress
  let i := i.WriteHtonU32 r.m_SubnetMask
  let i := i.WriteHtonU32 r.m_NextHop
  i.WriteHtonU32 r.m_metric

/-- The method `Ripv2Rte::Deserialize`: the entry read and the size returned. -/
def Ripv2Rte.Deserialize (r : Ripv2Rte) (i : BufferIterator) : Ripv2Rte × Nat :=
  let a := i.ReadNtohU16
  let t := a.2.ReadNtohU16
  let ip := t.2.ReadNtohU32
  let mk := ip.2.ReadNtohU32
  let nh := mk.2.ReadNtohU32
  let me := nh.2.ReadNtohU32
  let r' : Ripv2Rte :=
    { m_AFI := a.1, m_tag := t.1, m_IpAddress := ip.1, m_SubnetMask := mk.1,
      m_NextHop := nh.1, m_metric := me.1 }
  (r', r.GetSerializedSize)

/-- The value `Ripv2Header::REQUEST`. -/
def REQUEST : Nat := 1

/-- The value `Ripv2Header::RESPONSE`. -/
def RESPONSE : Nat := 2

/-- The class `Ripv2Header`; the constructor sets the command to 0 and the
list is empty. -/
structure Ripv2Header where
  m_command : Nat := 0
  m_rteList : List Ripv2Rte := []
deriving DecidableEq, Repr

/-- The method `Ripv2Header::GetSerializedSize`, a `uint32_t`. -/
def Ripv2Header.GetSerializedSize (h : Ripv2Header) : Nat :=
  (4 + h.m_rteList.length * (({} : Ripv2Rte).GetSerializedSize)) % 2 ^ 32

/-- The method `Ripv2Header::Serialize`.  Each entry is written through a
copy of the iterator, after which the iterator of the header moves on by the
size of the entry. -/
def Ripv2Header.Serialize (h : Ripv2Header) (start : BufferIterator) : BufferIterator :=
  let i := start
  let i := i.WriteU8 (h.m_command % 256)
  let i := i.WriteU8 2
  let i := i.WriteU16 0
  h.m_rteList.foldl
    (fun i rte =>
      let written := rte.Serialize i
      ({ data := written.data, cur := i.cur } : BufferIterator).Next rte.GetSerializedSize)
    i

/-- How a call can end other than by returning. -/
inductive Abort where
  | assertFailed
  | abortMsg
  | nullPointer
deriving DecidableEq, Repr

/-- The loop of `Ripv2Header::Deserialize` over `n < rteNumber`. -/
def Ripv2Header.readRtes : Nat → BufferIterator → List Ripv2Rte → List Ripv2Rte
  | 0, _, acc => acc
  | n + 1, i, acc =>
    let rte : Ripv2Rte := {}
    let res := rte.Deserialize i
    Ripv2Header.readRtes n (i.Next res.2) (acc ++ [res.1])

/-- The method `Ripv2Header::Deserialize`: the header after the call and the
value returned; `NS_ASSERT_MSG` ends the call when its condition fails. -/
def Ripv2Header.Deserialize (h : Ripv2Header) (start : BufferIterator) :
    Except Abort (Ripv2Header × Nat) :=
  let i := start
  let c := i.ReadU8
  if c.1 = REQUEST ∨ c.1 = RESPONSE then
    let h := { h with m_command := c.1 }
    let v := c.2.ReadU8
    if v.1 ≠ 2 then .error .assertFailed
    else
      let z := v.2.ReadU16
      if z.1 ≠ 0 then .error .assertFailed
      else
        let i := z.2
        let rteNumber := ((i.GetSize + 2 ^ 32 - 4) % 2 ^ 32 / 20) % 256
        let h := { h with m_rteList := Ripv2Header.readRtes rteNumber i h.m_rteList }
        .ok (h, h.GetSerializedSize)
  else .ok (h, 0)

/-- Modelled from the spec: `Packet::AddHeader` of the ns-3 network module
(not under `src/`) on an empty packet: room for `GetSerializedSize` bytes is
made and the header serialises itself from the first byte. -/
def AddHeader (h : Ripv2Header) : List Nat :=
  (h.Serialize { data := List.replicate h.GetSerializedSize 0, cur := 0 }).data

/-- Modelled from the spec: `Packet::RemoveHeader` of the ns-3 network
module (not under `src/`): the header deserialises itself from the first
byte of the buffer. -/
def RemoveHeader (h : Ripv2Header) (bytes : List Nat) : Except Abort (Ripv2Header × Nat) :=
  h.Deserialize { data := bytes, cur := 0 }

/-- The bytes of one RTE as the wire format of spec section 6 lays them out:
AFI, route tag, address, mask, next hop, metric, each big-endian. -/
def wireRte (r : Ripv2Rte) : List Nat :=
  [r.m_AFI / 256 % 256, r.m_AFI % 256,
   r.m_tag / 256 % 256, r.m_tag % 256,
   r.m_IpAddress / 16777216 % 256, r.m_IpAddress / 65536 % 256,
   r.m_IpAddress / 256 % 256, r.m_IpAddress % 256,
   r.m_SubnetMask / 16777216 % 256, r.m_SubnetMask / 65536 % 256,
   r.m_SubnetMask / 256 % 256, r.m_SubnetMask % 256,
   r.m_NextHop / 16777216 % 256, r.m_NextHop / 65536 % 256,
   r.m_NextHop / 256 % 256, r.m_NextHop % 256,
   r.m_metric / 16777216 % 256, r.m_metric / 65536 % 256,
   r.m_metric / 256 % 256, r.m_metric % 256]

/-- The bytes of a message as the wire format of spec section 6 lays them
out: command, version 2, two zero bytes, then the RTEs in list order. -/
def wireMessage (c : Nat) (rtes : List Ripv2Rte) : List Nat :=
  [c, 2, 0, 0] ++ (rtes.map wireRte).flatten


/-- Bytes written one after the other through `WriteU8`. -/
def writeBytes (i : BufferIterator) (bs : List Nat) : BufferIterator :=
  bs.foldl (fun i b => i.WriteU8 b) i

/-! ## Addresses and masks -/

/-- Modelled from the spec: `Ipv4Address::CombineMask` of the ns-3 network
module (not under `src/`), the prefix `addr & mask` of spec 4.3. -/
def CombineMask (a mask : Nat) : Nat := a &&& mask

/-- Modelled from the spec: `Ipv4Address::IsMulticast`, the class D range
224.0.0.0 to 239.255.255.255. -/
def IsMulticast (a : Nat) : Bool := decide (0xe0000000 ≤ a) && decide (a ≤ 0xefffffff)

/-- Modelled from the spec: `Ipv4Address::IsLocalMulticast`, the link-local
multicast range 224.0.0.0/24. -/
def IsLocalMulticast (a : Nat) : Bool := (a &&& 0xffffff00) == 0xe0000000

/-- Modelled from the spec: `Ipv4Address::GetLoopback`, 127.0.0.1. -/
def GetLoopback : Nat := 0x7f000001

/-- Modelled from the spec: `Ipv4Mask::IsMatch (a, b)`: both addresses have
the same bits under the mask. -/
def IsMatch (mask a b : Nat) : Bool := (a &&& mask) == (b &&& mask)

/-- The loop of `Ipv4Mask::GetPrefixLength`: the 32-bit mask is shifted left
until it is zero; `fuel` bounds the number of turns. -/
def GetPrefixLength.loop : Nat → Nat → Nat → Nat
  | 0, _, tmp => tmp
  | fuel + 1, mask, tmp =>
    if mask = 0 then tmp else GetPrefixLength.loop fuel (mask * 2 % 2 ^ 32) ((tmp + 1) % 2 ^ 16)

/-- Modelled from the spec: `Ipv4Mask::GetPrefixLength` of the ns-3 network
module (not under `src/`): the number of left shifts that empty the mask,
which for a contiguous mask is its number of leading ones.  A 32-bit value is
empty after at most 32 shifts. -/
def GetPrefixLength (mask : Nat) : Nat := GetPrefixLength.loop 32 mask 0

/-- The scope of an interface address (`InterfaceAddressScope_e`). -/
inductive InterfaceAddressScope_e where
  | HOST
  | LINK
  | GLOBAL
deriving DecidableEq, Repr

/-- Modelled from the spec: the class `Ipv4InterfaceAddress` as far as the
agent reads it. -/
structure Ipv4InterfaceAddress where
  m_local : Nat
  m_mask : Nat
  m_scope : InterfaceAddressScope_e := .GLOBAL
deriving DecidableEq, Repr

/-- Modelled from the spec: what the agent reads from the objects around it
(`m_ipv4`, the node, the address classes), none of which is under `src/`.
`GetAddresses i` lists `GetAddress (i, 0)`, `GetAddress (i, 1)`, and so on;
`GetInterfaceForDevice` and `GetInterfaceForAddress` are -1 when there is
none; `PrefixScope` is the scope of `Ipv4InterfaceAddress (network, mask)`. -/
structure Ipv4 where
  GetNInterfaces : Nat
  GetAddresses : Nat → List Ipv4InterfaceAddress
  IsUp : Nat → Bool
  IsForwarding : Nat → Bool
  GetNetDevice : Nat → Nat
  GetInterfaceForDevice : Nat → Int
  GetInterfaceForAddress : Nat → Int
  SelectSourceAddress : Nat → Nat → InterfaceAddressScope_e → Nat
  PrefixScope : Nat → Nat → InterfaceAddressScope_e

/-! ## Simulator events -/

/-- The member function an event runs, with its bound arguments; a route is
bound by the address of its object. -/
inductive EventImpl where
  | InvalidateRoute (route : Nat)
  | DeleteRoute (route : Nat)
  | DoSendRouteUpdate (periodic : Bool)
  | SendUnsolicitedRouteUpdate
  | SendRouteRequest
deriving DecidableEq, Repr

/-- An event waiting in the queue of the simulator. -/
structure Event where
  uid : Nat
  ts : Nat
  impl : EventImpl
  cancelled : Bool := false
deriving DecidableEq, Repr

/-- Modelled from the spec: the handle `EventId` (spec 5: arming a timer
returns a handle): the uid and the time of its event.  `EventId ()` refers
to no event. -/
structure EventId where
  m_uid : Option Nat := none
  m_ts : Nat := 0
deriving DecidableEq, Repr

/-- Modelled from the spec: the discrete-event simulator of the ns-3 core
module (not under `src/`): the current time in ticks, the uid of the next
event, and the events scheduled and not run yet. -/
structure Simulator where
  now : Nat := 0
  uid : Nat := 1
  events : List Event := []
deriving DecidableEq, Repr

namespace Simulator

/-- Modelled from the spec: `Simulator::Schedule (delay, ...)`: the event is
queued for `now + delay` and its handle returned. -/
def Schedule (sim : Simulator) (delay : Nat) (impl : EventImpl) : EventId × Simulator :=
  ({ m_uid := some sim.uid, m_ts := sim.now + delay },
   { sim with
     uid := sim.uid + 1
     events := sim.events ++ [{ uid := sim.uid, ts := sim.now + delay, impl := impl }] })

/-- Modelled from the spec: `EventId::IsExpired`: the handle is empty, or its
event has run, or it was cancelled. -/
def IsExpired (sim : Simulator) (id : EventId) : Bool :=
  match id.m_uid with
  | none => true
  | some uid => !(sim.events.any (fun e => e.uid == uid && !e.cancelled))

/-- Modelled from the spec: `EventId::IsRunning`. -/
def IsRunning (sim : Simulator) (id : EventId) : Bool := !(sim.IsExpired id)

/-- Modelled from the spec: `EventId::Cancel` (spec 5: cancellation is
idempotent on handles that fired or were cancelled). -/
def Cancel (sim : Simulator) (id : EventId) : Simulator :=
  match id.m_uid with
  | none => sim
  | some uid =>
    { sim with
      events := sim.events.map
        (fun e => if e.uid = uid then { e with cancelled := true } else e) }

/-- Modelled from the spec: `Simulator::GetDelayLeft`: zero for an expired
handle, else the time until it fires. -/
def GetDelayLeft (sim : Simulator) (id : EventId) : Nat :=
  if sim.IsExpired id then 0 else id.m_ts - sim.now

end Simulator

/-- Modelled from the spec: `Seconds (n)` in ticks of the default resolution
of the simulator, one nanosecond. -/
def Seconds (n : Nat) : Nat := n * 1000000000

/-! ## Routing table entries (`ripv2.cc`, `Ripv2RoutingTableEntry`) -/

/-- The status of a route (`Ripv2RoutingTableEntry::Status_e`). -/
inductive Status_e where
  | RIPV2_VALID
  | RIPV2_INVALID
deriving DecidableEq, Repr

/-- The class `Ripv2RoutingTableEntry` with the fields of its base
`Ipv4RoutingTableEntry` that the agent reads (destination, mask, gateway,
interface).  `addr` is the address of the object: the table holds pointers,
and events find their route by it. -/
structure Ripv2RoutingTableEntry where
  addr : Nat
  m_dest : Nat
  m_destNetworkMask : Nat
  m_gateway : Nat
  m_interface : Nat
  m_tag : Nat := 0
  m_metric : Nat := 16
  m_status : Status_e := .RIPV2_INVALID
  m_changed : Bool := false
deriving DecidableEq, Repr

namespace Ripv2RoutingTableEntry

/-- The constructor `Ripv2RoutingTableEntry (network, networkMask, nextHop,
interface)`, the object being allocated at `addr`. -/
def new4 (addr network networkMask nextHop interface : Nat) : Ripv2RoutingTableEntry :=
  { addr := addr, m_dest := network, m_destNetworkMask := networkMask, m_gateway := nextHop,
    m_interface := interface }

/-- The constructor `Ripv2RoutingTableEntry (network, networkMask,
interface)`: the gateway is 0.0.0.0. -/
def new3 (addr network networkMask interface : Nat) : Ripv2RoutingTableEntry :=
  { addr := addr, m_dest := network, m_destNetworkMask := networkMask, m_gateway := 0,
    m_interface := interface }

/-- The method `SetRouteTag`. -/
def SetRouteTag (e : Ripv2RoutingTableEntry) (routeTag : Nat) : Ripv2RoutingTableEntry :=
  if e.m_tag ≠ routeTag then { e with m_tag := routeTag, m_changed := true } else e

/-- The method `SetRouteMetric`. -/
def SetRouteMetric (e : Ripv2RoutingTableEntry) (routeMetric : Nat) : Ripv2RoutingTableEntry :=
  if e.m_metric ≠ routeMetric then { e with m_metric := routeMetric, m_changed := true } else e

/-- The method `SetRouteStatus`. -/
def SetRouteStatus (e : Ripv2RoutingTableEntry) (status : Status_e) : Ripv2RoutingTableEntry :=
  if e.m_status ≠ status then { e with m_status := status, m_changed := true } else e

/-- The method `SetRouteChanged`. -/
def SetRouteChanged (e : Ripv2RoutingTableEntry) (changed : Bool) : Ripv2RoutingTableEntry :=
  { e with m_changed := changed }

end Ripv2RoutingTableEntry

/-! ## The agent (`ripv2.cc`, `Ripv2`) -/

/-- The split horizon strategies (`Ripv2::SplitHorizonType_e`). -/
inductive SplitHorizonType_e where
  | NO_SPLIT_HORIZON
  | SPLIT_HORIZON
  | POISON_REVERSE
deriving DecidableEq, Repr

/-- A packet handed to `Socket::SendTo`: the socket, the header the packet
carries, the destination address and port. -/
structure SentPacket where
  socket : Nat
  hdr : Ripv2Header
  toAddress : Nat
  toPort : Nat
deriving DecidableEq, Repr

/-- The route `Ripv2::Lookup` returns (`Ipv4Route`). -/
structure Ipv4Route where
  m_source : Nat
  m_dest : Nat
  m_gateway : Nat
  m_outputDevice : Nat
deriving DecidableEq, Repr

/-- One cell of `m_routes`: the route and the handle of its timer. -/
abbrev RouteCell := Ripv2RoutingTableEntry × EventId

/-- The state of the agent (class `Ripv2`) and of what it acts on: the
simulator, the address `heap` of the next object `new` returns, the packets
`sent` so far, and the number of calls of `SendTriggeredRouteUpdate`.
`hasIpv4` tells that `m_ipv4` is not null; the object it points to is the
argument `ipv4` of the methods that read it. -/
structure Ripv2 where
  m_routes : List RouteCell := []
  m_sendSocketList : List (Nat × Nat) := []
  m_recvSocket : Option Nat := none
  m_interfaceExclusions : List Nat := []
  m_interfaceMetrics : List (Nat × Nat) := []
  m_splitHorizonStrategy : SplitHorizonType_e := .POISON_REVERSE
  m_unsolicitedUpdate : Nat := Seconds 30
  m_startupDelay : Nat := Seconds 1
  m_timeoutDelay : Nat := Seconds 180
  m_garbageCollectionDelay : Nat := Seconds 120
  m_minTriggeredUpdateDelay : Nat := Seconds 1
  m_maxTriggeredUpdateDelay : Nat := Seconds 5
  m_nextTriggeredUpdate : EventId := {}
  m_nextUnsolicitedUpdate : EventId := {}
  m_initialized : Bool := false
  hasIpv4 : Bool := false
  sim : Simulator := {}
  heap : Nat := 1
  sent : List SentPacket := []
  triggeredUpdateCalls : Nat := 0
deriving DecidableEq, Repr

namespace Ripv2

/-- The method `Ripv2::SendTriggeredRouteUpdate`; `delay` is the value the
random stream returns when it is asked for one. -/
def SendTriggeredRouteUpdate (s : Ripv2) (delay : Nat) : Ripv2 :=
  let s := { s with triggeredUpdateCalls := s.triggeredUpdateCalls + 1 }
  if s.sim.IsRunning s.m_nextTriggeredUpdate then s
  else
    let r := s.sim.Schedule delay (.DoSendRouteUpdate false)
    { s with m_nextTriggeredUpdate := r.1, sim := r.2 }

/-- The method `Ripv2::AddNetworkRouteTo (network, networkMask, nextHop,
interface)`. -/
def AddNetworkRouteTo4 (s : Ripv2) (network networkMask nextHop interface : Nat) : Ripv2 :=
  let route := Ripv2RoutingTableEntry.new4 s.heap network networkMask nextHop interface
  let route := route.SetRouteMetric 1
  let route := route.SetRouteStatus .RIPV2_VALID
  let route := route.SetRouteChanged true
  { s with m_routes := s.m_routes ++ [(route, {})], heap := s.heap + 1 }

/-- The method `Ripv2::AddNetworkRouteTo (network, networkMask, interface)`. -/
def AddNetworkRouteTo3 (s : Ripv2) (network networkMask interface : Nat) : Ripv2 :=
  let route := Ripv2RoutingTableEntry.new3 s.heap network networkMask interface
  let route := route.SetRouteMetric 1
  let route := route.SetRouteStatus .RIPV2_VALID
  let route := route.SetRouteChanged true
  { s with m_routes := s.m_routes ++ [(route, {})], heap := s.heap + 1 }

/-- The method `Ripv2::AddDefaultRouteTo`. -/
def AddDefaultRouteTo (s : Ripv2) (nextHop interface : Nat) : Ripv2 :=
  s.AddNetworkRouteTo4 0 0 nextHop interface

/-- The body of `Ripv2::InvalidateRoute` on the cell it found. -/
def InvalidateRoute.onCell (garbageCollectionDelay : Nat) (sim : Simulator) (cell : RouteCell) :
    RouteCell × Simulator :=
  let route := cell.1.SetRouteStatus .RIPV2_INVALID
  let route := route.SetRouteMetric 16
  let route := route.SetRouteChanged true
  let sim := if sim.IsRunning cell.2 then sim.Cancel cell.2 else sim
  let r := sim.Schedule garbageCollectionDelay (.DeleteRoute route.addr)
  ((route, r.1), r.2)

/-- The loop of `Ripv2::InvalidateRoute`: the first cell that holds the
object `route`, if there is one. -/
def InvalidateRoute.loop (garbageCollectionDelay : Nat) (route : Nat) :
    List RouteCell → Simulator → Option (List RouteCell × Simulator)
  | [], _ => none
  | cell :: rest, sim =>
    if cell.1.addr = route then
      let r := InvalidateRoute.onCell garbageCollectionDelay sim cell
      some (r.1 :: rest, r.2)
    else
      match InvalidateRoute.loop garbageCollectionDelay route rest sim with
      | none => none
      | some r => some (cell :: r.1, r.2)

/-- The method `Ripv2::InvalidateRoute`; `NS_ABORT_MSG` when no cell holds
the route. -/
def InvalidateRoute (s : Ripv2) (route : Nat) : Except Abort Ripv2 :=
  match InvalidateRoute.loop s.m_garbageCollectionDelay route s.m_routes s.sim with
  | none => .error .abortMsg
  | some r => .ok { s with m_routes := r.1, sim := r.2 }

/-- The loop of `Ripv2::DeleteRoute`: the list without the first cell that
holds the object `route`, if there is one. -/
def DeleteRoute.loop (route : Nat) : List RouteCell → Option (List RouteCell)
  | [] => none
  | cell :: rest =>
    if cell.1.addr = route then some rest
    else
      match DeleteRoute.loop route rest with
      | none => none
      | some r => some (cell :: r)

/-- The method `Ripv2::DeleteRoute`; `NS_ABORT_MSG` when no cell holds the
route. -/
def DeleteRoute (s : Ripv2) (route : Nat) : Except Abort Ripv2 :=
  match DeleteRoute.loop route s.m_routes with
  | none => .error .abortMsg
  | some r => .ok { s with m_routes := r }

/-- One turn of the loop of `Ripv2::Lookup` over `m_routes`; the state is
`rtentry` and `longestMask`. -/
def Lookup.onRoute (ipv4 : Ipv4) (dst : Nat) (interface : Option Nat)
    (st : Option Ipv4Route × Nat) (cell : RouteCell) : Option Ipv4Route × Nat :=
  let j := cell.1
  if j.m_status = .RIPV2_VALID then
    let mask := j.m_destNetworkMask
    let maskLen := GetPrefixLength mask
    let entry := j.m_dest
    if IsMatch mask dst entry then
      if interface = none ∨ interface = some (ipv4.GetNetDevice j.m_interface) then
        if maskLen < st.2 then st
        else
          let interfaceIdx := j.m_interface
          let src :=
            if j.m_gateway = 0 then
              ipv4.SelectSourceAddress (ipv4.GetNetDevice interfaceIdx) j.m_dest .GLOBAL
            else if j.m_dest = 0 then
              ipv4.SelectSourceAddress (ipv4.GetNetDevice interfaceIdx) dst .GLOBAL
            else
              ipv4.SelectSourceAddress (ipv4.GetNetDevice interfaceIdx) j.m_dest .GLOBAL
          (some { m_source := src, m_dest := j.m_dest, m_gateway := j.m_gateway,
                  m_outputDevice := ipv4.GetNetDevice interfaceIdx }, maskLen)
      else st
    else st
  else st

/-- The method `Ripv2::Lookup (dst, interface)`; `interface` is `none` for a
null device pointer, and `NS_ASSERT_MSG` ends the call for a link-local
multicast destination without one. -/
def Lookup (s : Ripv2) (ipv4 : Ipv4) (dst : Nat) (interface : Option Nat) :
    Except Abort (Option Ipv4Route) :=
  if IsLocalMulticast dst then
    match interface with
    | none => .error .assertFailed
    | some dev =>
      .ok (some { m_source := ipv4.SelectSourceAddress dev dst .GLOBAL, m_dest := dst,
                  m_gateway := 0, m_outputDevice := dev })
  else
    .ok (s.m_routes.foldl (Lookup.onRoute ipv4 dst interface) (none, 0)).1

/-- The validation loop of `Ripv2::HandleResponses`: `false` when the loop
returns from the function at some RTE. -/
def HandleResponses.validate : List Ripv2Rte → Bool
  | [] => true
  | rte :: rest =>
    if rte.m_metric = 0 ∨ rte.m_metric > 16 then false
    else if GetPrefixLength rte.m_SubnetMask > 32 then false
    else if rte.m_IpAddress = GetLoopback ∨ IsMulticast rte.m_IpAddress = true then false
    else HandleResponses.validate rest

/-- The variables the loop over `m_routes` in `Ripv2::HandleResponses`
updates besides the cells. -/
structure HandleResponses.Vars where
  sim : Simulator
  heap : Nat
  found : Bool
  changed : Bool
deriving DecidableEq, Repr

/-- One turn of the loop over `m_routes` in `Ripv2::HandleResponses`.  The
call `InvalidateRoute (it->first)` stops at the cell of `it`, the one cell
that holds this object. -/
def HandleResponses.onRoute (timeoutDelay garbageCollectionDelay : Nat)
    (senderAddress incomingInterface : Nat) (rteAddr rteMask rteMetric rteTag : Nat)
    (cell : RouteCell) (v : HandleResponses.Vars) : RouteCell × HandleResponses.Vars :=
  if cell.1.m_dest = rteAddr ∧ cell.1.m_destNetworkMask = rteMask then
    let v := { v with found := true }
    if rteMetric < cell.1.m_metric then
      let first :=
        if senderAddress ≠ cell.1.m_gateway then
          Ripv2RoutingTableEntry.new4 v.heap rteAddr rteMask senderAddress incomingInterface
        else cell.1
      let heap := if senderAddress ≠ cell.1.m_gateway then v.heap + 1 else v.heap
      let first := first.SetRouteMetric rteMetric
      let first := first.SetRouteStatus .RIPV2_VALID
      let first := first.SetRouteTag rteTag
      let first := first.SetRouteChanged true
      let sim := v.sim.Cancel cell.2
      let r := sim.Schedule timeoutDelay (.InvalidateRoute first.addr)
      ((first, r.1), { v with sim := r.2, heap := heap, changed := true })
    else if rteMetric = cell.1.m_metric then
      if senderAddress = cell.1.m_gateway then
        let sim := v.sim.Cancel cell.2
        let r := sim.Schedule timeoutDelay (.InvalidateRoute cell.1.addr)
        ((cell.1, r.1), { v with sim := r.2 })
      else if v.sim.GetDelayLeft cell.2 < timeoutDelay / 2 then
        let route :=
          Ripv2RoutingTableEntry.new4 v.heap rteAddr rteMask senderAddress incomingInterface
        let route := route.SetRouteMetric rteMetric
        let route := route.SetRouteStatus .RIPV2_VALID
        let route := route.SetRouteTag rteTag
        let route := route.SetRouteChanged true
        let sim := v.sim.Cancel cell.2
        let r := sim.Schedule timeoutDelay (.InvalidateRoute route.addr)
        ((route, r.1), { v with sim := r.2, heap := v.heap + 1, changed := true })
      else (cell, v)
    else if rteMetric > cell.1.m_metric ∧ senderAddress = cell.1.m_gateway then
      let sim := v.sim.Cancel cell.2
      if rteMetric < 16 then
        let first := cell.1.SetRouteMetric rteMetric
        let first := first.SetRouteStatus .RIPV2_VALID
        let first := first.SetRouteTag rteTag
        let first := first.SetRouteChanged true
        let sim := sim.Cancel cell.2
        let r := sim.Schedule timeoutDelay (.InvalidateRoute first.addr)
        ((first, r.1), { v with sim := r.2, changed := true })
      else
        let r := InvalidateRoute.onCell garbageCollectionDelay sim cell
        (r.1, { v with sim := r.2, changed := true })
    else (cell, v)
  else (cell, v)

/-- The loop over `m_routes` in `Ripv2::HandleResponses`, for one RTE. -/
def HandleResponses.routesLoop (timeoutDelay garbageCollectionDelay : Nat)
    (senderAddress incomingInterface : Nat) (rteAddr rteMask rteMetric rteTag : Nat) :
    List RouteCell → HandleResponses.Vars → List RouteCell × HandleResponses.Vars
  | [], v => ([], v)
  | cell :: rest, v =>
    let r := HandleResponses.onRoute timeoutDelay garbageCollectionDelay senderAddress
      incomingInterface rteAddr rteMask rteMetric rteTag cell v
    let r' := HandleResponses.routesLoop timeoutDelay garbageCollectionDelay senderAddress
      incomingInterface rteAddr rteMask rteMetric rteTag rest r.2
    (r.1 :: r'.1, r'.2)

/-- The metric `interfaceMetric` of `Ripv2::HandleResponses`: the value
stored for the interface in `m_interfaceMetrics`, 1 when there is none. -/
def HandleResponses.interfaceMetric (s : Ripv2) (incomingInterface : Nat) : Nat :=
  match s.m_interfaceMetrics.lookup incomingInterface with
  | some m => m
  | none => 1

/-- The metric `rteMetric` of `Ripv2::HandleResponses`, a 32-bit sum capped
at 16. -/
def HandleResponses.rteMetric (s : Ripv2) (incomingInterface : Nat) (rte : Ripv2Rte) : Nat :=
  min ((rte.m_metric + HandleResponses.interfaceMetric s incomingInterface) % 2 ^ 32) 16

/-- One turn of the loop over the RTEs in `Ripv2::HandleResponses`; the
boolean is the local variable `changed`. -/
def HandleResponses.onRte (senderAddress incomingInterface : Nat) (st : Ripv2 × Bool)
    (rte : Ripv2Rte) : Ripv2 × Bool :=
  let s := st.1
  let rteMask := rte.m_SubnetMask
  let rteAddr := CombineMask rte.m_IpAddress rteMask
  let rteMetric := HandleResponses.rteMetric s incomingInterface rte
  let r := HandleResponses.routesLoop s.m_timeoutDelay s.m_garbageCollectionDelay
    senderAddress incomingInterface rteAddr rteMask rteMetric rte.m_tag s.m_routes
    { sim := s.sim, heap := s.heap, found := false, changed := st.2 }
  if r.2.found = false ∧ rteMetric ≠ 16 then
    let route :=
      Ripv2RoutingTableEntry.new4 r.2.heap rteAddr rteMask senderAddress incomingInterface
    let route := route.SetRouteMetric rteMetric
    let route := route.SetRouteStatus .RIPV2_VALID
    let route := route.SetRouteChanged true
    let e := r.2.sim.Schedule s.m_timeoutDelay (.InvalidateRoute route.addr)
    ({ s with m_routes := (route, e.1) :: r.1, sim := e.2, heap := r.2.heap + 1 }, true)
  else
    ({ s with m_routes := r.1, sim := r.2.sim, heap := r.2.heap }, r.2.changed)

/-- The method `Ripv2::HandleResponses`; `delay` is the value the random
stream returns if `SendTriggeredRouteUpdate` asks for one. -/
def HandleResponses (s : Ripv2) (hdr : Ripv2Header) (senderAddress incomingInterface ttl : Nat)
    (delay : Nat) : Ripv2 :=
  if incomingInterface ∈ s.m_interfaceExclusions then s
  else if ttl ≠ 255 then s
  else
    let rtes := hdr.m_rteList
    if HandleResponses.validate rtes = false then s
    else
      let r := rtes.foldl (HandleResponses.onRte senderAddress incomingInterface) (s, false)
      if r.2 then r.1.SendTriggeredRouteUpdate delay else r.1

end Ripv2

/-- The address `RIPV2_ALL_NODE`, 224.0.0.9. -/
def RIPV2_ALL_NODE : Nat := 0xe0000009

/-- The port `RIPV2_PORT`. -/
def RIPV2_PORT : Nat := 520

/-- The method `Ripv2Header::AddRte`. -/
def Ripv2Header.AddRte (h : Ripv2Header) (rte : Ripv2Rte) : Ripv2Header :=
  { h with m_rteList := h.m_rteList ++ [rte] }

/-- The method `Ripv2Header::ClearRtes`. -/
def Ripv2Header.ClearRtes (h : Ripv2Header) : Ripv2Header :=
  { h with m_rteList := [] }

/-- The method `Ripv2Header::GetRteNumber`, a `uint16_t`. -/
def Ripv2Header.GetRteNumber (h : Ripv2Header) : Nat := h.m_rteList.length % 2 ^ 16

/-- A received packet: the tags the socket attached (`none` when the tag is
missing) and the bytes of the payload. -/
structure Packet where
  recvIf : Option Nat
  ttl : Option Nat
  sender : Option (Nat × Nat)
  bytes : List Nat
deriving DecidableEq, Repr

namespace Ripv2

/-- The socket `sendingSoket` the loops over `m_sendSocketList` in
`Ripv2::HandleRequests` leave: the last one bound to the interface. -/
def findSendingSocket (interface : Nat) : List (Nat × Nat) → Option Nat → Option Nat
  | [], found => found
  | sock :: rest, found =>
    findSendingSocket interface rest (if sock.2 = interface then some sock.1 else found)

/-- One turn of the loop over `m_routes` in `Ripv2::DoSendRouteUpdate` for
the socket `socket` of `interface`; the state is the header being filled and
the packets sent. -/
def DoSendRouteUpdate.onRoute (strategy : SplitHorizonType_e) (ipv4 : Ipv4) (periodic : Bool)
    (socket interface : Nat) (st : Ripv2Header × List SentPacket) (cell : RouteCell) :
    Ripv2Header × List SentPacket :=
  let rt := cell.1
  let hdr := st.1
  let splitHorizoning := decide (rt.m_interface = interface)
  let isGlobal := decide (ipv4.PrefixScope rt.m_dest rt.m_destNetworkMask = .GLOBAL)
  let isDefaultRoute :=
    decide (rt.m_dest = 0) && decide (rt.m_destNetworkMask = 0) &&
      decide (rt.m_interface ≠ interface)
  let hdr :=
    if (isGlobal || isDefaultRoute) && (periodic || rt.m_changed) then
      let rte : Ripv2Rte := {}
      let rte := { rte with m_IpAddress := rt.m_dest }
      let rte := { rte with m_SubnetMask := rt.m_destNetworkMask }
      let rte :=
        if strategy = .POISON_REVERSE ∧ splitHorizoning = true then { rte with m_metric := 16 }
        else { rte with m_metric := rt.m_metric }
      let rte := { rte with m_tag := rt.m_tag }
      if strategy = .SPLIT_HORIZON ∧ splitHorizoning = false then hdr.AddRte rte
      else if strategy ≠ .SPLIT_HORIZON then hdr.AddRte rte
      else hdr
    else hdr
  if hdr.GetRteNumber = 25 then
    (hdr.ClearRtes,
      st.2 ++ [{ socket := socket, hdr := hdr, toAddress := RIPV2_ALL_NODE, toPort := RIPV2_PORT }])
  else (hdr, st.2)

/-- One turn of the loop over `m_sendSocketList` in
`Ripv2::DoSendRouteUpdate`: the packets sent through one socket. -/
def DoSendRouteUpdate.onSocket (s : Ripv2) (ipv4 : Ipv4) (periodic : Bool)
    (sent : List SentPacket) (sock : Nat × Nat) : List SentPacket :=
  let interface := sock.2
  if interface ∉ s.m_interfaceExclusions then
    let hdr : Ripv2Header := {}
    let hdr := { hdr with m_command := RESPONSE }
    let r := s.m_routes.foldl
      (DoSendRouteUpdate.onRoute s.m_splitHorizonStrategy ipv4 periodic sock.1 interface)
      (hdr, sent)
    if r.1.GetRteNumber > 0 then
      r.2 ++ [{ socket := sock.1, hdr := r.1, toAddress := RIPV2_ALL_NODE,
                toPort := RIPV2_PORT }]
    else r.2
  else sent

/-- The method `Ripv2::DoSendRouteUpdate`. -/
def DoSendRouteUpdate (s : Ripv2) (ipv4 : Ipv4) (periodic : Bool) : Ripv2 :=
  let sent := s.m_sendSocketList.foldl (DoSendRouteUpdate.onSocket s ipv4 periodic) s.sent
  { s with
    sent := sent
    m_routes := s.m_routes.map (fun cell => (cell.1.SetRouteChanged false, cell.2)) }

/-- The method `Ripv2::SendUnsolicitedRouteUpdate`; `delay` is the delay of
the next periodic update, as the random stream makes it. -/
def SendUnsolicitedRouteUpdate (s : Ripv2) (ipv4 : Ipv4) (delay : Nat) : Ripv2 :=
  let s :=
    if s.sim.IsRunning s.m_nextTriggeredUpdate then
      { s with sim := s.sim.Cancel s.m_nextTriggeredUpdate }
    else s
  let s := s.DoSendRouteUpdate ipv4 true
  let r := s.sim.Schedule delay .SendUnsolicitedRouteUpdate
  { s with m_nextUnsolicitedUpdate := r.1, sim := r.2 }

/-- The method `Ripv2::SendRouteRequest`. -/
def SendRouteRequest (s : Ripv2) : Ripv2 :=
  let hdr : Ripv2Header := {}
  let hdr := { hdr with m_command := REQUEST }
  let rte : Ripv2Rte := {}
  let rte := { rte with m_IpAddress := 0 }
  let rte := { rte with m_SubnetMask := 0 }
  let rte := { rte with m_metric := 16 }
  let hdr := hdr.AddRte rte
  let sent := s.m_sendSocketList.foldl
    (fun sent sock =>
      if sock.2 ∉ s.m_interfaceExclusions then
        sent ++ [{ socket := sock.1, hdr := hdr, toAddress := RIPV2_ALL_NODE,
                   toPort := RIPV2_PORT }]
      else sent)
    s.sent
  { s with sent := sent }

/-- One turn of the loop over `m_routes` in the whole-table branch of
`Ripv2::HandleRequests`. -/
def HandleRequests.onRoute (strategy : SplitHorizonType_e) (ipv4 : Ipv4)
    (socket incomingInterface senderAddress : Nat) (st : Ripv2Header × List SentPacket)
    (cell : RouteCell) : Ripv2Header × List SentPacket :=
  let rt := cell.1
  let hdr := st.1
  let splitHorizoning := decide (rt.m_interface = incomingInterface)
  let isGlobal := decide (ipv4.PrefixScope rt.m_dest rt.m_destNetworkMask = .GLOBAL)
  let isDefaultRoute :=
    decide (rt.m_dest = 0) && decide (rt.m_destNetworkMask = 0) &&
      decide (rt.m_interface ≠ incomingInterface)
  let hdr :=
    if (isGlobal || isDefaultRoute) && decide (rt.m_status = .RIPV2_VALID) then
      let rte : Ripv2Rte := {}
      let rte := { rte with m_IpAddress := rt.m_dest }
      let rte := { rte with m_SubnetMask := rt.m_destNetworkMask }
      let rte :=
        if strategy = .POISON_REVERSE ∧ splitHorizoning = true then { rte with m_metric := 16 }
        else { rte with m_metric := rt.m_metric }
      let rte := { rte with m_tag := rt.m_tag }
      if strategy ≠ .SPLIT_HORIZON ∨ (strategy = .SPLIT_HORIZON ∧ splitHorizoning = false) then
        hdr.AddRte rte
      else hdr
    else hdr
  if hdr.GetRteNumber = 25 then
    (hdr.ClearRtes,
      st.2 ++ [{ socket := socket, hdr := hdr, toAddress := senderAddress, toPort := RIPV2_PORT }])
  else (hdr, st.2)

/-- The search of `m_routes` for one requested RTE in the second branch of
`Ripv2::HandleRequests`: the RTE as it is added to the reply. -/
def HandleRequests.answer (rte : Ripv2Rte) : List RouteCell → Ripv2Rte
  | [] => { rte with m_metric := 16, m_tag := 0 }
  | cell :: rest =>
    if cell.1.m_status = .RIPV2_VALID ∧ rte.m_IpAddress = cell.1.m_dest ∧
        rte.m_SubnetMask = cell.1.m_destNetworkMask then
      { rte with m_metric := cell.1.m_metric, m_tag := cell.1.m_tag }
    else HandleRequests.answer rte rest

/-- The method `Ripv2::HandleRequests`.  The assertion on the sending socket
and the use of a null socket end the call. -/
def HandleRequests (s : Ripv2) (ipv4 : Ipv4) (requestHdr : Ripv2Header)
    (senderAddress senderPort incomingInterface ttl : Nat) : Except Abort Ripv2 :=
  let rtes := requestHdr.m_rteList
  match rtes with
  | [] => .ok s
  | first :: _ =>
    if rtes.length = 1 ∧ ttl = 255 then
      if first.m_IpAddress = 0 ∧ first.m_SubnetMask = 0 ∧ first.m_metric = 16 then
        if incomingInterface ∉ s.m_interfaceExclusions then
          match findSendingSocket incomingInterface s.m_sendSocketList none with
          | none => .error .assertFailed
          | some sendingSoket =>
            let hdr : Ripv2Header := {}
            let hdr := { hdr with m_command := RESPONSE }
            let r := s.m_routes.foldl
              (HandleRequests.onRoute s.m_splitHorizonStrategy ipv4 sendingSoket
                incomingInterface senderAddress)
              (hdr, s.sent)
            if r.1.GetRteNumber > 0 then
              .ok { s with
                    sent := r.2 ++ [{ socket := sendingSoket, hdr := r.1,
                                      toAddress := senderAddress, toPort := RIPV2_PORT }] }
            else .ok { s with sent := r.2 }
        else .ok s
      else .ok s
    else
      let sendingSoket :=
        if ttl = 255 then findSendingSocket incomingInterface s.m_sendSocketList none
        else s.m_recvSocket
      let hdr : Ripv2Header := {}
      let hdr := { hdr with m_command := RESPONSE }
      let hdr := rtes.foldl (fun hdr rte => hdr.AddRte (HandleRequests.answer rte s.m_routes)) hdr
      match sendingSoket with
      | none => .error .nullPointer
      | some sock =>
        .ok { s with
              sent := s.sent ++ [{ socket := sock, hdr := hdr, toAddress := senderAddress,
                                   toPort := senderPort }] }

/-- The method `Ripv2::Receive` on the packet the socket returns; `GetDevice`
is `Node::GetDevice`, and `delay` the value the random stream returns if it
is asked for one. -/
def Receive (s : Ripv2) (ipv4 : Ipv4) (GetDevice : Nat → Nat) (packet : Packet) (delay : Nat) :
    Except Abort Ripv2 :=
  match packet.recvIf with
  | none => .error .abortMsg
  | some incomingIf =>
    let dev := GetDevice incomingIf
    let ipInterfaceIndex := ((ipv4.GetInterfaceForDevice dev) % 2 ^ 32).toNat
    match packet.ttl with
    | none => .error .abortMsg
    | some ttl =>
      match packet.sender with
      | none => .error .abortMsg
      | some (senderAddress, senderPort) =>
        let interfaceForAddress := ipv4.GetInterfaceForAddress senderAddress
        if interfaceForAddress ≠ -1 then .ok s
        else
          match RemoveHeader {} packet.bytes with
          | .error e => .error e
          | .ok (hdr, _) =>
            if hdr.m_command = RESPONSE then
              .ok (s.HandleResponses hdr senderAddress ipInterfaceIndex ttl delay)
            else if hdr.m_command = REQUEST then
              s.HandleRequests ipv4 hdr senderAddress senderPort ipInterfaceIndex ttl
            else .ok s

end Ripv2

/-! ## Configuration and the interface observer (`ripv2.cc`) -/

/-- The assignment `m[key] = value` on a `std::map`, kept as a list of pairs
with one pair per key. -/
def mapAssign (key value : Nat) : List (Nat × Nat) → List (Nat × Nat)
  | [] => [(key, value)]
  | p :: rest => if p.1 = key then (key, value) :: rest else p :: mapAssign key value rest

/-- Modelled from the spec: `Ipv4Mask::GetOnes`, 255.255.255.255. -/
def GetOnes : Nat := 0xffffffff

/-- Modelled from the spec: `Ipv4RoutingTableEntry::IsNetwork` of the base
class (not under `src/`): the route is not a host route, its mask is not
255.255.255.255. -/
def Ripv2RoutingTableEntry.IsNetwork (e : Ripv2RoutingTableEntry) : Bool :=
  decide (e.m_destNetworkMask ≠ GetOnes)

namespace Ripv2

/-- The method `Ripv2::GetInterfaceMetric`. -/
def GetInterfaceMetric (s : Ripv2) (interface : Nat) : Nat :=
  match s.m_interfaceMetrics.lookup interface with
  | some m => m
  | none => 1

/-- The method `Ripv2::SetInterfaceMetric`. -/
def SetInterfaceMetric (s : Ripv2) (interface metric : Nat) : Ripv2 :=
  if metric < 16 then
    { s with m_interfaceMetrics := mapAssign interface metric s.m_interfaceMetrics }
  else s

/-- The method `Ripv2::SetInterfaceExclusions`. -/
def SetInterfaceExclusions (s : Ripv2) (exceptions : List Nat) : Ripv2 :=
  { s with m_interfaceExclusions := exceptions }

/-- The loops of `Ripv2::NotifyInterfaceDown` and `Ripv2::NotifyRemoveAddress`
over `m_routes`: `InvalidateRoute (it->first)` on every route that passes the
test of the loop, each call stopping at the cell of `it`. -/
def InvalidateRoute.each (test : Ripv2RoutingTableEntry → Bool) (garbageCollectionDelay : Nat) :
    List RouteCell → Simulator → List RouteCell × Simulator
  | [], sim => ([], sim)
  | cell :: rest, sim =>
    if test cell.1 then
      let r := InvalidateRoute.onCell garbageCollectionDelay sim cell
      let r' := InvalidateRoute.each test garbageCollectionDelay rest r.2
      (r.1 :: r'.1, r'.2)
    else
      let r' := InvalidateRoute.each test garbageCollectionDelay rest sim
      (cell :: r'.1, r'.2)

/-- The first loop of `Ripv2::NotifyInterfaceUp` over the addresses of the
interface. -/
def NotifyInterfaceUp.firstLoop (i : Nat) : List Ipv4InterfaceAddress → Ripv2 → Ripv2
  | [], s => s
  | address :: rest, s =>
    let networkMask := address.m_mask
    let networkAddress := CombineMask address.m_local networkMask
    let s :=
      if networkAddress ≠ 0 ∧ networkMask ≠ 0 then
        if networkMask = GetOnes then s.AddNetworkRouteTo3 networkAddress GetOnes 0
        else s.AddNetworkRouteTo3 networkAddress networkMask i
      else s
    NotifyInterfaceUp.firstLoop i rest s

/-- The second loop of `Ripv2::NotifyInterfaceUp` over the addresses of the
interface; a socket the loop creates is the next object of the heap. -/
def NotifyInterfaceUp.secondLoop (i : Nat) (sendSocketFound activeInterface : Bool)
    (delay : Nat) : List Ipv4InterfaceAddress → Ripv2 → Ripv2
  | [], s => s
  | address :: rest, s =>
    let networkAddress := CombineMask address.m_local address.m_mask
    let networkMask := address.m_mask
    let s := s.AddNetworkRouteTo3 networkAddress networkMask i
    let s :=
      if address.m_scope = .LINK ∧ sendSocketFound = false ∧ activeInterface = true then
        { s with m_sendSocketList := s.m_sendSocketList ++ [(s.heap, i)], heap := s.heap + 1 }
      else if address.m_scope = .GLOBAL then s.SendTriggeredRouteUpdate delay
      else s
    NotifyInterfaceUp.secondLoop i sendSocketFound activeInterface delay rest s

/-- The method `Ripv2::NotifyInterfaceUp`. -/
def NotifyInterfaceUp (s : Ripv2) (ipv4 : Ipv4) (i : Nat) (delay : Nat) : Ripv2 :=
  let s := NotifyInterfaceUp.firstLoop i (ipv4.GetAddresses i) s
  if s.m_initialized = false then s
  else
    let sendSocketFound := s.m_sendSocketList.any (fun sock => decide (sock.2 = i))
    let activeInterface := decide (i ∉ s.m_interfaceExclusions)
    let s := NotifyInterfaceUp.secondLoop i sendSocketFound activeInterface delay
      (ipv4.GetAddresses i) s
    match s.m_recvSocket with
    | none => { s with m_recvSocket := some s.heap, heap := s.heap + 1 }
    | some _ => s

/-- The loop of `Ripv2::NotifyInterfaceDown` over `m_sendSocketList`: the
first socket of the interface is closed and erased. -/
def NotifyInterfaceDown.eraseSocket (interface : Nat) : List (Nat × Nat) → List (Nat × Nat)
  | [] => []
  | sock :: rest =>
    if sock.2 = interface then rest else sock :: NotifyInterfaceDown.eraseSocket interface rest

/-- The method `Ripv2::NotifyInterfaceDown`. -/
def NotifyInterfaceDown (s : Ripv2) (interface : Nat) (delay : Nat) : Ripv2 :=
  let r := InvalidateRoute.each (fun e => decide (e.m_interface = interface))
    s.m_garbageCollectionDelay s.m_routes s.sim
  let s := { s with m_routes := r.1, sim := r.2 }
  let s := { s with
             m_sendSocketList := NotifyInterfaceDown.eraseSocket interface s.m_sendSocketList }
  if interface ∉ s.m_interfaceExclusions then s.SendTriggeredRouteUpdate delay else s

/-- The method `Ripv2::NotifyAddAddress`. -/
def NotifyAddAddress (s : Ripv2) (ipv4 : Ipv4) (interface : Nat)
    (address : Ipv4InterfaceAddress) (delay : Nat) : Ripv2 :=
  if ipv4.IsUp interface = false then s
  else if interface ∈ s.m_interfaceExclusions then s
  else
    let networkAddress := CombineMask address.m_local address.m_mask
    let networkMask := address.m_mask
    let s :=
      if address.m_local ≠ 0 ∧ address.m_mask ≠ 0 then
        s.AddNetworkRouteTo3 networkAddress networkMask interface
      else s
    s.SendTriggeredRouteUpdate delay

/-- The method `Ripv2::NotifyRemoveAddress`. -/
def NotifyRemoveAddress (s : Ripv2) (ipv4 : Ipv4) (interface : Nat)
    (address : Ipv4InterfaceAddress) (delay : Nat) : Ripv2 :=
  if ipv4.IsUp interface = false then s
  else
    let networkAddress := CombineMask address.m_local address.m_mask
    let networkMask := address.m_mask
    let r := InvalidateRoute.each
      (fun e => decide (e.m_interface = interface) && e.IsNetwork &&
        decide (e.m_dest = networkAddress) && decide (e.m_destNetworkMask = networkMask))
      s.m_garbageCollectionDelay s.m_routes s.sim
    let s := { s with m_routes := r.1, sim := r.2 }
    if interface ∉ s.m_interfaceExclusions then s.SendTriggeredRouteUpdate delay else s

/-- The loop of `Ripv2::SetIpv4` over the interfaces `i`, `i + 1`, and so on,
`n` of them. -/
def SetIpv4.loop (ipv4 : Ipv4) (delay : Nat) : Nat → Nat → Ripv2 → Ripv2
  | 0, _, s => s
  | n + 1, i, s =>
    let s :=
      if ipv4.IsUp i then s.NotifyInterfaceUp ipv4 i delay
      else s.NotifyInterfaceDown i delay
    SetIpv4.loop ipv4 delay n (i + 1) s

/-- The method `Ripv2::SetIpv4`; `NS_ASSERT` ends the call when `m_ipv4` is
set already. -/
def SetIpv4 (s : Ripv2) (ipv4 : Ipv4) (delay : Nat) : Except Abort Ripv2 :=
  if s.hasIpv4 then .error .assertFailed
  else
    let s := { s with hasIpv4 := true }
    .ok (SetIpv4.loop ipv4 delay ipv4.GetNInterfaces 0 s)

/-- The loop of `Ripv2::DoInitialize` over the addresses of interface `i`;
the state is the agent and the variable `addedGlobal`.  The socket bound is
the next object of the heap; `Bind` is taken to succeed. -/
def DoInitialize.addressLoop (i : Nat) (activeInterface : Bool) :
    List Ipv4InterfaceAddress → Ripv2 × Bool → Ripv2 × Bool
  | [], st => st
  | address :: rest, st =>
    let st :=
      if address.m_scope = .GLOBAL ∧ activeInterface = true then
        ({ st.1 with
           m_sendSocketList := st.1.m_sendSocketList ++ [(st.1.heap, i)]
           heap := st.1.heap + 1 }, st.2)
      else if address.m_scope = .GLOBAL then (st.1, true)
      else st
    DoInitialize.addressLoop i activeInterface rest st

/-- The loop of `Ripv2::DoInitialize` over the interfaces `i`, `i + 1`, and
so on, `n` of them. -/
def DoInitialize.interfaceLoop (ipv4 : Ipv4) : Nat → Nat → Ripv2 × Bool → Ripv2 × Bool
  | 0, _, st => st
  | n + 1, i, st =>
    let activeInterface := decide (i ∉ st.1.m_interfaceExclusions)
    let st := DoInitialize.addressLoop i activeInterface (ipv4.GetAddresses i) st
    DoInitialize.interfaceLoop ipv4 n (i + 1) st

/-- The method `Ripv2::DoInitialize`; the three delays are the values the
random stream gives for the first periodic update, the triggered update and
the route request. -/
def DoInitialize (s : Ripv2) (ipv4 : Ipv4) (delayUnsolicited delayTriggered delayStartup : Nat) :
    Ripv2 :=
  let s := { s with m_initialized := true }
  let r := s.sim.Schedule delayUnsolicited .SendUnsolicitedRouteUpdate
  let s := { s with m_nextUnsolicitedUpdate := r.1, sim := r.2 }
  let st := DoInitialize.interfaceLoop ipv4 ipv4.GetNInterfaces 0 (s, false)
  let s := st.1
  let addedGlobal := st.2
  let s :=
    match s.m_recvSocket with
    | none => { s with m_recvSocket := some s.heap, heap := s.heap + 1 }
    | some _ => s
  let s :=
    if addedGlobal then
      let r := s.sim.Schedule delayTriggered (.DoSendRouteUpdate false)
      { s with m_nextTriggeredUpdate := r.1, sim := r.2 }
    else s
  let r := s.sim.Schedule delayStartup .SendRouteRequest
  { s with m_nextTriggeredUpdate := r.1, sim := r.2 }

end Ripv2

/-! ## Runs of the agent -/

/-- Modelled from the spec: the event the simulator runs next, the one with
the least time and among those the one scheduled first (spec 5). -/
def Simulator.next (sim : Simulator) : Option Event :=
  sim.events.foldl
    (fun best e =>
      match best with
      | none => some e
      | some b => if e.ts < b.ts ∨ (e.ts = b.ts ∧ e.uid < b.uid) then some e else some b)
    none

/-- What happens to the agent from outside a call of its own: the simulator
runs its next event, time passes until a moment no event is due before, a
packet is received, a default route is injected, the agent is configured,
bound to the IP layer or initialised, the IP layer notifies a change of an
interface.  `delay` is the value the random stream returns if it is asked for
one. -/
inductive Op where
  | runEvent (delay : Nat)
  | advance (ticks : Nat)
  | receive (packet : Packet) (delay : Nat)
  | addDefaultRouteTo (nextHop interface : Nat)
  | setInterfaceMetric (interface metric : Nat)
  | setInterfaceExclusions (exceptions : List Nat)
  | setIpv4 (delay : Nat)
  | doInitialize (delayUnsolicited delayTriggered delayStartup : Nat)
  | notifyInterfaceUp (i delay : Nat)
  | notifyInterfaceDown (interface delay : Nat)
  | notifyAddAddress (interface : Nat) (address : Ipv4InterfaceAddress) (delay : Nat)
  | notifyRemoveAddress (interface : Nat) (address : Ipv4InterfaceAddress) (delay : Nat)
deriving DecidableEq, Repr

/-- One operation on the agent; `none` when the operation cannot happen in
this state or the call aborts.  `Receive`, `DoInitialize`,
`NotifyInterfaceUp`, `NotifyAddAddress` and `NotifyRemoveAddress` read
`m_ipv4` first thing (ripv2.cc 716, 116, 276, 394, 419): while it is null,
before `SetIpv4`, the call dereferences a null pointer and there is no state
after it. -/
def step (ipv4 : Ipv4) (GetDevice : Nat → Nat) (s : Ripv2) : Op → Option Ripv2
  | .runEvent delay =>
    match s.sim.next with
    | none => none
    | some e =>
      let sim := { s.sim with now := e.ts, events := s.sim.events.filter (fun x => x.uid ≠ e.uid) }
      let s := { s with sim := sim }
      if e.cancelled then some s
      else
        match e.impl with
        | .InvalidateRoute route => (s.InvalidateRoute route).toOption
        | .DeleteRoute route => (s.DeleteRoute route).toOption
        | .DoSendRouteUpdate periodic => some (s.DoSendRouteUpdate ipv4 periodic)
        | .SendUnsolicitedRouteUpdate => some (s.SendUnsolicitedRouteUpdate ipv4 delay)
        | .SendRouteRequest => some s.SendRouteRequest
  | .advance ticks =>
    if s.sim.events.all (fun e => decide (s.sim.now + ticks ≤ e.ts)) then
      some { s with sim := { s.sim with now := s.sim.now + ticks } }
    else none
  | .receive packet delay =>
    if s.hasIpv4 then (s.Receive ipv4 GetDevice packet delay).toOption else none
  | .addDefaultRouteTo nextHop interface => some (s.AddDefaultRouteTo nextHop interface)
  | .setInterfaceMetric interface metric => some (s.SetInterfaceMetric interface metric)
  | .setInterfaceExclusions exceptions => some (s.SetInterfaceExclusions exceptions)
  | .setIpv4 delay => (s.SetIpv4 ipv4 delay).toOption
  | .doInitialize delayUnsolicited delayTriggered delayStartup =>
    if s.hasIpv4 then some (s.DoInitialize ipv4 delayUnsolicited delayTriggered delayStartup)
    else none
  | .notifyInterfaceUp i delay =>
    if s.hasIpv4 then some (s.NotifyInterfaceUp ipv4 i delay) else none
  | .notifyInterfaceDown interface delay => some (s.NotifyInterfaceDown interface delay)
  | .notifyAddAddress interface address delay =>
    if s.hasIpv4 then some (s.NotifyAddAddress ipv4 interface address delay) else none
  | .notifyRemoveAddress interface address delay =>
    if s.hasIpv4 then some (s.NotifyRemoveAddress ipv4 interface address delay) else none

/-- A run: the operations one after the other. -/
def run (ipv4 : Ipv4) (GetDevice : Nat → Nat) : Ripv2 → List Op → Option Ripv2
  | s, [] => some s
  | s, op :: ops =>
    match step ipv4 GetDevice s op with
    | none => none
    | some s' => run ipv4 GetDevice s' ops

/-! ## Terms of the statements -/

/-- The RTE of scenario S6 of the spec: AFI 2, tag 0x1234, 10.1.2.0,
255.255.255.0, next hop 0.0.0.0, metric 5. -/
def rteS6 : Ripv2Rte :=
  { m_AFI := 2, m_tag := 0x1234, m_IpAddress := 0x0A010200, m_SubnetMask := 0xFFFFFF00,
    m_NextHop := 0, m_metric := 5 }

/-- A route entry answers a lookup of `dst` as spec 4.2 words it: it is
VALID, `dst & mask` is its network, and it leaves through the preferred
device when one is given. -/
def Ripv2.Lookup.Candidate (ipv4 : Ipv4) (dst : Nat) (interface : Option Nat)
    (e : Ripv2RoutingTableEntry) : Prop :=
  e.m_status = .RIPV2_VALID ∧ dst &&& e.m_destNetworkMask = e.m_dest ∧
    (interface = none ∨ interface = some (ipv4.GetNetDevice e.m_interface))

instance (ipv4 : Ipv4) (dst : Nat) (interface : Option Nat) (e : Ripv2RoutingTableEntry) :
    Decidable (Ripv2.Lookup.Candidate ipv4 dst interface e) := by
  unfold Ripv2.Lookup.Candidate; infer_instance

/-- The destination of the entry is its own prefix: `network & mask` is
`network`. -/
def Normalised (e : Ripv2RoutingTableEntry) : Prop :=
  e.m_dest &&& e.m_destNetworkMask = e.m_dest

instance (e : Ripv2RoutingTableEntry) : Decidable (Normalised e) := by
  unfold Normalised; infer_instance

/-- The cell is stored under the key of the RTE: its destination is
`addr & mask` and its mask the mask of the RTE. -/
def KeyOf (rte : Ripv2Rte) (cell : RouteCell) : Prop :=
  cell.1.m_dest = CombineMask rte.m_IpAddress rte.m_SubnetMask ∧
    cell.1.m_destNetworkMask = rte.m_SubnetMask

instance (rte : Ripv2Rte) (cell : RouteCell) : Decidable (KeyOf rte cell) := by
  unfold KeyOf; infer_instance

/-- What the loop of `Lookup` holds after the cells `done`: nothing when no
cell answered, else the route of the last cell among those of greatest
prefix length. -/
def Ripv2.Lookup.Holds (ipv4 : Ipv4) (dst : Nat) (interface : Option Nat) (done : List RouteCell)
    (st : Option Ipv4Route × Nat) : Prop :=
  (st.1 = none ∧ st.2 = 0 ∧ ∀ c ∈ done, ¬ Lookup.Candidate ipv4 dst interface c.1) ∨
  (∃ before c after rt, done = before ++ c :: after ∧ st.1 = some rt ∧
    Lookup.Candidate ipv4 dst interface c.1 ∧
    rt.m_gateway = c.1.m_gateway ∧ rt.m_outputDevice = ipv4.GetNetDevice c.1.m_interface ∧
    st.2 = GetPrefixLength c.1.m_destNetworkMask ∧
    (∀ x ∈ before, Lookup.Candidate ipv4 dst interface x.1 →
      GetPrefixLength x.1.m_destNetworkMask ≤ GetPrefixLength c.1.m_destNetworkMask) ∧
    (∀ x ∈ after, Lookup.Candidate ipv4 dst interface x.1 →
      GetPrefixLength x.1.m_destNetworkMask < GetPrefixLength c.1.m_destNetworkMask))

/-- An environment for the examples: device `i` is the device of interface
`i`, and no address is an address of the router. -/
def ipv4W : Ipv4 :=
  { GetNInterfaces := 2, GetAddresses := fun _ => [], IsUp := fun _ => true,
    IsForwarding := fun _ => true, GetNetDevice := fun i => i,
    GetInterfaceForDevice := fun d => d, GetInterfaceForAddress := fun _ => -1,
    SelectSourceAddress := fun _ _ _ => 0, PrefixScope := fun _ _ => .GLOBAL }

/-- A RIB for the examples: 10.0.0.0/8 and 10.1.0.0/16 VALID, and a second
10.1.0.0/16 that is INVALID. -/
def ribW : Ripv2 :=
  { m_routes :=
      [({ addr := 1, m_dest := 0x0A000000, m_destNetworkMask := 0xFF000000,
          m_gateway := 0x0A000001, m_interface := 1, m_metric := 2,
          m_status := .RIPV2_VALID }, {}),
       ({ addr := 2, m_dest := 0x0A010000, m_destNetworkMask := 0xFFFF0000,
          m_gateway := 0x0A000002, m_interface := 1, m_metric := 3,
          m_status := .RIPV2_VALID }, {}),
       ({ addr := 3, m_dest := 0x0A010000, m_destNetworkMask := 0xFFFF0000,
          m_gateway := 0x0A000003, m_interface := 2, m_metric := 16,
          m_status := .RIPV2_INVALID }, {})],
    heap := 4 }

namespace Ripv2

/-- The Response passes the checks at the head of `HandleResponses`: its
interface is not excluded, its TTL is 255 and every RTE is valid. -/
def HandleResponses.Accepted (s : Ripv2) (hdr : Ripv2Header) (incomingInterface ttl : Nat) :
    Prop :=
  incomingInterface ∉ s.m_interfaceExclusions ∧ ttl = 255 ∧
    HandleResponses.validate hdr.m_rteList = true

instance (s : Ripv2) (hdr : Ripv2Header) (incomingInterface ttl : Nat) :
    Decidable (HandleResponses.Accepted s hdr incomingInterface ttl) := by
  unfold HandleResponses.Accepted; infer_instance

/-- The state and the variable `changed` of `HandleResponses` when its loop
has processed the RTEs `pre` of the message. -/
def HandleResponses.reached (s : Ripv2) (senderAddress incomingInterface : Nat)
    (pre : List Ripv2Rte) : Ripv2 × Bool :=
  pre.foldl (HandleResponses.onRte senderAddress incomingInterface) (s, false)

/-- The end of `HandleResponses` from a state of its loop: the RTEs `post`
are processed, then a triggered update is asked for if `changed` is set. -/
def HandleResponses.finish (senderAddress incomingInterface : Nat) (st : Ripv2 × Bool)
    (post : List Ripv2Rte) (delay : Nat) : Ripv2 :=
  let r := post.foldl (HandleResponses.onRte senderAddress incomingInterface) st
  if r.2 then r.1.SendTriggeredRouteUpdate delay else r.1

end Ripv2

/-- The handle `id` is armed in `sim`: it fires `delay` from now, it is
running, and its event, not cancelled, runs `impl`. -/
def Simulator.Armed (sim : Simulator) (id : EventId) (impl : EventImpl) (delay : Nat) : Prop :=
  id.m_ts = sim.now + delay ∧ sim.IsRunning id = true ∧
    ∃ uid, id.m_uid = some uid ∧
      ({ uid := uid, ts := sim.now + delay, impl := impl, cancelled := false } : Event) ∈
        sim.events

/-- The two states agree on what the loops of `HandleResponses` do not
write: the metrics of the interfaces, the two delays, the time, the handle
of the triggered update and the number of calls of
`SendTriggeredRouteUpdate`. -/
def SameSettings (a b : Ripv2) : Prop :=
  a.m_interfaceMetrics = b.m_interfaceMetrics ∧ a.m_timeoutDelay = b.m_timeoutDelay ∧
    a.m_garbageCollectionDelay = b.m_garbageCollectionDelay ∧ a.sim.now = b.sim.now ∧
    a.m_nextTriggeredUpdate = b.m_nextTriggeredUpdate ∧
    a.triggeredUpdateCalls = b.triggeredUpdateCalls

/-- A state for the examples: 192.168.0.0/16 directly connected, and
10.0.0.0/8 learnt from 10.0.0.1 with metric 5, its timeout timer running. -/
def ribV : Ripv2 :=
  { m_routes :=
      [({ addr := 1, m_dest := 0xC0A80000, m_destNetworkMask := 0xFFFF0000,
          m_gateway := 0, m_interface := 2, m_metric := 1,
          m_status := .RIPV2_VALID }, {}),
       ({ addr := 2, m_dest := 0x0A000000, m_destNetworkMask := 0xFF000000,
          m_gateway := 0x0A000001, m_interface := 1, m_metric := 5,
          m_status := .RIPV2_VALID }, { m_uid := some 7, m_ts := Seconds 100 })],
    sim := { now := Seconds 10, uid := 8,
             events := [{ uid := 7, ts := Seconds 100, impl := .InvalidateRoute 2 }] },
    heap := 3 }

/-- An RTE for 10.0.0.0/8 with the given metric and tag 9. -/
def rteV (metric : Nat) : Ripv2Rte :=
  { m_tag := 9, m_IpAddress := 0x0A000000, m_SubnetMask := 0xFF000000, m_metric := metric }

/-- The validation loop of `HandleResponses` rejects the RTE: its metric is
0 or above 16, its prefix length above 32, or its address is the address
`Ipv4Address::GetLoopback ()`, 127.0.0.1, or a multicast address. -/
def Malformed (rte : Ripv2Rte) : Prop :=
  rte.m_metric = 0 ∨ rte.m_metric > 16 ∨ GetPrefixLength rte.m_SubnetMask > 32 ∨
    rte.m_IpAddress = GetLoopback ∨ IsMulticast rte.m_IpAddress = true

instance (rte : Ripv2Rte) : Decidable (Malformed rte) := by
  unfold Malformed; infer_instance

/-- A Response received from 10.0.0.1 on interface 1 with TTL 255, carrying
192.168.1.0/24 at metric 1. -/
def packetA : Packet :=
  { recvIf := some 1, ttl := some 255, sender := some (0x0A000001, 520),
    bytes := AddHeader
      { m_command := 2,
        m_rteList := [{ m_IpAddress := 0xC0A80100, m_SubnetMask := 0xFFFFFF00,
                        m_metric := 1 }] } }

/-- A Response received from 10.0.0.2 on interface 1 with TTL 255, carrying
192.168.1.0/24 at metric 16. -/
def packetB : Packet :=
  { recvIf := some 1, ttl := some 255, sender := some (0x0A000002, 520),
    bytes := AddHeader
      { m_command := 2,
        m_rteList := [{ m_IpAddress := 0xC0A80100, m_SubnetMask := 0xFFFFFF00,
                        m_metric := 16 }] } }

/-- A run from a new agent with the default delays: the agent is bound to
the IP layer, 10.0.0.1 announces 192.168.1.0/24, the triggered update is sent
after 1 s, the route times out at 180 s, and 31 s into its garbage collection
10.0.0.2 announces the prefix as unreachable. -/
def runInfinity : List Op :=
  [.setIpv4 0, .receive packetA (Seconds 1), .runEvent 0, .runEvent 0, .advance (Seconds 31),
   .receive packetB (Seconds 1)]

/-- Every route of the table is stored under its own prefix. -/
def Ripv2.AllNormalised (s : Ripv2) : Prop := ∀ c ∈ s.m_routes, Normalised c.1

/-- Every route of the table has the property `Q`. -/
@[reducible]
def Ripv2.All (Q : Ripv2RoutingTableEntry → Prop) (s : Ripv2) : Prop := ∀ c ∈ s.m_routes, Q c.1

/-- The property `Q` of a route is kept by what the agent does to routes: a
route `AddNetworkRouteTo` builds for a prefix has it, a route that
`InvalidateRoute` marks keeps it, the flag `changed` does not matter to it,
a route updated by a Response to a metric from 1 to 16 keeps it, and a route
built from a Response for `addr & mask` with such a metric has it. -/
structure EntryInvariant (Q : Ripv2RoutingTableEntry → Prop) : Prop where
  add : ∀ addr net mask gw i : Nat, net &&& mask = net →
    Q { addr := addr, m_dest := net, m_destNetworkMask := mask, m_gateway := gw,
        m_interface := i, m_tag := 0, m_metric := 1, m_status := .RIPV2_VALID,
        m_changed := true }
  invalidate : ∀ e : Ripv2RoutingTableEntry, Q e →
    Q { e with m_metric := 16, m_status := .RIPV2_INVALID, m_changed := true }
  changed : ∀ (e : Ripv2RoutingTableEntry) (b : Bool), Q e → Q { e with m_changed := b }
  update : ∀ (e : Ripv2RoutingTableEntry) (m t : Nat), Q e → 1 ≤ m → m ≤ 16 →
    Q { e with m_metric := m, m_status := .RIPV2_VALID, m_tag := t, m_changed := true }
  learn : ∀ addr ip mask gw i m t : Nat, 1 ≤ m → m ≤ 16 →
    Q { addr := addr, m_dest := ip &&& mask, m_destNetworkMask := mask, m_gateway := gw,
        m_interface := i, m_tag := t, m_metric := m, m_status := .RIPV2_VALID,
        m_changed := true }

/-- Every metric stored for an interface is below 16. -/
def Ripv2.MetricsOk (s : Ripv2) : Prop := ∀ p ∈ s.m_interfaceMetrics, p.2 < 16

/-- The RTE that the body of the loop over `m_routes` in
`Ripv2::DoSendRouteUpdate` adds to the header for one route, if it adds
one. -/
def Ripv2.DoSendRouteUpdate.select (strategy : SplitHorizonType_e) (ipv4 : Ipv4)
    (periodic : Bool) (interface : Nat) (cell : RouteCell) : Option Ripv2Rte :=
  let rt := cell.1
  let splitHorizoning := decide (rt.m_interface = interface)
  let isGlobal := decide (ipv4.PrefixScope rt.m_dest rt.m_destNetworkMask = .GLOBAL)
  let isDefaultRoute :=
    decide (rt.m_dest = 0) && decide (rt.m_destNetworkMask = 0) &&
      decide (rt.m_interface ≠ interface)
  if (isGlobal || isDefaultRoute) && (periodic || rt.m_changed) then
    let rte : Ripv2Rte := {}
    let rte := { rte with m_IpAddress := rt.m_dest }
    let rte := { rte with m_SubnetMask := rt.m_destNetworkMask }
    let rte :=
      if strategy = .POISON_REVERSE ∧ splitHorizoning = true then { rte with m_metric := 16 }
      else { rte with m_metric := rt.m_metric }
    let rte := { rte with m_tag := rt.m_tag }
    if strategy = .SPLIT_HORIZON ∧ splitHorizoning = false then some rte
    else if strategy ≠ .SPLIT_HORIZON then some rte
    else none
  else none

/-- The RTEs selected for one emission of `DoSendRouteUpdate` on an
interface, in the order of the table. -/
def Ripv2.DoSendRouteUpdate.selected (strategy : SplitHorizonType_e) (ipv4 : Ipv4)
    (periodic : Bool) (interface : Nat) (routes : List RouteCell) : List Ripv2Rte :=
  routes.filterMap (Ripv2.DoSendRouteUpdate.select strategy ipv4 periodic interface)

/-- The RTE that the body of the loop over `m_routes` in the whole-table
branch of `Ripv2::HandleRequests` adds to the header for one route, if it
adds one. -/
def Ripv2.HandleRequests.select (strategy : SplitHorizonType_e) (ipv4 : Ipv4)
    (incomingInterface : Nat) (cell : RouteCell) : Option Ripv2Rte :=
  let rt := cell.1
  let splitHorizoning := decide (rt.m_interface = incomingInterface)
  let isGlobal := decide (ipv4.PrefixScope rt.m_dest rt.m_destNetworkMask = .GLOBAL)
  let isDefaultRoute :=
    decide (rt.m_dest = 0) && decide (rt.m_destNetworkMask = 0) &&
      decide (rt.m_interface ≠ incomingInterface)
  if (isGlobal || isDefaultRoute) && decide (rt.m_status = .RIPV2_VALID) then
    let rte : Ripv2Rte := {}
    let rte := { rte with m_IpAddress := rt.m_dest }
    let rte := { rte with m_SubnetMask := rt.m_destNetworkMask }
    let rte :=
      if strategy = .POISON_REVERSE ∧ splitHorizoning = true then { rte with m_metric := 16 }
      else { rte with m_metric := rt.m_metric }
    let rte := { rte with m_tag := rt.m_tag }
    if strategy ≠ .SPLIT_HORIZON ∨ (strategy = .SPLIT_HORIZON ∧ splitHorizoning = false) then
      some rte
    else none
  else none

/-- The RTEs selected for a whole-table reply on an interface, in the order
of the table. -/
def Ripv2.HandleRequests.selected (strategy : SplitHorizonType_e) (ipv4 : Ipv4)
    (incomingInterface : Nat) (routes : List RouteCell) : List Ripv2Rte :=
  routes.filterMap (Ripv2.HandleRequests.select strategy ipv4 incomingInterface)

/-- The shape that the loops over `m_routes` of `DoSendRouteUpdate` and of the
whole-table reply share: the RTE chosen for the route, if there is one, is
added to the header, and a header of 25 RTEs is sent in the packet `mk`
makes of it and then cleared. -/
def pageStep (mk : Ripv2Header → SentPacket) (sel : RouteCell → Option Ripv2Rte)
    (st : Ripv2Header × List SentPacket) (cell : RouteCell) : Ripv2Header × List SentPacket :=
  let hdr :=
    match sel cell with
    | some rte => st.1.AddRte rte
    | none => st.1
  if hdr.GetRteNumber = 25 then (hdr.ClearRtes, st.2 ++ [mk hdr]) else (hdr, st.2)

/-- The RTEs of the packets, one packet after the other. -/
def rtesOf (packets : List SentPacket) : List Ripv2Rte :=
  (packets.map (fun p => p.hdr.m_rteList)).flatten

/-- The RTEs an emission has put out when its loop is in the state `st`:
those of the packets sent, then those waiting in the header. -/
def emitted (st : Ripv2Header × List SentPacket) : List Ripv2Rte :=
  rtesOf st.2 ++ st.1.m_rteList

/-- The route passes the test of the loop of `DoSendRouteUpdate` on the
interface: its prefix has GLOBAL scope or it is a default route of another
interface, and the update is periodic or the route is flagged as changed. -/
def Ripv2.DoSendRouteUpdate.Eligible (ipv4 : Ipv4) (periodic : Bool) (interface : Nat)
    (e : Ripv2RoutingTableEntry) : Prop :=
  (ipv4.PrefixScope e.m_dest e.m_destNetworkMask = .GLOBAL ∨
    (e.m_dest = 0 ∧ e.m_destNetworkMask = 0 ∧ e.m_interface ≠ interface)) ∧
  (periodic = true ∨ e.m_changed = true)

instance (ipv4 : Ipv4) (periodic : Bool) (interface : Nat) (e : Ripv2RoutingTableEntry) :
    Decidable (Ripv2.DoSendRouteUpdate.Eligible ipv4 periodic interface e) := by
  unfold Ripv2.DoSendRouteUpdate.Eligible; infer_instance

/-- The headers are the pages of the RTE list `sel`: each is a Response with
1 to 25 RTEs, their RTE lists one after the other are `sel`, and there are
`ceil (n / 25)` of them for the `n` RTEs of `sel`. -/
def Paginated (pages : List Ripv2Header) (sel : List Ripv2Rte) : Prop :=
  (∀ h ∈ pages, h.m_command = RESPONSE ∧ 1 ≤ h.m_rteList.length ∧ h.m_rteList.length ≤ 25) ∧
  (pages.map (fun h => h.m_rteList)).flatten = sel ∧
  pages.length = (sel.length + 24) / 25

/-- A state for the examples of emission: a send socket on interface 1; the
default route through interface 1 and 10.0.0.0/8 through interface 2, both
flagged as changed; 192.168.0.0/16 through interface 1, not flagged. -/
def ribD : Ripv2 :=
  { m_routes :=
      [({ addr := 1, m_dest := 0, m_destNetworkMask := 0, m_gateway := 0x0A000001,
          m_interface := 1, m_metric := 1, m_status := .RIPV2_VALID, m_changed := true }, {}),
       ({ addr := 2, m_dest := 0x0A000000, m_destNetworkMask := 0xFF000000,
          m_gateway := 0x0B000001, m_interface := 2, m_tag := 7, m_metric := 3,
          m_status := .RIPV2_VALID, m_changed := true }, {}),
       ({ addr := 3, m_dest := 0xC0A80000, m_destNetworkMask := 0xFFFF0000,
          m_gateway := 0, m_interface := 1, m_metric := 1,
          m_status := .RIPV2_VALID }, {})],
    m_sendSocketList := [(5, 1)],
    heap := 6 }

/-- A state with a send socket on interface 1 and `n` routes learnt through
interface 2, the prefixes 10.0.i.0/24. -/
def ribN (n : Nat) : Ripv2 :=
  { m_routes := (List.range n).map (fun i =>
      ({ addr := i + 1, m_dest := 0x0A000000 + 256 * i, m_destNetworkMask := 0xFFFFFF00,
         m_gateway := 0x0B000001, m_interface := 2, m_metric := 2,
         m_status := .RIPV2_VALID }, {})),
    m_sendSocketList := [(5, 1)],
    heap := n + 1 }

/-- A run in which the IP layer may differ from one operation to the next:
each operation comes with the `Ipv4` it finds. -/
def runIn (GetDevice : Nat → Nat) : Ripv2 → List (Ipv4 × Op) → Option Ripv2
  | s, [] => some s
  | s, op :: ops =>
    match step op.1 GetDevice s op.2 with
    | none => none
    | some s' => runIn GetDevice s' ops

/-- The metric of the route is from 1 to 16. -/
def MetricInRange (e : Ripv2RoutingTableEntry) : Prop := 1 ≤ e.m_metric ∧ e.m_metric ≤ 16

instance (e : Ripv2RoutingTableEntry) : Decidable (MetricInRange e) := by
  unfold MetricInRange; infer_instance

/-- The IP layer of the examples with an address: interface 1 has
10.0.0.5/24, of GLOBAL scope. -/
def ipv4U : Ipv4 :=
  { ipv4W with
    GetAddresses := fun i => if i = 1 then [{ m_local := 0x0A000005, m_mask := 0xFFFFFF00 }] else [] }

/-- A run from a new agent: the metric of interface 1 is set to 3, the agent
is bound to the IP layer and initialised, 10.0.0.1 announces 192.168.1.0/24
at metric 1, and interface 1 goes down. -/
def runMetrics : List (Ipv4 × Op) :=
  [(ipv4U, .setInterfaceMetric 1 3), (ipv4U, .setInterfaceMetric 1 16), (ipv4U, .setIpv4 0),
   (ipv4U, .doInitialize (Seconds 30) (Seconds 1) (Seconds 1)),
   (ipv4U, .receive packetA (Seconds 1)), (ipv4U, .notifyInterfaceDown 1 (Seconds 1))]

/-- A Response received from 10.0.0.1 on interface 1 with TTL 255, carrying
192.168.1.0/24 at metric 16. -/
def packetC : Packet :=
  { recvIf := some 1, ttl := some 255, sender := some (0x0A000001, 520),
    bytes := AddHeader
      { m_command := 2,
        m_rteList := [{ m_IpAddress := 0xC0A80100, m_SubnetMask := 0xFFFFFF00,
                        m_metric := 16 }] } }

/-- A run from a new agent with the default delays: the agent is bound to
the IP layer, 10.0.0.1 announces 192.168.1.0/24, the triggered update is sent
after 1 s, the route times out at 180 s, and 31 s into its garbage collection
10.0.0.1 announces the prefix as unreachable. -/
def runRefresh : List Op :=
  [.setIpv4 0, .receive packetA (Seconds 1), .runEvent 0, .runEvent 0, .advance (Seconds 31),
   .receive packetC (Seconds 1)]

/-- What the examples show of a state: status, metric and handle of every
route, and the events of the queue that are not cancelled. -/
def timersOf (s : Ripv2) : List (Status_e × Nat × EventId) × List Event :=
  (s.m_routes.map (fun c => (c.1.m_status, c.1.m_metric, c.2)),
   s.sim.events.filter (fun e => !e.cancelled))

/-- The status INVALID of a route goes with metric 16. -/
def InvalidHasInfinity (e : Ripv2RoutingTableEntry) : Prop :=
  e.m_status = .RIPV2_INVALID → e.m_metric = 16

/-- The route an event is a timer of: the argument of `InvalidateRoute` or
`DeleteRoute`; none for the other events. -/
def EventImpl.routeOf : EventImpl → Option Nat
  | .InvalidateRoute route => some route
  | .DeleteRoute route => some route
  | _ => none

/-- The timers of the routes are in order.  No two cells hold the same
object and no two events the same uid; objects and uids are below the next
ones to be given; no two cells hold the same handle; an event that is not
cancelled and is a timer of a route belongs to the cell of that route, whose
handle refers to it; the handle of a VALID route, unless it refers to no
event, refers to an event that is not cancelled and runs `InvalidateRoute`
on the route; and the handle `ut` of the triggered update refers to no timer
of a route. -/
structure TimersOk (routes : List RouteCell) (sim : Simulator) (heap : Nat) (ut : EventId) :
    Prop where
  addrs : (routes.map (fun c => c.1.addr)).Nodup
  addr_lt : ∀ c ∈ routes, c.1.addr < heap
  uids : (sim.events.map (fun e => e.uid)).Nodup
  uid_lt : ∀ e ∈ sim.events, e.uid < sim.uid
  handles : (routes.filterMap (fun c => c.2.m_uid)).Nodup
  handle_lt : ∀ c ∈ routes, ∀ u, c.2.m_uid = some u → u < sim.uid
  owner : ∀ e ∈ sim.events, e.cancelled = false → ∀ a, e.impl.routeOf = some a →
    ∃ c ∈ routes, c.1.addr = a ∧ c.2.m_uid = some e.uid
  valid : ∀ c ∈ routes, c.1.m_status = .RIPV2_VALID → ∀ u, c.2.m_uid = some u →
    ∃ e ∈ sim.events, e.uid = u ∧ e.cancelled = false ∧ e.impl = .InvalidateRoute c.1.addr
  update_lt : ∀ u, ut.m_uid = some u → u < sim.uid
  update : ∀ u, ut.m_uid = some u → ∀ e ∈ sim.events, e.uid = u → e.impl.routeOf = none

/-- The timers of the routes of the agent are in order. -/
def Ripv2.Timers (s : Ripv2) : Prop :=
  TimersOk s.m_routes s.sim s.heap s.m_nextTriggeredUpdate

/-- A run from a new agent: it is bound to an IP layer whose interface 1 has
10.0.0.5/24, a default route through interface 1 is injected, the agent is
initialised, and 10.0.0.1 announces 192.168.1.0/24 at metric 1. -/
def runTimers : List (Ipv4 × Op) :=
  [(ipv4U, .setIpv4 0), (ipv4U, .addDefaultRouteTo 0x0A000001 1),
   (ipv4U, .doInitialize (Seconds 30) (Seconds 1) (Seconds 1)),
   (ipv4U, .receive packetA (Seconds 1))]

/-- Modelled from the spec: `UniformRandomVariable::GetValue (min, max)` of
the ns-3 core module (not under `src/`), on times in ticks: `min` plus a part
of the width `max - min` (spec 4.4: a random delay in `[T_tmin, T_tmax]`);
`u` is the number the stream draws. -/
def GetValue (u min max : Nat) : Nat :=
  if min < max then min + u % (max - min) else min

/-- The RTE of a whole-table Request, as `Ripv2::SendRouteRequest` makes it:
0.0.0.0, mask /0, metric 16. -/
def rteAll : Ripv2Rte := { m_IpAddress := 0, m_SubnetMask := 0, m_metric := 16 }

/-- The RTE of a Request that asks for the /24 prefix `a`. -/
def rteQ (a : Nat) : Ripv2Rte := { m_IpAddress := a, m_SubnetMask := 0xFFFFFF00 }

/-- A Request received on interface 1 from 10.0.0.9, port `port`, with the
TTL `ttl`, carrying the RTEs `rtes`. -/
def packetQ (ttl port : Nat) (rtes : List Ripv2Rte) : Packet :=
  { recvIf := some 1, ttl := some ttl, sender := some (0x0A000009, port),
    bytes := AddHeader { m_command := REQUEST, m_rteList := rtes } }

/-- A state for the examples of requests: the receiving socket 9, a send
socket on interface 1, and the routes 10.0.0.0/24, 10.0.1.0/24 and
10.0.2.0/24 at metric 2 through interface 2. -/
def ribQ : Ripv2 := { ribN 3 with m_recvSocket := some 9 }

/-- The test of the second branch of `Ripv2::HandleRequests` on one route for
one requested RTE: the route is VALID and has the address and the mask asked
for. -/
def Ripv2.HandleRequests.matches (rte : Ripv2Rte) (cell : RouteCell) : Bool :=
  decide (cell.1.m_status = .RIPV2_VALID ∧ rte.m_IpAddress = cell.1.m_dest ∧
    rte.m_SubnetMask = cell.1.m_destNetworkMask)

/-- The table of `ribW`, which has an INVALID entry, with send sockets on the
interfaces 1 and 2. -/
def ribI : Ripv2 := { ribW with m_sendSocketList := [(5, 1), (6, 2)] }

/-- The state `ribV` ten seconds later: the route to 10.0.0.0/8 has 80 s left
on its timeout timer, less than half the timeout delay. -/
def ribT : Ripv2 := { ribV with sim := { ribV.sim with now := Seconds 20 } }

/-- A Response received from 10.0.0.1 on interface 1 with TTL 255, carrying
192.168.1.0/24 with the route tag 0x1234 at the given metric. -/
def packetT (metric : Nat) : Packet :=
  { recvIf := some 1, ttl := some 255, sender := some (0x0A000001, 520),
    bytes := AddHeader
      { m_command := 2,
        m_rteList := [{ m_tag := 0x1234, m_IpAddress := 0xC0A80100, m_SubnetMask := 0xFFFFFF00,
                        m_metric := metric }] } }

/-- An agent bound to the IP layer, with an empty table, the receiving
socket 9 and a send socket on interface 2. -/
def ribS : Ripv2 := { m_sendSocketList := [(5, 2)], m_recvSocket := some 9, hasIpv4 := true }

/-- What the examples show of the tags: destination, metric and tag of every
route, and socket, destination port and RTEs of every packet sent. -/
def tagsOf (s : Ripv2) : List (Nat × Nat × Nat) × List (Nat × Nat × List Ripv2Rte) :=
  (s.m_routes.map (fun c => (c.1.m_dest, c.1.m_metric, c.1.m_tag)),
   s.sent.map (fun p => (p.socket, p.toPort, p.hdr.m_rteList)))

/-- A Response received from 10.0.0.1 on interface 1 with TTL 255, carrying
10.0.0.0/24, the prefix of interface 1 in `ipv4U`, at metric 1. -/
def packetN : Packet :=
  { recvIf := some 1, ttl := some 255, sender := some (0x0A000001, 520),
    bytes := AddHeader
      { m_command := 2,
        m_rteList := [{ m_IpAddress := 0x0A000000, m_SubnetMask := 0xFFFFFF00,
                        m_metric := 1 }] } }

/-- What the examples show of a table: destination, gateway, metric and
status of every route, and whether its handle refers to an event. -/
def routesOf (s : Ripv2) : List (Nat × Nat × Nat × Status_e × Bool) :=
  s.m_routes.map (fun c => (c.1.m_dest, c.1.m_gateway, c.1.m_metric, c.1.m_status,
    c.2.m_uid.isSome))

/-- The event waits in the queue, not cancelled, to run `impl`. -/
def Event.Live (e : Event) (impl : EventImpl) : Prop := e.cancelled = false ∧ e.impl = impl

instance (e : Event) (impl : EventImpl) : Decidable (e.Live impl) := by
  unfold Event.Live; infer_instance

/-- The update events of the queue are in order, for an agent that draws the
delay of a triggered update up to `maxT`.  No event is due in the past; a
triggered update that waits is due within `maxT`; a triggered update that
waits and that the handle `ut` does not refer to is due before every periodic
update that waits; at most one periodic update waits, and none before the
agent is initialised. -/
structure UpdatesOk (sim : Simulator) (ut : EventId) (init : Bool) (maxT : Nat) : Prop where
  future : ∀ e ∈ sim.events, sim.now ≤ e.ts
  soon : ∀ e ∈ sim.events, e.Live (.DoSendRouteUpdate false) → e.ts ≤ sim.now + maxT
  orphan : ∀ e ∈ sim.events, e.Live (.DoSendRouteUpdate false) → ut.m_uid ≠ some e.uid →
    ∀ p ∈ sim.events, p.Live .SendUnsolicitedRouteUpdate → e.ts < p.ts
  one : ∀ p ∈ sim.events, ∀ q ∈ sim.events, p.Live .SendUnsolicitedRouteUpdate →
    q.Live .SendUnsolicitedRouteUpdate → p = q
  started : init = false → ∀ p ∈ sim.events, ¬ p.Live .SendUnsolicitedRouteUpdate

/-- The update events of the agent are in order, and its two delays are
`maxT` for the triggered update at most and `Tu` for the periodic update. -/
def Ripv2.Updates (maxT Tu : Nat) (s : Ripv2) : Prop :=
  UpdatesOk s.sim s.m_nextTriggeredUpdate s.m_initialized maxT ∧
    s.m_maxTriggeredUpdateDelay = maxT ∧ s.m_unsolicitedUpdate = Tu

/-- The delays an operation brings are draws the agent can make in the state
`s`: the delay of a triggered update is at most `MaxTriggeredCooldown`, the
delay of a periodic update is at least the update period, and `DoInitialize`
runs on an agent that is not initialised. -/
def Op.InRange (s : Ripv2) : Op → Bool
  | .runEvent delay => decide (s.m_unsolicitedUpdate ≤ delay)
  | .receive _ delay => decide (delay ≤ s.m_maxTriggeredUpdateDelay)
  | .setIpv4 delay => decide (delay ≤ s.m_maxTriggeredUpdateDelay)
  | .doInitialize delayUnsolicited delayTriggered _ =>
    decide (s.m_initialized = false ∧ s.m_unsolicitedUpdate ≤ delayUnsolicited ∧
      delayTriggered ≤ s.m_maxTriggeredUpdateDelay)
  | .notifyInterfaceUp _ delay => decide (delay ≤ s.m_maxTriggeredUpdateDelay)
  | .notifyInterfaceDown _ delay => decide (delay ≤ s.m_maxTriggeredUpdateDelay)
  | .notifyAddAddress _ _ delay => decide (delay ≤ s.m_maxTriggeredUpdateDelay)
  | .notifyRemoveAddress _ _ delay => decide (delay ≤ s.m_maxTriggeredUpdateDelay)
  | _ => true

/-- Every operation of the run brings delays in range in the state it
meets. -/
def runInRange (GetDevice : Nat → Nat) : Ripv2 → List (Ipv4 × Op) → Bool
  | _, [] => true
  | s, op :: ops =>
    Op.InRange s op.2 &&
      match step op.1 GetDevice s op.2 with
      | none => true
      | some s' => runInRange GetDevice s' ops

/-- A run from a new agent in which a triggered update waits when the
periodic update is due: the agent is bound to the IP layer and initialised
(first periodic update after 30 s), the route request is sent at 1 s, and at
28 s 10.0.0.1 announces 192.168.1.0/24, the triggered update being drawn 5 s
later. -/
def runPeriodic : List (Ipv4 × Op) :=
  [(ipv4U, .setIpv4 (Seconds 1)),
   (ipv4U, .doInitialize (Seconds 30) (Seconds 1) (Seconds 1)),
   (ipv4U, .runEvent (Seconds 30)), (ipv4U, .advance (Seconds 27)),
   (ipv4U, .receive packetA (Seconds 5))]
/-- The events of the queue that were not cancelled, in the order they were
scheduled: time and handler. -/
def pendingOf (s : Ripv2) : List (Nat × EventImpl) :=
  (s.sim.events.filter (fun e => !e.cancelled)).map (fun e => (e.ts, e.impl))

/-- A new agent whose attribute `UnsolicitedRoutingUpdate` is set to 3 s; the
other attributes have their defaults (`MaxTriggeredCooldown` 5 s). -/
def agentFast : Ripv2 := { m_unsolicitedUpdate := Seconds 3 }

/-- A run in which `DoInitialize` schedules a triggered update: interface 1,
which has a GLOBAL address, is excluded, the agent is bound to the IP layer
and initialised (first periodic update drawn 3 s later, the triggered update
4 s later), and the route request is sent at 0.5 s. -/
def runOrphan : List (Ipv4 × Op) :=
  [(ipv4U, .setInterfaceExclusions [1]), (ipv4U, .setIpv4 (Seconds 1)),
   (ipv4U, .doInitialize (Seconds 3) (Seconds 4) (Seconds 1 / 2)),
   (ipv4U, .runEvent (Seconds 3))]

/-- A run from a new agent to the moment after `DoInitialize`: the agent is
bound to the IP layer and initialised, with the first periodic update drawn
30 s later and the route request 0.5 s later. -/
def runStartup : List (Ipv4 × Op) :=
  [(ipv4U, .setIpv4 (Seconds 1)),
   (ipv4U, .doInitialize (Seconds 30) (Seconds 1) (Seconds 1 / 2))]

/-- A run from a new agent in which `DoInitialize` schedules a triggered
update: interface 1, which has a GLOBAL address, is excluded, the agent is
bound to the IP layer and initialised (first periodic update drawn 30 s
later, the triggered update 4 s later), and the route request is sent at
0.5 s. -/
def runLost : List (Ipv4 × Op) :=
  [(ipv4U, .setInterfaceExclusions [1]), (ipv4U, .setIpv4 (Seconds 1)),
   (ipv4U, .doInitialize (Seconds 30) (Seconds 4) (Seconds 1 / 2)),
   (ipv4U, .runEvent (Seconds 30))]

/-- The packets `batch` are what one emission of `DoSendRouteUpdate` sends
through the send socket `sock` (socket and interface): none when the
interface is excluded, else the pages of the RTEs selected for the interface,
each sent to the multicast group, port 520. -/
def Ripv2.DoSendRouteUpdate.Batch (s : Ripv2) (ipv4 : Ipv4) (periodic : Bool)
    (sock : Nat × Nat) (batch : List SentPacket) : Prop :=
  if sock.2 ∈ s.m_interfaceExclusions then batch = []
  else
    ∃ pages : List Ripv2Header,
      batch = pages.map (fun h => { socket := sock.1, hdr := h, toAddress := RIPV2_ALL_NODE,
                                    toPort := RIPV2_PORT }) ∧
      Paginated pages
        (Ripv2.DoSendRouteUpdate.selected s.m_splitHorizonStrategy ipv4 periodic sock.2
          s.m_routes)

/-- The IP layer of the examples with two addresses on one interface:
interface 1 has 10.0.0.5/24 and 10.0.1.5/24, both of GLOBAL scope. -/
def ipv4T : Ipv4 :=
  { ipv4W with
    GetAddresses := fun i =>
      if i = 1 then [{ m_local := 0x0A000005, m_mask := 0xFFFFFF00 },
                     { m_local := 0x0A000105, m_mask := 0xFFFFFF00 }]
      else [] }

/-- A run from a new agent on `ipv4T` to the moment before the first periodic
update: the agent is bound to the IP layer and initialised (`DoInitialize`
makes a send socket for each of the two addresses of interface 1), and the
route request is sent at 0.5 s. -/
def runTwoSockets : List (Ipv4 × Op) :=
  [(ipv4T, .setIpv4 0), (ipv4T, .doInitialize (Seconds 30) (Seconds 1) (Seconds 1 / 2)),
   (ipv4T, .runEvent (Seconds 30))]
/-- The split-horizon rule in the words of the spec (4.4), for an entry `E`
that is eligible for emission on the interface `I_o`: the RTEs it gives to
the emission.  Under NO_SPLIT_HORIZON the RTE with the metric of `E`; under
SPLIT_HORIZON that RTE unless `E` is reached through `I_o`; under
POISON_REVERSE the RTE with metric 16 if `E` is reached through `I_o` and
with the metric of `E` otherwise.  The RTE has the destination, the mask and
the tag of `E` (and the address family 2 and next hop 0.0.0.0 of every RTE
the agent builds). -/
def SplitHorizonRule (strategy : SplitHorizonType_e) (I_o : Nat) (E : Ripv2RoutingTableEntry) :
    List Ripv2Rte :=
  let rte := fun m : Nat =>
    ({ m_AFI := 2, m_tag := E.m_tag, m_IpAddress := E.m_dest,
       m_SubnetMask := E.m_destNetworkMask, m_NextHop := 0, m_metric := m } : Ripv2Rte)
  let horizon := decide (E.m_interface = I_o)
  match strategy with
  | .NO_SPLIT_HORIZON => [rte E.m_metric]
  | .SPLIT_HORIZON => if horizon then [] else [rte E.m_metric]
  | .POISON_REVERSE => [rte (if horizon then 16 else E.m_metric)]

/-- The IP layer of the examples with a third interface: as `ipv4U`, and
interface 2 exists and has no address yet. -/
def ipv4Y : Ipv4 := { ipv4U with GetNInterfaces := 3 }

/-- The IP layer `ipv4Y` once interface 2 has the address 10.0.1.5/24. -/
def ipv4X : Ipv4 :=
  { ipv4Y with
    GetAddresses := fun i =>
      if i = 1 then [{ m_local := 0x0A000005, m_mask := 0xFFFFFF00 }]
      else if i = 2 then [{ m_local := 0x0A000105, m_mask := 0xFFFFFF00 }]
      else [] }

/-- A Response received from 10.0.0.1 on interface 1 with TTL 255, carrying
10.0.1.0/24 at metric 1. -/
def packetM : Packet :=
  { recvIf := some 1, ttl := some 255, sender := some (0x0A000001, 520),
    bytes := AddHeader
      { m_command := 2,
        m_rteList := [{ m_IpAddress := 0x0A000100, m_SubnetMask := 0xFFFFFF00,
                        m_metric := 1 }] } }

/-- A run from a new agent that ends with two cells for 10.0.1.0/24: the
agent is bound to the IP layer and initialised, the route request is sent,
10.0.0.1 announces 10.0.1.0/24 (learnt at metric 2), interface 2 gets the
address 10.0.1.5/24 (`AddNetworkRouteTo` stores the prefix a second time),
interface 2 goes down (its route becomes INVALID), and the triggered update is
sent at 1.5 s. -/
def runTwice : List (Ipv4 × Op) :=
  [(ipv4Y, .setIpv4 (Seconds 1)), (ipv4Y, .doInitialize (Seconds 30) (Seconds 1) (Seconds 1 / 2)),
   (ipv4Y, .runEvent (Seconds 30)), (ipv4Y, .receive packetM (Seconds 1)),
   (ipv4X, .notifyAddAddress 2 { m_local := 0x0A000105, m_mask := 0xFFFFFF00 } (Seconds 1)),
   (ipv4X, .notifyInterfaceDown 2 (Seconds 1)), (ipv4X, .runEvent (Seconds 30))]

/-- A run from a new agent that ends with three cells for 10.0.0.0/24, one
INVALID and two VALID: the agent is bound to the IP layer (interface 1 has
10.0.0.5/24) and initialised, the route request is sent, interface 1 goes
down and comes up again, and the triggered update is sent at 1.5 s. -/
def runDownUp : List (Ipv4 × Op) :=
  [(ipv4U, .setIpv4 (Seconds 1)), (ipv4U, .doInitialize (Seconds 30) (Seconds 1) (Seconds 1 / 2)),
   (ipv4U, .runEvent (Seconds 30)), (ipv4U, .notifyInterfaceDown 1 (Seconds 1)),
   (ipv4U, .notifyInterfaceUp 1 (Seconds 1)), (ipv4U, .runEvent (Seconds 30))]

/-- What the examples show of the routes of a table: destination, gateway,
metric, status and flag `changed` of every route. -/
def cellsOf (s : Ripv2) : List (Nat × Nat × Nat × Status_e × Bool) :=
  s.m_routes.map (fun c => (c.1.m_dest, c.1.m_gateway, c.1.m_metric, c.1.m_status,
    c.1.m_changed))

/-- What the examples show of the handles of a table: the uid of the event
that the handle of every cell refers to, if any. -/
def handlesOf (s : Ripv2) : List (Option Nat) := s.m_routes.map (fun c => c.2.m_uid)
/-- The operation runs a method that calls `AddNetworkRouteTo`:
`AddDefaultRouteTo`, `NotifyInterfaceUp`, `NotifyAddAddress`, and `SetIpv4`,
which calls `NotifyInterfaceUp`. -/
def Op.AddsNetworkRoute : Op → Bool
  | .addDefaultRouteTo _ _ => true
  | .setIpv4 _ => true
  | .notifyInterfaceUp _ _ => true
  | .notifyAddAddress _ _ _ => true
  | _ => false

/-- From `s` to `s'` no object is taken back, and a cell of `s'` whose handle
refers to no event holds the object of a cell of `s` whose handle refers to
no event, or, if `creates` is set, an object that did not exist in `s`. -/
def Ripv2.HandlesFrom (creates : Bool) (s s' : Ripv2) : Prop :=
  s.heap ≤ s'.heap ∧
    ∀ c' ∈ s'.m_routes, c'.2.m_uid = none →
      (∃ c ∈ s.m_routes, c.1.addr = c'.1.addr ∧ c.2.m_uid = none) ∨
        (creates = true ∧ s.heap ≤ c'.1.addr)

/-- The timeout timer of the cell is armed: its handle is running and refers
to an event of the queue, not cancelled, that runs `InvalidateRoute` on the
route of the cell. -/
def Ripv2.TimeoutArmed (s : Ripv2) (c : RouteCell) : Prop :=
  s.sim.IsRunning c.2 = true ∧
    ∃ e ∈ s.sim.events, c.2.m_uid = some e.uid ∧ e.cancelled = false ∧
      e.impl = .InvalidateRoute c.1.addr

/-! ## Codec lemmas -/

theorem Ripv2Rte.Serialize_eq_writeBytes (r : Ripv2Rte) (i : BufferIterator) :
    r.Serialize i = writeBytes i (wireRte r) := by
  simp [Ripv2Rte.Serialize, writeBytes, wireRte, BufferIterator.WriteHtonU16,
    BufferIterator.WriteHtonU32, BufferIterator.WriteU8]

theorem writeBytes_slot (bs : List Nat) :
    ∀ (pre slot post : List Nat), slot.length = bs.length →
      writeBytes { data := pre ++ slot ++ post, cur := pre.length } bs =
        { data := pre ++ bs.map (· % 256) ++ post, cur := pre.length + bs.length } := by
  induction bs with
  | nil =>
    intro pre slot post hs
    have : slot = [] := List.length_eq_zero.mp hs
    simp [writeBytes, this]
  | cons b bs ih =>
    intro pre slot post hs
    cases slot with
    | nil => simp at hs
    | cons x slot =>
      have hlen : slot.length = bs.length := by simpa using hs
      have key := ih (pre ++ [b % 256]) slot post hlen
      simp only [writeBytes, List.foldl_cons, BufferIterator.WriteU8] at key ⊢
      have hset : (pre ++ x :: slot ++ post).set pre.length (b % 256) =
          pre ++ [b % 256] ++ slot ++ post := by
        simp [List.set_append_right]
      rw [hset]
      have hcur : pre.length + 1 = (pre ++ [b % 256]).length := by simp
      rw [hcur, key]
      simp only [List.map_cons, List.length_append, List.length_cons, List.length_nil,
        List.append_assoc, List.singleton_append, BufferIterator.mk.injEq, true_and]
      omega

theorem wireRte_length (r : Ripv2Rte) : (wireRte r).length = 20 := rfl

theorem wireRte_map_mod (r : Ripv2Rte) : (wireRte r).map (· % 256) = wireRte r := by
  simp [wireRte]

theorem flatten_wireRte_length (rtes : List Ripv2Rte) :
    ((rtes.map wireRte).flatten).length = 20 * rtes.length := by
  induction rtes with
  | nil => rfl
  | cons r rs ih => simp [List.flatten, wireRte_length, ih]; omega

theorem serialize_rtes (rtes : List Ripv2Rte) :
    ∀ (pre : List Nat),
      rtes.foldl
        (fun i rte =>
          let written := Ripv2Rte.Serialize rte i
          ({ data := written.data, cur := i.cur } : BufferIterator).Next rte.GetSerializedSize)
        { data := pre ++ List.replicate (20 * rtes.length) 0, cur := pre.length } =
      { data := pre ++ (rtes.map wireRte).flatten, cur := pre.length + 20 * rtes.length } := by
  induction rtes with
  | nil => intro pre; simp
  | cons r rs ih =>
    intro pre
    have hrep : List.replicate (20 * (r :: rs).length) 0 =
        List.replicate 20 0 ++ List.replicate (20 * rs.length) 0 := by
      rw [← List.replicate_add]; congr 1; simp; omega
    have hw := writeBytes_slot (wireRte r) pre (List.replicate 20 0)
      (List.replicate (20 * rs.length) 0) (by simp [wireRte_length])
    have hih := ih (pre ++ wireRte r)
    have hstep : (BufferIterator.mk (Ripv2Rte.Serialize r
          (BufferIterator.mk (pre ++ List.replicate (20 * (r :: rs).length) 0) pre.length)).data
          pre.length).Next r.GetSerializedSize =
        BufferIterator.mk (pre ++ wireRte r ++ List.replicate (20 * rs.length) 0)
          (pre ++ wireRte r).length := by
      simp only [Ripv2Rte.Serialize_eq_writeBytes, hrep, ← List.append_assoc, hw,
        wireRte_map_mod, BufferIterator.Next, Ripv2Rte.GetSerializedSize, List.length_append,
        wireRte_length]
    simp only [List.foldl_cons]
    rw [hstep, hih]
    simp only [List.map_cons, List.flatten, List.append_assoc, List.length_append,
      wireRte_length, List.length_cons, BufferIterator.mk.injEq, true_and]
    omega

theorem AddHeader_eq_wireMessage (h : Ripv2Header) (hc : h.m_command < 256)
    (hn : 4 + 20 * h.m_rteList.length < 2 ^ 32) :
    AddHeader h = wireMessage h.m_command h.m_rteList := by
  have hsize : h.GetSerializedSize = 4 + 20 * h.m_rteList.length := by
    unfold Ripv2Header.GetSerializedSize Ripv2Rte.GetSerializedSize
    rw [Nat.mul_comm, Nat.mod_eq_of_lt hn]
  have hrep : List.replicate (4 + 20 * h.m_rteList.length) 0 =
      [0, 0, 0, 0] ++ List.replicate (20 * h.m_rteList.length) 0 := by
    rw [List.replicate_add]; rfl
  have hs := serialize_rtes h.m_rteList [h.m_command, 2, 0, 0]
  unfold AddHeader Ripv2Header.Serialize
  rw [hsize, hrep]
  simp only [BufferIterator.WriteU8, BufferIterator.WriteU16, Nat.mod_mod]
  simp only [List.length_cons, List.length_nil] at hs
  simp [Nat.mod_eq_of_lt hc, wireMessage]
  simpa using congrArg BufferIterator.data hs

theorem getD_slot (pre bs post : List Nat) (k : Nat) (hk : k < bs.length) :
    (pre ++ bs ++ post).getD (pre.length + k) 0 = bs.getD k 0 := by
  rw [List.append_assoc, List.getD_append_right _ _ _ _ (by omega)]
  rw [Nat.add_sub_cancel_left, List.getD_append _ _ _ _ hk]

theorem Ripv2Rte.Deserialize_wireRte (r0 r : Ripv2Rte) (pre post : List Nat)
    (hr : r.InRange) :
    r0.Deserialize { data := pre ++ wireRte r ++ post, cur := pre.length } = (r, 20) := by
  obtain ⟨h1, h2, h3, h4, h5, h6⟩ := hr
  have g : ∀ k, k < 20 →
      (pre ++ wireRte r ++ post).getD (pre.length + k) 0 = (wireRte r).getD k 0 :=
    fun k hk => getD_slot pre (wireRte r) post k (by simpa [wireRte_length] using hk)
  have g0 := g 0 (by omega)
  simp only [Nat.add_zero] at g0
  simp only [Ripv2Rte.Deserialize, BufferIterator.ReadNtohU16, BufferIterator.ReadNtohU32,
    BufferIterator.ReadU8, Ripv2Rte.GetSerializedSize, Nat.add_assoc, Nat.reduceAdd, g0,
    g 1 (by omega), g 2 (by omega), g 3 (by omega), g 4 (by omega), g 5 (by omega),
    g 6 (by omega), g 7 (by omega), g 8 (by omega), g 9 (by omega), g 10 (by omega),
    g 11 (by omega), g 12 (by omega), g 13 (by omega), g 14 (by omega), g 15 (by omega),
    g 16 (by omega), g 17 (by omega), g 18 (by omega), g 19 (by omega)]
  simp only [wireRte, List.getD_cons_zero, List.getD_cons_succ, Prod.mk.injEq, and_true]
  cases r
  simp only [Ripv2Rte.mk.injEq] at *
  refine ⟨?_, ?_, ?_, ?_, ?_, ?_⟩ <;> omega

theorem Ripv2Header.readRtes_wire (rtes : List Ripv2Rte) :
    ∀ (pre post : List Nat) (acc : List Ripv2Rte), (∀ r ∈ rtes, r.InRange) →
      Ripv2Header.readRtes rtes.length
        { data := pre ++ (rtes.map wireRte).flatten ++ post, cur := pre.length } acc =
      acc ++ rtes := by
  induction rtes with
  | nil => intro pre post acc _; simp [Ripv2Header.readRtes]
  | cons r rs ih =>
    intro pre post acc hr
    have hd := Ripv2Rte.Deserialize_wireRte {} r pre ((rs.map wireRte).flatten ++ post)
      (hr r (List.mem_cons_self _ _))
    have hih := ih (pre ++ wireRte r) post (acc ++ [r])
      (fun x hx => hr x (List.mem_cons_of_mem _ hx))
    simp only [List.length_cons, Ripv2Header.readRtes, List.map_cons, List.flatten,
      ← List.append_assoc] at hd ⊢
    rw [hd]
    simp only [BufferIterator.Next]
    have hcur : pre.length + 20 = (pre ++ wireRte r).length := by simp [wireRte_length]
    rw [hcur, hih]
    simp

theorem RemoveHeader_wireMessage (c : Nat) (rtes : List Ripv2Rte)
    (hc : c = REQUEST ∨ c = RESPONSE) (hn : rtes.length < 256)
    (hr : ∀ r ∈ rtes, r.InRange) :
    RemoveHeader {} (wireMessage c rtes) =
      .ok ({ m_command := c, m_rteList := rtes }, 4 + 20 * rtes.length) := by
  have hlen : (wireMessage c rtes).length = 4 + 20 * rtes.length := by
    simp only [wireMessage, List.length_append, flatten_wireRte_length, List.length_cons,
      List.length_nil]
  have hread := Ripv2Header.readRtes_wire rtes [c, 2, 0, 0] [] [] hr
  simp only [List.append_nil, List.nil_append, List.length_cons, List.length_nil] at hread
  have hnum : ((4 + 20 * rtes.length) % 2 ^ 32 + 2 ^ 32 - 4) % 2 ^ 32 / 20 % 256 =
      rtes.length := by
    have h1 : (4 + 20 * rtes.length) % 2 ^ 32 = 4 + 20 * rtes.length :=
      Nat.mod_eq_of_lt (by omega)
    have h2 : 4 + 20 * rtes.length + 2 ^ 32 - 4 = 20 * rtes.length + 2 ^ 32 := by omega
    have h3 : 20 * rtes.length % 2 ^ 32 = 20 * rtes.length := Nat.mod_eq_of_lt (by omega)
    have h4 : 20 * rtes.length / 20 = rtes.length := Nat.mul_div_cancel_left _ (by omega)
    rw [h1, h2, Nat.add_mod_right, h3, h4, Nat.mod_eq_of_lt hn]
  simp only [RemoveHeader, Ripv2Header.Deserialize, BufferIterator.ReadU8,
    BufferIterator.ReadU16, BufferIterator.GetSize, hlen, hnum]
  simp only [wireMessage, List.cons_append, List.nil_append, List.getD_cons_zero,
    List.getD_cons_succ, hc, if_true, Nat.reduceAdd] at hread ⊢
  simp only [hread]
  simp [Ripv2Header.GetSerializedSize, Ripv2Rte.GetSerializedSize]
  omega

/-! ## The codec -/

/-- C1: codec round trip.  For a message with command 1 or 2 and at most 25
RTEs whose fields fit their wire widths, a fresh header that deserialises
the bytes `Serialize` wrote holds the same command and the same RTE list,
and `Deserialize` returns `4 + 20 * n`. -/
theorem codec_round_trip (h : Ripv2Header) (hc : h.m_command = 1 ∨ h.m_command = 2)
    (hn : h.m_rteList.length ≤ 25) (hr : ∀ r ∈ h.m_rteList, r.InRange) :
    RemoveHeader {} (AddHeader h) = .ok (h, 4 + 20 * h.m_rteList.length) := by
  have hc' : h.m_command < 256 := by rcases hc with hc | hc <;> omega
  rw [AddHeader_eq_wireMessage h hc' (by omega)]
  exact RemoveHeader_wireMessage h.m_command h.m_rteList hc (by omega) hr

theorem codec_round_trip_witness :
    RemoveHeader {} (AddHeader { m_command := 2, m_rteList := [rteS6, {}] }) =
      .ok ({ m_command := 2, m_rteList := [rteS6, {}] }, 4 + 20 * 2) :=
  codec_round_trip { m_command := 2, m_rteList := [rteS6, {}] } (by decide) (by decide)
    (by decide)

/-- C2: bit-exact wire layout.  For a message with command 1 or 2 and `n`
RTEs (the size fitting the 32-bit result of `GetSerializedSize`),
`Serialize` writes exactly `4 + 20 * n` bytes: the command, 2, 0, 0, then
each RTE in list order as AFI, tag, address, mask, next hop, metric, every
integer big-endian; the RTE of scenario S6 gives the 20 bytes the spec
lists. -/
theorem serialize_wire_layout (h : Ripv2Header) (hc : h.m_command = 1 ∨ h.m_command = 2)
    (hn : 4 + 20 * h.m_rteList.length < 2 ^ 32) :
    AddHeader h = wireMessage h.m_command h.m_rteList ∧
      (AddHeader h).length = 4 + 20 * h.m_rteList.length ∧
      AddHeader { m_command := 2, m_rteList := [rteS6] } =
        [0x02, 0x02, 0x00, 0x00,
         0x00, 0x02, 0x12, 0x34, 0x0A, 0x01, 0x02, 0x00, 0xFF, 0xFF, 0xFF, 0x00,
         0x00, 0x00, 0x00, 0x00, 0x00, 0x00, 0x00, 0x05] := by
  have hc' : h.m_command < 256 := by rcases hc with hc | hc <;> omega
  have hw := AddHeader_eq_wireMessage h hc' hn
  refine ⟨hw, ?_, by decide⟩
  rw [hw]
  simp only [wireMessage, List.length_append, flatten_wireRte_length, List.length_cons,
    List.length_nil]

theorem serialize_wire_layout_witness :
    AddHeader { m_command := 1, m_rteList := [{}, rteS6] } =
        wireMessage 1 [{}, rteS6] ∧
      (AddHeader { m_command := 1, m_rteList := [{}, rteS6] }).length = 4 + 20 * 2 :=
  let t := serialize_wire_layout { m_command := 1, m_rteList := [{}, rteS6] } (by decide)
    (by decide)
  ⟨t.1, t.2.1⟩

/-! ## Lookup -/

open Ripv2

theorem Ripv2.Lookup.onRoute_not_candidate (ipv4 : Ipv4) (dst : Nat) (interface : Option Nat)
    (st : Option Ipv4Route × Nat) (cell : RouteCell) (hn : Normalised cell.1)
    (hc : ¬ Lookup.Candidate ipv4 dst interface cell.1) :
    Lookup.onRoute ipv4 dst interface st cell = st := by
  unfold Lookup.onRoute
  simp only [IsMatch, beq_iff_eq]
  unfold Normalised at hn
  unfold Lookup.Candidate at hc
  rw [hn]
  by_cases h1 : cell.1.m_status = .RIPV2_VALID
  · by_cases h2 : dst &&& cell.1.m_destNetworkMask = cell.1.m_dest
    · by_cases h3 : interface = none ∨ interface = some (ipv4.GetNetDevice cell.1.m_interface)
      · exact absurd ⟨h1, h2, h3⟩ hc
      · simp only [h1, h2, h3, if_true, if_false]
    · simp only [h1, h2, if_true, if_false]
  · simp only [h1, if_false]

theorem Ripv2.Lookup.onRoute_candidate (ipv4 : Ipv4) (dst : Nat) (interface : Option Nat)
    (st : Option Ipv4Route × Nat) (cell : RouteCell) (hn : Normalised cell.1)
    (hc : Lookup.Candidate ipv4 dst interface cell.1) :
    (GetPrefixLength cell.1.m_destNetworkMask < st.2 ∧
      Lookup.onRoute ipv4 dst interface st cell = st) ∨
    (st.2 ≤ GetPrefixLength cell.1.m_destNetworkMask ∧
      ∃ rt, Lookup.onRoute ipv4 dst interface st cell =
          (some rt, GetPrefixLength cell.1.m_destNetworkMask) ∧
        rt.m_gateway = cell.1.m_gateway ∧
        rt.m_outputDevice = ipv4.GetNetDevice cell.1.m_interface) := by
  unfold Lookup.onRoute
  simp only [IsMatch, beq_iff_eq]
  unfold Normalised at hn
  obtain ⟨h1, h2, h3⟩ := hc
  rw [hn]
  simp only [h1, h2, h3, if_true]
  by_cases hlt : GetPrefixLength cell.1.m_destNetworkMask < st.2
  · left; simp [hlt]
  · right
    refine ⟨by omega, ?_⟩
    simp only [hlt, if_false]
    exact ⟨_, rfl, rfl, rfl⟩

theorem Ripv2.Lookup.holds_step (ipv4 : Ipv4) (dst : Nat) (interface : Option Nat)
    (done : List RouteCell) (st : Option Ipv4Route × Nat) (cell : RouteCell)
    (hn : Normalised cell.1) (h : Lookup.Holds ipv4 dst interface done st) :
    Lookup.Holds ipv4 dst interface (done ++ [cell])
      (Lookup.onRoute ipv4 dst interface st cell) := by
  by_cases hc : Lookup.Candidate ipv4 dst interface cell.1
  · rcases Lookup.onRoute_candidate ipv4 dst interface st cell hn hc with
      ⟨hlt, heq⟩ | ⟨hle, rt, heq, hg, hd⟩
    · rw [heq]
      rcases h with ⟨_, h0, _⟩ | ⟨before, c, after, rt, hd, hs, hcc, hg, ho, hl, hb, ha⟩
      · omega
      · right
        refine ⟨before, c, after ++ [cell], rt, by simp [hd], hs, hcc, hg, ho, hl, hb, ?_⟩
        intro x hx hxc
        rcases List.mem_append.mp hx with hx | hx
        · exact ha x hx hxc
        · have : x = cell := by simpa using hx
          subst this; omega
    · rw [heq]
      right
      refine ⟨done, cell, [], rt, rfl, rfl, hc, hg, hd, rfl, ?_, by simp⟩
      intro x hx hxc
      rcases h with ⟨_, _, hno⟩ | ⟨before, c, after, rt', hd', hs, hcc, _, _, hl, hb, ha⟩
      · exact absurd hxc (hno x hx)
      · rw [hd'] at hx
        rcases List.mem_append.mp hx with hx | hx
        · have := hb x hx hxc; omega
        · rcases List.mem_cons.mp hx with hx | hx
          · subst hx; omega
          · have := ha x hx hxc; omega
  · rw [Lookup.onRoute_not_candidate ipv4 dst interface st cell hn hc]
    rcases h with ⟨h1, h0, hno⟩ | ⟨before, c, after, rt, hd, hs, hcc, hg, ho, hl, hb, ha⟩
    · left
      refine ⟨h1, h0, ?_⟩
      intro x hx
      rcases List.mem_append.mp hx with hx | hx
      · exact hno x hx
      · have : x = cell := by simpa using hx
        subst this; exact hc
    · right
      refine ⟨before, c, after ++ [cell], rt, by simp [hd], hs, hcc, hg, ho, hl, hb, ?_⟩
      intro x hx hxc
      rcases List.mem_append.mp hx with hx | hx
      · exact ha x hx hxc
      · have : x = cell := by simpa using hx
        subst this; exact absurd hxc hc

theorem Ripv2.Lookup.holds_foldl (ipv4 : Ipv4) (dst : Nat) (interface : Option Nat)
    (todo : List RouteCell) :
    ∀ (done : List RouteCell) (st : Option Ipv4Route × Nat),
      (∀ c ∈ todo, Normalised c.1) → Lookup.Holds ipv4 dst interface done st →
      Lookup.Holds ipv4 dst interface (done ++ todo)
        (todo.foldl (Lookup.onRoute ipv4 dst interface) st) := by
  induction todo with
  | nil => intro done st _ h; simpa using h
  | cons cell rest ih =>
    intro done st hn h
    have h1 := Lookup.holds_step ipv4 dst interface done st cell
      (hn cell (List.mem_cons_self _ _)) h
    have h2 := ih (done ++ [cell]) _ (fun c hc => hn c (List.mem_cons_of_mem _ hc)) h1
    simpa using h2

/-- C3: longest prefix match.  For a RIB whose entries are stored under their
own prefix and a destination that is not link-local multicast, `Lookup`
returns no route exactly when no VALID entry (on the preferred device, when
one is given) has `dst & mask` equal to its network; otherwise the route
carries the gateway and the output device of a VALID matching entry that no
matching entry before it beats in prefix length and every matching entry
after it is strictly shorter than: the last of the longest.  An INVALID
entry is never the one returned. -/
theorem lookup_longest_match (s : Ripv2) (ipv4 : Ipv4) (dst : Nat) (interface : Option Nat)
    (hm : IsLocalMulticast dst = false) (hn : ∀ c ∈ s.m_routes, Normalised c.1) :
    ∃ r, s.Lookup ipv4 dst interface = .ok r ∧
      (r = none ↔ ∀ c ∈ s.m_routes, ¬ Lookup.Candidate ipv4 dst interface c.1) ∧
      (∀ rt, r = some rt →
        ∃ before c after, s.m_routes = before ++ c :: after ∧
          Lookup.Candidate ipv4 dst interface c.1 ∧
          rt.m_gateway = c.1.m_gateway ∧
          rt.m_outputDevice = ipv4.GetNetDevice c.1.m_interface ∧
          (∀ x ∈ before, Lookup.Candidate ipv4 dst interface x.1 →
            GetPrefixLength x.1.m_destNetworkMask ≤ GetPrefixLength c.1.m_destNetworkMask) ∧
          (∀ x ∈ after, Lookup.Candidate ipv4 dst interface x.1 →
            GetPrefixLength x.1.m_destNetworkMask <
              GetPrefixLength c.1.m_destNetworkMask)) := by
  have h := Lookup.holds_foldl ipv4 dst interface s.m_routes [] (none, 0) hn
    (Or.inl ⟨rfl, rfl, by simp⟩)
  simp only [List.nil_append] at h
  refine ⟨(s.m_routes.foldl (Lookup.onRoute ipv4 dst interface) (none, 0)).1, ?_, ?_, ?_⟩
  · simp [Lookup, hm]
  · rcases h with ⟨h1, _, hno⟩ | ⟨before, c, after, rt, hd, hs, hcc, _⟩
    · exact ⟨fun _ => hno, fun _ => h1⟩
    · constructor
      · intro h0; rw [hs] at h0; exact absurd h0 (by simp)
      · intro hno
        exact absurd hcc (hno c (by rw [hd]; simp))
  · intro rt hrt
    rcases h with ⟨h1, _, _⟩ | ⟨before, c, after, rt', hd, hs, hcc, hg, ho, _, hb, ha⟩
    · rw [h1] at hrt; exact absurd hrt (by simp)
    · rw [hs] at hrt
      have : rt' = rt := by simpa using hrt
      subst this
      exact ⟨before, c, after, hd, hcc, hg, ho, hb, ha⟩

theorem lookup_longest_match_witness :
    IsLocalMulticast 0x0A010203 = false ∧ (∀ c ∈ ribW.m_routes, Normalised c.1) ∧
      ∃ r, ribW.Lookup ipv4W 0x0A010203 none = .ok r ∧
        (r = none ↔ ∀ c ∈ ribW.m_routes, ¬ Lookup.Candidate ipv4W 0x0A010203 none c.1) :=
  ⟨by decide, by decide,
    (lookup_longest_match ribW ipv4W 0x0A010203 none (by decide) (by decide)).imp
      (fun _ h => ⟨h.1, h.2.1⟩)⟩

/-! ## The simulator -/

theorem Simulator.Cancel_now (sim : Simulator) (id : EventId) : (sim.Cancel id).now = sim.now := by
  unfold Simulator.Cancel; cases id.m_uid <;> rfl

theorem Simulator.Schedule_now (sim : Simulator) (delay : Nat) (impl : EventImpl) :
    (sim.Schedule delay impl).2.now = sim.now := rfl

theorem Simulator.IsRunning_Cancel (sim : Simulator) (id : EventId) :
    (sim.Cancel id).IsRunning id = false := by
  unfold Simulator.IsRunning Simulator.IsExpired Simulator.Cancel
  cases h : id.m_uid with
  | none => simp
  | some uid =>
    simp only [Bool.not_not, Bool.not_eq_false', List.any_eq_true, not_exists,
      List.mem_map, Bool.and_eq_true, beq_iff_eq, Bool.not_eq_true', Bool.not_eq_true]
    simp only [List.any_map, List.any_eq_false, Function.comp]
    intro e _
    by_cases hu : e.uid = uid <;> simp [hu]

theorem Simulator.Cancel_Cancel (sim : Simulator) (id : EventId) :
    (sim.Cancel id).Cancel id = sim.Cancel id := by
  unfold Simulator.Cancel
  cases h : id.m_uid with
  | none => simp
  | some uid =>
    simp only [List.map_map, Simulator.mk.injEq, true_and]
    apply List.map_congr_left
    intro e _
    by_cases hu : e.uid = uid <;> simp [hu]

theorem Simulator.Armed_Schedule (sim : Simulator) (delay : Nat) (impl : EventImpl) :
    (sim.Schedule delay impl).2.Armed (sim.Schedule delay impl).1 impl delay := by
  unfold Simulator.Armed Simulator.Schedule Simulator.IsRunning Simulator.IsExpired
  refine ⟨rfl, ?_, sim.uid, rfl, ?_⟩
  · simp
  · simp

/-! ## The loops of HandleResponses -/

namespace Ripv2RoutingTableEntry

theorem SetRouteMetric_addr (e : Ripv2RoutingTableEntry) (m : Nat) :
    (e.SetRouteMetric m).addr = e.addr := by
  unfold SetRouteMetric; split_ifs <;> rfl

theorem SetRouteStatus_addr (e : Ripv2RoutingTableEntry) (st : Status_e) :
    (e.SetRouteStatus st).addr = e.addr := by
  unfold SetRouteStatus; split_ifs <;> rfl

theorem SetRouteTag_addr (e : Ripv2RoutingTableEntry) (t : Nat) :
    (e.SetRouteTag t).addr = e.addr := by
  unfold SetRouteTag; split_ifs <;> rfl

theorem SetRouteChanged_addr (e : Ripv2RoutingTableEntry) (b : Bool) :
    (e.SetRouteChanged b).addr = e.addr := rfl

end Ripv2RoutingTableEntry

namespace Ripv2

theorem HandleResponses.onRoute_other (td gd sa ii ra rm rme tag : Nat) (cell : RouteCell)
    (v : HandleResponses.Vars) (h : ¬ (cell.1.m_dest = ra ∧ cell.1.m_destNetworkMask = rm)) :
    HandleResponses.onRoute td gd sa ii ra rm rme tag cell v = (cell, v) := by
  unfold HandleResponses.onRoute
  simp only [h, if_false]

theorem HandleResponses.routesLoop_other (td gd sa ii ra rm rme tag : Nat)
    (l : List RouteCell) :
    ∀ (v : HandleResponses.Vars),
      (∀ c ∈ l, ¬ (c.1.m_dest = ra ∧ c.1.m_destNetworkMask = rm)) →
      HandleResponses.routesLoop td gd sa ii ra rm rme tag l v = (l, v) := by
  induction l with
  | nil => intro v _; rfl
  | cons c rest ih =>
    intro v h
    simp only [HandleResponses.routesLoop,
      HandleResponses.onRoute_other td gd sa ii ra rm rme tag c v (h c (List.mem_cons_self _ _)),
      ih v (fun x hx => h x (List.mem_cons_of_mem _ hx))]

theorem HandleResponses.routesLoop_append (td gd sa ii ra rm rme tag : Nat)
    (a b : List RouteCell) :
    ∀ (v : HandleResponses.Vars),
      HandleResponses.routesLoop td gd sa ii ra rm rme tag (a ++ b) v =
        ((HandleResponses.routesLoop td gd sa ii ra rm rme tag a v).1 ++
          (HandleResponses.routesLoop td gd sa ii ra rm rme tag b
            (HandleResponses.routesLoop td gd sa ii ra rm rme tag a v).2).1,
         (HandleResponses.routesLoop td gd sa ii ra rm rme tag b
            (HandleResponses.routesLoop td gd sa ii ra rm rme tag a v).2).2) := by
  induction a with
  | nil => intro v; rfl
  | cons c rest ih =>
    intro v
    simp only [List.cons_append, HandleResponses.routesLoop, List.append_eq, ih]

/-- The loop over a table in which one cell only is stored under the key:
that cell takes its turn, the others stay. -/
theorem HandleResponses.routesLoop_one (td gd sa ii ra rm rme tag : Nat)
    (before after : List RouteCell) (cell : RouteCell) (v : HandleResponses.Vars)
    (hb : ∀ c ∈ before, ¬ (c.1.m_dest = ra ∧ c.1.m_destNetworkMask = rm))
    (ha : ∀ c ∈ after, ¬ (c.1.m_dest = ra ∧ c.1.m_destNetworkMask = rm)) :
    HandleResponses.routesLoop td gd sa ii ra rm rme tag (before ++ cell :: after) v =
      (before ++ (HandleResponses.onRoute td gd sa ii ra rm rme tag cell v).1 :: after,
       (HandleResponses.onRoute td gd sa ii ra rm rme tag cell v).2) := by
  rw [HandleResponses.routesLoop_append,
    HandleResponses.routesLoop_other td gd sa ii ra rm rme tag before v hb]
  simp only [HandleResponses.routesLoop,
    HandleResponses.routesLoop_other td gd sa ii ra rm rme tag after _ ha]

theorem HandleResponses.onRoute_found (td gd sa ii ra rm rme tag : Nat) (cell : RouteCell)
    (v : HandleResponses.Vars) (h : cell.1.m_dest = ra ∧ cell.1.m_destNetworkMask = rm) :
    (HandleResponses.onRoute td gd sa ii ra rm rme tag cell v).2.found = true := by
  unfold HandleResponses.onRoute
  simp only [h, and_self, if_true]
  split_ifs <;> rfl

/-- The turn of the loop over the RTEs when no cell is stored under the key
of the RTE. -/
theorem HandleResponses.onRte_new (sa ii : Nat) (s : Ripv2) (changed : Bool) (rte : Ripv2Rte)
    (hno : ∀ c ∈ s.m_routes, ¬ KeyOf rte c) :
    HandleResponses.onRte sa ii (s, changed) rte =
      if HandleResponses.rteMetric s ii rte ≠ 16 then
        ({ s with
           m_routes :=
             ((((Ripv2RoutingTableEntry.new4 s.heap
               (CombineMask rte.m_IpAddress rte.m_SubnetMask) rte.m_SubnetMask sa
               ii).SetRouteMetric (HandleResponses.rteMetric s ii rte)).SetRouteStatus
                 .RIPV2_VALID).SetRouteChanged true,
              (s.sim.Schedule s.m_timeoutDelay (.InvalidateRoute s.heap)).1) :: s.m_routes
           sim := (s.sim.Schedule s.m_timeoutDelay (.InvalidateRoute s.heap)).2
           heap := s.heap + 1 }, true)
      else (s, changed) := by
  unfold HandleResponses.onRte
  simp only [HandleResponses.routesLoop_other _ _ _ _ _ _ _ _ s.m_routes _ hno, true_and]
  by_cases h16 : HandleResponses.rteMetric s ii rte = 16
  · simp [h16]
  · simp only [h16, ne_eq, not_false_eq_true, if_true,
      Ripv2RoutingTableEntry.SetRouteChanged_addr, Ripv2RoutingTableEntry.SetRouteStatus_addr,
      Ripv2RoutingTableEntry.SetRouteMetric_addr]
    rfl

/-- The turn of the loop over the RTEs when one cell only is stored under
the key of the RTE. -/
theorem HandleResponses.onRte_one (sa ii : Nat) (s : Ripv2) (changed : Bool) (rte : Ripv2Rte)
    (before after : List RouteCell) (cell : RouteCell)
    (hs : s.m_routes = before ++ cell :: after) (hk : KeyOf rte cell)
    (hb : ∀ c ∈ before, ¬ KeyOf rte c) (ha : ∀ c ∈ after, ¬ KeyOf rte c) :
    HandleResponses.onRte sa ii (s, changed) rte =
      ({ s with
         m_routes := before ++
           (HandleResponses.onRoute s.m_timeoutDelay s.m_garbageCollectionDelay sa ii
             (CombineMask rte.m_IpAddress rte.m_SubnetMask) rte.m_SubnetMask
             (HandleResponses.rteMetric s ii rte) rte.m_tag cell
             { sim := s.sim, heap := s.heap, found := false, changed := changed }).1 :: after
         sim := (HandleResponses.onRoute s.m_timeoutDelay s.m_garbageCollectionDelay sa ii
             (CombineMask rte.m_IpAddress rte.m_SubnetMask) rte.m_SubnetMask
             (HandleResponses.rteMetric s ii rte) rte.m_tag cell
             { sim := s.sim, heap := s.heap, found := false, changed := changed }).2.sim
         heap := (HandleResponses.onRoute s.m_timeoutDelay s.m_garbageCollectionDelay sa ii
             (CombineMask rte.m_IpAddress rte.m_SubnetMask) rte.m_SubnetMask
             (HandleResponses.rteMetric s ii rte) rte.m_tag cell
             { sim := s.sim, heap := s.heap, found := false, changed := changed }).2.heap },
       (HandleResponses.onRoute s.m_timeoutDelay s.m_garbageCollectionDelay sa ii
             (CombineMask rte.m_IpAddress rte.m_SubnetMask) rte.m_SubnetMask
             (HandleResponses.rteMetric s ii rte) rte.m_tag cell
             { sim := s.sim, heap := s.heap, found := false, changed := changed }).2.changed) := by
  unfold HandleResponses.onRte
  simp only [hs, HandleResponses.routesLoop_one _ _ _ _ _ _ _ _ before after cell _ hb ha,
    HandleResponses.onRoute_found _ _ _ _ _ _ _ _ cell _ hk]
  simp

end Ripv2

namespace Ripv2RoutingTableEntry

theorem setters_eq (e : Ripv2RoutingTableEntry) (m : Nat) (st : Status_e) (t : Nat) :
    (((e.SetRouteMetric m).SetRouteStatus st).SetRouteTag t).SetRouteChanged true =
      { e with m_metric := m, m_status := st, m_tag := t, m_changed := true } := by
  cases e
  simp only [SetRouteMetric, SetRouteStatus, SetRouteTag, SetRouteChanged]
  split_ifs <;> simp_all

theorem setters_eq_no_tag (e : Ripv2RoutingTableEntry) (m : Nat) (st : Status_e) :
    ((e.SetRouteMetric m).SetRouteStatus st).SetRouteChanged true =
      { e with m_metric := m, m_status := st, m_changed := true } := by
  cases e
  simp only [SetRouteMetric, SetRouteStatus, SetRouteChanged]
  split_ifs <;> simp_all

theorem setters_eq_invalidate (e : Ripv2RoutingTableEntry) (m : Nat) (st : Status_e) :
    ((e.SetRouteStatus st).SetRouteMetric m).SetRouteChanged true =
      { e with m_metric := m, m_status := st, m_changed := true } := by
  cases e
  simp only [SetRouteMetric, SetRouteStatus, SetRouteChanged]
  split_ifs <;> simp_all

end Ripv2RoutingTableEntry

theorem Simulator.IsRunning_Schedule_of_ne (sim : Simulator) (delay : Nat) (impl : EventImpl)
    (id : EventId) (h : id.m_uid ≠ (sim.Schedule delay impl).1.m_uid) :
    (sim.Schedule delay impl).2.IsRunning id = sim.IsRunning id := by
  unfold Simulator.IsRunning Simulator.IsExpired Simulator.Schedule at *
  cases hu : id.m_uid with
  | none => rfl
  | some uid =>
    have : sim.uid ≠ uid := by
      intro hc; apply h; simp [hu, hc]
    simp [this]

theorem GetPrefixLength.loop_le (fuel : Nat) :
    ∀ (mask tmp : Nat), GetPrefixLength.loop fuel mask tmp ≤ tmp + fuel := by
  induction fuel with
  | zero => intro mask tmp; simp [GetPrefixLength.loop]
  | succ n ih =>
    intro mask tmp
    unfold GetPrefixLength.loop
    split_ifs
    · omega
    · have h1 := ih (mask * 2 % 2 ^ 32) ((tmp + 1) % 2 ^ 16)
      have h2 : (tmp + 1) % 2 ^ 16 ≤ tmp + 1 := Nat.mod_le _ _
      omega

theorem GetPrefixLength_le (mask : Nat) : GetPrefixLength mask ≤ 32 := by
  have := GetPrefixLength.loop_le 32 mask 0
  unfold GetPrefixLength
  omega

namespace Ripv2

theorem HandleResponses.onRoute_now (td gd sa ii ra rm rme tag : Nat) (cell : RouteCell)
    (v : HandleResponses.Vars) :
    (HandleResponses.onRoute td gd sa ii ra rm rme tag cell v).2.sim.now = v.sim.now := by
  unfold HandleResponses.onRoute InvalidateRoute.onCell
  simp only []
  split_ifs <;> simp only [Simulator.Schedule, Simulator.Cancel_now]

theorem HandleResponses.routesLoop_now (td gd sa ii ra rm rme tag : Nat) (l : List RouteCell) :
    ∀ (v : HandleResponses.Vars),
      (HandleResponses.routesLoop td gd sa ii ra rm rme tag l v).2.sim.now = v.sim.now := by
  induction l with
  | nil => intro v; rfl
  | cons c rest ih =>
    intro v
    simp only [HandleResponses.routesLoop, ih, HandleResponses.onRoute_now]

theorem HandleResponses.onRte_settings (sa ii : Nat) (st : Ripv2 × Bool) (rte : Ripv2Rte) :
    SameSettings (HandleResponses.onRte sa ii st rte).1 st.1 := by
  unfold HandleResponses.onRte SameSettings
  simp only []
  split_ifs <;> simp [Simulator.Schedule, HandleResponses.routesLoop_now]

theorem HandleResponses.foldl_settings (sa ii : Nat) (rtes : List Ripv2Rte) :
    ∀ (st : Ripv2 × Bool),
      SameSettings (rtes.foldl (HandleResponses.onRte sa ii) st).1 st.1 := by
  induction rtes with
  | nil => intro st; exact ⟨rfl, rfl, rfl, rfl, rfl, rfl⟩
  | cons r rest ih =>
    intro st
    obtain ⟨a1, a2, a3, a4, a5, a6⟩ := ih (HandleResponses.onRte sa ii st r)
    obtain ⟨b1, b2, b3, b4, b5, b6⟩ := HandleResponses.onRte_settings sa ii st r
    exact ⟨a1.trans b1, a2.trans b2, a3.trans b3, a4.trans b4, a5.trans b5, a6.trans b6⟩

theorem HandleResponses.reached_settings (s : Ripv2) (sa ii : Nat) (pre : List Ripv2Rte) :
    SameSettings (HandleResponses.reached s sa ii pre).1 s :=
  HandleResponses.foldl_settings sa ii pre (s, false)

theorem HandleResponses.validate_append (a b : List Ripv2Rte) :
    HandleResponses.validate (a ++ b) =
      (HandleResponses.validate a && HandleResponses.validate b) := by
  induction a with
  | nil => simp [HandleResponses.validate]
  | cons r rest ih =>
    simp only [List.cons_append, HandleResponses.validate]
    split_ifs
    · rfl
    · rfl
    · rfl
    · exact ih

theorem HandleResponses.validate_cons (rte : Ripv2Rte) (rest : List Ripv2Rte)
    (h : HandleResponses.validate (rte :: rest) = true) :
    1 ≤ rte.m_metric ∧ rte.m_metric ≤ 16 ∧ rte.m_IpAddress ≠ GetLoopback ∧
      IsMulticast rte.m_IpAddress = false ∧ HandleResponses.validate rest = true := by
  unfold HandleResponses.validate at h
  split_ifs at h with h1 h2 h3
  refine ⟨by omega, by omega, fun hc => h3 (Or.inl hc), ?_, h⟩
  cases hm : IsMulticast rte.m_IpAddress
  · rfl
  · exact absurd (Or.inr hm) h3

theorem HandleResponses.validate_split (pre post : List Ripv2Rte) (rte : Ripv2Rte)
    (h : HandleResponses.validate (pre ++ rte :: post) = true) :
    1 ≤ rte.m_metric ∧ rte.m_metric ≤ 16 := by
  rw [HandleResponses.validate_append, Bool.and_eq_true] at h
  have := HandleResponses.validate_cons rte post h.2
  exact ⟨this.1, this.2.1⟩

theorem HandleResponses.rteMetric_eq (s : Ripv2) (ii : Nat) (rte : Ripv2Rte)
    (hm : rte.m_metric ≤ 16) (hk : HandleResponses.interfaceMetric s ii < 16) :
    HandleResponses.rteMetric s ii rte =
      min (rte.m_metric + HandleResponses.interfaceMetric s ii) 16 := by
  unfold HandleResponses.rteMetric
  rw [Nat.mod_eq_of_lt (by omega)]

theorem HandleResponses.rteMetric_settings (a b : Ripv2) (ii : Nat) (rte : Ripv2Rte)
    (h : SameSettings a b) :
    HandleResponses.rteMetric a ii rte = HandleResponses.rteMetric b ii rte := by
  unfold HandleResponses.rteMetric HandleResponses.interfaceMetric
  rw [h.1]

theorem HandleResponses.onRoute_changed (td gd sa ii ra rm rme tag : Nat) (cell : RouteCell)
    (v : HandleResponses.Vars) (h : v.changed = true) :
    (HandleResponses.onRoute td gd sa ii ra rm rme tag cell v).2.changed = true := by
  unfold HandleResponses.onRoute InvalidateRoute.onCell
  simp only []
  split_ifs <;> first | rfl | exact h

theorem HandleResponses.routesLoop_changed (td gd sa ii ra rm rme tag : Nat)
    (l : List RouteCell) :
    ∀ (v : HandleResponses.Vars), v.changed = true →
      (HandleResponses.routesLoop td gd sa ii ra rm rme tag l v).2.changed = true := by
  induction l with
  | nil => intro v h; exact h
  | cons c rest ih =>
    intro v h
    simp only [HandleResponses.routesLoop]
    exact ih _ (HandleResponses.onRoute_changed td gd sa ii ra rm rme tag c v h)

theorem HandleResponses.onRte_changed (sa ii : Nat) (st : Ripv2 × Bool) (rte : Ripv2Rte)
    (h : st.2 = true) : (HandleResponses.onRte sa ii st rte).2 = true := by
  unfold HandleResponses.onRte
  simp only []
  split_ifs
  · rfl
  · exact HandleResponses.routesLoop_changed _ _ _ _ _ _ _ _ _ _ h

theorem HandleResponses.foldl_changed (sa ii : Nat) (rtes : List Ripv2Rte) :
    ∀ (st : Ripv2 × Bool), st.2 = true →
      (rtes.foldl (HandleResponses.onRte sa ii) st).2 = true := by
  induction rtes with
  | nil => intro st h; exact h
  | cons r rest ih =>
    intro st h
    exact ih _ (HandleResponses.onRte_changed sa ii st r h)

/-- Once the variable `changed` is set, the method ends with one call of
`SendTriggeredRouteUpdate`. -/
theorem HandleResponses.finish_calls (sa ii : Nat) (st : Ripv2 × Bool) (post : List Ripv2Rte)
    (delay : Nat) (h : st.2 = true) :
    (HandleResponses.finish sa ii st post delay).triggeredUpdateCalls =
      st.1.triggeredUpdateCalls + 1 := by
  have h1 := HandleResponses.foldl_changed sa ii post st h
  have h2 := (HandleResponses.foldl_settings sa ii post st).2.2.2.2.2
  unfold HandleResponses.finish
  simp only [h1, if_true]
  unfold SendTriggeredRouteUpdate
  simp only []
  split_ifs <;> simp [h2]

/-- An accepted Response is processed RTE by RTE: the RTEs before one of
them, that RTE, the RTEs after it and the request of a triggered update. -/
theorem HandleResponses.accepted_eq (s : Ripv2) (hdr : Ripv2Header) (sa ii ttl delay : Nat)
    (pre post : List Ripv2Rte) (rte : Ripv2Rte) (hacc : HandleResponses.Accepted s hdr ii ttl)
    (hsplit : hdr.m_rteList = pre ++ rte :: post) :
    s.HandleResponses hdr sa ii ttl delay =
      HandleResponses.finish sa ii
        (HandleResponses.onRte sa ii (HandleResponses.reached s sa ii pre) rte) post delay := by
  obtain ⟨h1, h2, h3⟩ := hacc
  unfold Ripv2.HandleResponses HandleResponses.finish HandleResponses.reached
  simp only [h1, h2, h3, if_false, ne_eq, not_true_eq_false, Bool.true_eq_false]
  rw [hsplit, List.foldl_append, List.foldl_cons]

end Ripv2

/-! ## The update rules of HandleResponses -/

/-- C4: new prefix rule.  In an accepted Response (interface not excluded,
TTL 255, every RTE valid), when the loop reaches an RTE whose key
`(addr & mask, mask)` no cell of the table has, with
`newMetric = min (metric + interface metric, 16)`: if `newMetric < 16` one
cell is added in front of the table, whose route has destination
`addr & mask`, that mask, the sender as gateway, the arrival interface,
metric `newMetric`, status VALID, `changed` set and a timer armed for
`InvalidateRoute` at the timeout delay, and the variable `changed` is set; if
`newMetric = 16` the state and the variable are as before.  The timeout
delay of a new agent is 180 s. -/
theorem new_prefix_rule (s : Ripv2) (hdr : Ripv2Header) (sa ii ttl delay : Nat)
    (pre post : List Ripv2Rte) (rte : Ripv2Rte)
    (hacc : HandleResponses.Accepted s hdr ii ttl)
    (hsplit : hdr.m_rteList = pre ++ rte :: post)
    (hk : HandleResponses.interfaceMetric s ii < 16)
    (hno : ∀ c ∈ (HandleResponses.reached s sa ii pre).1.m_routes, ¬ KeyOf rte c) :
    let st := HandleResponses.reached s sa ii pre
    let st' := HandleResponses.onRte sa ii st rte
    let newMetric := min (rte.m_metric + HandleResponses.interfaceMetric s ii) 16
    s.HandleResponses hdr sa ii ttl delay = HandleResponses.finish sa ii st' post delay ∧
    (newMetric < 16 →
      ∃ id, st'.1.m_routes =
          ({ addr := st.1.heap, m_dest := rte.m_IpAddress &&& rte.m_SubnetMask,
             m_destNetworkMask := rte.m_SubnetMask, m_gateway := sa, m_interface := ii,
             m_tag := 0, m_metric := newMetric, m_status := .RIPV2_VALID,
             m_changed := true }, id) :: st.1.m_routes ∧
        st'.1.sim.Armed id (.InvalidateRoute st.1.heap) s.m_timeoutDelay ∧ st'.2 = true) ∧
    (newMetric = 16 → st' = st) ∧
    ({} : Ripv2).m_timeoutDelay = Seconds 180 := by
  intro st st' newMetric
  have hset := HandleResponses.reached_settings s sa ii pre
  have hval := HandleResponses.validate_split pre post rte (hsplit ▸ hacc.2.2)
  have hm : HandleResponses.rteMetric st.1 ii rte = newMetric := by
    rw [HandleResponses.rteMetric_settings _ _ ii rte hset]
    exact HandleResponses.rteMetric_eq s ii rte hval.2 hk
  have hst' : st' = _ := HandleResponses.onRte_new sa ii st.1 st.2 rte hno
  rw [hm] at hst'
  refine ⟨HandleResponses.accepted_eq s hdr sa ii ttl delay pre post rte hacc hsplit, ?_, ?_,
    rfl⟩
  · intro hlt
    have hne : newMetric ≠ 16 := by omega
    rw [if_pos hne] at hst'
    refine ⟨(st.1.sim.Schedule st.1.m_timeoutDelay (.InvalidateRoute st.1.heap)).1, ?_, ?_, ?_⟩
    · rw [hst', Ripv2RoutingTableEntry.setters_eq_no_tag]
      simp only [Ripv2RoutingTableEntry.new4, CombineMask]
    · rw [hst', ← hset.2.1]
      exact Simulator.Armed_Schedule _ _ _
    · rw [hst']
  · intro h16
    rw [hst']
    simp [h16]

theorem new_prefix_rule_witness :
    HandleResponses.Accepted ribW { m_command := 2, m_rteList := [rteS6] } 1 255 ∧
      ((ribW.HandleResponses { m_command := 2, m_rteList := [rteS6] } 0x0A000009 1 255 0 =
          HandleResponses.finish 0x0A000009 1
            (HandleResponses.onRte 0x0A000009 1 (HandleResponses.reached ribW 0x0A000009 1 [])
              rteS6) [] 0) ∧
        (min (rteS6.m_metric + HandleResponses.interfaceMetric ribW 1) 16 = 16 →
          HandleResponses.onRte 0x0A000009 1 (HandleResponses.reached ribW 0x0A000009 1 [])
              rteS6 = HandleResponses.reached ribW 0x0A000009 1 [])) :=
  let t := new_prefix_rule ribW { m_command := 2, m_rteList := [rteS6] } 0x0A000009 1 255 0
    [] [] rteS6 (by decide) rfl (by decide) (by decide)
  ⟨by decide, t.1, t.2.2.1⟩

namespace Ripv2

theorem HandleResponses.onRoute_better (td gd sa ii ra rm rme tag : Nat) (cell : RouteCell)
    (v : HandleResponses.Vars) (hkey : cell.1.m_dest = ra ∧ cell.1.m_destNetworkMask = rm)
    (hlt : rme < cell.1.m_metric) :
    HandleResponses.onRoute td gd sa ii ra rm rme tag cell v =
      (({ (if sa ≠ cell.1.m_gateway then Ripv2RoutingTableEntry.new4 v.heap ra rm sa ii
            else cell.1) with
          m_metric := rme, m_status := .RIPV2_VALID, m_tag := tag, m_changed := true },
        ((v.sim.Cancel cell.2).Schedule td (.InvalidateRoute
          (if sa ≠ cell.1.m_gateway then Ripv2RoutingTableEntry.new4 v.heap ra rm sa ii
            else cell.1).addr)).1),
       { sim := ((v.sim.Cancel cell.2).Schedule td (.InvalidateRoute
          (if sa ≠ cell.1.m_gateway then Ripv2RoutingTableEntry.new4 v.heap ra rm sa ii
            else cell.1).addr)).2,
         heap := if sa ≠ cell.1.m_gateway then v.heap + 1 else v.heap,
         found := true, changed := true }) := by
  unfold HandleResponses.onRoute
  simp only [hkey, and_self, if_true, hlt, Ripv2RoutingTableEntry.setters_eq,
    Ripv2RoutingTableEntry.SetRouteChanged_addr, Ripv2RoutingTableEntry.SetRouteTag_addr,
    Ripv2RoutingTableEntry.SetRouteStatus_addr, Ripv2RoutingTableEntry.SetRouteMetric_addr]

theorem HandleResponses.onRoute_refresh (td gd sa ii ra rm rme tag : Nat) (cell : RouteCell)
    (v : HandleResponses.Vars) (hkey : cell.1.m_dest = ra ∧ cell.1.m_destNetworkMask = rm)
    (heq : rme = cell.1.m_metric) (hgw : sa = cell.1.m_gateway) :
    HandleResponses.onRoute td gd sa ii ra rm rme tag cell v =
      ((cell.1, ((v.sim.Cancel cell.2).Schedule td (.InvalidateRoute cell.1.addr)).1),
       { sim := ((v.sim.Cancel cell.2).Schedule td (.InvalidateRoute cell.1.addr)).2,
         heap := v.heap, found := true, changed := v.changed }) := by
  unfold HandleResponses.onRoute
  simp only [hkey, and_self, if_true, heq, hgw, lt_irrefl, if_false]

theorem HandleResponses.onRoute_worse (td gd sa ii ra rm rme tag : Nat) (cell : RouteCell)
    (v : HandleResponses.Vars) (hkey : cell.1.m_dest = ra ∧ cell.1.m_destNetworkMask = rm)
    (hgt : cell.1.m_metric < rme) (hgw : sa = cell.1.m_gateway) (h16 : rme < 16) :
    HandleResponses.onRoute td gd sa ii ra rm rme tag cell v =
      (({ cell.1 with
          m_metric := rme, m_status := .RIPV2_VALID, m_tag := tag, m_changed := true },
        ((v.sim.Cancel cell.2).Schedule td (.InvalidateRoute cell.1.addr)).1),
       { sim := ((v.sim.Cancel cell.2).Schedule td (.InvalidateRoute cell.1.addr)).2,
         heap := v.heap, found := true, changed := true }) := by
  have h1 : ¬ rme < cell.1.m_metric := by omega
  have h2 : ¬ rme = cell.1.m_metric := by omega
  have h3 : rme > cell.1.m_metric := hgt
  unfold HandleResponses.onRoute
  simp only [hkey, and_self, if_true, h1, h2, h3, hgw, h16, if_false,
    Ripv2RoutingTableEntry.setters_eq, Simulator.Cancel_Cancel,
    Ripv2RoutingTableEntry.SetRouteChanged_addr, Ripv2RoutingTableEntry.SetRouteTag_addr,
    Ripv2RoutingTableEntry.SetRouteStatus_addr, Ripv2RoutingTableEntry.SetRouteMetric_addr]

theorem HandleResponses.onRoute_unreachable (td gd sa ii ra rm rme tag : Nat)
    (cell : RouteCell) (v : HandleResponses.Vars)
    (hkey : cell.1.m_dest = ra ∧ cell.1.m_destNetworkMask = rm)
    (hgt : cell.1.m_metric < rme) (hgw : sa = cell.1.m_gateway) (h16 : ¬ rme < 16) :
    HandleResponses.onRoute td gd sa ii ra rm rme tag cell v =
      (({ cell.1 with m_metric := 16, m_status := .RIPV2_INVALID, m_changed := true },
        ((v.sim.Cancel cell.2).Schedule gd (.DeleteRoute cell.1.addr)).1),
       { sim := ((v.sim.Cancel cell.2).Schedule gd (.DeleteRoute cell.1.addr)).2,
         heap := v.heap, found := true, changed := true }) := by
  have h1 : ¬ rme < cell.1.m_metric := by omega
  have h2 : ¬ rme = cell.1.m_metric := by omega
  have h3 : rme > cell.1.m_metric := hgt
  unfold HandleResponses.onRoute InvalidateRoute.onCell
  simp only [hkey, and_self, if_true, h1, h2, h3, hgw, h16, if_false,
    Ripv2RoutingTableEntry.setters_eq_invalidate, Simulator.IsRunning_Cancel,
    Bool.false_eq_true,
    Ripv2RoutingTableEntry.SetRouteChanged_addr,
    Ripv2RoutingTableEntry.SetRouteStatus_addr, Ripv2RoutingTableEntry.SetRouteMetric_addr]

theorem Simulator_not_running_after (sim : Simulator) (old : EventId) (delay : Nat)
    (impl : EventImpl)
    (h : old.m_uid ≠ ((sim.Cancel old).Schedule delay impl).1.m_uid) :
    ((sim.Cancel old).Schedule delay impl).2.IsRunning old = false := by
  rw [Simulator.IsRunning_Schedule_of_ne _ _ _ _ h, Simulator.IsRunning_Cancel]

end Ripv2

/-! ## Rejected Responses -/

theorem Ripv2.HandleResponses.validate_malformed (rtes : List Ripv2Rte)
    (h : ∃ rte ∈ rtes, Malformed rte) : HandleResponses.validate rtes = false := by
  induction rtes with
  | nil => obtain ⟨rte, hmem, _⟩ := h; simp at hmem
  | cons r rest ih =>
    obtain ⟨rte, hmem, hbad⟩ := h
    unfold HandleResponses.validate
    split_ifs with h1 h2 h3
    · rfl
    · rfl
    · rfl
    · rcases List.mem_cons.mp hmem with hr | hr
      · subst hr
        rcases hbad with hb | hb | hb | hb | hb
        · exact absurd (Or.inl hb) h1
        · exact absurd (Or.inr hb) h1
        · exact absurd hb h2
        · exact absurd (Or.inl hb) h3
        · exact absurd (Or.inr hb) h3
      · exact ih ⟨rte, hr, hbad⟩

/-- C9, as amended: validation is all or nothing.  When some RTE of a
Response, at any place in it, has metric 0 or above 16, a prefix length above
32, the address 127.0.0.1 (`Ipv4Address::GetLoopback ()`) or a multicast
address, `HandleResponses` returns the state it was given: table, timers,
simulator queue and the count of triggered update requests, whatever the RTEs
before the bad one.  These are the only RTEs the validation rejects: an RTE
passes it exactly when it is none of them, so an RTE with metric 16 passes,
and so does one whose address is in 127.0.0.0/8 but is not 127.0.0.1. -/
theorem validation_all_or_nothing (s : Ripv2) (hdr : Ripv2Header) (sa ii ttl delay : Nat)
    (hbad : ∃ rte ∈ hdr.m_rteList, Malformed rte) :
    s.HandleResponses hdr sa ii ttl delay = s ∧
      (∀ rte : Ripv2Rte, rte.m_metric = 16 → rte.m_IpAddress ≠ GetLoopback →
        IsMulticast rte.m_IpAddress = false → HandleResponses.validate [rte] = true) ∧
      (∀ rte : Ripv2Rte, HandleResponses.validate [rte] = false ↔ Malformed rte) ∧
      GetLoopback = 0x7F000001 := by
  refine ⟨?_, ?_, ?_, rfl⟩
  · unfold Ripv2.HandleResponses
    simp only [HandleResponses.validate_malformed _ hbad, if_true]
    split_ifs <;> rfl
  · intro rte h16 hl hm
    have hp := GetPrefixLength_le rte.m_SubnetMask
    unfold HandleResponses.validate
    simp only [h16, hl, hm, HandleResponses.validate]
    simp
    omega
  · intro rte
    constructor
    · intro hv
      unfold HandleResponses.validate at hv
      unfold Malformed
      split_ifs at hv with h1 h2 h3
      · rcases h1 with h1 | h1
        · exact Or.inl h1
        · exact Or.inr (Or.inl h1)
      · exact Or.inr (Or.inr (Or.inl h2))
      · rcases h3 with h3 | h3
        · exact Or.inr (Or.inr (Or.inr (Or.inl h3)))
        · exact Or.inr (Or.inr (Or.inr (Or.inr h3)))
      · simp [HandleResponses.validate] at hv
    · intro hm
      exact HandleResponses.validate_malformed [rte] ⟨rte, List.mem_singleton.mpr rfl, hm⟩

theorem validation_all_or_nothing_witness :
    (∃ rte ∈ [rteV 1, rteV 0], Malformed rte) ∧
      ribV.HandleResponses { m_command := 2, m_rteList := [rteV 1, rteV 0] } 0x0A000002 1 255
        0 = ribV ∧
      ribV.HandleResponses { m_command := 2, m_rteList := [rteV 1] } 0x0A000002 1 255 0 ≠
        ribV :=
  ⟨by decide,
    (validation_all_or_nothing ribV { m_command := 2, m_rteList := [rteV 1, rteV 0] }
      0x0A000002 1 255 0 (by decide)).1,
    by decide⟩

/-- C9, what breaks it: a loopback address other than 127.0.0.1.  A
Response from 10.0.0.2 on interface 1 with TTL 255 carries 127.0.0.2/32 and
the loopback prefix 127.0.0.0/8, both at metric 1.  Neither is rejected: the
Response is accepted, both prefixes are installed in `ribV` as VALID routes
of metric 2 through 10.0.0.2, and a triggered update is requested. -/
theorem loopback_prefix_accepted :
    (¬ Malformed { m_IpAddress := 0x7F000002, m_SubnetMask := 0xFFFFFFFF, m_metric := 1 } ∧
      ¬ Malformed { m_IpAddress := 0x7F000000, m_SubnetMask := 0xFF000000, m_metric := 1 }) ∧
    HandleResponses.Accepted ribV
      { m_command := 2,
        m_rteList := [{ m_IpAddress := 0x7F000002, m_SubnetMask := 0xFFFFFFFF, m_metric := 1 },
                      { m_IpAddress := 0x7F000000, m_SubnetMask := 0xFF000000, m_metric := 1 }] }
      1 255 ∧
    ribV.m_routes.map (fun c => (c.1.m_dest, c.1.m_destNetworkMask, c.1.m_gateway,
        c.1.m_metric, c.1.m_status)) =
      [(0xC0A80000, 0xFFFF0000, 0, 1, .RIPV2_VALID),
       (0x0A000000, 0xFF000000, 0x0A000001, 5, .RIPV2_VALID)] ∧
    (ribV.HandleResponses
        { m_command := 2,
          m_rteList := [{ m_IpAddress := 0x7F000002, m_SubnetMask := 0xFFFFFFFF, m_metric := 1 },
                        { m_IpAddress := 0x7F000000, m_SubnetMask := 0xFF000000,
                          m_metric := 1 }] }
        0x0A000002 1 255 0).m_routes.map (fun c => (c.1.m_dest, c.1.m_destNetworkMask,
          c.1.m_gateway, c.1.m_metric, c.1.m_status)) =
      [(0x7F000000, 0xFF000000, 0x0A000002, 2, .RIPV2_VALID),
       (0x7F000002, 0xFFFFFFFF, 0x0A000002, 2, .RIPV2_VALID),
       (0xC0A80000, 0xFFFF0000, 0, 1, .RIPV2_VALID),
       (0x0A000000, 0xFF000000, 0x0A000001, 5, .RIPV2_VALID)] ∧
    (ribV.HandleResponses
        { m_command := 2,
          m_rteList := [{ m_IpAddress := 0x7F000002, m_SubnetMask := 0xFFFFFFFF, m_metric := 1 },
                        { m_IpAddress := 0x7F000000, m_SubnetMask := 0xFF000000,
                          m_metric := 1 }] }
        0x0A000002 1 255 0).triggeredUpdateCalls = ribV.triggeredUpdateCalls + 1 := by
  refine ⟨⟨by decide, by decide⟩, by decide, by decide, by decide, by decide⟩

/-- C10: rejection of a Response.  A packet that carries a Response and
arrives on an excluded interface, or with a TTL other than 255, or from an
address of the router itself, leaves the whole state as it was: table,
timers, simulator queue and the count of triggered update requests; and so
does `HandleResponses` itself, whatever the RTEs, on an excluded interface or
with a TTL other than 255. -/
theorem response_rejection (s : Ripv2) (ipv4 : Ipv4) (GetDevice : Nat → Nat) (packet : Packet)
    (delay incomingIf ttl senderAddress senderPort size : Nat) (hdr : Ripv2Header)
    (hif : packet.recvIf = some incomingIf) (httl : packet.ttl = some ttl)
    (hfrom : packet.sender = some (senderAddress, senderPort))
    (hhdr : RemoveHeader {} packet.bytes = .ok (hdr, size)) (hcmd : hdr.m_command = RESPONSE)
    (hrej : ((ipv4.GetInterfaceForDevice (GetDevice incomingIf)) % 2 ^ 32).toNat ∈
        s.m_interfaceExclusions ∨ ttl ≠ 255 ∨ ipv4.GetInterfaceForAddress senderAddress ≠ -1) :
    s.Receive ipv4 GetDevice packet delay = .ok s ∧
      ∀ (anyHdr : Ripv2Header) (sa ii : Nat), (ii ∈ s.m_interfaceExclusions ∨ ttl ≠ 255) →
        s.HandleResponses anyHdr sa ii ttl delay = s := by
  have hdirect : ∀ (anyHdr : Ripv2Header) (sa ii : Nat),
      (ii ∈ s.m_interfaceExclusions ∨ ttl ≠ 255) →
        s.HandleResponses anyHdr sa ii ttl delay = s := by
    intro anyHdr sa ii h
    unfold Ripv2.HandleResponses
    rcases h with h | h
    · simp only [h, if_true]
    · simp only [h, ne_eq, not_false_eq_true, if_true, ite_self]
  refine ⟨?_, hdirect⟩
  unfold Ripv2.Receive
  simp only [hif, httl, hfrom, hhdr, hcmd, if_true]
  by_cases hown : ipv4.GetInterfaceForAddress senderAddress = -1
  · simp only [hown, ne_eq, not_true_eq_false, if_false]
    rcases hrej with h | h | h
    · rw [hdirect hdr senderAddress _ (Or.inl h)]
    · rw [hdirect hdr senderAddress _ (Or.inr h)]
    · exact absurd hown h
  · simp only [hown, ne_eq, not_false_eq_true, if_true]

theorem response_rejection_witness :
    packetA.recvIf = some 1 ∧ (254 : Nat) ≠ 255 ∧
      ribV.Receive ipv4W id { packetA with ttl := some 254 } 0 = .ok ribV :=
  ⟨rfl, by decide,
    (response_rejection ribV ipv4W id { packetA with ttl := some 254 } 0 1 254 0x0A000001 520
      24 { m_command := 2,
           m_rteList := [{ m_IpAddress := 0xC0A80100, m_SubnetMask := 0xFFFFFF00,
                           m_metric := 1 }] }
      rfl rfl rfl rfl rfl (Or.inr (Or.inl (by decide)))).1⟩

/-- C8, the run that breaks it: from the empty table with the default delays,
a route learnt from 10.0.0.1 times out, and while it waits for its garbage
collection an RTE of metric 16 for its prefix from 10.0.0.2 puts in its place
a route that is VALID with metric 16. -/
theorem infinity_installed_as_valid :
    (run ipv4W id {} (runInfinity.take 5)).map
        (fun s => s.m_routes.map (fun c => (c.1.m_status, c.1.m_metric, c.1.m_gateway))) =
      some [(.RIPV2_INVALID, 16, 0x0A000001)] ∧
    (run ipv4W id {} runInfinity).map
        (fun s => s.m_routes.map (fun c => (c.1.m_status, c.1.m_metric, c.1.m_gateway))) =
      some [(.RIPV2_VALID, 16, 0x0A000002)] := by
  decide

/-! ## Routes are stored under their own prefix -/

namespace Ripv2

/-- The search of `InvalidateRoute` for the object of a cell stops at that
cell when no cell before it holds the same object. -/
theorem InvalidateRoute.loop_self (gd : Nat) (before after : List RouteCell) (cell : RouteCell)
    (sim : Simulator) (h : ∀ c ∈ before, c.1.addr ≠ cell.1.addr) :
    InvalidateRoute.loop gd cell.1.addr (before ++ cell :: after) sim =
      some (before ++ (InvalidateRoute.onCell gd sim cell).1 :: after,
        (InvalidateRoute.onCell gd sim cell).2) := by
  induction before with
  | nil => simp [InvalidateRoute.loop]
  | cons b rest ih =>
    have hb : b.1.addr ≠ cell.1.addr := h b (List.mem_cons_self _ _)
    have hr := ih (fun c hc => h c (List.mem_cons_of_mem _ hc))
    simp only [List.cons_append, InvalidateRoute.loop, hb, if_false, List.append_eq, hr]

theorem normalised_setters (e : Ripv2RoutingTableEntry) (h : Normalised e) (m t : Nat)
    (st : Status_e) (b : Bool) :
    Normalised (e.SetRouteMetric m) ∧ Normalised (e.SetRouteStatus st) ∧
      Normalised (e.SetRouteTag t) ∧ Normalised (e.SetRouteChanged b) := by
  unfold Normalised at *
  unfold Ripv2RoutingTableEntry.SetRouteMetric Ripv2RoutingTableEntry.SetRouteStatus
    Ripv2RoutingTableEntry.SetRouteTag Ripv2RoutingTableEntry.SetRouteChanged
  refine ⟨?_, ?_, ?_, ?_⟩ <;> first | (split_ifs <;> exact h) | exact h

theorem normalised_chain (e : Ripv2RoutingTableEntry) (h : Normalised e) (m t : Nat)
    (st : Status_e) :
    Normalised ((((e.SetRouteMetric m).SetRouteStatus st).SetRouteTag t).SetRouteChanged true) := by
  rw [Ripv2RoutingTableEntry.setters_eq]; exact h

theorem normalised_new4 (addr ip mask nh ifc m t : Nat) (st : Status_e) :
    Normalised { Ripv2RoutingTableEntry.new4 addr (CombineMask ip mask) mask nh ifc with
      m_metric := m, m_status := st, m_tag := t, m_changed := true } := by
  unfold Normalised Ripv2RoutingTableEntry.new4 CombineMask
  simp only [Nat.and_assoc, Nat.and_self]

theorem InvalidateRoute.onCell_normalised (gd : Nat) (sim : Simulator) (cell : RouteCell)
    (h : Normalised cell.1) : Normalised (InvalidateRoute.onCell gd sim cell).1.1 := by
  unfold InvalidateRoute.onCell
  simp only [Ripv2RoutingTableEntry.setters_eq_invalidate]
  exact h

theorem HandleResponses.onRoute_normalised (td gd sa ii ip rm rme tag : Nat) (cell : RouteCell)
    (v : HandleResponses.Vars) (h : Normalised cell.1) :
    Normalised (HandleResponses.onRoute td gd sa ii (CombineMask ip rm) rm rme tag cell v).1.1 := by
  unfold HandleResponses.onRoute
  simp only [Ripv2RoutingTableEntry.setters_eq]
  split_ifs
  · exact normalised_new4 _ _ _ _ _ _ _ _
  · exact h
  · exact h
  · exact normalised_new4 _ _ _ _ _ _ _ _
  · exact h
  · exact h
  · exact InvalidateRoute.onCell_normalised _ _ _ h
  · exact h
  · exact h

theorem HandleResponses.routesLoop_normalised (td gd sa ii ip rm rme tag : Nat)
    (l : List RouteCell) :
    ∀ (v : HandleResponses.Vars), (∀ c ∈ l, Normalised c.1) →
      ∀ c ∈ (HandleResponses.routesLoop td gd sa ii (CombineMask ip rm) rm rme tag l v).1,
        Normalised c.1 := by
  induction l with
  | nil => intro v _ c hc; simp [HandleResponses.routesLoop] at hc
  | cons x rest ih =>
    intro v h c hc
    simp only [HandleResponses.routesLoop, List.mem_cons] at hc
    rcases hc with hc | hc
    · rw [hc]
      exact HandleResponses.onRoute_normalised _ _ _ _ _ _ _ _ _ _ (h x (List.mem_cons_self _ _))
    · exact ih _ (fun y hy => h y (List.mem_cons_of_mem _ hy)) c hc

theorem HandleResponses.onRte_normalised (sa ii : Nat) (st : Ripv2 × Bool) (rte : Ripv2Rte)
    (h : st.1.AllNormalised) : (HandleResponses.onRte sa ii st rte).1.AllNormalised := by
  unfold HandleResponses.onRte AllNormalised
  simp only []
  split_ifs
  · intro c hc
    simp only [List.mem_cons] at hc
    rcases hc with hc | hc
    · rw [hc, Ripv2RoutingTableEntry.setters_eq_no_tag]
      exact normalised_new4 _ _ _ _ _ _ 0 _
    · exact HandleResponses.routesLoop_normalised _ _ _ _ _ _ _ _ _ _ h c hc
  · exact HandleResponses.routesLoop_normalised _ _ _ _ _ _ _ _ _ _ h

theorem HandleResponses.foldl_normalised (sa ii : Nat) (rtes : List Ripv2Rte) :
    ∀ (st : Ripv2 × Bool), st.1.AllNormalised →
      (rtes.foldl (HandleResponses.onRte sa ii) st).1.AllNormalised := by
  induction rtes with
  | nil => intro st h; exact h
  | cons r rest ih => intro st h; exact ih _ (HandleResponses.onRte_normalised sa ii st r h)

theorem SendTriggeredRouteUpdate_routes (s : Ripv2) (delay : Nat) :
    (s.SendTriggeredRouteUpdate delay).m_routes = s.m_routes := by
  unfold SendTriggeredRouteUpdate
  simp only []
  split_ifs <;> rfl

theorem HandleResponses_normalised (s : Ripv2) (hdr : Ripv2Header) (sa ii ttl delay : Nat)
    (h : s.AllNormalised) : (s.HandleResponses hdr sa ii ttl delay).AllNormalised := by
  unfold Ripv2.HandleResponses
  simp only []
  have hf := HandleResponses.foldl_normalised sa ii hdr.m_rteList (s, false) h
  split_ifs
  · exact h
  · exact h
  · exact h
  · unfold AllNormalised
    rw [SendTriggeredRouteUpdate_routes]
    exact hf
  · exact hf

theorem HandleRequests_routes (s s' : Ripv2) (ipv4 : Ipv4) (hdr : Ripv2Header)
    (sa sp ii ttl : Nat) (h : s.HandleRequests ipv4 hdr sa sp ii ttl = .ok s') :
    s'.m_routes = s.m_routes := by
  unfold Ripv2.HandleRequests at h
  simp only [] at h
  repeat' split at h
  all_goals first | (injection h with h; rw [← h]) | (injection h)

theorem Receive_normalised (s s' : Ripv2) (ipv4 : Ipv4) (gd : Nat → Nat) (packet : Packet)
    (delay : Nat) (h : s.AllNormalised) (hr : s.Receive ipv4 gd packet delay = .ok s') :
    s'.AllNormalised := by
  unfold Ripv2.Receive at hr
  split at hr
  · cases hr
  · split at hr
    · cases hr
    · split at hr
      · cases hr
      · simp only [] at hr
        split_ifs at hr
        · cases hr; exact h
        · split at hr
          · cases hr
          · split_ifs at hr
            · cases hr; exact HandleResponses_normalised _ _ _ _ _ _ h
            · unfold AllNormalised
              rw [HandleRequests_routes _ _ _ _ _ _ _ _ hr]
              exact h
            · cases hr; exact h

theorem InvalidateRoute.invalidate_loop_normalised (gd route : Nat) (l : List RouteCell) :
    ∀ (sim : Simulator) (r : List RouteCell × Simulator), (∀ c ∈ l, Normalised c.1) →
      InvalidateRoute.loop gd route l sim = some r → ∀ c ∈ r.1, Normalised c.1 := by
  induction l with
  | nil => intro sim r _ hr; simp [InvalidateRoute.loop] at hr
  | cons x rest ih =>
    intro sim r h hr
    unfold InvalidateRoute.loop at hr
    split_ifs at hr
    · cases hr
      intro c hc
      rcases List.mem_cons.mp hc with hc | hc
      · rw [hc]
        exact InvalidateRoute.onCell_normalised _ _ _ (h x (List.mem_cons_self _ _))
      · exact h c (List.mem_cons_of_mem _ hc)
    · split at hr
      · cases hr
      · rename_i r' hr'
        cases hr
        intro c hc
        rcases List.mem_cons.mp hc with hc | hc
        · rw [hc]; exact h x (List.mem_cons_self _ _)
        · exact ih sim r' (fun y hy => h y (List.mem_cons_of_mem _ hy)) hr' c hc

theorem DeleteRoute.delete_loop_normalised (route : Nat) (l : List RouteCell) :
    ∀ (r : List RouteCell), (∀ c ∈ l, Normalised c.1) →
      DeleteRoute.loop route l = some r → ∀ c ∈ r, Normalised c.1 := by
  induction l with
  | nil => intro r _ hr; simp [DeleteRoute.loop] at hr
  | cons x rest ih =>
    intro r h hr
    unfold DeleteRoute.loop at hr
    split_ifs at hr
    · cases hr
      exact fun c hc => h c (List.mem_cons_of_mem _ hc)
    · split at hr
      · cases hr
      · rename_i r' hr'
        cases hr
        intro c hc
        rcases List.mem_cons.mp hc with hc | hc
        · rw [hc]; exact h x (List.mem_cons_self _ _)
        · exact ih r' (fun y hy => h y (List.mem_cons_of_mem _ hy)) hr' c hc

theorem DoSendRouteUpdate_normalised (s : Ripv2) (ipv4 : Ipv4) (periodic : Bool)
    (h : s.AllNormalised) : (s.DoSendRouteUpdate ipv4 periodic).AllNormalised := by
  unfold Ripv2.DoSendRouteUpdate AllNormalised
  intro c hc
  simp only [List.mem_map] at hc
  obtain ⟨x, hx, rfl⟩ := hc
  exact h x hx

end Ripv2

/-! ## Properties of routes kept by the interface observer -/

namespace Ripv2

theorem All_AddNetworkRouteTo3 (Q : Ripv2RoutingTableEntry → Prop) (hQ : EntryInvariant Q)
    (s : Ripv2) (net mask i : Nat) (hn : net &&& mask = net) (h : s.All Q) :
    (s.AddNetworkRouteTo3 net mask i).All Q := by
  unfold AddNetworkRouteTo3 All
  intro c hc
  simp only [List.mem_append, List.mem_singleton] at hc
  rcases hc with hc | hc
  · exact h c hc
  · rw [hc, Ripv2RoutingTableEntry.setters_eq_no_tag]
    exact hQ.add s.heap net mask 0 i hn

theorem All_AddNetworkRouteTo4 (Q : Ripv2RoutingTableEntry → Prop) (hQ : EntryInvariant Q)
    (s : Ripv2) (net mask gw i : Nat) (hn : net &&& mask = net) (h : s.All Q) :
    (s.AddNetworkRouteTo4 net mask gw i).All Q := by
  unfold AddNetworkRouteTo4 All
  intro c hc
  simp only [List.mem_append, List.mem_singleton] at hc
  rcases hc with hc | hc
  · exact h c hc
  · rw [hc, Ripv2RoutingTableEntry.setters_eq_no_tag]
    exact hQ.add s.heap net mask gw i hn

theorem All_SendTriggeredRouteUpdate (Q : Ripv2RoutingTableEntry → Prop) (s : Ripv2)
    (delay : Nat) (h : s.All Q) : (s.SendTriggeredRouteUpdate delay).All Q := by
  unfold All
  rw [SendTriggeredRouteUpdate_routes]
  exact h

theorem InvalidateRoute.onCell_entry (gd : Nat) (sim : Simulator) (cell : RouteCell) :
    (InvalidateRoute.onCell gd sim cell).1.1 =
      { cell.1 with m_metric := 16, m_status := .RIPV2_INVALID, m_changed := true } := by
  unfold InvalidateRoute.onCell
  simp only [Ripv2RoutingTableEntry.setters_eq_invalidate]

theorem InvalidateRoute.each_all (Q : Ripv2RoutingTableEntry → Prop) (hQ : EntryInvariant Q)
    (test : Ripv2RoutingTableEntry → Bool) (gd : Nat) (l : List RouteCell) :
    ∀ (sim : Simulator), (∀ c ∈ l, Q c.1) →
      ∀ c ∈ (InvalidateRoute.each test gd l sim).1, Q c.1 := by
  induction l with
  | nil => intro sim _ c hc; simp [InvalidateRoute.each] at hc
  | cons x rest ih =>
    intro sim h c hc
    unfold InvalidateRoute.each at hc
    split_ifs at hc
    · simp only [List.mem_cons] at hc
      rcases hc with hc | hc
      · rw [hc, InvalidateRoute.onCell_entry]
        exact hQ.invalidate _ (h x (List.mem_cons_self _ _))
      · exact ih _ (fun y hy => h y (List.mem_cons_of_mem _ hy)) c hc
    · simp only [List.mem_cons] at hc
      rcases hc with hc | hc
      · rw [hc]; exact h x (List.mem_cons_self _ _)
      · exact ih _ (fun y hy => h y (List.mem_cons_of_mem _ hy)) c hc

theorem land_land_self (a m : Nat) : a &&& m &&& m = a &&& m := by
  rw [Nat.and_assoc, Nat.and_self]

theorem NotifyInterfaceUp.firstLoop_all (Q : Ripv2RoutingTableEntry → Prop)
    (hQ : EntryInvariant Q) (i : Nat) (l : List Ipv4InterfaceAddress) :
    ∀ (s : Ripv2), s.All Q → (NotifyInterfaceUp.firstLoop i l s).All Q := by
  induction l with
  | nil => intro s h; exact h
  | cons a rest ih =>
    intro s h
    unfold NotifyInterfaceUp.firstLoop
    simp only []
    apply ih
    split_ifs with h1 h2
    · apply All_AddNetworkRouteTo3 Q hQ _ _ _ _ _ h
      unfold CombineMask
      rw [h2, land_land_self]
    · exact All_AddNetworkRouteTo3 Q hQ _ _ _ _ (land_land_self _ _) h
    · exact h

theorem NotifyInterfaceUp.secondLoop_all (Q : Ripv2RoutingTableEntry → Prop)
    (hQ : EntryInvariant Q) (i : Nat) (f a : Bool) (delay : Nat)
    (l : List Ipv4InterfaceAddress) :
    ∀ (s : Ripv2), s.All Q → (NotifyInterfaceUp.secondLoop i f a delay l s).All Q := by
  induction l with
  | nil => intro s h; exact h
  | cons x rest ih =>
    intro s h
    unfold NotifyInterfaceUp.secondLoop
    simp only []
    apply ih
    have h1 := All_AddNetworkRouteTo3 Q hQ s (CombineMask x.m_local x.m_mask) x.m_mask i
      (land_land_self _ _) h
    split_ifs
    · exact h1
    · exact All_SendTriggeredRouteUpdate Q _ _ h1
    · exact h1

theorem All_NotifyInterfaceUp (Q : Ripv2RoutingTableEntry → Prop) (hQ : EntryInvariant Q)
    (s : Ripv2) (ipv4 : Ipv4) (i delay : Nat) (h : s.All Q) :
    (s.NotifyInterfaceUp ipv4 i delay).All Q := by
  unfold NotifyInterfaceUp
  simp only []
  have h1 := NotifyInterfaceUp.firstLoop_all Q hQ i (ipv4.GetAddresses i) s h
  split_ifs
  · exact h1
  · have h2 := NotifyInterfaceUp.secondLoop_all Q hQ i
      ((NotifyInterfaceUp.firstLoop i (ipv4.GetAddresses i) s).m_sendSocketList.any
        (fun sock => decide (sock.2 = i)))
      (decide (i ∉ (NotifyInterfaceUp.firstLoop i (ipv4.GetAddresses i) s).m_interfaceExclusions))
      delay (ipv4.GetAddresses i) _ h1
    split
    · exact h2
    · exact h2

theorem All_NotifyInterfaceDown (Q : Ripv2RoutingTableEntry → Prop) (hQ : EntryInvariant Q)
    (s : Ripv2) (interface delay : Nat) (h : s.All Q) :
    (s.NotifyInterfaceDown interface delay).All Q := by
  unfold NotifyInterfaceDown
  simp only []
  have h1 := InvalidateRoute.each_all Q hQ (fun e => decide (e.m_interface = interface))
    s.m_garbageCollectionDelay s.m_routes s.sim h
  split_ifs
  · exact h1
  · apply All_SendTriggeredRouteUpdate
    exact h1

theorem All_NotifyAddAddress (Q : Ripv2RoutingTableEntry → Prop) (hQ : EntryInvariant Q)
    (s : Ripv2) (ipv4 : Ipv4) (interface : Nat) (address : Ipv4InterfaceAddress) (delay : Nat)
    (h : s.All Q) : (s.NotifyAddAddress ipv4 interface address delay).All Q := by
  unfold NotifyAddAddress
  simp only []
  split_ifs
  · exact h
  · exact h
  · exact All_SendTriggeredRouteUpdate Q _ _
      (All_AddNetworkRouteTo3 Q hQ _ _ _ _ (land_land_self _ _) h)
  · exact All_SendTriggeredRouteUpdate Q _ _ h

theorem All_NotifyRemoveAddress (Q : Ripv2RoutingTableEntry → Prop) (hQ : EntryInvariant Q)
    (s : Ripv2) (ipv4 : Ipv4) (interface : Nat) (address : Ipv4InterfaceAddress) (delay : Nat)
    (h : s.All Q) : (s.NotifyRemoveAddress ipv4 interface address delay).All Q := by
  unfold NotifyRemoveAddress
  simp only []
  have h1 := InvalidateRoute.each_all Q hQ
    (fun e => decide (e.m_interface = interface) && e.IsNetwork &&
      decide (e.m_dest = CombineMask address.m_local address.m_mask) &&
      decide (e.m_destNetworkMask = address.m_mask))
    s.m_garbageCollectionDelay s.m_routes s.sim h
  split_ifs
  · exact h
  · exact h1
  · apply All_SendTriggeredRouteUpdate
    exact h1

theorem SetIpv4.loop_all (Q : Ripv2RoutingTableEntry → Prop) (hQ : EntryInvariant Q)
    (ipv4 : Ipv4) (delay : Nat) (n : Nat) :
    ∀ (i : Nat) (s : Ripv2), s.All Q → (SetIpv4.loop ipv4 delay n i s).All Q := by
  induction n with
  | zero => intro i s h; exact h
  | succ n ih =>
    intro i s h
    unfold SetIpv4.loop
    simp only []
    apply ih
    split_ifs
    · exact All_NotifyInterfaceUp Q hQ _ _ _ _ h
    · exact All_NotifyInterfaceDown Q hQ _ _ _ h

theorem All_SetIpv4 (Q : Ripv2RoutingTableEntry → Prop) (hQ : EntryInvariant Q)
    (s s' : Ripv2) (ipv4 : Ipv4) (delay : Nat) (h : s.All Q)
    (hs : s.SetIpv4 ipv4 delay = .ok s') : s'.All Q := by
  unfold SetIpv4 at hs
  split_ifs at hs
  simp only [Except.ok.injEq] at hs
  rw [← hs]
  exact SetIpv4.loop_all Q hQ ipv4 delay _ _ _ h

theorem DoInitialize.addressLoop_routes (i : Nat) (a : Bool) (l : List Ipv4InterfaceAddress) :
    ∀ (st : Ripv2 × Bool), (DoInitialize.addressLoop i a l st).1.m_routes = st.1.m_routes := by
  induction l with
  | nil => intro st; rfl
  | cons x rest ih =>
    intro st
    unfold DoInitialize.addressLoop
    simp only []
    rw [ih]
    split_ifs <;> rfl

theorem DoInitialize.interfaceLoop_routes (ipv4 : Ipv4) (n : Nat) :
    ∀ (i : Nat) (st : Ripv2 × Bool),
      (DoInitialize.interfaceLoop ipv4 n i st).1.m_routes = st.1.m_routes := by
  induction n with
  | zero => intro i st; rfl
  | succ n ih =>
    intro i st
    unfold DoInitialize.interfaceLoop
    simp only []
    rw [ih, DoInitialize.addressLoop_routes]

theorem DoInitialize_routes (s : Ripv2) (ipv4 : Ipv4) (d1 d2 d3 : Nat) :
    (s.DoInitialize ipv4 d1 d2 d3).m_routes = s.m_routes := by
  unfold DoInitialize
  simp only []
  have h := DoInitialize.interfaceLoop_routes ipv4 ipv4.GetNInterfaces 0
    ({ s with m_initialized := true,
              m_nextUnsolicitedUpdate := (s.sim.Schedule d1 .SendUnsolicitedRouteUpdate).1,
              sim := (s.sim.Schedule d1 .SendUnsolicitedRouteUpdate).2 }, false)
  generalize DoInitialize.interfaceLoop ipv4 ipv4.GetNInterfaces 0
    ({ s with m_initialized := true,
              m_nextUnsolicitedUpdate := (s.sim.Schedule d1 .SendUnsolicitedRouteUpdate).1,
              sim := (s.sim.Schedule d1 .SendUnsolicitedRouteUpdate).2 }, false) = st at h ⊢
  rcases st with ⟨t, b⟩
  simp only [] at h ⊢
  cases b <;> cases hr : t.m_recvSocket <;> simp [h]

end Ripv2

/-- The interface observer, the configuration and the initialisation keep a
property of routes that the agent keeps. -/
theorem step_observer (Q : Ripv2RoutingTableEntry → Prop) (hQ : EntryInvariant Q)
    (ipv4 : Ipv4) (gd : Nat → Nat) (s s' : Ripv2) (op : Op) (h : s.All Q)
    (hop : ∀ d, op ≠ .runEvent d) (hop1 : ∀ t, op ≠ .advance t)
    (hop2 : ∀ p d, op ≠ .receive p d) (hs : step ipv4 gd s op = some s') : s'.All Q := by
  cases op with
  | runEvent delay => exact absurd rfl (hop delay)
  | advance ticks => exact absurd rfl (hop1 ticks)
  | receive packet delay => exact absurd rfl (hop2 packet delay)
  | addDefaultRouteTo nextHop interface =>
    simp only [step, Option.some.injEq] at hs
    rw [← hs]
    exact Ripv2.All_AddNetworkRouteTo4 Q hQ s 0 0 nextHop interface rfl h
  | setInterfaceMetric interface metric =>
    simp only [step, Option.some.injEq] at hs
    rw [← hs]
    unfold Ripv2.SetInterfaceMetric
    split_ifs <;> exact h
  | setInterfaceExclusions exceptions =>
    simp only [step, Option.some.injEq] at hs
    rw [← hs]
    exact h
  | setIpv4 delay =>
    simp only [step] at hs
    cases hr : s.SetIpv4 ipv4 delay with
    | error e => rw [hr] at hs; cases hs
    | ok s'' =>
      rw [hr] at hs
      cases hs
      exact Ripv2.All_SetIpv4 Q hQ _ _ _ _ h hr
  | doInitialize d1 d2 d3 =>
    simp only [step] at hs
    split_ifs at hs
    simp only [Option.some.injEq] at hs
    rw [← hs]
    unfold Ripv2.All
    rw [Ripv2.DoInitialize_routes]
    exact h
  | notifyInterfaceUp i delay =>
    simp only [step] at hs
    split_ifs at hs
    simp only [Option.some.injEq] at hs
    rw [← hs]
    exact Ripv2.All_NotifyInterfaceUp Q hQ _ _ _ _ h
  | notifyInterfaceDown interface delay =>
    simp only [step, Option.some.injEq] at hs
    rw [← hs]
    exact Ripv2.All_NotifyInterfaceDown Q hQ _ _ _ h
  | notifyAddAddress interface address delay =>
    simp only [step] at hs
    split_ifs at hs
    simp only [Option.some.injEq] at hs
    rw [← hs]
    exact Ripv2.All_NotifyAddAddress Q hQ _ _ _ _ _ h
  | notifyRemoveAddress interface address delay =>
    simp only [step] at hs
    split_ifs at hs
    simp only [Option.some.injEq] at hs
    rw [← hs]
    exact Ripv2.All_NotifyRemoveAddress Q hQ _ _ _ _ _ h

theorem normalised_entryInvariant : EntryInvariant Normalised where
  add := fun _ _ _ _ _ hn => hn
  invalidate := fun _ h => h
  changed := fun _ _ h => h
  update := fun _ _ _ h _ _ => h
  learn := fun _ ip mask _ _ _ _ _ _ => Ripv2.land_land_self ip mask

/-- One operation keeps every route stored under its own prefix. -/
theorem step_normalised (ipv4 : Ipv4) (gd : Nat → Nat) (s s' : Ripv2) (op : Op)
    (h : s.AllNormalised) (hs : step ipv4 gd s op = some s') : s'.AllNormalised := by
  cases op with
  | runEvent delay =>
    simp only [step] at hs
    split at hs
    · cases hs
    · rename_i e _
      try simp only [] at hs
      split_ifs at hs
      · cases hs; exact h
      · split at hs
        · rename_i route _
          unfold Ripv2.InvalidateRoute at hs
          try simp only [] at hs
          split at hs
          · cases hs
          · rename_i r hr
            cases hs
            exact Ripv2.InvalidateRoute.invalidate_loop_normalised _ _ _ _ r h hr
        · rename_i route _
          unfold Ripv2.DeleteRoute at hs
          try simp only [] at hs
          split at hs
          · cases hs
          · rename_i r hr
            cases hs
            exact Ripv2.DeleteRoute.delete_loop_normalised _ _ r h hr
        · cases hs
          exact Ripv2.DoSendRouteUpdate_normalised _ _ _ h
        · cases hs
          unfold Ripv2.SendUnsolicitedRouteUpdate
          simp only []
          refine Ripv2.DoSendRouteUpdate_normalised _ ipv4 true ?_
          split_ifs <;> exact h
        · cases hs
          exact h
  | advance ticks =>
    simp only [step] at hs
    split_ifs at hs
    cases hs
    exact h
  | receive packet delay =>
    simp only [step] at hs
    split_ifs at hs
    cases hr : s.Receive ipv4 gd packet delay with
    | error e => rw [hr] at hs; cases hs
    | ok s'' =>
      rw [hr] at hs
      cases hs
      exact Ripv2.Receive_normalised _ _ _ _ _ _ h hr
  | addDefaultRouteTo nextHop interface =>
    simp only [step] at hs
    cases hs
    unfold Ripv2.AddDefaultRouteTo Ripv2.AddNetworkRouteTo4 Ripv2.AllNormalised
    intro c hc
    simp only [List.mem_append, List.mem_singleton] at hc
    rcases hc with hc | hc
    · exact h c hc
    · rw [hc, Ripv2RoutingTableEntry.setters_eq_no_tag]
      unfold Normalised Ripv2RoutingTableEntry.new4
      simp
  | setInterfaceMetric interface metric =>
    exact step_observer Normalised normalised_entryInvariant ipv4 gd s s' _ h
      (by intro d; simp) (by intro t; simp) (by intro p d; simp) hs
  | setInterfaceExclusions exceptions =>
    exact step_observer Normalised normalised_entryInvariant ipv4 gd s s' _ h
      (by intro d; simp) (by intro t; simp) (by intro p d; simp) hs
  | setIpv4 delay =>
    exact step_observer Normalised normalised_entryInvariant ipv4 gd s s' _ h
      (by intro d; simp) (by intro t; simp) (by intro p d; simp) hs
  | doInitialize d1 d2 d3 =>
    exact step_observer Normalised normalised_entryInvariant ipv4 gd s s' _ h
      (by intro d; simp) (by intro t; simp) (by intro p d; simp) hs
  | notifyInterfaceUp i delay =>
    exact step_observer Normalised normalised_entryInvariant ipv4 gd s s' _ h
      (by intro d; simp) (by intro t; simp) (by intro p d; simp) hs
  | notifyInterfaceDown interface delay =>
    exact step_observer Normalised normalised_entryInvariant ipv4 gd s s' _ h
      (by intro d; simp) (by intro t; simp) (by intro p d; simp) hs
  | notifyAddAddress interface address delay =>
    exact step_observer Normalised normalised_entryInvariant ipv4 gd s s' _ h
      (by intro d; simp) (by intro t; simp) (by intro p d; simp) hs
  | notifyRemoveAddress interface address delay =>
    exact step_observer Normalised normalised_entryInvariant ipv4 gd s s' _ h
      (by intro d; simp) (by intro t; simp) (by intro p d; simp) hs

/-- Every route of a table reached by a run from a table whose routes are
stored under their own prefix, the empty table among them, is stored under
its own prefix. -/
theorem run_normalised (ipv4 : Ipv4) (gd : Nat → Nat) (ops : List Op) :
    ∀ (s s' : Ripv2), s.AllNormalised → run ipv4 gd s ops = some s' → s'.AllNormalised := by
  induction ops with
  | nil => intro s s' h hr; simp only [run] at hr; cases hr; exact h
  | cons op rest ih =>
    intro s s' h hr
    simp only [run] at hr
    split at hr
    · cases hr
    · rename_i s1 hs1
      exact ih s1 s' (step_normalised ipv4 gd s s1 op h hs1) hr

/-! ## The metric of an RTE -/

theorem mapAssign_mem (k v : Nat) (l : List (Nat × Nat)) :
    ∀ p ∈ mapAssign k v l, p = (k, v) ∨ p ∈ l := by
  induction l with
  | nil => intro p hp; simp [mapAssign] at hp; exact Or.inl hp
  | cons x rest ih =>
    intro p hp
    unfold mapAssign at hp
    split_ifs at hp
    · rcases List.mem_cons.mp hp with hp | hp
      · exact Or.inl hp
      · exact Or.inr (List.mem_cons_of_mem _ hp)
    · rcases List.mem_cons.mp hp with hp | hp
      · exact Or.inr (hp ▸ List.mem_cons_self _ _)
      · rcases ih p hp with h | h
        · exact Or.inl h
        · exact Or.inr (List.mem_cons_of_mem _ h)

theorem lookup_mapAssign (k v j : Nat) (l : List (Nat × Nat)) :
    (mapAssign k v l).lookup j = if j = k then some v else l.lookup j := by
  induction l with
  | nil =>
    by_cases h : j = k
    · simp [mapAssign, List.lookup, h]
    · have hb : (j == k) = false := by simp [h]
      simp [mapAssign, List.lookup, h, hb]
  | cons x rest ih =>
    obtain ⟨a, b⟩ := x
    unfold mapAssign
    by_cases hx : a = k
    · by_cases h : j = k
      · simp [hx, h, List.lookup]
      · have hb : (j == k) = false := by simp [h]
        simp [hx, h, List.lookup, hb]
    · by_cases h : j = k
      · have hb : (k == a) = false := by simp; exact fun e => hx e.symm
        subst h
        simp only [hx, if_false, List.lookup_cons, hb, ih, if_true]
      · simp only [hx, if_false, List.lookup_cons, ih, h]

theorem lookup_mem (j : Nat) (l : List (Nat × Nat)) :
    ∀ m, l.lookup j = some m → (j, m) ∈ l := by
  induction l with
  | nil => intro m h; simp [List.lookup] at h
  | cons x rest ih =>
    intro m h
    obtain ⟨a, b⟩ := x
    rw [List.lookup_cons] at h
    by_cases hj : j = a
    · simp only [hj, beq_self_eq_true, Option.some.injEq] at h
      rw [hj, h]; exact List.mem_cons_self _ _
    · have : (j == a) = false := by simp [hj]
      rw [this] at h
      exact List.mem_cons_of_mem _ (ih m h)

namespace Ripv2

theorem MetricsOk_SetInterfaceMetric (s : Ripv2) (i m : Nat) (h : s.MetricsOk) :
    (s.SetInterfaceMetric i m).MetricsOk := by
  unfold SetInterfaceMetric
  split_ifs with hm
  · intro p hp
    rcases mapAssign_mem i m _ p hp with hp | hp
    · rw [hp]; exact hm
    · exact h p hp
  · exact h

theorem MetricsOk_configure (cfg : List (Nat × Nat)) :
    ∀ (s : Ripv2), s.MetricsOk →
      (cfg.foldl (fun t p => t.SetInterfaceMetric p.1 p.2) s).MetricsOk := by
  induction cfg with
  | nil => intro s h; exact h
  | cons p rest ih => intro s h; exact ih _ (MetricsOk_SetInterfaceMetric s p.1 p.2 h)

theorem HandleResponses.interfaceMetric_lt (s : Ripv2) (i : Nat) (h : s.MetricsOk) :
    HandleResponses.interfaceMetric s i < 16 := by
  unfold HandleResponses.interfaceMetric
  split
  · rename_i m hm
    exact h _ (lookup_mem i _ m hm)
  · decide

theorem HandleResponses.rteMetric_range (s : Ripv2) (i : Nat) (rte : Ripv2Rte)
    (h : s.MetricsOk) (h1 : 1 ≤ rte.m_metric) (h2 : rte.m_metric ≤ 16) :
    HandleResponses.rteMetric s i rte = min (rte.m_metric + HandleResponses.interfaceMetric s i) 16 ∧
      1 ≤ HandleResponses.rteMetric s i rte ∧ HandleResponses.rteMetric s i rte ≤ 16 := by
  have hk := HandleResponses.interfaceMetric_lt s i h
  unfold HandleResponses.rteMetric
  have hlt : rte.m_metric + HandleResponses.interfaceMetric s i < 2 ^ 32 := by
    have : (32 : Nat) ≤ 2 ^ 32 := by decide
    omega
  rw [Nat.mod_eq_of_lt hlt]
  refine ⟨rfl, ?_, Nat.min_le_right _ _⟩
  exact Nat.le_min.mpr ⟨by omega, by decide⟩

theorem HandleResponses.onRoute_key (td gd sa ii ra rm rme tag : Nat) (cell : RouteCell)
    (v : HandleResponses.Vars) :
    (HandleResponses.onRoute td gd sa ii ra rm rme tag cell v).1 = cell ∨
      ((HandleResponses.onRoute td gd sa ii ra rm rme tag cell v).1.1.m_dest = ra ∧
        (HandleResponses.onRoute td gd sa ii ra rm rme tag cell v).1.1.m_destNetworkMask = rm) := by
  by_cases hk : cell.1.m_dest = ra ∧ cell.1.m_destNetworkMask = rm
  · right
    unfold HandleResponses.onRoute
    simp only [Ripv2RoutingTableEntry.setters_eq, hk, and_self, if_true]
    split_ifs <;>
      first
        | exact ⟨rfl, rfl⟩
        | exact hk
        | (rw [InvalidateRoute.onCell_entry]; exact hk)
  · left
    rw [HandleResponses.onRoute_other _ _ _ _ _ _ _ _ _ _ hk]

theorem HandleResponses.routesLoop_key (td gd sa ii ra rm rme tag : Nat) (l : List RouteCell) :
    ∀ (v : HandleResponses.Vars),
      ∀ c ∈ (HandleResponses.routesLoop td gd sa ii ra rm rme tag l v).1,
        c ∈ l ∨ (c.1.m_dest = ra ∧ c.1.m_destNetworkMask = rm) := by
  induction l with
  | nil => intro v c hc; simp [HandleResponses.routesLoop] at hc
  | cons x rest ih =>
    intro v c hc
    simp only [HandleResponses.routesLoop, List.mem_cons] at hc
    rcases hc with hc | hc
    · rcases HandleResponses.onRoute_key td gd sa ii ra rm rme tag x v with h | h
      · left; rw [hc, h]; exact List.mem_cons_self _ _
      · right; rw [hc]; exact h
    · rcases ih _ c hc with h | h
      · exact Or.inl (List.mem_cons_of_mem _ h)
      · exact Or.inr h

theorem HandleResponses.onRte_key (sa ii : Nat) (st : Ripv2 × Bool) (rte : Ripv2Rte) :
    ∀ c ∈ (HandleResponses.onRte sa ii st rte).1.m_routes, c ∈ st.1.m_routes ∨ KeyOf rte c := by
  unfold HandleResponses.onRte KeyOf
  simp only []
  split_ifs
  · intro c hc
    simp only [List.mem_cons] at hc
    rcases hc with hc | hc
    · right
      rw [hc, Ripv2RoutingTableEntry.setters_eq_no_tag]
      exact ⟨rfl, rfl⟩
    · exact HandleResponses.routesLoop_key _ _ _ _ _ _ _ _ _ _ c hc
  · exact HandleResponses.routesLoop_key _ _ _ _ _ _ _ _ _ _

end Ripv2

/-- C11: with the interface metrics set only through `SetInterfaceMetric`, the
metric `k` that `HandleResponses` reads for an interface is below 16 (1 when
none was set, the value set when it is below 16), and for an RTE of metric
`r` from 1 to 16 the 32-bit sum `r + k` does not wrap, the metric computed is
`min (r + k) 16` and lies from 1 to 16, and after the RTE is processed every
cell of the table is a cell of the table before or is stored under
`addr & mask` and the mask of the RTE. -/
theorem bounded_metric_arithmetic (s0 : Ripv2) (cfg : List (Nat × Nat))
    (senderAddress incomingInterface : Nat) (changed : Bool) (rte : Ripv2Rte)
    (h0 : s0.m_interfaceMetrics = []) (h1 : 1 ≤ rte.m_metric) (h2 : rte.m_metric ≤ 16) :
    HandleResponses.interfaceMetric s0 incomingInterface = 1 ∧
    (∀ (s : Ripv2) (k : Nat),
      HandleResponses.interfaceMetric (s.SetInterfaceMetric incomingInterface k)
          incomingInterface =
        if k < 16 then k else HandleResponses.interfaceMetric s incomingInterface) ∧
    (let s := cfg.foldl (fun t p => t.SetInterfaceMetric p.1 p.2) s0
     let k := HandleResponses.interfaceMetric s incomingInterface
     k < 16 ∧ rte.m_metric + k < 2 ^ 32 ∧
      HandleResponses.rteMetric s incomingInterface rte = min (rte.m_metric + k) 16 ∧
      1 ≤ HandleResponses.rteMetric s incomingInterface rte ∧
      HandleResponses.rteMetric s incomingInterface rte ≤ 16 ∧
      ∀ c ∈ (HandleResponses.onRte senderAddress incomingInterface (s, changed) rte).1.m_routes,
        c ∈ s.m_routes ∨ KeyOf rte c) := by
  refine ⟨?_, ?_, ?_⟩
  · unfold HandleResponses.interfaceMetric
    rw [h0]; rfl
  · intro s k
    unfold Ripv2.SetInterfaceMetric
    split_ifs with hk
    · unfold HandleResponses.interfaceMetric
      simp only [lookup_mapAssign, if_true]
    · rfl
  · have hok : (cfg.foldl (fun t p => t.SetInterfaceMetric p.1 p.2) s0).MetricsOk := by
      apply Ripv2.MetricsOk_configure
      intro p hp
      rw [h0] at hp
      cases hp
    have hk := HandleResponses.interfaceMetric_lt _ incomingInterface hok
    have hr := HandleResponses.rteMetric_range _ incomingInterface rte hok h1 h2
    have h32 : (32 : Nat) ≤ 2 ^ 32 := by decide
    exact ⟨hk, by omega, hr.1, hr.2.1, hr.2.2, HandleResponses.onRte_key _ _ _ _⟩

/-- C11 at an input: interface 1 set to metric 3, then to 20 (ignored), and
the RTE of metric 14 for 10.0.0.0/8. -/
theorem bounded_metric_arithmetic_witness :
    HandleResponses.interfaceMetric ribV 1 = 1 ∧
    (∀ (s : Ripv2) (k : Nat),
      HandleResponses.interfaceMetric (s.SetInterfaceMetric 1 k) 1 =
        if k < 16 then k else HandleResponses.interfaceMetric s 1) ∧
    (let s := [(1, 3), (1, 20)].foldl (fun t p => t.SetInterfaceMetric p.1 p.2) ribV
     let k := HandleResponses.interfaceMetric s 1
     k < 16 ∧ (rteV 14).m_metric + k < 2 ^ 32 ∧
      HandleResponses.rteMetric s 1 (rteV 14) = min ((rteV 14).m_metric + k) 16 ∧
      1 ≤ HandleResponses.rteMetric s 1 (rteV 14) ∧
      HandleResponses.rteMetric s 1 (rteV 14) ≤ 16 ∧
      ∀ c ∈ (HandleResponses.onRte 0x0A000001 1 (s, false) (rteV 14)).1.m_routes,
        c ∈ s.m_routes ∨ KeyOf (rteV 14) c) :=
  bounded_metric_arithmetic ribV [(1, 3), (1, 20)] 0x0A000001 1 false (rteV 14) rfl
    (by decide) (by decide)

/-! ## InvalidateRoute -/

theorem any_congr_mem (l : List Event) (f g : Event → Bool) (h : ∀ e ∈ l, f e = g e) :
    l.any f = l.any g := by
  induction l with
  | nil => rfl
  | cons x rest ih =>
    simp only [List.any_cons, h x (List.mem_cons_self _ _),
      ih (fun e he => h e (List.mem_cons_of_mem _ he))]

theorem Simulator.Cancel_of_not_running (sim : Simulator) (eid : EventId)
    (h : sim.IsRunning eid = false) : sim.Cancel eid = sim := by
  unfold Simulator.IsRunning Simulator.IsExpired at h
  unfold Simulator.Cancel
  cases hu : eid.m_uid with
  | none => rfl
  | some uid =>
    rw [hu] at h
    simp only [Bool.not_not, Bool.not_eq_false', List.any_eq_false, Bool.and_eq_true,
      beq_iff_eq, Bool.not_eq_true', not_and, Bool.not_eq_false, Bool.not_eq_true] at h
    have hm : sim.events.map (fun e => if e.uid = uid then { e with cancelled := true } else e) =
        sim.events := by
      have hc : sim.events.map
          (fun e => if e.uid = uid then { e with cancelled := true } else e) =
          sim.events.map (fun e => e) := by
        apply List.map_congr_left
        intro e he
        by_cases hk : e.uid = uid
        · have hc := h e he hk
          simp only [hk, if_true]
          cases e
          simp only [Event.mk.injEq, true_and] at hc ⊢
          simp_all
        · simp [hk]
      rw [hc, List.map_id']
    simp only [hm]

theorem Simulator.IsRunning_Cancel_of_ne (sim : Simulator) (eid other : EventId)
    (h : other.m_uid ≠ eid.m_uid) : (sim.Cancel eid).IsRunning other = sim.IsRunning other := by
  unfold Simulator.IsRunning Simulator.IsExpired Simulator.Cancel
  cases ho : other.m_uid with
  | none => rfl
  | some u =>
    cases hi : eid.m_uid with
    | none => rfl
    | some uid =>
      have hne : u ≠ uid := by
        intro hc; apply h; rw [ho, hi, hc]
      simp only [List.any_map]
      congr 2
      apply any_congr_mem
      intro e _
      simp only [Function.comp]
      by_cases hk : e.uid = uid
      · have : ¬ e.uid = u := fun hc => hne (hc ▸ hk)
        simp [hk, this, Ne.symm hne]
      · simp [hk]

namespace Ripv2

theorem InvalidateRoute.onCell_eq (gd : Nat) (sim : Simulator) (cell : RouteCell) :
    InvalidateRoute.onCell gd sim cell =
      (({ cell.1 with m_metric := 16, m_status := .RIPV2_INVALID, m_changed := true },
        ((sim.Cancel cell.2).Schedule gd (.DeleteRoute cell.1.addr)).1),
       ((sim.Cancel cell.2).Schedule gd (.DeleteRoute cell.1.addr)).2) := by
  have hc : (if sim.IsRunning cell.2 = true then sim.Cancel cell.2 else sim) = sim.Cancel cell.2 := by
    by_cases h : sim.IsRunning cell.2 = true
    · simp [h]
    · simp only [h, if_false]
      exact (Simulator.Cancel_of_not_running sim cell.2 (by simpa using h)).symm
  unfold InvalidateRoute.onCell
  simp only [Ripv2RoutingTableEntry.setters_eq_invalidate, hc]

theorem InvalidateRoute.loop_none (gd route : Nat) (l : List RouteCell) (sim : Simulator)
    (h : ∀ c ∈ l, c.1.addr ≠ route) : InvalidateRoute.loop gd route l sim = none := by
  induction l with
  | nil => rfl
  | cons x rest ih =>
    have hx := h x (List.mem_cons_self _ _)
    simp only [InvalidateRoute.loop, hx, if_false, ih (fun c hc => h c (List.mem_cons_of_mem _ hc))]

end Ripv2

/-- C16: the postcondition of `InvalidateRoute`.  When the table is
`before ++ (E, id) :: after` and no cell of `before` holds the object `E`,
`InvalidateRoute (E)` returns; the cell at that place holds `E` with status
INVALID, metric 16 and `changed` set, and destination, mask, gateway,
interface and tag as before; the event of `id` is cancelled and the new
handle is armed for `DeleteRoute` on `E` at the garbage-collection delay,
120 s for a new agent; the cells before and after, the events of other
handles and everything else in the agent are as before.  When no cell holds
the object, the call aborts. -/
theorem invalidate_route_postcondition (s : Ripv2) (before after : List RouteCell)
    (E : Ripv2RoutingTableEntry) (id : EventId)
    (hs : s.m_routes = before ++ (E, id) :: after)
    (hb : ∀ c ∈ before, c.1.addr ≠ E.addr) :
    (∃ E' id' sim',
      s.InvalidateRoute E.addr =
        .ok { s with m_routes := before ++ (E', id') :: after, sim := sim' } ∧
      E' = { E with m_metric := 16, m_status := .RIPV2_INVALID, m_changed := true } ∧
      E'.m_status = .RIPV2_INVALID ∧ E'.m_metric = 16 ∧ E'.m_changed = true ∧
      E'.m_dest = E.m_dest ∧ E'.m_destNetworkMask = E.m_destNetworkMask ∧
      E'.m_gateway = E.m_gateway ∧ E'.m_interface = E.m_interface ∧ E'.m_tag = E.m_tag ∧
      (id', sim') = (s.sim.Cancel id).Schedule s.m_garbageCollectionDelay (.DeleteRoute E.addr) ∧
      sim'.Armed id' (.DeleteRoute E.addr) s.m_garbageCollectionDelay ∧
      (id.m_uid ≠ id'.m_uid → sim'.IsRunning id = false) ∧
      (∀ other : EventId, other.m_uid ≠ id.m_uid → other.m_uid ≠ id'.m_uid →
        sim'.IsRunning other = s.sim.IsRunning other) ∧
      (∀ e ∈ s.sim.events, some e.uid ≠ id.m_uid → e ∈ sim'.events)) ∧
    ({} : Ripv2).m_garbageCollectionDelay = Seconds 120 ∧
    (∀ (t : Ripv2) (route : Nat), (∀ c ∈ t.m_routes, c.1.addr ≠ route) →
      t.InvalidateRoute route = .error .abortMsg) := by
  refine ⟨?_, rfl, ?_⟩
  · refine ⟨{ E with m_metric := 16, m_status := .RIPV2_INVALID, m_changed := true },
      ((s.sim.Cancel id).Schedule s.m_garbageCollectionDelay (.DeleteRoute E.addr)).1,
      ((s.sim.Cancel id).Schedule s.m_garbageCollectionDelay (.DeleteRoute E.addr)).2,
      ?_, rfl, rfl, rfl, rfl, rfl, rfl, rfl, rfl, rfl, rfl,
      Simulator.Armed_Schedule _ _ _, ?_, ?_, ?_⟩
    · unfold Ripv2.InvalidateRoute
      rw [hs, InvalidateRoute.loop_self _ before after (E, id) s.sim hb,
        InvalidateRoute.onCell_eq]
    · exact fun hne => Simulator_not_running_after _ _ _ _ hne
    · intro other h1 h2
      rw [Simulator.IsRunning_Schedule_of_ne _ _ _ _ h2, Simulator.IsRunning_Cancel_of_ne _ _ _ h1]
    · intro e he hne
      unfold Simulator.Schedule Simulator.Cancel
      cases hu : id.m_uid with
      | none => exact List.mem_append_left _ he
      | some uid =>
        apply List.mem_append_left
        rw [hu] at hne
        have hk : ¬ e.uid = uid := fun hc => hne (by rw [hc])
        exact List.mem_map.mpr ⟨e, he, by simp [hk]⟩
  · intro t route h
    unfold Ripv2.InvalidateRoute
    rw [InvalidateRoute.loop_none _ _ _ _ h]

/-- C16 at an input: the route 10.0.0.0/8 of `ribV`, whose timeout timer is
running. -/
theorem invalidate_route_postcondition_witness :
    ribV.InvalidateRoute 2 =
      .ok { ribV with
        m_routes :=
          [({ addr := 1, m_dest := 0xC0A80000, m_destNetworkMask := 0xFFFF0000,
              m_gateway := 0, m_interface := 2, m_metric := 1,
              m_status := .RIPV2_VALID }, {}),
           ({ addr := 2, m_dest := 0x0A000000, m_destNetworkMask := 0xFF000000,
              m_gateway := 0x0A000001, m_interface := 1, m_metric := 16,
              m_status := .RIPV2_INVALID, m_changed := true },
            { m_uid := some 8, m_ts := Seconds 130 })],
        sim := { now := Seconds 10, uid := 9,
                 events := [{ uid := 7, ts := Seconds 100, impl := .InvalidateRoute 2,
                              cancelled := true },
                            { uid := 8, ts := Seconds 130, impl := .DeleteRoute 2 }] } } := by
  obtain ⟨⟨E', id', sim', h, hE, -, -, -, -, -, -, -, -, hsim, -⟩, -, -⟩ :=
    invalidate_route_postcondition ribV
      [({ addr := 1, m_dest := 0xC0A80000, m_destNetworkMask := 0xFFFF0000,
          m_gateway := 0, m_interface := 2, m_metric := 1,
          m_status := .RIPV2_VALID }, {})] []
      { addr := 2, m_dest := 0x0A000000, m_destNetworkMask := 0xFF000000,
        m_gateway := 0x0A000001, m_interface := 1, m_metric := 5,
        m_status := .RIPV2_VALID } { m_uid := some 7, m_ts := Seconds 100 } rfl (by decide)
  rfl

/-! ## Emission of updates -/

theorem rtesOf_append (a b : List SentPacket) : rtesOf (a ++ b) = rtesOf a ++ rtesOf b := by
  unfold rtesOf
  simp only [List.map_append, List.flatten_append]

theorem emitted_pageStep (mk : Ripv2Header → SentPacket) (sel : RouteCell → Option Ripv2Rte)
    (hmk : ∀ h, (mk h).hdr = h) (st : Ripv2Header × List SentPacket) (cell : RouteCell) :
    emitted (pageStep mk sel st cell) = emitted st ++ (sel cell).toList := by
  unfold pageStep emitted
  cases hsel : sel cell with
  | none =>
    simp only [Option.toList, List.append_nil]
    split_ifs
    · simp only [rtesOf_append, Ripv2Header.ClearRtes, List.append_nil]
      simp only [rtesOf, List.map_cons, List.map_nil, List.flatten_cons, List.flatten_nil,
        List.append_nil, hmk]
    · rfl
  | some rte =>
    simp only [Option.toList]
    split_ifs
    · simp only [rtesOf_append, Ripv2Header.ClearRtes, List.append_nil]
      simp only [rtesOf, List.map_cons, List.map_nil, List.flatten_cons, List.flatten_nil,
        List.append_nil, hmk, Ripv2Header.AddRte, List.append_assoc]
    · simp only [Ripv2Header.AddRte, List.append_assoc]

namespace Ripv2

theorem DoSendRouteUpdate.onRoute_eq (strategy : SplitHorizonType_e) (ipv4 : Ipv4)
    (periodic : Bool) (socket interface : Nat) (st : Ripv2Header × List SentPacket)
    (cell : RouteCell) :
    DoSendRouteUpdate.onRoute strategy ipv4 periodic socket interface st cell =
      pageStep (fun h => { socket := socket, hdr := h, toAddress := RIPV2_ALL_NODE,
                           toPort := RIPV2_PORT })
        (DoSendRouteUpdate.select strategy ipv4 periodic interface) st cell := by
  unfold DoSendRouteUpdate.onRoute pageStep DoSendRouteUpdate.select
  simp only []
  split_ifs <;> rfl

theorem HandleRequests.reply_onRoute_eq (strategy : SplitHorizonType_e) (ipv4 : Ipv4)
    (socket incomingInterface senderAddress : Nat) (st : Ripv2Header × List SentPacket)
    (cell : RouteCell) :
    HandleRequests.onRoute strategy ipv4 socket incomingInterface senderAddress st cell =
      pageStep (fun h => { socket := socket, hdr := h, toAddress := senderAddress,
                           toPort := RIPV2_PORT })
        (HandleRequests.select strategy ipv4 incomingInterface) st cell := by
  unfold HandleRequests.onRoute pageStep HandleRequests.select
  simp only []
  split_ifs <;> rfl

end Ripv2

theorem pageStep_foldl (mk : Ripv2Header → SentPacket) (sel : RouteCell → Option Ripv2Rte)
    (routes : List RouteCell) :
    ∀ (hdr0 : Ripv2Header) (sent0 : List SentPacket), hdr0.m_rteList.length < 25 →
      ∃ pages : List Ripv2Header,
        (routes.foldl (pageStep mk sel) (hdr0, sent0)).2 = sent0 ++ pages.map mk ∧
        (∀ h ∈ pages, h.m_command = hdr0.m_command ∧ h.m_rteList.length = 25) ∧
        (routes.foldl (pageStep mk sel) (hdr0, sent0)).1.m_command = hdr0.m_command ∧
        (routes.foldl (pageStep mk sel) (hdr0, sent0)).1.m_rteList.length < 25 ∧
        (pages.map (fun h => h.m_rteList)).flatten ++
            (routes.foldl (pageStep mk sel) (hdr0, sent0)).1.m_rteList =
          hdr0.m_rteList ++ routes.filterMap sel ∧
        pages.length = (hdr0.m_rteList.length + (routes.filterMap sel).length) / 25 := by
  induction routes with
  | nil =>
    intro hdr0 sent0 h0
    refine ⟨[], by simp, by simp, rfl, h0, by simp, ?_⟩
    simp only [List.filterMap_nil, List.length_nil, Nat.add_zero]
    exact (Nat.div_eq_of_lt h0).symm
  | cons c rest ih =>
    intro hdr0 sent0 h0
    simp only [List.foldl_cons]
    cases hsel : sel c with
    | none =>
      have hstep : pageStep mk sel (hdr0, sent0) c = (hdr0, sent0) := by
        unfold pageStep Ripv2Header.GetRteNumber
        simp only [hsel]
        have : hdr0.m_rteList.length % 2 ^ 16 ≠ 25 := by
          have h16 : (65536 : Nat) = 2 ^ 16 := by decide
          omega
        simp only [this, if_false]
      rw [hstep]
      obtain ⟨pages, h1, h2, h3, h4, h5, h6⟩ := ih hdr0 sent0 h0
      refine ⟨pages, h1, h2, h3, h4, ?_, ?_⟩
      · rw [h5, List.filterMap_cons, hsel]
      · rw [h6, List.filterMap_cons, hsel]
    | some rte =>
      by_cases hfull : hdr0.m_rteList.length + 1 = 25
      · have hstep : pageStep mk sel (hdr0, sent0) c =
            ((hdr0.AddRte rte).ClearRtes, sent0 ++ [mk (hdr0.AddRte rte)]) := by
          unfold pageStep Ripv2Header.GetRteNumber
          simp only [hsel]
          have : (hdr0.AddRte rte).m_rteList.length % 2 ^ 16 = 25 := by
            simp only [Ripv2Header.AddRte, List.length_append, List.length_singleton, hfull]
            decide
          simp only [this, if_true]
        rw [hstep]
        obtain ⟨pages, h1, h2, h3, h4, h5, h6⟩ :=
          ih (hdr0.AddRte rte).ClearRtes (sent0 ++ [mk (hdr0.AddRte rte)]) (by
            simp [Ripv2Header.ClearRtes])
        refine ⟨hdr0.AddRte rte :: pages, ?_, ?_, h3, h4, ?_, ?_⟩
        · rw [h1]; simp
        · intro h hh
          rcases List.mem_cons.mp hh with hh | hh
          · rw [hh]
            refine ⟨rfl, ?_⟩
            simp only [Ripv2Header.AddRte, List.length_append, List.length_singleton, hfull]
          · exact h2 h hh
        · simp only [List.map_cons, List.flatten_cons, List.append_assoc, h5,
            List.filterMap_cons, hsel]
          simp [Ripv2Header.AddRte, Ripv2Header.ClearRtes]
        · simp only [List.length_cons, h6, List.filterMap_cons, hsel]
          simp only [Ripv2Header.ClearRtes, List.length_nil, Nat.zero_add]
          omega
      · have hlt : (hdr0.AddRte rte).m_rteList.length < 25 := by
          simp only [Ripv2Header.AddRte, List.length_append, List.length_singleton]
          omega
        have hstep : pageStep mk sel (hdr0, sent0) c = (hdr0.AddRte rte, sent0) := by
          unfold pageStep Ripv2Header.GetRteNumber
          simp only [hsel]
          have : (hdr0.AddRte rte).m_rteList.length % 2 ^ 16 ≠ 25 := by
            have h16 : (65536 : Nat) = 2 ^ 16 := by decide
            omega
          simp only [this, if_false]
        rw [hstep]
        obtain ⟨pages, h1, h2, h3, h4, h5, h6⟩ := ih (hdr0.AddRte rte) sent0 hlt
        refine ⟨pages, h1, h2, h3, h4, ?_, ?_⟩
        · rw [h5, List.filterMap_cons, hsel]
          simp [Ripv2Header.AddRte]
        · have hl : (hdr0.AddRte rte).m_rteList.length = hdr0.m_rteList.length + 1 := by
            simp [Ripv2Header.AddRte]
          rw [h6, List.filterMap_cons, hsel, hl, List.length_cons]
          congr 1
          omega

/-- The packets of one emission: those the loop sends at 25 RTEs and the
one sent after the loop when RTEs are left. -/
theorem pageStep_emission (mk : Ripv2Header → SentPacket) (sel : RouteCell → Option Ripv2Rte)
    (routes : List RouteCell) (sent0 : List SentPacket) :
    ∃ pages : List Ripv2Header,
      ((routes.foldl (pageStep mk sel) ({ m_command := RESPONSE }, sent0)).2 ++
        if (routes.foldl (pageStep mk sel) ({ m_command := RESPONSE }, sent0)).1.GetRteNumber > 0
        then [mk (routes.foldl (pageStep mk sel) ({ m_command := RESPONSE }, sent0)).1]
        else []) = sent0 ++ pages.map mk ∧
      Paginated pages (routes.filterMap sel) := by
  obtain ⟨pages, h1, h2, h3, h4, h5, h6⟩ :=
    pageStep_foldl mk sel routes { m_command := RESPONSE } sent0 (by decide)
  generalize routes.foldl (pageStep mk sel) ({ m_command := RESPONSE }, sent0) = r at *
  simp only [List.nil_append, List.length_nil, Nat.zero_add] at h5 h6
  have hnum : r.1.GetRteNumber = r.1.m_rteList.length := by
    unfold Ripv2Header.GetRteNumber
    apply Nat.mod_eq_of_lt
    have h16 : (65536 : Nat) = 2 ^ 16 := by decide
    omega
  have hlen : (routes.filterMap sel).length = 25 * pages.length + r.1.m_rteList.length := by
    rw [← h5, List.length_append]
    congr 1
    clear h1 h5 h6
    induction pages with
    | nil => rfl
    | cons p rest ih =>
      simp only [List.map_cons, List.flatten_cons, List.length_append, List.length_cons]
      rw [ih (fun h hh => h2 h (List.mem_cons_of_mem _ hh)), (h2 p (List.mem_cons_self _ _)).2]
      omega
  by_cases hz : r.1.m_rteList.length > 0
  · refine ⟨pages ++ [r.1], ?_, ?_, ?_, ?_⟩
    · rw [hnum, if_pos hz, h1]
      simp
    · intro h hh
      rcases List.mem_append.mp hh with hh | hh
      · have := h2 h hh
        exact ⟨this.1, by omega, by omega⟩
      · rw [List.mem_singleton.mp hh]
        exact ⟨h3, hz, by omega⟩
    · rw [← h5]; simp
    · rw [hlen, List.length_append, List.length_singleton]
      omega
  · have hnil : r.1.m_rteList = [] := List.length_eq_zero.mp (by omega)
    refine ⟨pages, ?_, ?_, ?_, ?_⟩
    · rw [hnum, if_neg hz, h1]
      simp
    · intro h hh
      have := h2 h hh
      exact ⟨this.1, by omega, by omega⟩
    · rw [← h5, hnil]; simp
    · rw [hlen, hnil, List.length_nil]
      omega

namespace Ripv2

theorem DoSendRouteUpdate.onSocket_pages (s : Ripv2) (ipv4 : Ipv4) (periodic : Bool)
    (sent : List SentPacket) (sock : Nat × Nat) (hex : sock.2 ∉ s.m_interfaceExclusions) :
    ∃ pages : List Ripv2Header,
      DoSendRouteUpdate.onSocket s ipv4 periodic sent sock =
        sent ++ pages.map (fun h => { socket := sock.1, hdr := h, toAddress := RIPV2_ALL_NODE,
                                      toPort := RIPV2_PORT }) ∧
      Paginated pages
        (DoSendRouteUpdate.selected s.m_splitHorizonStrategy ipv4 periodic sock.2 s.m_routes) := by
  have hfun : DoSendRouteUpdate.onRoute s.m_splitHorizonStrategy ipv4 periodic sock.1 sock.2 =
      pageStep (fun h => { socket := sock.1, hdr := h, toAddress := RIPV2_ALL_NODE,
                           toPort := RIPV2_PORT })
        (DoSendRouteUpdate.select s.m_splitHorizonStrategy ipv4 periodic sock.2) := by
    funext st cell
    exact DoSendRouteUpdate.onRoute_eq _ _ _ _ _ _ _
  obtain ⟨pages, h1, h2⟩ := pageStep_emission
    (fun h => { socket := sock.1, hdr := h, toAddress := RIPV2_ALL_NODE, toPort := RIPV2_PORT })
    (DoSendRouteUpdate.select s.m_splitHorizonStrategy ipv4 periodic sock.2) s.m_routes sent
  refine ⟨pages, ?_, h2⟩
  rw [← h1]
  unfold DoSendRouteUpdate.onSocket
  simp only [hex, not_false_eq_true, if_true, hfun]
  split_ifs <;> simp

theorem HandleRequests.whole_table_pages (s : Ripv2) (ipv4 : Ipv4) (requestHdr : Ripv2Header)
    (first : Ripv2Rte) (senderAddress senderPort incomingInterface sendingSoket : Nat)
    (hreq : requestHdr.m_rteList = [first])
    (hfirst : first.m_IpAddress = 0 ∧ first.m_SubnetMask = 0 ∧ first.m_metric = 16)
    (hex : incomingInterface ∉ s.m_interfaceExclusions)
    (hsock : findSendingSocket incomingInterface s.m_sendSocketList none = some sendingSoket) :
    ∃ pages : List Ripv2Header,
      s.HandleRequests ipv4 requestHdr senderAddress senderPort incomingInterface 255 =
        .ok { s with sent := s.sent ++ pages.map (fun h =>
                { socket := sendingSoket, hdr := h, toAddress := senderAddress,
                  toPort := RIPV2_PORT }) } ∧
      Paginated pages
        (HandleRequests.selected s.m_splitHorizonStrategy ipv4 incomingInterface s.m_routes) := by
  have hfun : HandleRequests.onRoute s.m_splitHorizonStrategy ipv4 sendingSoket
      incomingInterface senderAddress =
      pageStep (fun h => { socket := sendingSoket, hdr := h, toAddress := senderAddress,
                           toPort := RIPV2_PORT })
        (HandleRequests.select s.m_splitHorizonStrategy ipv4 incomingInterface) := by
    funext st cell
    exact HandleRequests.reply_onRoute_eq _ _ _ _ _ _ _
  obtain ⟨pages, h1, h2⟩ := pageStep_emission
    (fun h => { socket := sendingSoket, hdr := h, toAddress := senderAddress,
                toPort := RIPV2_PORT })
    (HandleRequests.select s.m_splitHorizonStrategy ipv4 incomingInterface) s.m_routes s.sent
  refine ⟨pages, ?_, h2⟩
  rw [← h1]
  unfold Ripv2.HandleRequests
  simp only [hreq, List.length_singleton, true_and, hfirst, and_self, if_true, hex,
    not_false_eq_true, hsock, hfun]
  split_ifs <;> simp

theorem rtesOf_map (mk : Ripv2Header → SentPacket) (hmk : ∀ h, (mk h).hdr = h)
    (pages : List Ripv2Header) :
    rtesOf (pages.map mk) = (pages.map (fun h => h.m_rteList)).flatten := by
  unfold rtesOf
  rw [List.map_map]
  congr 1
  apply List.map_congr_left
  intro h _
  simp only [Function.comp, hmk]

theorem DoSendRouteUpdate.select_triggered (strategy : SplitHorizonType_e) (ipv4 : Ipv4)
    (interface : Nat) (cell : RouteCell) :
    DoSendRouteUpdate.select strategy ipv4 false interface cell =
      if cell.1.m_changed = true then DoSendRouteUpdate.select strategy ipv4 true interface cell
      else none := by
  unfold DoSendRouteUpdate.select
  cases hc : cell.1.m_changed <;> simp [hc]

theorem DoSendRouteUpdate.select_periodic (strategy : SplitHorizonType_e) (ipv4 : Ipv4)
    (interface : Nat) (cell : RouteCell) (b : Bool) :
    DoSendRouteUpdate.select strategy ipv4 true interface ({ cell.1 with m_changed := b }, cell.2) =
      DoSendRouteUpdate.select strategy ipv4 true interface cell := by
  unfold DoSendRouteUpdate.select
  simp

end Ripv2

/-- C20: periodic and triggered selection.  Through a socket whose interface
is not excluded, the RTEs of the packets of a triggered emission are the RTEs
selected with `periodic = false` and those of a periodic emission the RTEs
selected with `periodic = true`; the triggered list is the periodic list of
the table restricted to the routes flagged as changed; a route that gives an
RTE to a triggered emission is flagged as changed; and the flag does not
matter to what a periodic emission selects. -/
theorem periodic_versus_triggered (s : Ripv2) (ipv4 : Ipv4) (sent : List SentPacket)
    (sock : Nat × Nat) (hex : sock.2 ∉ s.m_interfaceExclusions) :
    (∃ packets, DoSendRouteUpdate.onSocket s ipv4 false sent sock = sent ++ packets ∧
      rtesOf packets =
        DoSendRouteUpdate.selected s.m_splitHorizonStrategy ipv4 false sock.2 s.m_routes) ∧
    (∃ packets, DoSendRouteUpdate.onSocket s ipv4 true sent sock = sent ++ packets ∧
      rtesOf packets =
        DoSendRouteUpdate.selected s.m_splitHorizonStrategy ipv4 true sock.2 s.m_routes) ∧
    DoSendRouteUpdate.selected s.m_splitHorizonStrategy ipv4 false sock.2 s.m_routes =
      DoSendRouteUpdate.selected s.m_splitHorizonStrategy ipv4 true sock.2
        (s.m_routes.filter (fun c => c.1.m_changed)) ∧
    (∀ (c : RouteCell) (rte : Ripv2Rte),
      DoSendRouteUpdate.select s.m_splitHorizonStrategy ipv4 false sock.2 c = some rte →
        c.1.m_changed = true) ∧
    (∀ (c : RouteCell) (b : Bool),
      DoSendRouteUpdate.select s.m_splitHorizonStrategy ipv4 true sock.2
          ({ c.1 with m_changed := b }, c.2) =
        DoSendRouteUpdate.select s.m_splitHorizonStrategy ipv4 true sock.2 c) := by
  refine ⟨?_, ?_, ?_, ?_, ?_⟩
  · obtain ⟨pages, h1, h2⟩ := DoSendRouteUpdate.onSocket_pages s ipv4 false sent sock hex
    exact ⟨_, h1, by rw [rtesOf_map _ (fun _ => rfl), h2.2.1]⟩
  · obtain ⟨pages, h1, h2⟩ := DoSendRouteUpdate.onSocket_pages s ipv4 true sent sock hex
    exact ⟨_, h1, by rw [rtesOf_map _ (fun _ => rfl), h2.2.1]⟩
  · unfold DoSendRouteUpdate.selected
    induction s.m_routes with
    | nil => rfl
    | cons c rest ih =>
      rw [List.filterMap_cons, DoSendRouteUpdate.select_triggered, List.filter_cons]
      by_cases hc : c.1.m_changed = true
      · simp only [hc, if_true, List.filterMap_cons, ih]
      · simp only [hc, if_false, ih]
        simp
  · intro c rte hsel
    rw [DoSendRouteUpdate.select_triggered] at hsel
    by_contra hc
    simp [hc] at hsel
  · intro c b
    exact DoSendRouteUpdate.select_periodic _ _ _ _ _

/-- C20 at an input: the triggered emission of `ribD` on interface 1 leaves
out 192.168.0.0/16, which is not flagged as changed. -/
theorem periodic_versus_triggered_witness :
    (5, 1).2 ∉ ribD.m_interfaceExclusions ∧
      DoSendRouteUpdate.selected ribD.m_splitHorizonStrategy ipv4W false 1 ribD.m_routes =
        DoSendRouteUpdate.selected ribD.m_splitHorizonStrategy ipv4W true 1
          (ribD.m_routes.filter (fun c => c.1.m_changed)) :=
  ⟨by decide, (periodic_versus_triggered ribD ipv4W [] (5, 1) (by decide)).2.2.1⟩

/-- C18: the default route on its own interface.  A default route whose
interface is `I_o` gives an RTE to an emission on `I_o` exactly when the
scope of the prefix 0.0.0.0/0 is GLOBAL, the update is periodic or the route
is flagged as changed, and the strategy is not SPLIT_HORIZON: the test
`isGlobal || isDefaultRoute` lets it pass as a GLOBAL prefix.  With the scope
GLOBAL that `Ipv4InterfaceAddress (network, mask)` has, the periodic and the
triggered update of `ribD` on interface 1 and the whole-table reply carry
0.0.0.0/0 with metric 16 under POISON_REVERSE, and the periodic update
carries it with metric 1 under NO_SPLIT_HORIZON. -/
theorem default_route_not_suppressed :
    (∀ (strategy : SplitHorizonType_e) (ipv4 : Ipv4) (periodic : Bool) (I_o : Nat)
        (cell : RouteCell),
      cell.1.m_dest = 0 → cell.1.m_destNetworkMask = 0 → cell.1.m_interface = I_o →
        ((DoSendRouteUpdate.select strategy ipv4 periodic I_o cell).isSome = true ↔
          (ipv4.PrefixScope 0 0 = .GLOBAL ∧ (periodic = true ∨ cell.1.m_changed = true) ∧
            strategy ≠ .SPLIT_HORIZON))) ∧
    DoSendRouteUpdate.onSocket ribD ipv4W true [] (5, 1) =
      [{ socket := 5, toAddress := RIPV2_ALL_NODE, toPort := RIPV2_PORT,
         hdr := { m_command := RESPONSE,
                  m_rteList :=
                    [{ m_IpAddress := 0, m_SubnetMask := 0, m_metric := 16 },
                     { m_tag := 7, m_IpAddress := 0x0A000000, m_SubnetMask := 0xFF000000,
                       m_metric := 3 },
                     { m_IpAddress := 0xC0A80000, m_SubnetMask := 0xFFFF0000,
                       m_metric := 16 }] } }] ∧
    DoSendRouteUpdate.onSocket ribD ipv4W false [] (5, 1) =
      [{ socket := 5, toAddress := RIPV2_ALL_NODE, toPort := RIPV2_PORT,
         hdr := { m_command := RESPONSE,
                  m_rteList :=
                    [{ m_IpAddress := 0, m_SubnetMask := 0, m_metric := 16 },
                     { m_tag := 7, m_IpAddress := 0x0A000000, m_SubnetMask := 0xFF000000,
                       m_metric := 3 }] } }] ∧
    DoSendRouteUpdate.onSocket { ribD with m_splitHorizonStrategy := .NO_SPLIT_HORIZON }
        ipv4W true [] (5, 1) =
      [{ socket := 5, toAddress := RIPV2_ALL_NODE, toPort := RIPV2_PORT,
         hdr := { m_command := RESPONSE,
                  m_rteList :=
                    [{ m_IpAddress := 0, m_SubnetMask := 0, m_metric := 1 },
                     { m_tag := 7, m_IpAddress := 0x0A000000, m_SubnetMask := 0xFF000000,
                       m_metric := 3 },
                     { m_IpAddress := 0xC0A80000, m_SubnetMask := 0xFFFF0000,
                       m_metric := 1 }] } }] ∧
    ribD.HandleRequests ipv4W
        { m_command := REQUEST,
          m_rteList := [{ m_IpAddress := 0, m_SubnetMask := 0, m_metric := 16 }] }
        0x0A000009 520 1 255 =
      .ok { ribD with
        sent :=
          [{ socket := 5, toAddress := 0x0A000009, toPort := RIPV2_PORT,
             hdr := { m_command := RESPONSE,
                      m_rteList :=
                        [{ m_IpAddress := 0, m_SubnetMask := 0, m_metric := 16 },
                         { m_tag := 7, m_IpAddress := 0x0A000000, m_SubnetMask := 0xFF000000,
                           m_metric := 3 },
                         { m_IpAddress := 0xC0A80000, m_SubnetMask := 0xFFFF0000,
                           m_metric := 16 }] } }] } := by
  refine ⟨?_, by decide, by decide, by decide, rfl⟩
  intro strategy ipv4 periodic I_o cell hd hm hi
  unfold DoSendRouteUpdate.select
  simp only [hd, hm, hi]
  cases strategy <;> cases periodic <;> cases hc : cell.1.m_changed <;>
    by_cases hg : ipv4.PrefixScope 0 0 = .GLOBAL <;> simp [hg]

/-! ## Properties of routes kept by every operation -/

namespace Ripv2

theorem HandleResponses.onRoute_all (Q : Ripv2RoutingTableEntry → Prop) (hQ : EntryInvariant Q)
    (td gd sa ii ip rm rme tag : Nat) (cell : RouteCell) (v : HandleResponses.Vars)
    (h1 : 1 ≤ rme) (h2 : rme ≤ 16) (h : Q cell.1) :
    Q (HandleResponses.onRoute td gd sa ii (CombineMask ip rm) rm rme tag cell v).1.1 := by
  unfold HandleResponses.onRoute
  simp only [Ripv2RoutingTableEntry.setters_eq]
  split_ifs <;>
    first
      | exact h
      | exact hQ.learn _ ip rm sa ii rme tag h1 h2
      | exact hQ.update _ rme tag h h1 h2
      | (rw [InvalidateRoute.onCell_entry]; exact hQ.invalidate _ h)

theorem HandleResponses.routesLoop_all (Q : Ripv2RoutingTableEntry → Prop)
    (hQ : EntryInvariant Q) (td gd sa ii ip rm rme tag : Nat) (h1 : 1 ≤ rme) (h2 : rme ≤ 16)
    (l : List RouteCell) :
    ∀ (v : HandleResponses.Vars), (∀ c ∈ l, Q c.1) →
      ∀ c ∈ (HandleResponses.routesLoop td gd sa ii (CombineMask ip rm) rm rme tag l v).1,
        Q c.1 := by
  induction l with
  | nil => intro v _ c hc; simp [HandleResponses.routesLoop] at hc
  | cons x rest ih =>
    intro v h c hc
    simp only [HandleResponses.routesLoop, List.mem_cons] at hc
    rcases hc with hc | hc
    · rw [hc]
      exact HandleResponses.onRoute_all Q hQ _ _ _ _ _ _ _ _ _ _ h1 h2
        (h x (List.mem_cons_self _ _))
    · exact ih _ (fun y hy => h y (List.mem_cons_of_mem _ hy)) c hc

theorem HandleResponses.onRte_all (Q : Ripv2RoutingTableEntry → Prop) (hQ : EntryInvariant Q)
    (sa ii : Nat) (st : Ripv2 × Bool) (rte : Ripv2Rte) (hm : st.1.MetricsOk)
    (h1 : 1 ≤ rte.m_metric) (h2 : rte.m_metric ≤ 16) (h : st.1.All Q) :
    (HandleResponses.onRte sa ii st rte).1.All Q := by
  have hr := HandleResponses.rteMetric_range st.1 ii rte hm h1 h2
  unfold HandleResponses.onRte All
  simp only []
  split_ifs
  · intro c hc
    simp only [List.mem_cons] at hc
    rcases hc with hc | hc
    · rw [hc, Ripv2RoutingTableEntry.setters_eq_no_tag]
      exact hQ.learn _ rte.m_IpAddress rte.m_SubnetMask sa ii _ 0 hr.2.1 hr.2.2
    · exact HandleResponses.routesLoop_all Q hQ _ _ _ _ _ _ _ _ hr.2.1 hr.2.2 _ _ h c hc
  · exact HandleResponses.routesLoop_all Q hQ _ _ _ _ _ _ _ _ hr.2.1 hr.2.2 _ _ h

theorem HandleResponses.foldl_all (Q : Ripv2RoutingTableEntry → Prop) (hQ : EntryInvariant Q)
    (sa ii : Nat) (rtes : List Ripv2Rte) :
    ∀ (st : Ripv2 × Bool), st.1.MetricsOk → HandleResponses.validate rtes = true →
      st.1.All Q → (rtes.foldl (HandleResponses.onRte sa ii) st).1.All Q := by
  induction rtes with
  | nil => intro st _ _ h; exact h
  | cons r rest ih =>
    intro st hm hv h
    have hc := HandleResponses.validate_cons r rest hv
    have hm' : (HandleResponses.onRte sa ii st r).1.MetricsOk := by
      unfold MetricsOk
      rw [(HandleResponses.onRte_settings sa ii st r).1]
      exact hm
    exact ih _ hm' hc.2.2.2.2 (HandleResponses.onRte_all Q hQ sa ii st r hm hc.1 hc.2.1 h)

theorem All_HandleResponses (Q : Ripv2RoutingTableEntry → Prop) (hQ : EntryInvariant Q)
    (s : Ripv2) (hdr : Ripv2Header) (sa ii ttl delay : Nat) (hm : s.MetricsOk) (h : s.All Q) :
    (s.HandleResponses hdr sa ii ttl delay).All Q := by
  unfold Ripv2.HandleResponses
  simp only []
  split_ifs with h1 h2 h3 h4
  · exact h
  · exact h
  · exact h
  · apply All_SendTriggeredRouteUpdate
    exact HandleResponses.foldl_all Q hQ sa ii hdr.m_rteList (s, false) hm (by simpa using h3) h
  · exact HandleResponses.foldl_all Q hQ sa ii hdr.m_rteList (s, false) hm (by simpa using h3) h

theorem All_Receive (Q : Ripv2RoutingTableEntry → Prop) (hQ : EntryInvariant Q)
    (s s' : Ripv2) (ipv4 : Ipv4) (gd : Nat → Nat) (packet : Packet) (delay : Nat)
    (hm : s.MetricsOk) (h : s.All Q) (hr : s.Receive ipv4 gd packet delay = .ok s') :
    s'.All Q := by
  unfold Ripv2.Receive at hr
  split at hr
  · cases hr
  · split at hr
    · cases hr
    · split at hr
      · cases hr
      · simp only [] at hr
        split_ifs at hr
        · cases hr; exact h
        · split at hr
          · cases hr
          · split_ifs at hr
            · cases hr; exact All_HandleResponses Q hQ _ _ _ _ _ _ hm h
            · unfold All
              rw [HandleRequests_routes _ _ _ _ _ _ _ _ hr]
              exact h
            · cases hr; exact h

theorem InvalidateRoute.invalidate_loop_all (Q : Ripv2RoutingTableEntry → Prop) (hQ : EntryInvariant Q)
    (gd route : Nat) (l : List RouteCell) :
    ∀ (sim : Simulator) (r : List RouteCell × Simulator), (∀ c ∈ l, Q c.1) →
      InvalidateRoute.loop gd route l sim = some r → ∀ c ∈ r.1, Q c.1 := by
  induction l with
  | nil => intro sim r _ hr; simp [InvalidateRoute.loop] at hr
  | cons x rest ih =>
    intro sim r h hr
    unfold InvalidateRoute.loop at hr
    split_ifs at hr
    · cases hr
      intro c hc
      rcases List.mem_cons.mp hc with hc | hc
      · rw [hc, InvalidateRoute.onCell_entry]
        exact hQ.invalidate _ (h x (List.mem_cons_self _ _))
      · exact h c (List.mem_cons_of_mem _ hc)
    · split at hr
      · cases hr
      · rename_i r' hr'
        cases hr
        intro c hc
        rcases List.mem_cons.mp hc with hc | hc
        · rw [hc]; exact h x (List.mem_cons_self _ _)
        · exact ih sim r' (fun y hy => h y (List.mem_cons_of_mem _ hy)) hr' c hc

theorem DeleteRoute.loop_sub (route : Nat) (l : List RouteCell) :
    ∀ (r : List RouteCell), DeleteRoute.loop route l = some r → ∀ c ∈ r, c ∈ l := by
  induction l with
  | nil => intro r hr; simp [DeleteRoute.loop] at hr
  | cons x rest ih =>
    intro r hr
    unfold DeleteRoute.loop at hr
    split_ifs at hr
    · cases hr
      exact fun c hc => List.mem_cons_of_mem _ hc
    · split at hr
      · cases hr
      · rename_i r' hr'
        cases hr
        intro c hc
        rcases List.mem_cons.mp hc with hc | hc
        · rw [hc]; exact List.mem_cons_self _ _
        · exact List.mem_cons_of_mem _ (ih r' hr' c hc)

theorem All_DoSendRouteUpdate (Q : Ripv2RoutingTableEntry → Prop) (hQ : EntryInvariant Q)
    (s : Ripv2) (ipv4 : Ipv4) (periodic : Bool) (h : s.All Q) :
    (s.DoSendRouteUpdate ipv4 periodic).All Q := by
  unfold Ripv2.DoSendRouteUpdate All
  intro c hc
  simp only [List.mem_map] at hc
  obtain ⟨x, hx, rfl⟩ := hc
  exact hQ.changed _ _ (h x hx)

end Ripv2

/-- One operation keeps a property of routes that the agent keeps, when the
metrics of the interfaces are below 16. -/
theorem step_entries (Q : Ripv2RoutingTableEntry → Prop) (hQ : EntryInvariant Q)
    (ipv4 : Ipv4) (gd : Nat → Nat) (s s' : Ripv2) (op : Op) (hm : s.MetricsOk) (h : s.All Q)
    (hs : step ipv4 gd s op = some s') : s'.All Q := by
  cases op with
  | runEvent delay =>
    simp only [step] at hs
    split at hs
    · cases hs
    · rename_i e _
      try simp only [] at hs
      split_ifs at hs
      · cases hs; exact h
      · split at hs
        · rename_i route _
          unfold Ripv2.InvalidateRoute at hs
          simp only [] at hs
          split at hs
          · cases hs
          · rename_i r hr
            cases hs
            exact InvalidateRoute.invalidate_loop_all Q hQ _ _ _ _ r h hr
        · rename_i route _
          unfold Ripv2.DeleteRoute at hs
          simp only [] at hs
          split at hs
          · cases hs
          · rename_i r hr
            cases hs
            exact fun c hc => h c (DeleteRoute.loop_sub _ _ r hr c hc)
        · cases hs
          exact Ripv2.All_DoSendRouteUpdate Q hQ _ _ _ h
        · cases hs
          unfold Ripv2.SendUnsolicitedRouteUpdate
          simp only []
          refine Ripv2.All_DoSendRouteUpdate Q hQ _ ipv4 true ?_
          split_ifs <;> exact h
        · cases hs
          exact h
  | advance ticks =>
    simp only [step] at hs
    split_ifs at hs
    cases hs
    exact h
  | receive packet delay =>
    simp only [step] at hs
    split_ifs at hs
    cases hr : s.Receive ipv4 gd packet delay with
    | error e => rw [hr] at hs; cases hs
    | ok s'' =>
      rw [hr] at hs
      cases hs
      exact Ripv2.All_Receive Q hQ _ _ _ _ _ _ hm h hr
  | addDefaultRouteTo nextHop interface =>
    exact step_observer Q hQ ipv4 gd s s' _ h
      (by intro d; simp) (by intro t; simp) (by intro p d; simp) hs
  | setInterfaceMetric interface metric =>
    exact step_observer Q hQ ipv4 gd s s' _ h
      (by intro d; simp) (by intro t; simp) (by intro p d; simp) hs
  | setInterfaceExclusions exceptions =>
    exact step_observer Q hQ ipv4 gd s s' _ h
      (by intro d; simp) (by intro t; simp) (by intro p d; simp) hs
  | setIpv4 delay =>
    exact step_observer Q hQ ipv4 gd s s' _ h
      (by intro d; simp) (by intro t; simp) (by intro p d; simp) hs
  | doInitialize d1 d2 d3 =>
    exact step_observer Q hQ ipv4 gd s s' _ h
      (by intro d; simp) (by intro t; simp) (by intro p d; simp) hs
  | notifyInterfaceUp i delay =>
    exact step_observer Q hQ ipv4 gd s s' _ h
      (by intro d; simp) (by intro t; simp) (by intro p d; simp) hs
  | notifyInterfaceDown interface delay =>
    exact step_observer Q hQ ipv4 gd s s' _ h
      (by intro d; simp) (by intro t; simp) (by intro p d; simp) hs
  | notifyAddAddress interface address delay =>
    exact step_observer Q hQ ipv4 gd s s' _ h
      (by intro d; simp) (by intro t; simp) (by intro p d; simp) hs
  | notifyRemoveAddress interface address delay =>
    exact step_observer Q hQ ipv4 gd s s' _ h
      (by intro d; simp) (by intro t; simp) (by intro p d; simp) hs

/-! ## The metrics of the interfaces are written by SetInterfaceMetric only -/

namespace Ripv2

theorem SendTriggeredRouteUpdate_metrics (s : Ripv2) (delay : Nat) :
    (s.SendTriggeredRouteUpdate delay).m_interfaceMetrics = s.m_interfaceMetrics := by
  unfold SendTriggeredRouteUpdate
  simp only []
  split_ifs <;> rfl

theorem NotifyInterfaceUp.firstLoop_metrics (i : Nat) (l : List Ipv4InterfaceAddress) :
    ∀ (s : Ripv2), (NotifyInterfaceUp.firstLoop i l s).m_interfaceMetrics =
      s.m_interfaceMetrics := by
  induction l with
  | nil => intro s; rfl
  | cons a rest ih =>
    intro s
    unfold NotifyInterfaceUp.firstLoop
    simp only []
    rw [ih]
    split_ifs <;> rfl

theorem NotifyInterfaceUp.secondLoop_metrics (i : Nat) (f a : Bool) (delay : Nat)
    (l : List Ipv4InterfaceAddress) :
    ∀ (s : Ripv2), (NotifyInterfaceUp.secondLoop i f a delay l s).m_interfaceMetrics =
      s.m_interfaceMetrics := by
  induction l with
  | nil => intro s; rfl
  | cons x rest ih =>
    intro s
    unfold NotifyInterfaceUp.secondLoop
    simp only []
    rw [ih]
    split_ifs
    · rfl
    · rw [SendTriggeredRouteUpdate_metrics]; rfl
    · rfl

theorem NotifyInterfaceUp_metrics (s : Ripv2) (ipv4 : Ipv4) (i delay : Nat) :
    (s.NotifyInterfaceUp ipv4 i delay).m_interfaceMetrics = s.m_interfaceMetrics := by
  unfold NotifyInterfaceUp
  simp only []
  split_ifs
  · exact NotifyInterfaceUp.firstLoop_metrics _ _ _
  · split
    · simp only [NotifyInterfaceUp.secondLoop_metrics, NotifyInterfaceUp.firstLoop_metrics]
    · simp only [NotifyInterfaceUp.secondLoop_metrics, NotifyInterfaceUp.firstLoop_metrics]

theorem NotifyInterfaceDown_metrics (s : Ripv2) (interface delay : Nat) :
    (s.NotifyInterfaceDown interface delay).m_interfaceMetrics = s.m_interfaceMetrics := by
  unfold NotifyInterfaceDown
  simp only []
  split_ifs
  · rfl
  · rw [SendTriggeredRouteUpdate_metrics]

theorem NotifyAddAddress_metrics (s : Ripv2) (ipv4 : Ipv4) (interface : Nat)
    (address : Ipv4InterfaceAddress) (delay : Nat) :
    (s.NotifyAddAddress ipv4 interface address delay).m_interfaceMetrics =
      s.m_interfaceMetrics := by
  unfold NotifyAddAddress
  simp only []
  split_ifs
  · rfl
  · rfl
  · rw [SendTriggeredRouteUpdate_metrics]; rfl
  · rw [SendTriggeredRouteUpdate_metrics]

theorem NotifyRemoveAddress_metrics (s : Ripv2) (ipv4 : Ipv4) (interface : Nat)
    (address : Ipv4InterfaceAddress) (delay : Nat) :
    (s.NotifyRemoveAddress ipv4 interface address delay).m_interfaceMetrics =
      s.m_interfaceMetrics := by
  unfold NotifyRemoveAddress
  simp only []
  split_ifs
  · rfl
  · rfl
  · rw [SendTriggeredRouteUpdate_metrics]

theorem SetIpv4.loop_metrics (ipv4 : Ipv4) (delay : Nat) (n : Nat) :
    ∀ (i : Nat) (s : Ripv2), (SetIpv4.loop ipv4 delay n i s).m_interfaceMetrics =
      s.m_interfaceMetrics := by
  induction n with
  | zero => intro i s; rfl
  | succ n ih =>
    intro i s
    unfold SetIpv4.loop
    simp only []
    rw [ih]
    split_ifs
    · exact NotifyInterfaceUp_metrics _ _ _ _
    · exact NotifyInterfaceDown_metrics _ _ _

theorem DoInitialize.addressLoop_metrics (i : Nat) (a : Bool) (l : List Ipv4InterfaceAddress) :
    ∀ (st : Ripv2 × Bool), (DoInitialize.addressLoop i a l st).1.m_interfaceMetrics =
      st.1.m_interfaceMetrics := by
  induction l with
  | nil => intro st; rfl
  | cons x rest ih =>
    intro st
    unfold DoInitialize.addressLoop
    simp only []
    rw [ih]
    split_ifs <;> rfl

theorem DoInitialize.interfaceLoop_metrics (ipv4 : Ipv4) (n : Nat) :
    ∀ (i : Nat) (st : Ripv2 × Bool),
      (DoInitialize.interfaceLoop ipv4 n i st).1.m_interfaceMetrics =
        st.1.m_interfaceMetrics := by
  induction n with
  | zero => intro i st; rfl
  | succ n ih =>
    intro i st
    unfold DoInitialize.interfaceLoop
    simp only []
    rw [ih, DoInitialize.addressLoop_metrics]

theorem DoInitialize_metrics (s : Ripv2) (ipv4 : Ipv4) (d1 d2 d3 : Nat) :
    (s.DoInitialize ipv4 d1 d2 d3).m_interfaceMetrics = s.m_interfaceMetrics := by
  unfold DoInitialize
  simp only []
  have h := DoInitialize.interfaceLoop_metrics ipv4 ipv4.GetNInterfaces 0
    ({ s with m_initialized := true,
              m_nextUnsolicitedUpdate := (s.sim.Schedule d1 .SendUnsolicitedRouteUpdate).1,
              sim := (s.sim.Schedule d1 .SendUnsolicitedRouteUpdate).2 }, false)
  generalize DoInitialize.interfaceLoop ipv4 ipv4.GetNInterfaces 0
    ({ s with m_initialized := true,
              m_nextUnsolicitedUpdate := (s.sim.Schedule d1 .SendUnsolicitedRouteUpdate).1,
              sim := (s.sim.Schedule d1 .SendUnsolicitedRouteUpdate).2 }, false) = st at h ⊢
  rcases st with ⟨t, b⟩
  simp only [] at h ⊢
  cases b <;> cases hr : t.m_recvSocket <;> simp [h]

theorem HandleResponses_metrics (s : Ripv2) (hdr : Ripv2Header) (sa ii ttl delay : Nat) :
    (s.HandleResponses hdr sa ii ttl delay).m_interfaceMetrics = s.m_interfaceMetrics := by
  unfold Ripv2.HandleResponses
  simp only []
  have hf := (HandleResponses.foldl_settings sa ii hdr.m_rteList (s, false)).1
  split_ifs
  · rfl
  · rfl
  · rfl
  · rw [SendTriggeredRouteUpdate_metrics]; exact hf
  · exact hf

theorem HandleRequests_metrics (s s' : Ripv2) (ipv4 : Ipv4) (hdr : Ripv2Header)
    (sa sp ii ttl : Nat) (h : s.HandleRequests ipv4 hdr sa sp ii ttl = .ok s') :
    s'.m_interfaceMetrics = s.m_interfaceMetrics := by
  unfold Ripv2.HandleRequests at h
  simp only [] at h
  repeat' split at h
  all_goals first | (injection h with h; rw [← h]) | (injection h)

theorem Receive_metrics (s s' : Ripv2) (ipv4 : Ipv4) (gd : Nat → Nat) (packet : Packet)
    (delay : Nat) (hr : s.Receive ipv4 gd packet delay = .ok s') :
    s'.m_interfaceMetrics = s.m_interfaceMetrics := by
  unfold Ripv2.Receive at hr
  split at hr
  · cases hr
  · split at hr
    · cases hr
    · split at hr
      · cases hr
      · simp only [] at hr
        split_ifs at hr
        · cases hr; rfl
        · split at hr
          · cases hr
          · split_ifs at hr
            · cases hr; exact HandleResponses_metrics _ _ _ _ _ _
            · exact HandleRequests_metrics _ _ _ _ _ _ _ _ hr
            · cases hr; rfl

end Ripv2

/-- One operation keeps the metrics of the interfaces below 16. -/
theorem step_metricsOk (ipv4 : Ipv4) (gd : Nat → Nat) (s s' : Ripv2) (op : Op)
    (hm : s.MetricsOk) (hs : step ipv4 gd s op = some s') : s'.MetricsOk := by
  cases op with
  | runEvent delay =>
    simp only [step] at hs
    split at hs
    · cases hs
    · rename_i e _
      try simp only [] at hs
      split_ifs at hs
      · cases hs; exact hm
      · split at hs
        · unfold Ripv2.InvalidateRoute at hs
          simp only [] at hs
          split at hs
          · cases hs
          · cases hs; exact hm
        · unfold Ripv2.DeleteRoute at hs
          simp only [] at hs
          split at hs
          · cases hs
          · cases hs; exact hm
        · cases hs; exact hm
        · cases hs
          unfold Ripv2.SendUnsolicitedRouteUpdate Ripv2.DoSendRouteUpdate
          simp only []
          split_ifs <;> exact hm
        · cases hs; exact hm
  | advance ticks =>
    simp only [step] at hs
    split_ifs at hs
    cases hs
    exact hm
  | receive packet delay =>
    simp only [step] at hs
    split_ifs at hs
    cases hr : s.Receive ipv4 gd packet delay with
    | error e => rw [hr] at hs; cases hs
    | ok s'' =>
      rw [hr] at hs
      cases hs
      unfold Ripv2.MetricsOk
      rw [Ripv2.Receive_metrics _ _ _ _ _ _ hr]
      exact hm
  | addDefaultRouteTo nextHop interface =>
    simp only [step, Option.some.injEq] at hs
    rw [← hs]; exact hm
  | setInterfaceMetric interface metric =>
    simp only [step, Option.some.injEq] at hs
    rw [← hs]; exact Ripv2.MetricsOk_SetInterfaceMetric s interface metric hm
  | setInterfaceExclusions exceptions =>
    simp only [step, Option.some.injEq] at hs
    rw [← hs]; exact hm
  | setIpv4 delay =>
    simp only [step] at hs
    cases hr : s.SetIpv4 ipv4 delay with
    | error e => rw [hr] at hs; cases hs
    | ok s'' =>
      rw [hr] at hs
      cases hs
      unfold Ripv2.SetIpv4 at hr
      split_ifs at hr
      simp only [Except.ok.injEq] at hr
      unfold Ripv2.MetricsOk
      rw [← hr, Ripv2.SetIpv4.loop_metrics]
      exact hm
  | doInitialize d1 d2 d3 =>
    simp only [step] at hs
    split_ifs at hs
    simp only [Option.some.injEq] at hs
    rw [← hs]; unfold Ripv2.MetricsOk; rw [Ripv2.DoInitialize_metrics]; exact hm
  | notifyInterfaceUp i delay =>
    simp only [step] at hs
    split_ifs at hs
    simp only [Option.some.injEq] at hs
    rw [← hs]; unfold Ripv2.MetricsOk; rw [Ripv2.NotifyInterfaceUp_metrics]; exact hm
  | notifyInterfaceDown interface delay =>
    simp only [step, Option.some.injEq] at hs
    rw [← hs]; unfold Ripv2.MetricsOk; rw [Ripv2.NotifyInterfaceDown_metrics]; exact hm
  | notifyAddAddress interface address delay =>
    simp only [step] at hs
    split_ifs at hs
    simp only [Option.some.injEq] at hs
    rw [← hs]; unfold Ripv2.MetricsOk; rw [Ripv2.NotifyAddAddress_metrics]; exact hm
  | notifyRemoveAddress interface address delay =>
    simp only [step] at hs
    split_ifs at hs
    simp only [Option.some.injEq] at hs
    rw [← hs]; unfold Ripv2.MetricsOk; rw [Ripv2.NotifyRemoveAddress_metrics]; exact hm

/-- A run keeps the metrics of the interfaces below 16 and a property of
routes that the agent keeps. -/
theorem runIn_entries (Q : Ripv2RoutingTableEntry → Prop) (hQ : EntryInvariant Q)
    (gd : Nat → Nat) (ops : List (Ipv4 × Op)) :
    ∀ (s s' : Ripv2), s.MetricsOk → s.All Q → runIn gd s ops = some s' →
      s'.MetricsOk ∧ s'.All Q := by
  induction ops with
  | nil =>
    intro s s' hm h hr
    simp only [runIn, Option.some.injEq] at hr
    rw [← hr]; exact ⟨hm, h⟩
  | cons op rest ih =>
    intro s s' hm h hr
    unfold runIn at hr
    split at hr
    · cases hr
    · rename_i t ht
      exact ih t s' (step_metricsOk op.1 gd s t op.2 hm ht)
        (step_entries Q hQ op.1 gd s t op.2 hm h ht) hr

theorem metricInRange_entryInvariant : EntryInvariant MetricInRange where
  add := fun _ _ _ _ _ _ => ⟨Nat.le_refl 1, Nat.le_of_ble_eq_true rfl⟩
  invalidate := fun _ _ => ⟨Nat.le_of_ble_eq_true rfl, Nat.le_refl 16⟩
  changed := fun _ _ h => h
  update := fun _ _ _ _ h1 h2 => ⟨h1, h2⟩
  learn := fun _ _ _ _ _ _ _ h1 h2 => ⟨h1, h2⟩

/-- C12: the metric range invariant.  From an agent with no route and no
interface metric set, after any operations (the events of the simulator, among
them `InvalidateRoute`, `DeleteRoute` and the update emissions; received
packets, among them Responses; `AddDefaultRouteTo`; the configuration;
`SetIpv4`, `DoInitialize` and the interface notifications), each with the IP
layer it finds, every route of the table has a metric from 1 to 16 and
every interface metric stored is below 16. -/
theorem metric_range_invariant (gd : Nat → Nat) (s0 s : Ripv2) (ops : List (Ipv4 × Op))
    (hr0 : s0.m_routes = []) (hm0 : s0.m_interfaceMetrics = [])
    (hrun : runIn gd s0 ops = some s) :
    (∀ c ∈ s.m_routes, 1 ≤ c.1.m_metric ∧ c.1.m_metric ≤ 16) ∧
      ∀ p ∈ s.m_interfaceMetrics, p.2 < 16 := by
  have h := runIn_entries MetricInRange metricInRange_entryInvariant gd ops s0 s
    (by intro p hp; rw [hm0] at hp; cases hp)
    (by intro c hc; rw [hr0] at hc; cases hc) hrun
  exact ⟨h.2, h.1⟩

/-- C12 at an input: the run `runMetrics`, which ends with two routes, both
of metric 16, and the metric 3 stored for interface 1. -/
theorem metric_range_invariant_witness :
    (runIn id {} runMetrics).map
        (fun s => (s.m_routes.map (fun c => c.1.m_metric), s.m_interfaceMetrics)) =
      some ([16, 16], [(1, 3)]) ∧
    (∀ c ∈ ((runIn id {} runMetrics).getD {}).m_routes,
      1 ≤ c.1.m_metric ∧ c.1.m_metric ≤ 16) ∧
    ∀ p ∈ ((runIn id {} runMetrics).getD {}).m_interfaceMetrics, p.2 < 16 :=
  ⟨by decide,
    metric_range_invariant id {} ((runIn id {} runMetrics).getD {}) runMetrics rfl rfl
      (by decide)⟩

/-- C15, the runs that break it.  With interface 1 holding 10.0.0.5/24:
`NotifyInterfaceUp (1)` on an agent that was bound to the IP layer while it
had no address, and initialised, its table empty, stores 10.0.0.0/24 twice,
once in each of its loops; `SetIpv4` and then `NotifyInterfaceUp (1)` store
it twice; and `AddDefaultRouteTo` called twice stores 0.0.0.0/0 twice.  The
same Response received twice stores its prefix once, next to the prefix of
the interface: `HandleResponses` looks for the key before it adds. -/
theorem duplicate_keys :
    (runIn id {} [(ipv4W, .setIpv4 0), (ipv4U, .doInitialize 0 0 0),
        (ipv4U, .notifyInterfaceUp 1 0)]).map
        (fun s => s.m_routes.map (fun c => (c.1.m_dest, c.1.m_destNetworkMask))) =
      some [(0x0A000000, 0xFFFFFF00), (0x0A000000, 0xFFFFFF00)] ∧
    (runIn id {} [(ipv4U, .setIpv4 0), (ipv4U, .notifyInterfaceUp 1 0)]).map
        (fun s => s.m_routes.map (fun c => (c.1.m_dest, c.1.m_destNetworkMask))) =
      some [(0x0A000000, 0xFFFFFF00), (0x0A000000, 0xFFFFFF00)] ∧
    (runIn id {} [(ipv4U, .addDefaultRouteTo 0x0A000001 1),
        (ipv4U, .addDefaultRouteTo 0x0A000001 1)]).map
        (fun s => s.m_routes.map (fun c => (c.1.m_dest, c.1.m_destNetworkMask))) =
      some [(0, 0), (0, 0)] ∧
    (runIn id {} [(ipv4U, .setIpv4 0), (ipv4U, .receive packetA 0),
        (ipv4U, .receive packetA 0)]).map
        (fun s => s.m_routes.map (fun c => (c.1.m_dest, c.1.m_destNetworkMask))) =
      some [(0xC0A80100, 0xFFFFFF00), (0x0A000000, 0xFFFFFF00)] := by
  decide

theorem invalidHasInfinity_entryInvariant : EntryInvariant InvalidHasInfinity where
  add := fun _ _ _ _ _ _ h => by cases h
  invalidate := fun _ _ _ => rfl
  changed := fun _ _ h => h
  update := fun _ _ _ _ _ _ h => by cases h
  learn := fun _ _ _ _ _ _ _ _ _ h => by cases h

/-- C14, the run that breaks it, and the half that holds.  After any
operations from an agent with no route and no interface metric set, a route
that is INVALID has metric 16.  But its garbage-collection timer can be
disarmed: in the run `runRefresh` the route learnt from 10.0.0.1 times out at
180 s and `DeleteRoute` is due at 300 s; when 10.0.0.1 announces the prefix at
metric 16 at 211 s, the route stays INVALID with metric 16, the `DeleteRoute`
event is cancelled and the handle of the route is a timeout timer
(`InvalidateRoute`) due at 391 s; no `DeleteRoute` is in the queue. -/
theorem refresh_disarms_gc :
    (∀ (gd : Nat → Nat) (s0 s : Ripv2) (ops : List (Ipv4 × Op)),
      s0.m_routes = [] → s0.m_interfaceMetrics = [] → runIn gd s0 ops = some s →
        ∀ c ∈ s.m_routes, c.1.m_status = .RIPV2_INVALID → c.1.m_metric = 16) ∧
    (run ipv4W id {} (runRefresh.take 5)).map timersOf =
      some ([(.RIPV2_INVALID, 16, { m_uid := some 3, m_ts := Seconds 300 })],
            [{ uid := 3, ts := Seconds 300, impl := .DeleteRoute 1 }]) ∧
    (run ipv4W id {} runRefresh).map timersOf =
      some ([(.RIPV2_INVALID, 16, { m_uid := some 4, m_ts := Seconds 391 })],
            [{ uid := 4, ts := Seconds 391, impl := .InvalidateRoute 1 }]) := by
  refine ⟨?_, by decide, by decide⟩
  intro gd s0 s ops hr0 hm0 hrun
  exact (runIn_entries InvalidHasInfinity invalidHasInfinity_entryInvariant gd ops s0 s
    (by intro p hp; rw [hm0] at hp; cases hp)
    (by intro c hc; rw [hr0] at hc; cases hc) hrun).2

/-! ## The timers of the routes -/

theorem Simulator.Cancel_uid (sim : Simulator) (h : EventId) : (sim.Cancel h).uid = sim.uid := by
  unfold Simulator.Cancel; cases h.m_uid <;> rfl

theorem Simulator.Cancel_uids (sim : Simulator) (h : EventId) :
    (sim.Cancel h).events.map (fun e => e.uid) = sim.events.map (fun e => e.uid) := by
  unfold Simulator.Cancel
  cases h.m_uid with
  | none => rfl
  | some u =>
    simp only [List.map_map]
    apply List.map_congr_left
    intro e _
    simp only [Function.comp]
    split_ifs <;> rfl

theorem Simulator.mem_Cancel (sim : Simulator) (h : EventId) (e' : Event)
    (he : e' ∈ (sim.Cancel h).events) :
    ∃ e ∈ sim.events, e'.uid = e.uid ∧ e'.impl = e.impl ∧
      (e'.cancelled = false → e' = e ∧ h.m_uid ≠ some e.uid) := by
  unfold Simulator.Cancel at he
  cases hu : h.m_uid with
  | none => rw [hu] at he; exact ⟨e', he, rfl, rfl, fun _ => ⟨rfl, by simp⟩⟩
  | some u =>
    rw [hu] at he
    simp only [List.mem_map] at he
    obtain ⟨e, hmem, rfl⟩ := he
    refine ⟨e, hmem, ?_, ?_, ?_⟩
    · split_ifs <;> rfl
    · split_ifs <;> rfl
    · intro hc
      by_cases hk : e.uid = u
      · simp [hk] at hc
      · constructor
        · simp only [hk, if_false]
        · intro hcon
          exact hk (Option.some.inj hcon).symm

theorem Simulator.Cancel_live (sim : Simulator) (h : EventId) (e : Event)
    (he : e ∈ sim.events) (hne : h.m_uid ≠ some e.uid) : e ∈ (sim.Cancel h).events := by
  unfold Simulator.Cancel
  cases hu : h.m_uid with
  | none => exact he
  | some u =>
    simp only [List.mem_map]
    refine ⟨e, he, ?_⟩
    have hk : ¬ e.uid = u := by
      intro hk; apply hne; rw [hu, hk]
    simp only [hk, if_false]

theorem handle_unique (before after : List RouteCell) (c x : RouteCell) (u : Nat)
    (hn : ((before ++ c :: after).filterMap (fun c => c.2.m_uid)).Nodup)
    (hc : c.2.m_uid = some u) (hx : x ∈ before ∨ x ∈ after) (hxu : x.2.m_uid = some u) :
    False := by
  rw [List.filterMap_append, List.filterMap_cons, hc] at hn
  have hn' := (List.nodup_middle.mp hn)
  rw [List.nodup_cons] at hn'
  apply hn'.1
  rw [List.mem_append]
  rcases hx with hx | hx
  · exact Or.inl (List.mem_filterMap.mpr ⟨x, hx, hxu⟩)
  · exact Or.inr (List.mem_filterMap.mpr ⟨x, hx, hxu⟩)

theorem addr_unique (before after : List RouteCell) (c x : RouteCell)
    (hn : ((before ++ c :: after).map (fun c => c.1.addr)).Nodup)
    (hx : x ∈ before ∨ x ∈ after) : x.1.addr ≠ c.1.addr := by
  rw [List.map_append, List.map_cons] at hn
  have hn' := (List.nodup_middle.mp hn)
  rw [List.nodup_cons] at hn'
  intro heq
  apply hn'.1
  rw [List.mem_append, ← heq]
  rcases hx with hx | hx
  · exact Or.inl (List.mem_map.mpr ⟨x, hx, rfl⟩)
  · exact Or.inr (List.mem_map.mpr ⟨x, hx, rfl⟩)

theorem mem_middle (before after : List RouteCell) (c x : RouteCell)
    (hx : x ∈ before ++ c :: after) : x = c ∨ (x ∈ before ∨ x ∈ after) := by
  rcases List.mem_append.mp hx with h | h
  · exact Or.inr (Or.inl h)
  · rcases List.mem_cons.mp h with h | h
    · exact Or.inl h
    · exact Or.inr (Or.inr h)

theorem mem_middle_of (before after : List RouteCell) (c x : RouteCell)
    (hx : x ∈ before ∨ x ∈ after) : x ∈ before ++ c :: after := by
  rcases hx with h | h
  · exact List.mem_append_left _ h
  · exact List.mem_append_right _ (List.mem_cons_of_mem _ h)

/-- A cell whose handle is cancelled and set to a new timer of its route,
the route staying where it is or being a new object, keeps the timers in
order. -/
theorem TimersOk.rearm (before after : List RouteCell) (c : RouteCell)
    (e' : Ripv2RoutingTableEntry) (sim : Simulator) (heap heap' : Nat) (ut : EventId)
    (d : Nat) (impl : EventImpl)
    (h : TimersOk (before ++ c :: after) sim heap ut)
    (haddr : (e'.addr = c.1.addr ∧ heap' = heap) ∨ (e'.addr = heap ∧ heap' = heap + 1))
    (himpl : impl = .InvalidateRoute e'.addr ∨
      (impl = .DeleteRoute e'.addr ∧ e'.m_status = .RIPV2_INVALID)) :
    TimersOk (before ++ (e', ((sim.Cancel c.2).Schedule d impl).1) :: after)
      ((sim.Cancel c.2).Schedule d impl).2 heap' ut := by
  have hheap : heap ≤ heap' := by rcases haddr with h1 | h1 <;> omega
  have hroute : impl.routeOf = some e'.addr := by
    rcases himpl with h1 | h1
    · rw [h1]; rfl
    · rw [h1.1]; rfl
  constructor
  · -- addrs
    have hold := h.addrs
    rw [List.map_append, List.map_cons] at hold ⊢
    rcases haddr with h1 | h1
    · show (List.map (fun c => c.1.addr) before ++ e'.addr :: List.map (fun c => c.1.addr) after).Nodup
      rw [h1.1]; exact hold
    · show (List.map (fun c => c.1.addr) before ++ e'.addr :: List.map (fun c => c.1.addr) after).Nodup
      have hold' := List.nodup_middle.mp hold
      rw [List.nodup_cons] at hold'
      apply List.nodup_middle.mpr
      rw [List.nodup_cons]
      refine ⟨?_, hold'.2⟩
      intro hmem
      rw [List.mem_append] at hmem
      have : ∃ x, (x ∈ before ∨ x ∈ after) ∧ x.1.addr = e'.addr := by
        rcases hmem with hm | hm
        · obtain ⟨x, hx, hxe⟩ := List.mem_map.mp hm
          exact ⟨x, Or.inl hx, hxe⟩
        · obtain ⟨x, hx, hxe⟩ := List.mem_map.mp hm
          exact ⟨x, Or.inr hx, hxe⟩
      obtain ⟨x, hx, hxe⟩ := this
      have := h.addr_lt x (mem_middle_of before after c x hx)
      omega
  · -- addr_lt
    intro x hx
    rcases mem_middle before after _ x hx with hx | hx
    · rw [hx]
      show e'.addr < heap'
      rcases haddr with h1 | h1
      · have := h.addr_lt c (List.mem_append_right _ (List.mem_cons_self _ _))
        omega
      · omega
    · have := h.addr_lt x (mem_middle_of before after c x hx)
      omega
  · -- uids
    show (List.map (fun e => e.uid) ((sim.Cancel c.2).events ++ [_])).Nodup
    rw [List.map_append, Simulator.Cancel_uids]
    apply List.Nodup.append h.uids (by simp)
    intro u hu1 hu2
    simp only [List.map_cons, List.map_nil, List.mem_singleton] at hu2
    obtain ⟨e, he, heu⟩ := List.mem_map.mp hu1
    have := h.uid_lt e he
    rw [Simulator.Cancel_uid] at hu2
    omega
  · -- uid_lt
    intro e he
    show e.uid < (sim.Cancel c.2).uid + 1
    rw [Simulator.Cancel_uid]
    rcases List.mem_append.mp he with he | he
    · obtain ⟨e0, he0, hu, -, -⟩ := Simulator.mem_Cancel sim c.2 e he
      have := h.uid_lt e0 he0
      omega
    · rw [List.mem_singleton.mp he]
      show (sim.Cancel c.2).uid < sim.uid + 1
      rw [Simulator.Cancel_uid]
      omega
  · -- handles
    have hold := h.handles
    rw [List.filterMap_append, List.filterMap_cons] at hold ⊢
    show (List.filterMap (fun c => c.2.m_uid) before ++
      (match (some (sim.Cancel c.2).uid : Option Nat) with
        | none => List.filterMap (fun c => c.2.m_uid) after
        | some b => b :: List.filterMap (fun c => c.2.m_uid) after)).Nodup
    simp only [Simulator.Cancel_uid]
    have hsub : (List.filterMap (fun c => c.2.m_uid) before ++
        List.filterMap (fun c => c.2.m_uid) after).Nodup := by
      cases hc : c.2.m_uid with
      | none => rw [hc] at hold; exact hold
      | some u =>
        rw [hc] at hold
        have := List.nodup_middle.mp hold
        exact (List.nodup_cons.mp this).2
    apply List.nodup_middle.mpr
    rw [List.nodup_cons]
    refine ⟨?_, hsub⟩
    intro hmem
    rw [List.mem_append] at hmem
    have : ∃ x, (x ∈ before ∨ x ∈ after) ∧ x.2.m_uid = some sim.uid := by
      rcases hmem with hm | hm
      · obtain ⟨x, hx, hxe⟩ := List.mem_filterMap.mp hm
        exact ⟨x, Or.inl hx, hxe⟩
      · obtain ⟨x, hx, hxe⟩ := List.mem_filterMap.mp hm
        exact ⟨x, Or.inr hx, hxe⟩
    obtain ⟨x, hx, hxe⟩ := this
    have := h.handle_lt x (mem_middle_of before after c x hx) _ hxe
    omega
  · -- handle_lt
    intro x hx u hu
    show u < (sim.Cancel c.2).uid + 1
    rw [Simulator.Cancel_uid]
    rcases mem_middle before after _ x hx with hx | hx
    · rw [hx] at hu
      have : u = (sim.Cancel c.2).uid := (Option.some.inj hu).symm
      rw [Simulator.Cancel_uid] at this
      omega
    · have := h.handle_lt x (mem_middle_of before after c x hx) u hu
      omega
  · -- owner
    intro e he hlive a ha
    rcases List.mem_append.mp he with he | he
    · obtain ⟨e0, he0, hu, hi, hl⟩ := Simulator.mem_Cancel sim c.2 e he
      obtain ⟨heq, hne⟩ := hl hlive
      subst heq
      obtain ⟨c0, hc0, hca, hcu⟩ := h.owner e he0 hlive a ha
      rcases mem_middle before after c c0 hc0 with hx | hx
      · rw [hx] at hcu; exact absurd hcu hne
      · exact ⟨c0, mem_middle_of before after _ c0 hx, hca, hcu⟩
    · rw [List.mem_singleton.mp he] at ha ⊢
      refine ⟨_, List.mem_append_right _ (List.mem_cons_self _ _), ?_, rfl⟩
      have ha' : impl.routeOf = some a := ha
      rw [hroute] at ha'
      exact Option.some.inj ha'
  · -- valid
    intro x hx hv u hu
    rcases mem_middle before after _ x hx with hx | hx
    · rw [hx] at hu hv ⊢
      refine ⟨_, List.mem_append_right _ (List.mem_singleton.mpr rfl), ?_, rfl, ?_⟩
      · exact Option.some.inj hu
      · rcases himpl with h1 | h1
        · exact h1
        · have hv' : e'.m_status = .RIPV2_VALID := hv
          rw [h1.2] at hv'
          cases hv'
    · obtain ⟨e, he, heu, hl, hi⟩ := h.valid x (mem_middle_of before after c x hx) hv u hu
      refine ⟨e, List.mem_append_left _ (Simulator.Cancel_live sim c.2 e he ?_), heu, hl, hi⟩
      intro hc
      rw [heu] at hc
      exact handle_unique before after c x u h.handles hc hx hu
  · -- update_lt
    intro u hu
    show u < (sim.Cancel c.2).uid + 1
    rw [Simulator.Cancel_uid]
    have := h.update_lt u hu
    omega
  · -- update
    intro u hu e he heu
    rcases List.mem_append.mp he with he | he
    · obtain ⟨e0, he0, hu0, hi, -⟩ := Simulator.mem_Cancel sim c.2 e he
      rw [hi]
      exact h.update u hu e0 he0 (hu0 ▸ heu)
    · rw [List.mem_singleton.mp he] at heu
      have h1 : (sim.Cancel c.2).uid = u := heu
      rw [Simulator.Cancel_uid] at h1
      have := h.update_lt u hu
      omega

theorem TimersOk.now (routes : List RouteCell) (sim : Simulator) (heap : Nat) (ut : EventId)
    (t : Nat) (h : TimersOk routes sim heap ut) :
    TimersOk routes { sim with now := t } heap ut :=
  ⟨h.addrs, h.addr_lt, h.uids, h.uid_lt, h.handles, h.handle_lt, h.owner, h.valid,
    h.update_lt, h.update⟩

theorem TimersOk.heap_mono (routes : List RouteCell) (sim : Simulator) (heap heap' : Nat)
    (ut : EventId) (hle : heap ≤ heap') (h : TimersOk routes sim heap ut) :
    TimersOk routes sim heap' ut :=
  ⟨h.addrs, fun c hc => Nat.lt_of_lt_of_le (h.addr_lt c hc) hle, h.uids, h.uid_lt, h.handles,
    h.handle_lt, h.owner, h.valid, h.update_lt, h.update⟩

/-- A new object put in the table with a handle that refers to no event
keeps the timers in order. -/
theorem TimersOk.insert (before after : List RouteCell) (c : RouteCell) (sim : Simulator)
    (heap : Nat) (ut : EventId) (hnone : c.2.m_uid = none) (haddr : c.1.addr = heap)
    (h : TimersOk (before ++ after) sim heap ut) :
    TimersOk (before ++ c :: after) sim (heap + 1) ut := by
  have hmem : ∀ x, x ∈ before ∨ x ∈ after → x ∈ before ++ after := fun x hx =>
    List.mem_append.mpr hx
  constructor
  · have hold := h.addrs
    rw [List.map_append] at hold
    rw [List.map_append, List.map_cons]
    apply List.nodup_middle.mpr
    rw [List.nodup_cons]
    refine ⟨?_, hold⟩
    intro hm
    rw [← List.map_append] at hm
    obtain ⟨x, hx, hxe⟩ := List.mem_map.mp hm
    have := h.addr_lt x hx
    omega
  · intro x hx
    rcases mem_middle before after c x hx with hx | hx
    · rw [hx]; omega
    · have := h.addr_lt x (hmem x hx); omega
  · exact h.uids
  · exact h.uid_lt
  · have hold := h.handles
    rw [List.filterMap_append] at hold
    rw [List.filterMap_append, List.filterMap_cons, hnone]
    exact hold
  · intro x hx u hu
    rcases mem_middle before after c x hx with hx | hx
    · rw [hx, hnone] at hu; cases hu
    · exact h.handle_lt x (hmem x hx) u hu
  · intro e he hl a ha
    obtain ⟨c0, hc0, h1, h2⟩ := h.owner e he hl a ha
    exact ⟨c0, mem_middle_of before after c c0 (List.mem_append.mp hc0), h1, h2⟩
  · intro x hx hv u hu
    rcases mem_middle before after c x hx with hx | hx
    · rw [hx, hnone] at hu; cases hu
    · exact h.valid x (hmem x hx) hv u hu
  · exact h.update_lt
  · exact h.update

/-- An event that is no timer of a route, scheduled with its handle kept as
the handle of the triggered update or dropped, keeps the timers in order. -/
theorem TimersOk.schedule_other (routes : List RouteCell) (sim : Simulator) (heap : Nat)
    (ut ut' : EventId) (d : Nat) (impl : EventImpl) (himpl : impl.routeOf = none)
    (hut : ut'.m_uid = ut.m_uid ∨ ut'.m_uid = some sim.uid)
    (h : TimersOk routes sim heap ut) :
    TimersOk routes (sim.Schedule d impl).2 heap ut' := by
  constructor
  · exact h.addrs
  · exact h.addr_lt
  · show (List.map (fun e => e.uid) (sim.events ++ [_])).Nodup
    rw [List.map_append]
    apply List.Nodup.append h.uids (by simp)
    intro u hu1 hu2
    simp only [List.map_cons, List.map_nil, List.mem_singleton] at hu2
    obtain ⟨e, he, heu⟩ := List.mem_map.mp hu1
    have := h.uid_lt e he
    omega
  · intro e he
    show e.uid < sim.uid + 1
    rcases List.mem_append.mp he with he | he
    · have := h.uid_lt e he; omega
    · rw [List.mem_singleton.mp he]
      show sim.uid < sim.uid + 1
      omega
  · exact h.handles
  · intro x hx u hu
    show u < sim.uid + 1
    have := h.handle_lt x hx u hu
    omega
  · intro e he hl a ha
    rcases List.mem_append.mp he with he | he
    · exact h.owner e he hl a ha
    · rw [List.mem_singleton.mp he] at ha
      have ha' : impl.routeOf = some a := ha
      rw [himpl] at ha'
      cases ha'
  · intro x hx hv u hu
    obtain ⟨e, he, h1, h2, h3⟩ := h.valid x hx hv u hu
    exact ⟨e, List.mem_append_left _ he, h1, h2, h3⟩
  · intro u hu
    show u < sim.uid + 1
    rcases hut with h1 | h1
    · have := h.update_lt u (h1 ▸ hu); omega
    · rw [h1] at hu
      have := Option.some.inj hu
      omega
  · intro u hu e he heu
    rcases List.mem_append.mp he with he | he
    · rcases hut with h1 | h1
      · exact h.update u (h1 ▸ hu) e he heu
      · rw [h1] at hu
        have := Option.some.inj hu
        have := h.uid_lt e he
        omega
    · rw [List.mem_singleton.mp he]
      exact himpl

/-- Cancelling the handle of the triggered update keeps the timers in
order. -/
theorem TimersOk.cancel_update (routes : List RouteCell) (sim : Simulator) (heap : Nat)
    (ut : EventId) (h : TimersOk routes sim heap ut) :
    TimersOk routes (sim.Cancel ut) heap ut := by
  constructor
  · exact h.addrs
  · exact h.addr_lt
  · rw [Simulator.Cancel_uids]; exact h.uids
  · intro e he
    obtain ⟨e0, he0, hu, -, -⟩ := Simulator.mem_Cancel sim ut e he
    rw [Simulator.Cancel_uid, hu]
    exact h.uid_lt e0 he0
  · exact h.handles
  · intro x hx u hu
    rw [Simulator.Cancel_uid]
    exact h.handle_lt x hx u hu
  · intro e he hl a ha
    obtain ⟨e0, he0, -, -, hl0⟩ := Simulator.mem_Cancel sim ut e he
    obtain ⟨heq, -⟩ := hl0 hl
    subst heq
    exact h.owner e he0 hl a ha
  · intro x hx hv u hu
    obtain ⟨e, he, h1, h2, h3⟩ := h.valid x hx hv u hu
    refine ⟨e, Simulator.Cancel_live sim ut e he ?_, h1, h2, h3⟩
    intro hc
    have := h.update e.uid hc e he rfl
    rw [h3] at this
    cases this
  · intro u hu
    rw [Simulator.Cancel_uid]
    exact h.update_lt u hu
  · intro u hu e he heu
    obtain ⟨e0, he0, hu0, hi, -⟩ := Simulator.mem_Cancel sim ut e he
    rw [hi]
    exact h.update u hu e0 he0 (hu0 ▸ heu)

theorem uid_unique (events : List Event) (e1 e2 : Event)
    (hn : (events.map (fun e => e.uid)).Nodup) (h1 : e1 ∈ events) (h2 : e2 ∈ events)
    (hu : e1.uid = e2.uid) : e1 = e2 :=
  List.inj_on_of_nodup_map hn h1 h2 hu

/-- An event that leaves the queue, cancelled or not a timeout of a route,
keeps the timers in order. -/
theorem TimersOk.remove_event (routes : List RouteCell) (sim : Simulator) (heap : Nat)
    (ut : EventId) (e : Event) (t : Nat) (he : e ∈ sim.events)
    (hcond : e.cancelled = true ∨ ∀ a, e.impl ≠ .InvalidateRoute a)
    (h : TimersOk routes sim heap ut) :
    TimersOk routes
      { sim with now := t, events := sim.events.filter (fun x => decide (x.uid ≠ e.uid)) }
      heap ut := by
  have hsub : ∀ x, x ∈ sim.events.filter (fun x => decide (x.uid ≠ e.uid)) → x ∈ sim.events :=
    fun x hx => (List.mem_filter.mp hx).1
  constructor
  · exact h.addrs
  · exact h.addr_lt
  · exact (h.uids.sublist ((List.filter_sublist _).map _))
  · intro x hx
    exact h.uid_lt x (hsub x hx)
  · exact h.handles
  · exact h.handle_lt
  · intro x hx hl a ha
    exact h.owner x (hsub x hx) hl a ha
  · intro x hx hv u hu
    obtain ⟨e1, he1, h1, h2, h3⟩ := h.valid x hx hv u hu
    refine ⟨e1, List.mem_filter.mpr ⟨he1, ?_⟩, h1, h2, h3⟩
    simp only [ne_eq, decide_not, Bool.not_eq_true', decide_eq_false_iff_not]
    intro hc
    have := uid_unique sim.events e1 e h.uids he1 he hc
    subst this
    rcases hcond with hc1 | hc1
    · rw [hc1] at h2; cases h2
    · exact hc1 _ h3
  · exact h.update_lt
  · intro u hu x hx hxu
    exact h.update u hu x (hsub x hx) hxu

/-- A cell that no timer in the queue belongs to can leave the table. -/
theorem TimersOk.erase (before after : List RouteCell) (c : RouteCell) (sim : Simulator)
    (heap : Nat) (ut : EventId)
    (hfree : ∀ e ∈ sim.events, e.cancelled = false → e.impl.routeOf ≠ some c.1.addr)
    (h : TimersOk (before ++ c :: after) sim heap ut) :
    TimersOk (before ++ after) sim heap ut := by
  have hmem : ∀ x, x ∈ before ++ after → x ∈ before ++ c :: after := fun x hx =>
    mem_middle_of before after c x (List.mem_append.mp hx)
  constructor
  · have hold := h.addrs
    rw [List.map_append, List.map_cons] at hold
    rw [List.map_append]
    exact (List.nodup_cons.mp (List.nodup_middle.mp hold)).2
  · intro x hx; exact h.addr_lt x (hmem x hx)
  · exact h.uids
  · exact h.uid_lt
  · have hold := h.handles
    rw [List.filterMap_append, List.filterMap_cons] at hold
    rw [List.filterMap_append]
    cases hc : c.2.m_uid with
    | none => rw [hc] at hold; exact hold
    | some u =>
      rw [hc] at hold
      exact (List.nodup_cons.mp (List.nodup_middle.mp hold)).2
  · intro x hx; exact h.handle_lt x (hmem x hx)
  · intro e he hl a ha
    obtain ⟨c0, hc0, h1, h2⟩ := h.owner e he hl a ha
    rcases mem_middle before after c c0 hc0 with hx | hx
    · exfalso
      apply hfree e he hl
      rw [ha, ← h1, hx]
    · exact ⟨c0, List.mem_append.mpr hx, h1, h2⟩
  · intro x hx; exact h.valid x (hmem x hx)
  · exact h.update_lt
  · exact h.update

/-- Clearing the flags `changed` keeps the timers in order. -/
theorem TimersOk.map_changed (routes : List RouteCell) (sim : Simulator) (heap : Nat)
    (ut : EventId) (h : TimersOk routes sim heap ut) :
    TimersOk (routes.map (fun cell => (cell.1.SetRouteChanged false, cell.2))) sim heap ut := by
  have hmem : ∀ x, x ∈ routes.map (fun cell => (cell.1.SetRouteChanged false, cell.2)) →
      ∃ c ∈ routes, x.1.addr = c.1.addr ∧ x.1.m_status = c.1.m_status ∧ x.2 = c.2 := by
    intro x hx
    obtain ⟨c, hc, rfl⟩ := List.mem_map.mp hx
    exact ⟨c, hc, rfl, rfl, rfl⟩
  constructor
  · have : (routes.map (fun cell => (cell.1.SetRouteChanged false, cell.2))).map
        (fun c => c.1.addr) = routes.map (fun c => c.1.addr) := by
      rw [List.map_map]; rfl
    rw [this]; exact h.addrs
  · intro x hx
    obtain ⟨c, hc, h1, -, -⟩ := hmem x hx
    rw [h1]; exact h.addr_lt c hc
  · exact h.uids
  · exact h.uid_lt
  · have : (routes.map (fun cell => (cell.1.SetRouteChanged false, cell.2))).filterMap
        (fun c => c.2.m_uid) = routes.filterMap (fun c => c.2.m_uid) := by
      rw [List.filterMap_map]; rfl
    rw [this]; exact h.handles
  · intro x hx u hu
    obtain ⟨c, hc, -, -, h3⟩ := hmem x hx
    rw [h3] at hu; exact h.handle_lt c hc u hu
  · intro e he hl a ha
    obtain ⟨c, hc, h1, h2⟩ := h.owner e he hl a ha
    exact ⟨_, List.mem_map.mpr ⟨c, hc, rfl⟩, h1, h2⟩
  · intro x hx hv u hu
    obtain ⟨c, hc, h1, h2, h3⟩ := hmem x hx
    rw [h3] at hu; rw [h2] at hv; rw [h1]
    exact h.valid c hc hv u hu
  · exact h.update_lt
  · exact h.update

namespace Ripv2

theorem Timers_AddNetworkRouteTo3 (s : Ripv2) (net mask i : Nat) (h : s.Timers) :
    (s.AddNetworkRouteTo3 net mask i).Timers := by
  unfold Timers AddNetworkRouteTo3
  simp only [Ripv2RoutingTableEntry.setters_eq_no_tag]
  apply TimersOk.insert s.m_routes [] _ s.sim s.heap s.m_nextTriggeredUpdate rfl rfl
  rw [List.append_nil]
  exact h

theorem Timers_AddNetworkRouteTo4 (s : Ripv2) (net mask gw i : Nat) (h : s.Timers) :
    (s.AddNetworkRouteTo4 net mask gw i).Timers := by
  unfold Timers AddNetworkRouteTo4
  simp only [Ripv2RoutingTableEntry.setters_eq_no_tag]
  apply TimersOk.insert s.m_routes [] _ s.sim s.heap s.m_nextTriggeredUpdate rfl rfl
  rw [List.append_nil]
  exact h

theorem Timers_SendTriggeredRouteUpdate (s : Ripv2) (delay : Nat) (h : s.Timers) :
    (s.SendTriggeredRouteUpdate delay).Timers := by
  unfold Timers SendTriggeredRouteUpdate
  simp only []
  split_ifs
  · exact h
  · exact TimersOk.schedule_other s.m_routes s.sim s.heap s.m_nextTriggeredUpdate _ delay
      (.DoSendRouteUpdate false) rfl (Or.inr rfl) h

end Ripv2

/-- A new object put in front of the table with a new timeout timer keeps
the timers in order. -/
theorem TimersOk.learn (routes : List RouteCell) (e : Ripv2RoutingTableEntry) (sim : Simulator)
    (heap : Nat) (ut : EventId) (d : Nat) (haddr : e.addr = heap)
    (h : TimersOk routes sim heap ut) :
    TimersOk ((e, (sim.Schedule d (.InvalidateRoute e.addr)).1) :: routes)
      (sim.Schedule d (.InvalidateRoute e.addr)).2 (heap + 1) ut := by
  have h1 := TimersOk.insert [] routes (e, ({} : EventId)) sim heap ut rfl haddr h
  exact TimersOk.rearm [] routes (e, ({} : EventId)) e sim (heap + 1) (heap + 1) ut d
    (.InvalidateRoute e.addr) h1 (Or.inl ⟨rfl, rfl⟩) (Or.inl rfl)

namespace Ripv2

theorem HandleResponses.onRoute_timers (td gd sa ii ra rm rme tag : Nat)
    (before after : List RouteCell) (cell : RouteCell) (v : HandleResponses.Vars)
    (ut : EventId) (h : TimersOk (before ++ cell :: after) v.sim v.heap ut) :
    TimersOk (before ++ (HandleResponses.onRoute td gd sa ii ra rm rme tag cell v).1 :: after)
      (HandleResponses.onRoute td gd sa ii ra rm rme tag cell v).2.sim
      (HandleResponses.onRoute td gd sa ii ra rm rme tag cell v).2.heap ut := by
  unfold HandleResponses.onRoute
  simp only [Ripv2RoutingTableEntry.setters_eq, Simulator.Cancel_Cancel,
    InvalidateRoute.onCell_eq]
  split_ifs <;>
    first
      | exact h
      | exact TimersOk.rearm before after cell _ v.sim v.heap _ ut _ _ h (Or.inl ⟨rfl, rfl⟩)
          (Or.inl rfl)
      | exact TimersOk.rearm before after cell _ v.sim v.heap _ ut _ _ h (Or.inr ⟨rfl, rfl⟩)
          (Or.inl rfl)
      | exact TimersOk.rearm before after cell _ v.sim v.heap _ ut _ _ h (Or.inl ⟨rfl, rfl⟩)
          (Or.inr ⟨rfl, rfl⟩)

theorem HandleResponses.routesLoop_timers (td gd sa ii ra rm rme tag : Nat) (ut : EventId)
    (rest : List RouteCell) :
    ∀ (done : List RouteCell) (v : HandleResponses.Vars),
      TimersOk (done ++ rest) v.sim v.heap ut →
      TimersOk (done ++ (HandleResponses.routesLoop td gd sa ii ra rm rme tag rest v).1)
        (HandleResponses.routesLoop td gd sa ii ra rm rme tag rest v).2.sim
        (HandleResponses.routesLoop td gd sa ii ra rm rme tag rest v).2.heap ut := by
  induction rest with
  | nil => intro done v h; exact h
  | cons x rest ih =>
    intro done v h
    have h1 := HandleResponses.onRoute_timers td gd sa ii ra rm rme tag done rest x v ut h
    have h2 := ih (done ++ [(HandleResponses.onRoute td gd sa ii ra rm rme tag x v).1])
      (HandleResponses.onRoute td gd sa ii ra rm rme tag x v).2
      (by rw [List.append_assoc]; exact h1)
    rw [List.append_assoc] at h2
    exact h2

theorem HandleResponses.onRte_timers (sa ii : Nat) (st : Ripv2 × Bool) (rte : Ripv2Rte)
    (h : st.1.Timers) : (HandleResponses.onRte sa ii st rte).1.Timers := by
  have hloop := HandleResponses.routesLoop_timers st.1.m_timeoutDelay
    st.1.m_garbageCollectionDelay sa ii (CombineMask rte.m_IpAddress rte.m_SubnetMask)
    rte.m_SubnetMask (HandleResponses.rteMetric st.1 ii rte) rte.m_tag
    st.1.m_nextTriggeredUpdate st.1.m_routes []
    { sim := st.1.sim, heap := st.1.heap, found := false, changed := st.2 } h
  simp only [List.nil_append] at hloop
  unfold Timers HandleResponses.onRte
  simp only [Ripv2RoutingTableEntry.setters_eq_no_tag]
  split_ifs
  · exact TimersOk.learn _ _ _ _ _ _ rfl hloop
  · exact hloop

theorem HandleResponses.foldl_timers (sa ii : Nat) (rtes : List Ripv2Rte) :
    ∀ (st : Ripv2 × Bool), st.1.Timers →
      (rtes.foldl (HandleResponses.onRte sa ii) st).1.Timers := by
  induction rtes with
  | nil => intro st h; exact h
  | cons r rest ih => intro st h; exact ih _ (HandleResponses.onRte_timers sa ii st r h)

theorem Timers_HandleResponses (s : Ripv2) (hdr : Ripv2Header) (sa ii ttl delay : Nat)
    (h : s.Timers) : (s.HandleResponses hdr sa ii ttl delay).Timers := by
  unfold Ripv2.HandleResponses
  simp only []
  have hf := HandleResponses.foldl_timers sa ii hdr.m_rteList (s, false) h
  split_ifs
  · exact h
  · exact h
  · exact h
  · exact Timers_SendTriggeredRouteUpdate _ _ hf
  · exact hf

end Ripv2

namespace Ripv2

theorem InvalidateRoute.onCell_timers (gd : Nat) (before after : List RouteCell)
    (cell : RouteCell) (sim : Simulator) (heap : Nat) (ut : EventId)
    (h : TimersOk (before ++ cell :: after) sim heap ut) :
    TimersOk (before ++ (InvalidateRoute.onCell gd sim cell).1 :: after)
      (InvalidateRoute.onCell gd sim cell).2 heap ut := by
  rw [InvalidateRoute.onCell_eq]
  exact TimersOk.rearm before after cell _ sim heap heap ut gd _ h (Or.inl ⟨rfl, rfl⟩)
    (Or.inr ⟨rfl, rfl⟩)

theorem InvalidateRoute.each_timers (test : Ripv2RoutingTableEntry → Bool) (gd heap : Nat)
    (ut : EventId) (rest : List RouteCell) :
    ∀ (done : List RouteCell) (sim : Simulator), TimersOk (done ++ rest) sim heap ut →
      TimersOk (done ++ (InvalidateRoute.each test gd rest sim).1)
        (InvalidateRoute.each test gd rest sim).2 heap ut := by
  induction rest with
  | nil => intro done sim h; exact h
  | cons x rest ih =>
    intro done sim h
    unfold InvalidateRoute.each
    split_ifs
    · have h1 := InvalidateRoute.onCell_timers gd done rest x sim heap ut h
      have h2 := ih (done ++ [(InvalidateRoute.onCell gd sim x).1])
        (InvalidateRoute.onCell gd sim x).2 (by rw [List.append_assoc]; exact h1)
      rw [List.append_assoc] at h2
      exact h2
    · have h2 := ih (done ++ [x]) sim (by rw [List.append_assoc]; exact h)
      rw [List.append_assoc] at h2
      exact h2

theorem NotifyInterfaceUp.firstLoop_timers (i : Nat) (l : List Ipv4InterfaceAddress) :
    ∀ (s : Ripv2), s.Timers → (NotifyInterfaceUp.firstLoop i l s).Timers := by
  induction l with
  | nil => intro s h; exact h
  | cons a rest ih =>
    intro s h
    unfold NotifyInterfaceUp.firstLoop
    simp only []
    apply ih
    split_ifs
    · exact Timers_AddNetworkRouteTo3 _ _ _ _ h
    · exact Timers_AddNetworkRouteTo3 _ _ _ _ h
    · exact h

theorem NotifyInterfaceUp.secondLoop_timers (i : Nat) (f a : Bool) (delay : Nat)
    (l : List Ipv4InterfaceAddress) :
    ∀ (s : Ripv2), s.Timers → (NotifyInterfaceUp.secondLoop i f a delay l s).Timers := by
  induction l with
  | nil => intro s h; exact h
  | cons x rest ih =>
    intro s h
    unfold NotifyInterfaceUp.secondLoop
    simp only []
    apply ih
    have h1 := Timers_AddNetworkRouteTo3 s (CombineMask x.m_local x.m_mask) x.m_mask i h
    split_ifs
    · exact TimersOk.heap_mono _ _ _ _ _ (Nat.le_succ _) h1
    · exact Timers_SendTriggeredRouteUpdate _ _ h1
    · exact h1

theorem Timers_NotifyInterfaceUp (s : Ripv2) (ipv4 : Ipv4) (i delay : Nat) (h : s.Timers) :
    (s.NotifyInterfaceUp ipv4 i delay).Timers := by
  unfold NotifyInterfaceUp
  simp only []
  have h1 := NotifyInterfaceUp.firstLoop_timers i (ipv4.GetAddresses i) s h
  split_ifs
  · exact h1
  · have h2 := NotifyInterfaceUp.secondLoop_timers i
      ((NotifyInterfaceUp.firstLoop i (ipv4.GetAddresses i) s).m_sendSocketList.any
        (fun sock => decide (sock.2 = i)))
      (decide (i ∉ (NotifyInterfaceUp.firstLoop i (ipv4.GetAddresses i) s).m_interfaceExclusions))
      delay (ipv4.GetAddresses i) _ h1
    split
    · exact TimersOk.heap_mono _ _ _ _ _ (Nat.le_succ _) h2
    · exact h2

theorem Timers_NotifyInterfaceDown (s : Ripv2) (interface delay : Nat) (h : s.Timers) :
    (s.NotifyInterfaceDown interface delay).Timers := by
  unfold NotifyInterfaceDown
  simp only []
  have h1 := InvalidateRoute.each_timers (fun e => decide (e.m_interface = interface))
    s.m_garbageCollectionDelay s.heap s.m_nextTriggeredUpdate s.m_routes [] s.sim h
  split_ifs
  · exact h1
  · apply Timers_SendTriggeredRouteUpdate
    exact h1

theorem Timers_NotifyAddAddress (s : Ripv2) (ipv4 : Ipv4) (interface : Nat)
    (address : Ipv4InterfaceAddress) (delay : Nat) (h : s.Timers) :
    (s.NotifyAddAddress ipv4 interface address delay).Timers := by
  unfold NotifyAddAddress
  simp only []
  split_ifs
  · exact h
  · exact h
  · exact Timers_SendTriggeredRouteUpdate _ _ (Timers_AddNetworkRouteTo3 _ _ _ _ h)
  · exact Timers_SendTriggeredRouteUpdate _ _ h

theorem Timers_NotifyRemoveAddress (s : Ripv2) (ipv4 : Ipv4) (interface : Nat)
    (address : Ipv4InterfaceAddress) (delay : Nat) (h : s.Timers) :
    (s.NotifyRemoveAddress ipv4 interface address delay).Timers := by
  unfold NotifyRemoveAddress
  simp only []
  have h1 := InvalidateRoute.each_timers
    (fun e => decide (e.m_interface = interface) && e.IsNetwork &&
      decide (e.m_dest = CombineMask address.m_local address.m_mask) &&
      decide (e.m_destNetworkMask = address.m_mask))
    s.m_garbageCollectionDelay s.heap s.m_nextTriggeredUpdate s.m_routes [] s.sim h
  split_ifs
  · exact h
  · exact h1
  · apply Timers_SendTriggeredRouteUpdate
    exact h1

theorem SetIpv4.loop_timers (ipv4 : Ipv4) (delay : Nat) (n : Nat) :
    ∀ (i : Nat) (s : Ripv2), s.Timers → (SetIpv4.loop ipv4 delay n i s).Timers := by
  induction n with
  | zero => intro i s h; exact h
  | succ n ih =>
    intro i s h
    unfold SetIpv4.loop
    simp only []
    apply ih
    split_ifs
    · exact Timers_NotifyInterfaceUp _ _ _ _ h
    · exact Timers_NotifyInterfaceDown _ _ _ h

theorem Timers_SetIpv4 (s s' : Ripv2) (ipv4 : Ipv4) (delay : Nat) (h : s.Timers)
    (hs : s.SetIpv4 ipv4 delay = .ok s') : s'.Timers := by
  unfold SetIpv4 at hs
  split_ifs at hs
  simp only [Except.ok.injEq] at hs
  rw [← hs]
  exact SetIpv4.loop_timers ipv4 delay _ _ _ h

theorem DoInitialize.addressLoop_timers (i : Nat) (a : Bool) (l : List Ipv4InterfaceAddress) :
    ∀ (st : Ripv2 × Bool), st.1.Timers → (DoInitialize.addressLoop i a l st).1.Timers := by
  induction l with
  | nil => intro st h; exact h
  | cons x rest ih =>
    intro st h
    unfold DoInitialize.addressLoop
    simp only []
    apply ih
    split_ifs
    · exact TimersOk.heap_mono _ _ _ _ _ (Nat.le_succ _) h
    · exact h
    · exact h

theorem DoInitialize.interfaceLoop_timers (ipv4 : Ipv4) (n : Nat) :
    ∀ (i : Nat) (st : Ripv2 × Bool), st.1.Timers →
      (DoInitialize.interfaceLoop ipv4 n i st).1.Timers := by
  induction n with
  | zero => intro i st h; exact h
  | succ n ih =>
    intro i st h
    unfold DoInitialize.interfaceLoop
    simp only []
    exact ih _ _ (DoInitialize.addressLoop_timers _ _ _ _ h)

theorem Timers_DoInitialize (s : Ripv2) (ipv4 : Ipv4) (d1 d2 d3 : Nat) (h : s.Timers) :
    (s.DoInitialize ipv4 d1 d2 d3).Timers := by
  unfold DoInitialize
  simp only []
  have h0 := TimersOk.schedule_other s.m_routes s.sim s.heap s.m_nextTriggeredUpdate
    s.m_nextTriggeredUpdate d1 .SendUnsolicitedRouteUpdate rfl (Or.inl rfl) h
  have h1 := DoInitialize.interfaceLoop_timers ipv4 ipv4.GetNInterfaces 0
    ({ s with m_initialized := true,
              m_nextUnsolicitedUpdate := (s.sim.Schedule d1 .SendUnsolicitedRouteUpdate).1,
              sim := (s.sim.Schedule d1 .SendUnsolicitedRouteUpdate).2 }, false) h0
  generalize DoInitialize.interfaceLoop ipv4 ipv4.GetNInterfaces 0
    ({ s with m_initialized := true,
              m_nextUnsolicitedUpdate := (s.sim.Schedule d1 .SendUnsolicitedRouteUpdate).1,
              sim := (s.sim.Schedule d1 .SendUnsolicitedRouteUpdate).2 }, false) = st at h1 ⊢
  rcases st with ⟨t, b⟩
  simp only [] at h1 ⊢
  have h2 : Timers (match t.m_recvSocket with
      | none => { t with m_recvSocket := some t.heap, heap := t.heap + 1 }
      | some _ => t) := by
    split
    · exact TimersOk.heap_mono _ _ _ _ _ (Nat.le_succ _) h1
    · exact h1
  generalize (match t.m_recvSocket with
      | none => { t with m_recvSocket := some t.heap, heap := t.heap + 1 }
      | some _ => t) = t2 at h2 ⊢
  have h3 : Timers (if b = true then
      { t2 with m_nextTriggeredUpdate := (t2.sim.Schedule d2 (.DoSendRouteUpdate false)).1,
                sim := (t2.sim.Schedule d2 (.DoSendRouteUpdate false)).2 }
      else t2) := by
    split_ifs
    · exact TimersOk.schedule_other t2.m_routes t2.sim t2.heap t2.m_nextTriggeredUpdate _ d2
        (.DoSendRouteUpdate false) rfl (Or.inr rfl) h2
    · exact h2
  generalize (if b = true then
      { t2 with m_nextTriggeredUpdate := (t2.sim.Schedule d2 (.DoSendRouteUpdate false)).1,
                sim := (t2.sim.Schedule d2 (.DoSendRouteUpdate false)).2 }
      else t2) = t3 at h3 ⊢
  exact TimersOk.schedule_other t3.m_routes t3.sim t3.heap t3.m_nextTriggeredUpdate _ d3
    .SendRouteRequest rfl (Or.inr rfl) h3

theorem HandleRequests_frame (s s' : Ripv2) (ipv4 : Ipv4) (hdr : Ripv2Header)
    (sa sp ii ttl : Nat) (h : s.HandleRequests ipv4 hdr sa sp ii ttl = .ok s') :
    s'.m_routes = s.m_routes ∧ s'.sim = s.sim ∧ s'.heap = s.heap ∧
      s'.m_nextTriggeredUpdate = s.m_nextTriggeredUpdate := by
  unfold Ripv2.HandleRequests at h
  simp only [] at h
  repeat' split at h
  all_goals first | (injection h with h; rw [← h]; exact ⟨rfl, rfl, rfl, rfl⟩) | (injection h)

theorem Timers_Receive (s s' : Ripv2) (ipv4 : Ipv4) (gd : Nat → Nat) (packet : Packet)
    (delay : Nat) (h : s.Timers) (hr : s.Receive ipv4 gd packet delay = .ok s') :
    s'.Timers := by
  unfold Ripv2.Receive at hr
  split at hr
  · cases hr
  · split at hr
    · cases hr
    · split at hr
      · cases hr
      · simp only [] at hr
        split_ifs at hr
        · cases hr; exact h
        · split at hr
          · cases hr
          · split_ifs at hr
            · cases hr; exact Timers_HandleResponses _ _ _ _ _ _ h
            · obtain ⟨h1, h2, h3, h4⟩ := HandleRequests_frame _ _ _ _ _ _ _ _ hr
              unfold Timers
              rw [h1, h2, h3, h4]
              exact h
            · cases hr; exact h

theorem Timers_DoSendRouteUpdate (s : Ripv2) (ipv4 : Ipv4) (periodic : Bool) (h : s.Timers) :
    (s.DoSendRouteUpdate ipv4 periodic).Timers :=
  TimersOk.map_changed s.m_routes s.sim s.heap s.m_nextTriggeredUpdate h

theorem Timers_SendUnsolicitedRouteUpdate (s : Ripv2) (ipv4 : Ipv4) (delay : Nat)
    (h : s.Timers) : (s.SendUnsolicitedRouteUpdate ipv4 delay).Timers := by
  unfold SendUnsolicitedRouteUpdate
  simp only []
  have h1 : Timers (if s.sim.IsRunning s.m_nextTriggeredUpdate = true then
      { s with sim := s.sim.Cancel s.m_nextTriggeredUpdate } else s) := by
    split_ifs
    · exact TimersOk.cancel_update _ _ _ _ h
    · exact h
  generalize (if s.sim.IsRunning s.m_nextTriggeredUpdate = true then
      { s with sim := s.sim.Cancel s.m_nextTriggeredUpdate } else s) = t at h1 ⊢
  have h2 := Timers_DoSendRouteUpdate t ipv4 true h1
  generalize t.DoSendRouteUpdate ipv4 true = t2 at h2 ⊢
  exact TimersOk.schedule_other t2.m_routes t2.sim t2.heap t2.m_nextTriggeredUpdate _ delay
    .SendUnsolicitedRouteUpdate rfl (Or.inl rfl) h2

end Ripv2

/-- An event that no VALID route has as its timer can leave the queue. -/
theorem TimersOk.remove_free (routes : List RouteCell) (sim : Simulator) (heap : Nat)
    (ut : EventId) (u t : Nat)
    (hfree : ∀ c ∈ routes, c.1.m_status = .RIPV2_VALID → c.2.m_uid ≠ some u)
    (h : TimersOk routes sim heap ut) :
    TimersOk routes
      { sim with now := t, events := sim.events.filter (fun x => decide (x.uid ≠ u)) }
      heap ut := by
  have hsub : ∀ x, x ∈ sim.events.filter (fun x => decide (x.uid ≠ u)) → x ∈ sim.events :=
    fun x hx => (List.mem_filter.mp hx).1
  constructor
  · exact h.addrs
  · exact h.addr_lt
  · exact (h.uids.sublist ((List.filter_sublist _).map _))
  · intro x hx
    exact h.uid_lt x (hsub x hx)
  · exact h.handles
  · exact h.handle_lt
  · intro x hx hl a ha
    exact h.owner x (hsub x hx) hl a ha
  · intro x hx hv u' hu
    obtain ⟨e1, he1, h1, h2, h3⟩ := h.valid x hx hv u' hu
    refine ⟨e1, List.mem_filter.mpr ⟨he1, ?_⟩, h1, h2, h3⟩
    simp only [ne_eq, decide_not, Bool.not_eq_true', decide_eq_false_iff_not]
    intro hc
    apply hfree x hx hv
    rw [hu, ← hc, h1]
  · exact h.update_lt
  · intro u' hu x hx hxu
    exact h.update u' hu x (hsub x hx) hxu

/-- Marking a route INVALID keeps the timers in order. -/
theorem TimersOk.set_invalid (before after : List RouteCell) (c : RouteCell) (sim : Simulator)
    (heap : Nat) (ut : EventId) (h : TimersOk (before ++ c :: after) sim heap ut) :
    TimersOk (before ++ ({ c.1 with m_status := .RIPV2_INVALID }, c.2) :: after) sim heap ut := by
  constructor
  · have hold := h.addrs
    rw [List.map_append, List.map_cons] at hold ⊢
    exact hold
  · intro x hx
    rcases mem_middle before after _ x hx with hx | hx
    · rw [hx]; exact h.addr_lt c (List.mem_append_right _ (List.mem_cons_self _ _))
    · exact h.addr_lt x (mem_middle_of before after c x hx)
  · exact h.uids
  · exact h.uid_lt
  · have hold := h.handles
    rw [List.filterMap_append, List.filterMap_cons] at hold ⊢
    exact hold
  · intro x hx u hu
    rcases mem_middle before after _ x hx with hx | hx
    · rw [hx] at hu
      exact h.handle_lt c (List.mem_append_right _ (List.mem_cons_self _ _)) u hu
    · exact h.handle_lt x (mem_middle_of before after c x hx) u hu
  · intro e he hl a ha
    obtain ⟨c0, hc0, h1, h2⟩ := h.owner e he hl a ha
    rcases mem_middle before after c c0 hc0 with hx | hx
    · exact ⟨_, List.mem_append_right _ (List.mem_cons_self _ _), by rw [← h1, hx],
        by rw [← h2, hx]⟩
    · exact ⟨c0, mem_middle_of before after _ c0 hx, h1, h2⟩
  · intro x hx hv u hu
    rcases mem_middle before after _ x hx with hx | hx
    · rw [hx] at hv; cases hv
    · exact h.valid x (mem_middle_of before after c x hx) hv u hu
  · exact h.update_lt
  · exact h.update

theorem Simulator.next_mem_aux (l : List Event) :
    ∀ (init : Option Event) (e : Event),
      l.foldl
        (fun best e =>
          match best with
          | none => some e
          | some b => if e.ts < b.ts ∨ (e.ts = b.ts ∧ e.uid < b.uid) then some e else some b)
        init = some e → e ∈ l ∨ init = some e := by
  induction l with
  | nil => intro init e h; exact Or.inr h
  | cons x rest ih =>
    intro init e h
    simp only [List.foldl_cons] at h
    rcases ih _ e h with h1 | h1
    · exact Or.inl (List.mem_cons_of_mem _ h1)
    · cases init with
      | none =>
        simp only [Option.some.injEq] at h1
        rw [← h1]; exact Or.inl (List.mem_cons_self _ _)
      | some b =>
        simp only [] at h1
        split_ifs at h1
        · simp only [Option.some.injEq] at h1
          rw [← h1]; exact Or.inl (List.mem_cons_self _ _)
        · exact Or.inr h1

theorem Simulator.next_mem (sim : Simulator) (e : Event) (h : sim.next = some e) :
    e ∈ sim.events := by
  rcases Simulator.next_mem_aux sim.events none e h with h1 | h1
  · exact h1
  · cases h1

namespace Ripv2

theorem DeleteRoute.delete_loop_self (before after : List RouteCell) (cell : RouteCell)
    (h : ∀ c ∈ before, c.1.addr ≠ cell.1.addr) :
    DeleteRoute.loop cell.1.addr (before ++ cell :: after) = some (before ++ after) := by
  induction before with
  | nil => simp [DeleteRoute.loop]
  | cons b rest ih =>
    have hb : b.1.addr ≠ cell.1.addr := h b (List.mem_cons_self _ _)
    have hr := ih (fun c hc => h c (List.mem_cons_of_mem _ hc))
    simp only [List.cons_append, DeleteRoute.loop, hb, if_false, List.append_eq, hr]

/-- The timeout of a route fires: the event leaves the queue and
`InvalidateRoute` runs. -/
theorem Timers_fire_invalidate (s s' : Ripv2) (e : Event) (a : Nat) (h : s.Timers)
    (he : e ∈ s.sim.events) (hl : e.cancelled = false) (hi : e.impl = .InvalidateRoute a)
    (hs : ({ s with
              sim := { s.sim with
                       now := e.ts
                       events := s.sim.events.filter (fun x => decide (x.uid ≠ e.uid)) } } :
            Ripv2).InvalidateRoute a = .ok s') :
    s'.Timers := by
  obtain ⟨c, hc, hca, hcu⟩ := h.owner e he hl a (by rw [hi]; rfl)
  obtain ⟨before, after, hsplit⟩ := List.append_of_mem hc
  have h' : TimersOk (before ++ c :: after) s.sim s.heap s.m_nextTriggeredUpdate := by
    rw [← hsplit]; exact h
  have hb : ∀ x ∈ before, x.1.addr ≠ c.1.addr := fun x hx =>
    addr_unique before after c x h'.addrs (Or.inl hx)
  have h1 := TimersOk.set_invalid before after c s.sim s.heap s.m_nextTriggeredUpdate h'
  have h2 := TimersOk.remove_free _ s.sim s.heap s.m_nextTriggeredUpdate e.uid e.ts (by
    intro x hx hv hxu
    rcases mem_middle before after _ x hx with hx | hx
    · rw [hx] at hv; cases hv
    · exact handle_unique before after c x e.uid h'.handles hcu hx hxu) h1
  have h3 := TimersOk.rearm before after ({ c.1 with m_status := .RIPV2_INVALID }, c.2)
    { c.1 with m_metric := 16, m_status := .RIPV2_INVALID, m_changed := true }
    _ s.heap s.heap s.m_nextTriggeredUpdate s.m_garbageCollectionDelay (.DeleteRoute c.1.addr)
    h2 (Or.inl ⟨rfl, rfl⟩) (Or.inr ⟨rfl, rfl⟩)
  unfold Ripv2.InvalidateRoute at hs
  simp only [] at hs
  rw [hsplit, ← hca, InvalidateRoute.loop_self _ before after c _ hb,
    InvalidateRoute.onCell_eq] at hs
  simp only [Except.ok.injEq] at hs
  rw [← hs]
  exact h3

/-- The garbage-collection timer of a route fires: the event leaves the
queue and `DeleteRoute` runs. -/
theorem Timers_fire_delete (s s' : Ripv2) (e : Event) (a : Nat) (h : s.Timers)
    (he : e ∈ s.sim.events) (hl : e.cancelled = false) (hi : e.impl = .DeleteRoute a)
    (hs : ({ s with
              sim := { s.sim with
                       now := e.ts
                       events := s.sim.events.filter (fun x => decide (x.uid ≠ e.uid)) } } :
            Ripv2).DeleteRoute a = .ok s') :
    s'.Timers := by
  obtain ⟨c, hc, hca, hcu⟩ := h.owner e he hl a (by rw [hi]; rfl)
  obtain ⟨before, after, hsplit⟩ := List.append_of_mem hc
  have h' : TimersOk (before ++ c :: after) s.sim s.heap s.m_nextTriggeredUpdate := by
    rw [← hsplit]; exact h
  have hb : ∀ x ∈ before, x.1.addr ≠ c.1.addr := fun x hx =>
    addr_unique before after c x h'.addrs (Or.inl hx)
  have h1 := TimersOk.remove_event _ s.sim s.heap s.m_nextTriggeredUpdate e e.ts he
    (Or.inr (by intro a' hc'; rw [hi] at hc'; cases hc')) h'
  have h2 := TimersOk.erase before after c _ s.heap s.m_nextTriggeredUpdate (by
    intro e' he' hl' hr'
    obtain ⟨he1, he2⟩ := List.mem_filter.mp he'
    simp only [ne_eq, decide_not, Bool.not_eq_true', decide_eq_false_iff_not] at he2
    obtain ⟨c', hc', hca', hcu'⟩ := h'.owner e' he1 hl' c.1.addr hr'
    rcases mem_middle before after c c' hc' with hx | hx
    · rw [hx, hcu] at hcu'
      exact he2 (Option.some.inj hcu').symm
    · exact addr_unique before after c c' h'.addrs hx hca') h1
  unfold Ripv2.DeleteRoute at hs
  simp only [] at hs
  rw [hsplit, ← hca, DeleteRoute.delete_loop_self before after c hb] at hs
  simp only [Except.ok.injEq] at hs
  rw [← hs]
  exact h2

end Ripv2

/-- One operation keeps the timers of the routes in order. -/
theorem step_timers (ipv4 : Ipv4) (gd : Nat → Nat) (s s' : Ripv2) (op : Op) (h : s.Timers)
    (hs : step ipv4 gd s op = some s') : s'.Timers := by
  cases op with
  | runEvent delay =>
    simp only [step] at hs
    split at hs
    · cases hs
    · rename_i e hnext
      have he := Simulator.next_mem s.sim e hnext
      try simp only [] at hs
      split_ifs at hs with hc
      · cases hs
        exact TimersOk.remove_event _ s.sim s.heap s.m_nextTriggeredUpdate e e.ts he
          (Or.inl hc) h
      · have hl : e.cancelled = false := by simpa using hc
        split at hs
        · rename_i route hi
          cases hr : ({ s with
              sim := { s.sim with
                       now := e.ts
                       events := s.sim.events.filter (fun x => decide (x.uid ≠ e.uid)) } } :
            Ripv2).InvalidateRoute route with
          | error err => rw [hr] at hs; cases hs
          | ok t =>
            rw [hr] at hs
            cases hs
            exact Ripv2.Timers_fire_invalidate s _ e route h he hl hi hr
        · rename_i route hi
          cases hr : ({ s with
              sim := { s.sim with
                       now := e.ts
                       events := s.sim.events.filter (fun x => decide (x.uid ≠ e.uid)) } } :
            Ripv2).DeleteRoute route with
          | error err => rw [hr] at hs; cases hs
          | ok t =>
            rw [hr] at hs
            cases hs
            exact Ripv2.Timers_fire_delete s _ e route h he hl hi hr
        · rename_i periodic hi
          cases hs
          apply Ripv2.Timers_DoSendRouteUpdate
          exact TimersOk.remove_event _ s.sim s.heap s.m_nextTriggeredUpdate e e.ts he
            (Or.inr (by intro a' hc'; rw [hi] at hc'; cases hc')) h
        · rename_i hi
          cases hs
          apply Ripv2.Timers_SendUnsolicitedRouteUpdate
          exact TimersOk.remove_event _ s.sim s.heap s.m_nextTriggeredUpdate e e.ts he
            (Or.inr (by intro a' hc'; rw [hi] at hc'; cases hc')) h
        · rename_i hi
          cases hs
          exact TimersOk.remove_event _ s.sim s.heap s.m_nextTriggeredUpdate e e.ts he
            (Or.inr (by intro a' hc'; rw [hi] at hc'; cases hc')) h
  | advance ticks =>
    simp only [step] at hs
    split_ifs at hs
    cases hs
    exact TimersOk.now _ _ _ _ _ h
  | receive packet delay =>
    simp only [step] at hs
    split_ifs at hs
    cases hr : s.Receive ipv4 gd packet delay with
    | error e => rw [hr] at hs; cases hs
    | ok s'' =>
      rw [hr] at hs
      cases hs
      exact Ripv2.Timers_Receive _ _ _ _ _ _ h hr
  | addDefaultRouteTo nextHop interface =>
    simp only [step, Option.some.injEq] at hs
    rw [← hs]
    exact Ripv2.Timers_AddNetworkRouteTo4 s 0 0 nextHop interface h
  | setInterfaceMetric interface metric =>
    simp only [step, Option.some.injEq] at hs
    rw [← hs]
    unfold Ripv2.SetInterfaceMetric
    split_ifs <;> exact h
  | setInterfaceExclusions exceptions =>
    simp only [step, Option.some.injEq] at hs
    rw [← hs]
    exact h
  | setIpv4 delay =>
    simp only [step] at hs
    cases hr : s.SetIpv4 ipv4 delay with
    | error e => rw [hr] at hs; cases hs
    | ok s'' =>
      rw [hr] at hs
      cases hs
      exact Ripv2.Timers_SetIpv4 _ _ _ _ h hr
  | doInitialize d1 d2 d3 =>
    simp only [step] at hs
    split_ifs at hs
    simp only [Option.some.injEq] at hs
    rw [← hs]
    exact Ripv2.Timers_DoInitialize _ _ _ _ _ h
  | notifyInterfaceUp i delay =>
    simp only [step] at hs
    split_ifs at hs
    simp only [Option.some.injEq] at hs
    rw [← hs]
    exact Ripv2.Timers_NotifyInterfaceUp _ _ _ _ h
  | notifyInterfaceDown interface delay =>
    simp only [step, Option.some.injEq] at hs
    rw [← hs]
    exact Ripv2.Timers_NotifyInterfaceDown _ _ _ h
  | notifyAddAddress interface address delay =>
    simp only [step] at hs
    split_ifs at hs
    simp only [Option.some.injEq] at hs
    rw [← hs]
    exact Ripv2.Timers_NotifyAddAddress _ _ _ _ _ h
  | notifyRemoveAddress interface address delay =>
    simp only [step] at hs
    split_ifs at hs
    simp only [Option.some.injEq] at hs
    rw [← hs]
    exact Ripv2.Timers_NotifyRemoveAddress _ _ _ _ _ h

/-- A run keeps the timers of the routes in order. -/
theorem runIn_timers (gd : Nat → Nat) (ops : List (Ipv4 × Op)) :
    ∀ (s s' : Ripv2), s.Timers → runIn gd s ops = some s' → s'.Timers := by
  induction ops with
  | nil =>
    intro s s' h hr
    simp only [runIn, Option.some.injEq] at hr
    rw [← hr]; exact h
  | cons op rest ih =>
    intro s s' h hr
    unfold runIn at hr
    split at hr
    · cases hr
    · rename_i t ht
      exact ih t s' (step_timers op.1 gd s t op.2 h ht) hr

theorem TimersOk.initial (sim : Simulator) (heap : Nat) (ut : EventId)
    (he : sim.events = []) (hu : ut.m_uid = none) : TimersOk [] sim heap ut := by
  constructor
  · exact List.nodup_nil
  · intro c hc; cases hc
  · rw [he]; exact List.nodup_nil
  · intro e hmem; rw [he] at hmem; cases hmem
  · exact List.nodup_nil
  · intro c hc; cases hc
  · intro e hmem; rw [he] at hmem; cases hmem
  · intro c hc; cases hc
  · intro u h; rw [hu] at h; cases h
  · intro u h; rw [hu] at h; cases h

theorem Simulator.IsRunning_of_live (sim : Simulator) (h : EventId) (e : Event)
    (he : e ∈ sim.events) (hu : h.m_uid = some e.uid) (hl : e.cancelled = false) :
    sim.IsRunning h = true := by
  unfold Simulator.IsRunning Simulator.IsExpired
  rw [hu]
  simp only [Bool.not_not, List.any_eq_true, Bool.and_eq_true, beq_iff_eq, Bool.not_eq_true']
  exact ⟨e, he, rfl, hl⟩

/-- C13, what breaks it: the routes that the interface observer and
`AddDefaultRouteTo` store are VALID and hold the handle `EventId ()`, which
refers to no event; no timer is armed for them, the queue is empty. -/
theorem valid_entry_without_timer :
    (runIn id {} (runTimers.take 2)).map
        (fun s => (s.m_routes.map
          (fun c => (c.1.m_dest, c.1.m_destNetworkMask, c.1.m_status, c.2, s.sim.IsRunning c.2)),
          s.sim.events)) =
      some ([(0x0A000000, 0xFFFFFF00, .RIPV2_VALID, {}, false),
             (0, 0, .RIPV2_VALID, {}, false)], []) := by
  rfl

/-! ## Configuration of the interface metrics -/

/-- C30: the metric of an interface.  `GetInterfaceMetric (i)` is 1 when no
metric is stored for `i`, as in a new agent; after `SetInterfaceMetric (i, m)`
with `m < 16` it is `m` and the metric of every other interface is as before;
`SetInterfaceMetric (i, m)` with `m ≥ 16` leaves the agent as it is, so every
metric, that of `i` too, is as before. -/
theorem interface_metric_configuration (s : Ripv2) (i m : Nat) :
    (∀ j, ({} : Ripv2).GetInterfaceMetric j = 1) ∧
    (s.m_interfaceMetrics.lookup i = none → s.GetInterfaceMetric i = 1) ∧
    (m < 16 →
      (s.SetInterfaceMetric i m).GetInterfaceMetric i = m ∧
      ∀ j, j ≠ i → (s.SetInterfaceMetric i m).GetInterfaceMetric j = s.GetInterfaceMetric j) ∧
    (16 ≤ m →
      s.SetInterfaceMetric i m = s ∧
      ∀ j, (s.SetInterfaceMetric i m).GetInterfaceMetric j = s.GetInterfaceMetric j) := by
  refine ⟨fun j => rfl, ?_, ?_, ?_⟩
  · intro h
    unfold Ripv2.GetInterfaceMetric
    rw [h]
  · intro hm
    unfold Ripv2.SetInterfaceMetric Ripv2.GetInterfaceMetric
    simp only [hm, if_true, lookup_mapAssign]
    refine ⟨trivial, ?_⟩
    intro j hj
    simp only [hj, if_false]
  · intro hm
    have hs : s.SetInterfaceMetric i m = s := by
      unfold Ripv2.SetInterfaceMetric
      rw [if_neg (by omega)]
    exact ⟨hs, fun j => by rw [hs]⟩

/-! ## Triggered updates -/

theorem GetValue_range (u min max : Nat) (h : min ≤ max) :
    min ≤ GetValue u min max ∧ GetValue u min max ≤ max := by
  unfold GetValue
  split_ifs with hlt
  · have := Nat.mod_lt u (Nat.sub_pos_of_lt hlt)
    omega
  · omega

namespace Ripv2

theorem SendTriggeredRouteUpdate_pending (s : Ripv2) (delay : Nat)
    (h : s.sim.IsRunning s.m_nextTriggeredUpdate = true) :
    s.SendTriggeredRouteUpdate delay =
      { s with triggeredUpdateCalls := s.triggeredUpdateCalls + 1 } := by
  unfold SendTriggeredRouteUpdate
  simp only [h, if_true]

theorem SendTriggeredRouteUpdate_idle (s : Ripv2) (delay : Nat)
    (h : s.sim.IsRunning s.m_nextTriggeredUpdate = false) :
    s.SendTriggeredRouteUpdate delay =
      { s with
        triggeredUpdateCalls := s.triggeredUpdateCalls + 1
        m_nextTriggeredUpdate := (s.sim.Schedule delay (.DoSendRouteUpdate false)).1
        sim := (s.sim.Schedule delay (.DoSendRouteUpdate false)).2 } := by
  unfold SendTriggeredRouteUpdate
  simp only [h, Bool.false_eq_true, if_false]

theorem SendTriggeredRouteUpdate_again (us : List Nat) :
    ∀ (s : Ripv2), s.sim.IsRunning s.m_nextTriggeredUpdate = true →
      us.foldl (fun t u => t.SendTriggeredRouteUpdate
        (GetValue u t.m_minTriggeredUpdateDelay t.m_maxTriggeredUpdateDelay)) s =
      { s with triggeredUpdateCalls := s.triggeredUpdateCalls + us.length } := by
  induction us with
  | nil => intro s _; rfl
  | cons u rest ih =>
    intro s h
    rw [List.foldl_cons, SendTriggeredRouteUpdate_pending s _ h]
    have hrest := ih { s with triggeredUpdateCalls := s.triggeredUpdateCalls + 1 } h
    rw [hrest]
    simp only [List.length_cons, Ripv2.mk.injEq, true_and, and_true]
    omega

end Ripv2

/-- C21, what breaks it, and the part that holds.  The delay is the value
`d` that the random stream gives for the bounds `MinTriggeredCooldown` and
`MaxTriggeredCooldown` (1 s and 5 s in a new agent), which lies between them.
When the handle `m_nextTriggeredUpdate` is running,
`SendTriggeredRouteUpdate` changes nothing but the count of its calls: no
event is added and the handle is kept.  When it is not running, exactly one
event is added to the queue, `DoSendRouteUpdate (false)` due `d` from now, the
handle is armed on it and nothing else changes; and any further calls made
after it leave the queue and the handle as that first call left them (in
`ribV` with the draws 7 s, 1 s and 2 s: one event, due 4 s from now).  But
the handle is not always that of the pending triggered update, because
`DoInitialize` stores the handle of the `SendRouteRequest` event in it.
After `runStartup` no triggered update is pending, the handle is running,
and `SendTriggeredRouteUpdate` schedules nothing.  After `runLost` the
triggered update of `DoInitialize` is pending for 4 s, the handle is not
running, and `SendTriggeredRouteUpdate` schedules a second one for 2.5 s. -/
theorem triggered_update_coalescing :
    (∀ (s : Ripv2) (u : Nat) (us : List Nat),
      s.m_minTriggeredUpdateDelay ≤ s.m_maxTriggeredUpdateDelay →
      let d := GetValue u s.m_minTriggeredUpdateDelay s.m_maxTriggeredUpdateDelay
      let s' := s.SendTriggeredRouteUpdate d
      s.m_minTriggeredUpdateDelay ≤ d ∧ d ≤ s.m_maxTriggeredUpdateDelay ∧
      (({} : Ripv2).m_minTriggeredUpdateDelay = Seconds 1 ∧
        ({} : Ripv2).m_maxTriggeredUpdateDelay = Seconds 5) ∧
      (s.sim.IsRunning s.m_nextTriggeredUpdate = true →
        s' = { s with triggeredUpdateCalls := s.triggeredUpdateCalls + 1 } ∧
        s'.sim = s.sim ∧ s'.m_nextTriggeredUpdate = s.m_nextTriggeredUpdate) ∧
      (s.sim.IsRunning s.m_nextTriggeredUpdate = false →
        s' = { s with
               triggeredUpdateCalls := s.triggeredUpdateCalls + 1
               m_nextTriggeredUpdate := (s.sim.Schedule d (.DoSendRouteUpdate false)).1
               sim := (s.sim.Schedule d (.DoSendRouteUpdate false)).2 } ∧
        s'.sim.events =
          s.sim.events ++ [{ uid := s.sim.uid, ts := s.sim.now + d,
                             impl := .DoSendRouteUpdate false }] ∧
        s'.sim.Armed s'.m_nextTriggeredUpdate (.DoSendRouteUpdate false) d ∧
        us.foldl (fun t u' => t.SendTriggeredRouteUpdate
            (GetValue u' t.m_minTriggeredUpdateDelay t.m_maxTriggeredUpdateDelay)) s' =
          { s' with triggeredUpdateCalls := s'.triggeredUpdateCalls + us.length })) ∧
    (ribV.sim.IsRunning ribV.m_nextTriggeredUpdate = false ∧
      GetValue (Seconds 7) ribV.m_minTriggeredUpdateDelay ribV.m_maxTriggeredUpdateDelay =
        Seconds 4 ∧
      ([Seconds 1, Seconds 2].foldl (fun t u' => t.SendTriggeredRouteUpdate
          (GetValue u' t.m_minTriggeredUpdateDelay t.m_maxTriggeredUpdateDelay))
          (ribV.SendTriggeredRouteUpdate (Seconds 4))).sim.events =
        [{ uid := 7, ts := Seconds 100, impl := .InvalidateRoute 2 },
         { uid := 8, ts := Seconds 14, impl := .DoSendRouteUpdate false }]) ∧
    (runIn id {} runStartup).map
        (fun s => (s.sim.now, pendingOf s, s.sim.IsRunning s.m_nextTriggeredUpdate,
          pendingOf (s.SendTriggeredRouteUpdate (Seconds 2)))) =
      some (0, [(Seconds 30, .SendUnsolicitedRouteUpdate), (Seconds 1 / 2, .SendRouteRequest)],
        true, [(Seconds 30, .SendUnsolicitedRouteUpdate), (Seconds 1 / 2, .SendRouteRequest)]) ∧
    (runIn id {} runLost).map
        (fun s => (s.sim.now, pendingOf s, s.sim.IsRunning s.m_nextTriggeredUpdate,
          pendingOf (s.SendTriggeredRouteUpdate (Seconds 2)))) =
      some (Seconds 1 / 2,
        [(Seconds 30, .SendUnsolicitedRouteUpdate), (Seconds 4, .DoSendRouteUpdate false)],
        false,
        [(Seconds 30, .SendUnsolicitedRouteUpdate), (Seconds 4, .DoSendRouteUpdate false),
         (Seconds 5 / 2, .DoSendRouteUpdate false)]) := by
  refine ⟨?_, ⟨by decide, by decide, by decide⟩, by decide, by decide⟩
  intro s u us hmm d s'
  have hr := GetValue_range u _ _ hmm
  refine ⟨hr.1, hr.2, ⟨rfl, rfl⟩, ?_, ?_⟩
  · intro h
    have hs : s' = _ := Ripv2.SendTriggeredRouteUpdate_pending s d h
    rw [hs]
    exact ⟨rfl, rfl, rfl⟩
  · intro h
    have hs : s' = _ := Ripv2.SendTriggeredRouteUpdate_idle s d h
    have harm := Simulator.Armed_Schedule s.sim d (.DoSendRouteUpdate false)
    refine ⟨hs, by rw [hs]; rfl, by rw [hs]; exact harm, ?_⟩
    apply Ripv2.SendTriggeredRouteUpdate_again
    rw [hs]
    exact harm.2.1

/-- C27: an unknown command.  On a buffer whose first byte is neither 1 nor 2,
`Ripv2Header::Deserialize` returns 0 and leaves the header as it was, so no RTE
is parsed and the command is not set; a packet that carries such a buffer, and
has its three tags, is ignored by `Ripv2::Receive`: the whole state of the
agent (table, timers, packets sent) is as before. -/
theorem unknown_command_ignored (s : Ripv2) (ipv4 : Ipv4) (GetDevice : Nat → Nat)
    (packet : Packet) (delay b : Nat) (rest : List Nat) (h : Ripv2Header)
    (incomingIf ttl : Nat) (sender : Nat × Nat)
    (hb : b ≠ REQUEST ∧ b ≠ RESPONSE) (hbytes : packet.bytes = b :: rest)
    (hif : packet.recvIf = some incomingIf) (httl : packet.ttl = some ttl)
    (hfrom : packet.sender = some sender) :
    h.Deserialize { data := b :: rest, cur := 0 } = .ok (h, 0) ∧
      RemoveHeader {} packet.bytes = .ok ({}, 0) ∧
      s.Receive ipv4 GetDevice packet delay = .ok s := by
  have hd : ∀ h0 : Ripv2Header, h0.Deserialize { data := b :: rest, cur := 0 } = .ok (h0, 0) := by
    intro h0
    unfold Ripv2Header.Deserialize
    simp only [BufferIterator.ReadU8, List.getD_cons_zero, hb.1, hb.2, or_self, if_false]
  have hr : RemoveHeader {} packet.bytes = .ok ({}, 0) := by
    unfold RemoveHeader
    rw [hbytes]
    exact hd {}
  refine ⟨hd h, hr, ?_⟩
  obtain ⟨sa, sp⟩ := sender
  unfold Ripv2.Receive
  simp only [hif, httl, hfrom, hr]
  have h2 : ¬ (({} : Ripv2Header).m_command = RESPONSE) := by decide
  have h1 : ¬ (({} : Ripv2Header).m_command = REQUEST) := by decide
  simp only [h1, h2, if_false, ite_self]

theorem unknown_command_ignored_witness :
    ((3 : Nat) ≠ REQUEST ∧ (3 : Nat) ≠ RESPONSE) ∧
      ({ m_command := 2, m_rteList := [rteS6] } : Ripv2Header).Deserialize
        { data := 3 :: (AddHeader { m_command := 2, m_rteList := [rteS6] }).tail, cur := 0 } =
        .ok ({ m_command := 2, m_rteList := [rteS6] }, 0) ∧
      ribV.Receive ipv4W id
        { packetA with bytes := 3 :: (AddHeader { m_command := 2, m_rteList := [rteS6] }).tail }
        0 = .ok ribV :=
  ⟨by decide,
    (unknown_command_ignored ribV ipv4W id
      { packetA with bytes := 3 :: (AddHeader { m_command := 2, m_rteList := [rteS6] }).tail }
      0 3 (AddHeader { m_command := 2, m_rteList := [rteS6] }).tail
      { m_command := 2, m_rteList := [rteS6] } 1 255 (0x0A000001, 520)
      (by decide) rfl rfl rfl rfl).1,
    (unknown_command_ignored ribV ipv4W id
      { packetA with bytes := 3 :: (AddHeader { m_command := 2, m_rteList := [rteS6] }).tail }
      0 3 (AddHeader { m_command := 2, m_rteList := [rteS6] }).tail
      { m_command := 2, m_rteList := [rteS6] } 1 255 (0x0A000001, 520)
      (by decide) rfl rfl rfl rfl).2.2⟩

/-- C29, as the code has it: a bad version or reserved field stops the
program.  On a buffer with command 1 or 2 whose version byte is not 2, or
whose reserved field (its two bytes) is not 0,
`Ripv2Header::Deserialize` does not return: the `NS_ASSERT_MSG` fails, and so
does `Ripv2::Receive` of a packet with its tags that carries the buffer and
does not come from the router itself.  No state is returned, whatever the
table. -/
theorem bad_version_asserts (s : Ripv2) (ipv4 : Ipv4) (GetDevice : Nat → Nat)
    (packet : Packet) (delay c v r0 r1 : Nat) (rest : List Nat) (h : Ripv2Header)
    (incomingIf ttl senderAddress senderPort : Nat)
    (hc : c = REQUEST ∨ c = RESPONSE) (hbad : v ≠ 2 ∨ r0 ≠ 0 ∨ r1 ≠ 0)
    (hbytes : packet.bytes = c :: v :: r0 :: r1 :: rest)
    (hif : packet.recvIf = some incomingIf) (httl : packet.ttl = some ttl)
    (hfrom : packet.sender = some (senderAddress, senderPort))
    (hother : ipv4.GetInterfaceForAddress senderAddress = -1) :
    h.Deserialize { data := c :: v :: r0 :: r1 :: rest, cur := 0 } = .error .assertFailed ∧
      s.Receive ipv4 GetDevice packet delay = .error .assertFailed := by
  have hd : ∀ h0 : Ripv2Header,
      h0.Deserialize { data := c :: v :: r0 :: r1 :: rest, cur := 0 } = .error .assertFailed := by
    intro h0
    unfold Ripv2Header.Deserialize
    simp only [BufferIterator.ReadU8, BufferIterator.ReadU16, List.getD_cons_zero, hc, if_true,
      Nat.zero_add, List.getD_cons_succ, Nat.reduceAdd]
    by_cases hv : v = 2
    · have hz : r0 + r1 * 256 ≠ 0 := by
        rcases hbad with h1 | h1 | h1
        · exact absurd hv h1
        · omega
        · omega
      simp [hv, hz]
    · simp [hv]
  refine ⟨hd h, ?_⟩
  unfold Ripv2.Receive
  simp only [hif, httl, hfrom, hother, ne_eq, not_true_eq_false, if_false, RemoveHeader, hbytes,
    hd]

theorem bad_version_asserts_witness :
    ribV.Receive ipv4W id { packetA with bytes := [2, 1, 0, 0] } 0 = .error .assertFailed ∧
      ribV.Receive ipv4W id { packetA with bytes := [1, 2, 0, 1] } 0 = .error .assertFailed :=
  ⟨(bad_version_asserts ribV ipv4W id { packetA with bytes := [2, 1, 0, 0] } 0 2 1 0 0 [] {}
      1 255 0x0A000001 520 (Or.inr rfl) (Or.inl (by decide))
      rfl rfl rfl rfl rfl).2,
    (bad_version_asserts ribV ipv4W id { packetA with bytes := [1, 2, 0, 1] } 0 1 2 0 1 [] {}
      1 255 0x0A000001 520 (Or.inl rfl) (Or.inr (Or.inr (by decide)))
      rfl rfl rfl rfl rfl).2⟩

/-- C29 does not hold as worded: the Response of `packetA` with its version
byte set to 1 is not dropped with the state kept.  Decoding ends in the failed
assertion, and `Receive` returns no state at all. -/
theorem bad_version_not_dropped :
    RemoveHeader {} (packetA.bytes.set 1 1) = .error .assertFailed ∧
      ribV.Receive ipv4W id { packetA with bytes := packetA.bytes.set 1 1 } 0 ≠ .ok ribV := by
  refine ⟨rfl, ?_⟩
  have h : ribV.Receive ipv4W id { packetA with bytes := packetA.bytes.set 1 1 } 0 =
      .error .assertFailed := rfl
  rw [h]
  intro hne
  cases hne

theorem BufferIterator.ReadU8_take (data : List Nat) (cur m : Nat) (h : cur < m) :
    ({ data := data.take m, cur := cur } : BufferIterator).ReadU8.1 =
      ({ data := data, cur := cur } : BufferIterator).ReadU8.1 := by
  simp only [BufferIterator.ReadU8, List.getD_eq_getElem?_getD, List.getElem?_take, h, if_true]

theorem Ripv2Rte.Deserialize_take (r : Ripv2Rte) (data : List Nat) (cur m : Nat)
    (h : cur + 20 ≤ m) :
    r.Deserialize { data := data.take m, cur := cur } = r.Deserialize { data := data, cur := cur } := by
  have g : ∀ k, k < 20 → (data.take m).getD (cur + k) 0 = data.getD (cur + k) 0 := by
    intro k hk
    have hlt : cur + k < m := by omega
    simp only [List.getD_eq_getElem?_getD, List.getElem?_take, hlt, if_true]
  have g0 := g 0 (by omega)
  simp only [Nat.add_zero] at g0
  simp only [Ripv2Rte.Deserialize, BufferIterator.ReadNtohU16, BufferIterator.ReadNtohU32,
    BufferIterator.ReadU8, Ripv2Rte.GetSerializedSize, Nat.add_assoc, Nat.reduceAdd, g0,
    g 1 (by omega), g 2 (by omega), g 3 (by omega), g 4 (by omega), g 5 (by omega),
    g 6 (by omega), g 7 (by omega), g 8 (by omega), g 9 (by omega), g 10 (by omega),
    g 11 (by omega), g 12 (by omega), g 13 (by omega), g 14 (by omega), g 15 (by omega),
    g 16 (by omega), g 17 (by omega), g 18 (by omega), g 19 (by omega)]

theorem Ripv2Rte.Deserialize_size (r : Ripv2Rte) (i : BufferIterator) : (r.Deserialize i).2 = 20 :=
  rfl

theorem Ripv2Header.readRtes_take (data : List Nat) (m : Nat) :
    ∀ (n cur : Nat) (acc : List Ripv2Rte), cur + 20 * n ≤ m →
      Ripv2Header.readRtes n { data := data.take m, cur := cur } acc =
        Ripv2Header.readRtes n { data := data, cur := cur } acc := by
  intro n
  induction n with
  | zero => intro cur acc _; rfl
  | succ n ih =>
    intro cur acc h
    simp only [Ripv2Header.readRtes, BufferIterator.Next, Ripv2Rte.Deserialize_size]
    rw [Ripv2Rte.Deserialize_take _ data cur m (by omega)]
    exact ih (cur + 20) _ (by omega)

theorem Ripv2Header.readRtes_length :
    ∀ (n : Nat) (i : BufferIterator) (acc : List Ripv2Rte),
      (Ripv2Header.readRtes n i acc).length = acc.length + n := by
  intro n
  induction n with
  | zero => intro i acc; rfl
  | succ n ih =>
    intro i acc
    simp only [Ripv2Header.readRtes]
    rw [ih]
    simp only [List.length_append, List.length_cons, List.length_nil]
    omega
theorem Ripv2Header.Deserialize_body (c : Nat) (body : List Nat)
    (hc : c = REQUEST ∨ c = RESPONSE) (hL : 4 + body.length < 2 ^ 32) :
    RemoveHeader {} (c :: 2 :: 0 :: 0 :: body) =
      .ok ({ m_command := c,
             m_rteList := Ripv2Header.readRtes (body.length / 20 % 256)
               { data := c :: 2 :: 0 :: 0 :: body, cur := 4 } [] },
           4 + 20 * (body.length / 20 % 256)) := by
  have hsz : (4 + body.length) % 2 ^ 32 = 4 + body.length := Nat.mod_eq_of_lt hL
  have hnum : (4 + body.length + 2 ^ 32 - 4) % 2 ^ 32 = body.length := by
    have : 4 + body.length + 2 ^ 32 - 4 = body.length + 2 ^ 32 := by omega
    rw [this, Nat.add_mod_right]
    exact Nat.mod_eq_of_lt (by omega)
  have hlen : (body.length + 1 + 1 + 1 + 1) = 4 + body.length := by omega
  have hmod : (4 + body.length / 20 % 256 * 20) % 2 ^ 32 = 4 + 20 * (body.length / 20 % 256) := by
    have h256 : body.length / 20 % 256 < 256 := Nat.mod_lt _ (by decide)
    rw [Nat.mul_comm]
    apply Nat.mod_eq_of_lt
    have h32 : (2 : Nat) ^ 32 = 4294967296 := by decide
    omega
  unfold RemoveHeader Ripv2Header.Deserialize
  simp only [BufferIterator.ReadU8, BufferIterator.ReadU16, List.getD_cons_zero, hc, if_true,
    Nat.zero_add, List.getD_cons_succ, Nat.reduceAdd, ne_eq, not_true_eq_false, if_false,
    Nat.zero_mul, Nat.add_zero, BufferIterator.GetSize, List.length_cons, hlen, hsz, hnum,
    Ripv2Header.GetSerializedSize, Ripv2Rte.GetSerializedSize, Ripv2Header.readRtes_length,
    List.length_nil, hmod]

/-- C28, as the code has it: trailing bytes are ignored.  On a buffer of
`L = 4 + body.length` bytes (below 2^32) with command 1 or 2, version 2 and a
zero reserved field, decoding succeeds whatever `L - 4` is: it reads
`(L - 4) / 20 mod 256` RTEs (the count is a `uint8_t`), returns the size
`4 + 20 n`, and the header it gives is the one the buffer cut after its last
whole RTE gives; the bytes after it are not looked at. -/
theorem trailing_bytes_ignored (c : Nat) (body : List Nat)
    (hc : c = REQUEST ∨ c = RESPONSE) (hL : 4 + body.length < 2 ^ 32) :
    ∃ rtes : List Ripv2Rte,
      rtes.length = body.length / 20 % 256 ∧
      RemoveHeader {} (c :: 2 :: 0 :: 0 :: body) =
        .ok ({ m_command := c, m_rteList := rtes }, 4 + 20 * rtes.length) ∧
      RemoveHeader {} (c :: 2 :: 0 :: 0 :: body.take (20 * rtes.length)) =
        .ok ({ m_command := c, m_rteList := rtes }, 4 + 20 * rtes.length) := by
  have hn : 20 * (body.length / 20 % 256) ≤ body.length := by
    have h1 : body.length / 20 % 256 ≤ body.length / 20 := Nat.mod_le _ _
    have h2 : 20 * (body.length / 20) ≤ body.length := Nat.mul_div_le _ _
    omega
  have h256 : body.length / 20 % 256 < 256 := Nat.mod_lt _ (by decide)
  refine ⟨Ripv2Header.readRtes (body.length / 20 % 256)
    { data := c :: 2 :: 0 :: 0 :: body, cur := 4 } [], ?_, ?_, ?_⟩
  · rw [Ripv2Header.readRtes_length]
    simp only [List.length_nil, Nat.zero_add]
  · rw [Ripv2Header.readRtes_length]
    simp only [List.length_nil, Nat.zero_add]
    exact Ripv2Header.Deserialize_body c body hc hL
  · rw [Ripv2Header.readRtes_length]
    simp only [List.length_nil, Nat.zero_add]
    have htl : (body.take (20 * (body.length / 20 % 256))).length =
        20 * (body.length / 20 % 256) := by
      rw [List.length_take]
      omega
    have hb := Ripv2Header.Deserialize_body c (body.take (20 * (body.length / 20 % 256))) hc
      (by rw [htl]; omega)
    rw [htl] at hb
    have hq : 20 * (body.length / 20 % 256) / 20 % 256 = body.length / 20 % 256 := by
      rw [Nat.mul_div_cancel_left _ (by decide : 0 < 20)]
      exact Nat.mod_eq_of_lt h256
    rw [hq] at hb
    rw [hb]
    have htk := Ripv2Header.readRtes_take (c :: 2 :: 0 :: 0 :: body)
      (4 + 20 * (body.length / 20 % 256)) (body.length / 20 % 256) 4 [] (Nat.le_refl _)
    have hdata : (c :: 2 :: 0 :: 0 :: body).take (4 + 20 * (body.length / 20 % 256)) =
        c :: 2 :: 0 :: 0 :: body.take (20 * (body.length / 20 % 256)) := by
      rw [Nat.add_comm]
      rfl
    rw [hdata] at htk
    rw [htk]

theorem trailing_bytes_ignored_witness :
    ∃ rtes : List Ripv2Rte,
      rtes.length = (wireRte rteS6 ++ [1, 2, 3]).length / 20 % 256 ∧
      RemoveHeader {} (2 :: 2 :: 0 :: 0 :: (wireRte rteS6 ++ [1, 2, 3])) =
        .ok ({ m_command := 2, m_rteList := rtes }, 4 + 20 * rtes.length) ∧
      RemoveHeader {} (2 :: 2 :: 0 :: 0 :: (wireRte rteS6 ++ [1, 2, 3]).take (20 * rtes.length)) =
        .ok ({ m_command := 2, m_rteList := rtes }, 4 + 20 * rtes.length) :=
  trailing_bytes_ignored 2 (wireRte rteS6 ++ [1, 2, 3]) (Or.inr rfl)
    (by decide)

/-- C28 does not hold as worded: the Response that carries the RTE `rteS6`
followed by three more bytes has 27 bytes, and 23 is not a multiple of 20, yet
decoding succeeds and yields the RTE list `[rteS6]` with the size 24; so does
a buffer of 5 bytes, with an empty list. -/
theorem truncated_rte_accepted :
    (AddHeader { m_command := 2, m_rteList := [rteS6] } ++ [1, 2, 3]).length = 27 ∧
      (27 - 4) % 20 ≠ 0 ∧
      RemoveHeader {} (AddHeader { m_command := 2, m_rteList := [rteS6] } ++ [1, 2, 3]) =
        .ok ({ m_command := 2, m_rteList := [rteS6] }, 24) ∧
      RemoveHeader {} [1, 2, 0, 0, 7] = .ok ({ m_command := 1, m_rteList := [] }, 4) :=
  ⟨rfl, by decide, rfl, rfl⟩

namespace Ripv2

theorem HandleRequests.select_eq (strategy : SplitHorizonType_e) (ipv4 : Ipv4)
    (interface : Nat) (cell : RouteCell) :
    HandleRequests.select strategy ipv4 interface cell =
      if cell.1.m_status = .RIPV2_VALID then
        DoSendRouteUpdate.select strategy ipv4 true interface cell
      else none := by
  unfold HandleRequests.select DoSendRouteUpdate.select
  by_cases hv : cell.1.m_status = .RIPV2_VALID
  · cases strategy <;>
      cases hs : decide (cell.1.m_interface = interface) <;> simp [hv, hs]
  · simp [hv]

theorem HandleRequests.selected_eq (strategy : SplitHorizonType_e) (ipv4 : Ipv4)
    (interface : Nat) (routes : List RouteCell) :
    HandleRequests.selected strategy ipv4 interface routes =
      DoSendRouteUpdate.selected strategy ipv4 true interface
        (routes.filter (fun c => decide (c.1.m_status = .RIPV2_VALID))) := by
  unfold HandleRequests.selected DoSendRouteUpdate.selected
  rw [List.filterMap_filter]
  congr 1
  funext cell
  rw [HandleRequests.select_eq]
  by_cases hv : cell.1.m_status = .RIPV2_VALID <;> simp [hv]

end Ripv2

/-- C23: the whole-table reply is a periodic dump of the VALID table.  For a
whole-table Request on the interface `I` (not excluded, with the send socket
`sock`), the packets of the reply carry, page by page, the RTEs that a
periodic update on `I` selects from the table without its INVALID entries;
this is the RTE list of `DoSendRouteUpdate` on the socket of `I` run on that
table.  Every RTE of the reply is the one the periodic update makes of a VALID
entry.  In the loops, a turn on a VALID entry adds to the reply what it adds
to the periodic update (same decision, metric and tag), and a turn on an
entry that is not VALID adds nothing to the reply. -/
theorem whole_table_reply_periodic_dump (s : Ripv2) (ipv4 : Ipv4) (requestHdr : Ripv2Header)
    (first : Ripv2Rte) (senderAddress senderPort I sock : Nat)
    (hreq : requestHdr.m_rteList = [first])
    (hfirst : first.m_IpAddress = 0 ∧ first.m_SubnetMask = 0 ∧ first.m_metric = 16)
    (hex : I ∉ s.m_interfaceExclusions)
    (hsock : Ripv2.findSendingSocket I s.m_sendSocketList none = some sock) :
    ∃ pages : List Ripv2Header,
      s.HandleRequests ipv4 requestHdr senderAddress senderPort I 255 =
        .ok { s with sent := s.sent ++ pages.map (fun h =>
                { socket := sock, hdr := h, toAddress := senderAddress,
                  toPort := RIPV2_PORT }) } ∧
      Paginated pages
        (Ripv2.DoSendRouteUpdate.selected s.m_splitHorizonStrategy ipv4 true I
          (s.m_routes.filter (fun c => decide (c.1.m_status = .RIPV2_VALID)))) ∧
      rtesOf (pages.map (fun h =>
          ({ socket := sock, hdr := h, toAddress := senderAddress,
             toPort := RIPV2_PORT } : SentPacket))) =
        rtesOf (Ripv2.DoSendRouteUpdate.onSocket
          { s with m_routes := s.m_routes.filter (fun c => decide (c.1.m_status = .RIPV2_VALID)) }
          ipv4 true [] (sock, I)) ∧
      (∀ r ∈ rtesOf (pages.map (fun h =>
          ({ socket := sock, hdr := h, toAddress := senderAddress,
             toPort := RIPV2_PORT } : SentPacket))),
        ∃ cell ∈ s.m_routes, cell.1.m_status = .RIPV2_VALID ∧
          Ripv2.DoSendRouteUpdate.select s.m_splitHorizonStrategy ipv4 true I cell = some r) ∧
      (∀ (st : Ripv2Header × List SentPacket) (cell : RouteCell),
        cell.1.m_status = .RIPV2_VALID →
          emitted (Ripv2.HandleRequests.onRoute s.m_splitHorizonStrategy ipv4 sock I
            senderAddress st cell) =
            emitted st ++
              (Ripv2.DoSendRouteUpdate.select s.m_splitHorizonStrategy ipv4 true I cell).toList ∧
          emitted (Ripv2.DoSendRouteUpdate.onRoute s.m_splitHorizonStrategy ipv4 true sock I
            st cell) =
            emitted st ++
              (Ripv2.DoSendRouteUpdate.select s.m_splitHorizonStrategy ipv4 true I cell).toList) ∧
      (∀ (st : Ripv2Header × List SentPacket) (cell : RouteCell),
        cell.1.m_status ≠ .RIPV2_VALID →
          emitted (Ripv2.HandleRequests.onRoute s.m_splitHorizonStrategy ipv4 sock I
            senderAddress st cell) = emitted st) := by
  obtain ⟨pages, hsend, hpag⟩ := Ripv2.HandleRequests.whole_table_pages s ipv4 requestHdr first
    senderAddress senderPort I sock hreq hfirst hex hsock
  rw [Ripv2.HandleRequests.selected_eq] at hpag
  have hrtes : rtesOf (pages.map (fun h =>
      ({ socket := sock, hdr := h, toAddress := senderAddress,
         toPort := RIPV2_PORT } : SentPacket))) =
      Ripv2.DoSendRouteUpdate.selected s.m_splitHorizonStrategy ipv4 true I
        (s.m_routes.filter (fun c => decide (c.1.m_status = .RIPV2_VALID))) := by
    rw [rtesOf_map _ (fun _ => rfl)]
    exact hpag.2.1
  refine ⟨pages, hsend, hpag, ?_, ?_, ?_, ?_⟩
  · rw [hrtes]
    obtain ⟨pages2, h2, hpag2⟩ := Ripv2.DoSendRouteUpdate.onSocket_pages
      { s with m_routes := s.m_routes.filter (fun c => decide (c.1.m_status = .RIPV2_VALID)) }
      ipv4 true [] (sock, I) hex
    rw [h2, List.nil_append, rtesOf_map _ (fun _ => rfl)]
    exact hpag2.2.1.symm
  · intro r hr
    rw [hrtes] at hr
    unfold Ripv2.DoSendRouteUpdate.selected at hr
    obtain ⟨cell, hcell, hsel⟩ := List.mem_filterMap.mp hr
    obtain ⟨hmem, hv⟩ := List.mem_filter.mp hcell
    exact ⟨cell, hmem, of_decide_eq_true hv, hsel⟩
  · intro st cell hv
    constructor
    · rw [Ripv2.HandleRequests.reply_onRoute_eq, emitted_pageStep _ _ (fun _ => rfl),
        Ripv2.HandleRequests.select_eq, if_pos hv]
    · rw [Ripv2.DoSendRouteUpdate.onRoute_eq, emitted_pageStep _ _ (fun _ => rfl)]
  · intro st cell hv
    rw [Ripv2.HandleRequests.reply_onRoute_eq, emitted_pageStep _ _ (fun _ => rfl),
      Ripv2.HandleRequests.select_eq, if_neg hv]
    simp only [Option.toList, List.append_nil]

theorem whole_table_reply_periodic_dump_witness :
    2 ∉ ribI.m_interfaceExclusions ∧
      ribI.HandleRequests ipv4W { m_command := REQUEST, m_rteList := [rteAll] }
          0x0A000009 520 2 255 =
        .ok { ribI with sent :=
          [{ socket := 6, toAddress := 0x0A000009, toPort := RIPV2_PORT,
             hdr := { m_command := RESPONSE,
                      m_rteList :=
                        [{ m_IpAddress := 0x0A000000, m_SubnetMask := 0xFF000000, m_metric := 2 },
                         { m_IpAddress := 0x0A010000, m_SubnetMask := 0xFFFF0000,
                           m_metric := 3 }] } }] } ∧
      Ripv2.DoSendRouteUpdate.onSocket ribI ipv4W true [] (6, 2) =
          [{ socket := 6, toAddress := RIPV2_ALL_NODE, toPort := RIPV2_PORT,
             hdr := { m_command := RESPONSE,
                      m_rteList :=
                        [{ m_IpAddress := 0x0A000000, m_SubnetMask := 0xFF000000, m_metric := 2 },
                         { m_IpAddress := 0x0A010000, m_SubnetMask := 0xFFFF0000, m_metric := 3 },
                         { m_IpAddress := 0x0A010000, m_SubnetMask := 0xFFFF0000,
                           m_metric := 16 }] } }] ∧
      ∃ pages : List Ripv2Header,
        ribI.HandleRequests ipv4W { m_command := REQUEST, m_rteList := [rteAll] }
            0x0A000009 520 2 255 =
          .ok { ribI with sent := ribI.sent ++ pages.map (fun h =>
                  { socket := 6, hdr := h, toAddress := 0x0A000009, toPort := RIPV2_PORT }) } ∧
        rtesOf (pages.map (fun h =>
            ({ socket := 6, hdr := h, toAddress := 0x0A000009,
               toPort := RIPV2_PORT } : SentPacket))) =
          rtesOf (Ripv2.DoSendRouteUpdate.onSocket
            { ribI with
              m_routes := ribI.m_routes.filter (fun c => decide (c.1.m_status = .RIPV2_VALID)) }
            ipv4W true [] (6, 2)) := by
  refine ⟨by decide, rfl, rfl, ?_⟩
  obtain ⟨pages, h1, _, h3, _⟩ := whole_table_reply_periodic_dump ribI ipv4W
    { m_command := REQUEST, m_rteList := [rteAll] } rteAll 0x0A000009 520 2 6 rfl
    (by decide) (by decide) rfl
  exact ⟨pages, h1, h3⟩

/-- C22, the input that breaks it.  Every packet of a whole-table reply goes
through the send socket of the arrival interface to the address of the
requester and to the port 520 (`RIPV2_PORT`), whatever port the Request came
from.  The whole-table Request that `ribD` receives on interface 1 from
10.0.0.9, port 1234, is answered to port 520; the Request for two prefixes
from the same sender is answered to port 1234. -/
theorem whole_table_reply_port :
    (∀ (s : Ripv2) (ipv4 : Ipv4) (requestHdr : Ripv2Header) (first : Ripv2Rte)
        (senderAddress senderPort I sock : Nat),
      requestHdr.m_rteList = [first] →
      (first.m_IpAddress = 0 ∧ first.m_SubnetMask = 0 ∧ first.m_metric = 16) →
      I ∉ s.m_interfaceExclusions →
      Ripv2.findSendingSocket I s.m_sendSocketList none = some sock →
        ∃ pages : List Ripv2Header,
          s.HandleRequests ipv4 requestHdr senderAddress senderPort I 255 =
            .ok { s with sent := s.sent ++ pages.map (fun h =>
                    { socket := sock, hdr := h, toAddress := senderAddress,
                      toPort := RIPV2_PORT }) } ∧
          Paginated pages
            (Ripv2.HandleRequests.selected s.m_splitHorizonStrategy ipv4 I s.m_routes)) ∧
    RIPV2_PORT = 520 ∧
    ribD.Receive ipv4W id (packetQ 255 1234 [rteAll]) 0 =
      .ok { ribD with sent :=
        [{ socket := 5, toAddress := 0x0A000009, toPort := 520,
           hdr := { m_command := RESPONSE,
                    m_rteList :=
                      [{ m_IpAddress := 0, m_SubnetMask := 0, m_metric := 16 },
                       { m_tag := 7, m_IpAddress := 0x0A000000, m_SubnetMask := 0xFF000000,
                         m_metric := 3 },
                       { m_IpAddress := 0xC0A80000, m_SubnetMask := 0xFFFF0000,
                         m_metric := 16 }] } }] } ∧
    ribD.Receive ipv4W id
        (packetQ 255 1234 [{ m_IpAddress := 0x0A000000, m_SubnetMask := 0xFF000000 },
          rteQ 0xC0A80000]) 0 =
      .ok { ribD with sent :=
        [{ socket := 5, toAddress := 0x0A000009, toPort := 1234,
           hdr := { m_command := RESPONSE,
                    m_rteList :=
                      [{ m_IpAddress := 0x0A000000, m_SubnetMask := 0xFF000000, m_tag := 7,
                         m_metric := 3 },
                       { m_IpAddress := 0xC0A80000, m_SubnetMask := 0xFFFFFF00, m_tag := 0,
                         m_metric := 16 }] } }] } := by
  refine ⟨?_, rfl, rfl, rfl⟩
  intro s ipv4 requestHdr first senderAddress senderPort I sock hreq hfirst hex hsock
  exact Ripv2.HandleRequests.whole_table_pages s ipv4 requestHdr first senderAddress senderPort
    I sock hreq hfirst hex hsock

namespace Ripv2

theorem HandleRequests.answer_find (rte : Ripv2Rte) (routes : List RouteCell) :
    HandleRequests.answer rte routes =
      match routes.find? (HandleRequests.matches rte) with
      | some cell => { rte with m_metric := cell.1.m_metric, m_tag := cell.1.m_tag }
      | none => { rte with m_metric := 16, m_tag := 0 } := by
  induction routes with
  | nil => rfl
  | cons cell rest ih =>
    unfold HandleRequests.answer
    by_cases h : cell.1.m_status = .RIPV2_VALID ∧ rte.m_IpAddress = cell.1.m_dest ∧
        rte.m_SubnetMask = cell.1.m_destNetworkMask
    · have hm : HandleRequests.matches rte cell = true := decide_eq_true h
      simp only [h, and_self, if_true, List.find?_cons, hm]
    · have hm : HandleRequests.matches rte cell = false := decide_eq_false h
      rw [if_neg h, ih]
      simp only [List.find?_cons, hm]

theorem HandleRequests.addRte_foldl (f : Ripv2Rte → Ripv2Rte) (rtes : List Ripv2Rte) :
    ∀ hdr : Ripv2Header,
      rtes.foldl (fun hdr rte => hdr.AddRte (f rte)) hdr =
        { hdr with m_rteList := hdr.m_rteList ++ rtes.map f } := by
  induction rtes with
  | nil => intro hdr; simp
  | cons r rest ih =>
    intro hdr
    rw [List.foldl_cons, ih]
    simp [Ripv2Header.AddRte]

theorem HandleRequests.specific_reply (s : Ripv2) (ipv4 : Ipv4) (requestHdr : Ripv2Header)
    (senderAddress senderPort incomingInterface ttl sock : Nat)
    (hne : requestHdr.m_rteList ≠ [])
    (hbr : ¬ (requestHdr.m_rteList.length = 1 ∧ ttl = 255))
    (hsock : (if ttl = 255 then findSendingSocket incomingInterface s.m_sendSocketList none
      else s.m_recvSocket) = some sock) :
    s.HandleRequests ipv4 requestHdr senderAddress senderPort incomingInterface ttl =
      .ok { s with sent := s.sent ++
        [{ socket := sock,
           hdr := { m_command := RESPONSE,
                    m_rteList := requestHdr.m_rteList.map
                      (fun rte => HandleRequests.answer rte s.m_routes) },
           toAddress := senderAddress, toPort := senderPort }] } := by
  unfold HandleRequests
  cases hl : requestHdr.m_rteList with
  | nil => exact absurd hl hne
  | cons first rest =>
    rw [hl] at hbr
    simp only [hbr, if_false, hsock, HandleRequests.addRte_foldl, List.nil_append]

theorem HandleRequests.single_ignored (s : Ripv2) (ipv4 : Ipv4) (requestHdr : Ripv2Header)
    (first : Ripv2Rte) (senderAddress senderPort incomingInterface : Nat)
    (hreq : requestHdr.m_rteList = [first])
    (hnot : ¬ (first.m_IpAddress = 0 ∧ first.m_SubnetMask = 0 ∧ first.m_metric = 16)) :
    s.HandleRequests ipv4 requestHdr senderAddress senderPort incomingInterface 255 = .ok s := by
  unfold HandleRequests
  simp only [hreq, List.length_singleton, and_self, if_true, hnot, if_false]

end Ripv2

/-- C24, the input that breaks it, and the part that holds.  A Request with a
non-empty RTE list that has two or more RTEs, or a TTL other than 255, is
answered, when the socket it is sent through exists, by exactly one Response
to the address and port of the requester: one RTE per requested RTE in the
same order, each the requested RTE with the metric and tag of the first VALID
entry that has its address and mask, or with metric 16 and tag 0 when there is
none; the table is as before.  But a Request with a single RTE that is not
the whole-table pattern, received with TTL 255, is not answered at all.  On
`ribQ`: the Request for 10.0.1.0/24 and 10.9.9.0/24 gets one Response with the
metrics 2 and 16; the Request for 10.0.1.0/24 alone gets nothing with TTL 255,
and one Response with TTL 64. -/
theorem single_prefix_request_unanswered :
    (∀ (s : Ripv2) (ipv4 : Ipv4) (requestHdr : Ripv2Header)
        (senderAddress senderPort I ttl sock : Nat),
      requestHdr.m_rteList ≠ [] →
      ¬ (requestHdr.m_rteList.length = 1 ∧ ttl = 255) →
      (if ttl = 255 then Ripv2.findSendingSocket I s.m_sendSocketList none
        else s.m_recvSocket) = some sock →
        s.HandleRequests ipv4 requestHdr senderAddress senderPort I ttl =
          .ok { s with sent := s.sent ++
            [{ socket := sock,
               hdr := { m_command := RESPONSE,
                        m_rteList := requestHdr.m_rteList.map
                          (fun rte => Ripv2.HandleRequests.answer rte s.m_routes) },
               toAddress := senderAddress, toPort := senderPort }] }) ∧
    (∀ (rte : Ripv2Rte) (routes : List RouteCell),
      Ripv2.HandleRequests.answer rte routes =
        match routes.find? (Ripv2.HandleRequests.matches rte) with
        | some cell => { rte with m_metric := cell.1.m_metric, m_tag := cell.1.m_tag }
        | none => { rte with m_metric := 16, m_tag := 0 }) ∧
    (∀ (s : Ripv2) (ipv4 : Ipv4) (requestHdr : Ripv2Header) (first : Ripv2Rte)
        (senderAddress senderPort I : Nat),
      requestHdr.m_rteList = [first] →
      ¬ (first.m_IpAddress = 0 ∧ first.m_SubnetMask = 0 ∧ first.m_metric = 16) →
        s.HandleRequests ipv4 requestHdr senderAddress senderPort I 255 = .ok s) ∧
    ribQ.Receive ipv4W id (packetQ 255 520 [rteQ 0x0A000100, rteQ 0x0A090900]) 0 =
      .ok { ribQ with sent :=
        [{ socket := 5, toAddress := 0x0A000009, toPort := 520,
           hdr := { m_command := RESPONSE,
                    m_rteList :=
                      [{ m_IpAddress := 0x0A000100, m_SubnetMask := 0xFFFFFF00, m_tag := 0,
                         m_metric := 2 },
                       { m_IpAddress := 0x0A090900, m_SubnetMask := 0xFFFFFF00, m_tag := 0,
                         m_metric := 16 }] } }] } ∧
    ribQ.Receive ipv4W id (packetQ 255 520 [rteQ 0x0A000100]) 0 = .ok ribQ ∧
    ribQ.Receive ipv4W id (packetQ 64 520 [rteQ 0x0A000100]) 0 =
      .ok { ribQ with sent :=
        [{ socket := 9, toAddress := 0x0A000009, toPort := 520,
           hdr := { m_command := RESPONSE,
                    m_rteList :=
                      [{ m_IpAddress := 0x0A000100, m_SubnetMask := 0xFFFFFF00, m_tag := 0,
                         m_metric := 2 }] } }] } := by
  refine ⟨?_, ?_, ?_, rfl, rfl, rfl⟩
  · intro s ipv4 requestHdr senderAddress senderPort I ttl sock hne hbr hsock
    exact Ripv2.HandleRequests.specific_reply s ipv4 requestHdr senderAddress senderPort I ttl
      sock hne hbr hsock
  · intro rte routes
    exact Ripv2.HandleRequests.answer_find rte routes
  · intro s ipv4 requestHdr first senderAddress senderPort I hreq hnot
    exact Ripv2.HandleRequests.single_ignored s ipv4 requestHdr first senderAddress senderPort I
      hreq hnot

/-- C25, as the code has it: the whole-table pattern with another TTL is a
specific request.  A Request with the single RTE 0.0.0.0, mask /0, metric 16
that arrives with a TTL other than 255 is not dropped: when the receiving
socket exists, one Response goes through it to the address and the port of
the requester, with one RTE, the requested one with the metric and tag of the
first VALID entry 0.0.0.0/0 of the table, or with metric 16 and tag 0 when
there is none.  The table is as before. -/
theorem whole_table_pattern_low_ttl (s : Ripv2) (ipv4 : Ipv4) (requestHdr : Ripv2Header)
    (first : Ripv2Rte) (senderAddress senderPort I ttl sock : Nat)
    (hreq : requestHdr.m_rteList = [first])
    (hfirst : first.m_IpAddress = 0 ∧ first.m_SubnetMask = 0 ∧ first.m_metric = 16)
    (httl : ttl ≠ 255) (hsock : s.m_recvSocket = some sock) :
    s.HandleRequests ipv4 requestHdr senderAddress senderPort I ttl =
        .ok { s with sent := s.sent ++
          [{ socket := sock,
             hdr := { m_command := RESPONSE,
                      m_rteList := [Ripv2.HandleRequests.answer first s.m_routes] },
             toAddress := senderAddress, toPort := senderPort }] } ∧
      Ripv2.HandleRequests.answer first s.m_routes =
        match s.m_routes.find? (fun cell => decide (cell.1.m_status = .RIPV2_VALID ∧
            cell.1.m_dest = 0 ∧ cell.1.m_destNetworkMask = 0)) with
        | some cell => { first with m_metric := cell.1.m_metric, m_tag := cell.1.m_tag }
        | none => { first with m_metric := 16, m_tag := 0 } := by
  constructor
  · have h := Ripv2.HandleRequests.specific_reply s ipv4 requestHdr senderAddress senderPort I
      ttl sock (by rw [hreq]; exact List.cons_ne_nil _ _) (fun hc => httl hc.2)
      (by rw [if_neg httl]; exact hsock)
    rw [h, hreq]
    rfl
  · rw [Ripv2.HandleRequests.answer_find]
    have hf : Ripv2.HandleRequests.matches first = (fun cell =>
        decide (cell.1.m_status = .RIPV2_VALID ∧ cell.1.m_dest = 0 ∧
          cell.1.m_destNetworkMask = 0)) := by
      funext cell
      unfold Ripv2.HandleRequests.matches
      rw [hfirst.1, hfirst.2.1]
      simp only [eq_comm]
    rw [hf]

theorem whole_table_pattern_low_ttl_witness :
    (64 : Nat) ≠ 255 ∧
      ({ ribD with m_recvSocket := some 9 } : Ripv2).HandleRequests ipv4W
          { m_command := REQUEST, m_rteList := [rteAll] } 0x0A000009 1234 1 64 =
        .ok { ribD with
          m_recvSocket := some 9
          sent := [{ socket := 9, toAddress := 0x0A000009, toPort := 1234,
                     hdr := { m_command := RESPONSE,
                              m_rteList := [{ m_IpAddress := 0, m_SubnetMask := 0, m_tag := 0,
                                              m_metric := 1 }] } }] } :=
  ⟨by decide,
    (whole_table_pattern_low_ttl { ribD with m_recvSocket := some 9 } ipv4W
      { m_command := REQUEST, m_rteList := [rteAll] } rteAll 0x0A000009 1234 1 64 9 rfl
      (by decide) (by decide) rfl).1⟩

/-- C25 does not hold as worded: the whole-table pattern that `ribD`, with
the receiving socket 9, receives on interface 1 with TTL 64 from 10.0.0.9,
port 1234, is answered: a Response with the RTE 0.0.0.0/0 at metric 1, the
metric of the default route, is sent through socket 9. -/
theorem low_ttl_request_answered :
    ({ ribD with m_recvSocket := some 9 } : Ripv2).Receive ipv4W id
        (packetQ 64 1234 [rteAll]) 0 =
      .ok { ribD with
        m_recvSocket := some 9
        sent := [{ socket := 9, toAddress := 0x0A000009, toPort := 1234,
                   hdr := { m_command := RESPONSE,
                            m_rteList := [{ m_IpAddress := 0, m_SubnetMask := 0, m_tag := 0,
                                            m_metric := 1 }] } }] } ∧
    ({ ribD with m_recvSocket := some 9 } : Ripv2).sent = [] :=
  ⟨rfl, rfl⟩

/-- C26, the input that breaks it, and the part that holds.  On an excluded
interface a Response is dropped whatever it carries, and so is a Request with
a single RTE and TTL 255 (the whole-table Request among them).  But the branch
of `HandleRequests` for specific prefixes does not look at the excluded
interfaces: a Request with two or more RTEs, or a TTL other than 255, is
answered on an excluded interface as on any other.  With interface 1 excluded
before the agent is bound and initialised, the Request for two prefixes
received on interface 1 with TTL 64 gets a Response through the receiving
socket, the pattern of the whole-table Request with TTL 64 gets one too, and
the Request for two prefixes with TTL 255 ends the run on the null socket. -/
theorem excluded_interface_request_answered :
    (∀ (s : Ripv2) (hdr : Ripv2Header) (senderAddress I ttl delay : Nat),
      I ∈ s.m_interfaceExclusions → s.HandleResponses hdr senderAddress I ttl delay = s) ∧
    (∀ (s : Ripv2) (ipv4 : Ipv4) (requestHdr : Ripv2Header) (first : Ripv2Rte)
        (senderAddress senderPort I : Nat),
      I ∈ s.m_interfaceExclusions → requestHdr.m_rteList = [first] →
        s.HandleRequests ipv4 requestHdr senderAddress senderPort I 255 = .ok s) ∧
    (∀ (s : Ripv2) (ipv4 : Ipv4) (requestHdr : Ripv2Header)
        (senderAddress senderPort I ttl sock : Nat),
      I ∈ s.m_interfaceExclusions →
      requestHdr.m_rteList ≠ [] →
      ¬ (requestHdr.m_rteList.length = 1 ∧ ttl = 255) →
      (if ttl = 255 then Ripv2.findSendingSocket I s.m_sendSocketList none
        else s.m_recvSocket) = some sock →
        s.HandleRequests ipv4 requestHdr senderAddress senderPort I ttl =
          .ok { s with sent := s.sent ++
            [{ socket := sock,
               hdr := { m_command := RESPONSE,
                        m_rteList := requestHdr.m_rteList.map
                          (fun rte => Ripv2.HandleRequests.answer rte s.m_routes) },
               toAddress := senderAddress, toPort := senderPort }] }) ∧
    (runIn id {} [(ipv4U, .setInterfaceExclusions [1]), (ipv4U, .setIpv4 0),
        (ipv4U, .doInitialize (Seconds 30) (Seconds 1) (Seconds 1)),
        (ipv4U, .receive (packetQ 64 1234 [rteQ 0x0A000000, rteQ 0x0A090900]) 0)]).map
        (fun s => (s.m_interfaceExclusions, s.m_sendSocketList, s.m_recvSocket, s.sent)) =
      some ([1], [], some 2,
        [{ socket := 2, toAddress := 0x0A000009, toPort := 1234,
           hdr := { m_command := RESPONSE,
                    m_rteList :=
                      [{ m_IpAddress := 0x0A000000, m_SubnetMask := 0xFFFFFF00, m_tag := 0,
                         m_metric := 1 },
                       { m_IpAddress := 0x0A090900, m_SubnetMask := 0xFFFFFF00, m_tag := 0,
                         m_metric := 16 }] } }]) ∧
    (runIn id {} [(ipv4U, .setInterfaceExclusions [1]), (ipv4U, .setIpv4 0),
        (ipv4U, .doInitialize (Seconds 30) (Seconds 1) (Seconds 1)),
        (ipv4U, .receive (packetQ 64 1234 [rteAll]) 0)]).map (fun s => s.sent) =
      some [{ socket := 2, toAddress := 0x0A000009, toPort := 1234,
              hdr := { m_command := RESPONSE,
                       m_rteList := [{ m_IpAddress := 0, m_SubnetMask := 0, m_tag := 0,
                                       m_metric := 16 }] } }] ∧
    (runIn id {} [(ipv4U, .setInterfaceExclusions [1]), (ipv4U, .setIpv4 0),
        (ipv4U, .doInitialize (Seconds 30) (Seconds 1) (Seconds 1)),
        (ipv4U, .receive (packetQ 255 1234 [rteAll]) 0)]).map (fun s => s.sent) = some [] ∧
    runIn id {} [(ipv4U, .setInterfaceExclusions [1]), (ipv4U, .setIpv4 0),
        (ipv4U, .doInitialize (Seconds 30) (Seconds 1) (Seconds 1)),
        (ipv4U, .receive (packetQ 255 1234 [rteQ 0x0A000000, rteQ 0x0A090900]) 0)] = none := by
  refine ⟨?_, ?_, ?_, by decide, by decide, by decide, by decide⟩
  · intro s hdr senderAddress I ttl delay hex
    unfold Ripv2.HandleResponses
    simp only [hex, if_true]
  · intro s ipv4 requestHdr first senderAddress senderPort I hex hreq
    unfold Ripv2.HandleRequests
    simp only [hreq, List.length_singleton, and_self, if_true, hex, not_true_eq_false, if_false,
      ite_self]
  · intro s ipv4 requestHdr senderAddress senderPort I ttl sock _ hne hbr hsock
    exact Ripv2.HandleRequests.specific_reply s ipv4 requestHdr senderAddress senderPort I ttl
      sock hne hbr hsock

/-- C31: the injection of a default route.  `AddDefaultRouteTo (nextHop,
interface)` puts one cell at the end of the table: a new route with
destination 0.0.0.0, mask /0, the gateway `nextHop`, the interface given,
tag 0, metric 1, status VALID and `changed` set, with a handle that refers to
no timer.  The cells that were in the table are the first cells of the new
table, in their order, each with its route and its handle; the simulator and
so every timer, and everything else in the agent but the address of the next
object, are as before. -/
theorem default_route_injection (s : Ripv2) (nextHop interface : Nat) :
    s.AddDefaultRouteTo nextHop interface =
        { s with
          m_routes := s.m_routes ++
            [({ addr := s.heap, m_dest := 0, m_destNetworkMask := 0, m_gateway := nextHop,
                m_interface := interface, m_tag := 0, m_metric := 1,
                m_status := .RIPV2_VALID, m_changed := true }, {})]
          heap := s.heap + 1 } ∧
      (s.AddDefaultRouteTo nextHop interface).m_routes.length = s.m_routes.length + 1 ∧
      (s.AddDefaultRouteTo nextHop interface).m_routes.take s.m_routes.length = s.m_routes ∧
      (s.AddDefaultRouteTo nextHop interface).sim = s.sim ∧
      (∀ c ∈ s.m_routes,
        (s.AddDefaultRouteTo nextHop interface).sim.IsRunning c.2 = s.sim.IsRunning c.2) := by
  have h : s.AddDefaultRouteTo nextHop interface =
      { s with
        m_routes := s.m_routes ++
          [({ addr := s.heap, m_dest := 0, m_destNetworkMask := 0, m_gateway := nextHop,
              m_interface := interface, m_tag := 0, m_metric := 1,
              m_status := .RIPV2_VALID, m_changed := true }, {})]
        heap := s.heap + 1 } := by
    unfold Ripv2.AddDefaultRouteTo Ripv2.AddNetworkRouteTo4
    simp [Ripv2RoutingTableEntry.new4, Ripv2RoutingTableEntry.SetRouteMetric,
      Ripv2RoutingTableEntry.SetRouteStatus, Ripv2RoutingTableEntry.SetRouteChanged]
  refine ⟨h, ?_, ?_, ?_, ?_⟩
  · rw [h]; simp
  · rw [h]; simp
  · rw [h]
  · intro c _; rw [h]

namespace Ripv2

theorem SendRouteRequest.loop_eq (excl : List Nat) (hdr : Ripv2Header)
    (socks : List (Nat × Nat)) :
    ∀ sent : List SentPacket,
      socks.foldl
          (fun sent sock =>
            if sock.2 ∉ excl then
              sent ++ [{ socket := sock.1, hdr := hdr, toAddress := RIPV2_ALL_NODE,
                         toPort := RIPV2_PORT }]
            else sent)
          sent =
        sent ++ (socks.filter (fun sock => decide (sock.2 ∉ excl))).map
          (fun sock => { socket := sock.1, hdr := hdr, toAddress := RIPV2_ALL_NODE,
                         toPort := RIPV2_PORT }) := by
  induction socks with
  | nil => intro sent; simp
  | cons sock rest ih =>
    intro sent
    rw [List.foldl_cons, ih]
    by_cases h : sock.2 ∈ excl
    · simp [h]
    · simp [h]

end Ripv2

/-- C32, what breaks it, and the part that holds.  `SendRouteRequest` sends
one packet through every send socket whose interface is not excluded, in the
order of the sockets, to 224.0.0.9 port 520, and changes nothing else.  The
message is a Request with exactly one RTE, address 0.0.0.0, mask /0, metric
16, tag 0; but the address family of the RTE is 2, the value the constructor
of `Ripv2Rte` gives it, not 0: on the wire the two bytes after the header are
0 and 2. -/
theorem route_request_format :
    (∀ s : Ripv2,
      s.SendRouteRequest =
        { s with
          sent := s.sent ++
            (s.m_sendSocketList.filter
              (fun sock => decide (sock.2 ∉ s.m_interfaceExclusions))).map
              (fun sock =>
                { socket := sock.1,
                  hdr := { m_command := REQUEST,
                           m_rteList := [{ m_AFI := 2, m_tag := 0, m_IpAddress := 0,
                                           m_SubnetMask := 0, m_NextHop := 0, m_metric := 16 }] },
                  toAddress := RIPV2_ALL_NODE, toPort := RIPV2_PORT }) }) ∧
    REQUEST = 1 ∧ RIPV2_ALL_NODE = 0xE0000009 ∧ RIPV2_PORT = 520 ∧
    (ribD.SendRouteRequest.sent.map (fun p => (p.socket, AddHeader p.hdr))) =
      [(5, [1, 2, 0, 0, 0, 2, 0, 0, 0, 0, 0, 0, 0, 0, 0, 0, 0, 0, 0, 0, 0, 0, 0, 16])] ∧
    ({ ribD with m_interfaceExclusions := [1] } : Ripv2).SendRouteRequest.sent = [] := by
  refine ⟨?_, rfl, rfl, rfl, by decide, by decide⟩
  intro s
  unfold Ripv2.SendRouteRequest
  simp only [Ripv2.SendRouteRequest.loop_eq, Ripv2Header.AddRte, List.nil_append]

namespace Ripv2

theorem DoSendRouteUpdate.select_unchanged (strategy : SplitHorizonType_e) (ipv4 : Ipv4)
    (interface : Nat) (cell : RouteCell) (h : cell.1.m_changed = false) :
    DoSendRouteUpdate.select strategy ipv4 false interface cell = none := by
  rw [DoSendRouteUpdate.select_triggered]
  simp [h]

theorem DoSendRouteUpdate.onSocket_quiet (s : Ripv2) (ipv4 : Ipv4) (sent : List SentPacket)
    (sock : Nat × Nat) (h : ∀ c ∈ s.m_routes, c.1.m_changed = false) :
    DoSendRouteUpdate.onSocket s ipv4 false sent sock = sent := by
  by_cases hex : sock.2 ∈ s.m_interfaceExclusions
  · unfold DoSendRouteUpdate.onSocket
    simp only [hex, not_true_eq_false, if_false]
  · obtain ⟨pages, h1, h2⟩ := DoSendRouteUpdate.onSocket_pages s ipv4 false sent sock hex
    have hsel : DoSendRouteUpdate.selected s.m_splitHorizonStrategy ipv4 false sock.2
        s.m_routes = [] := by
      unfold DoSendRouteUpdate.selected
      rw [List.filterMap_eq_nil_iff]
      intro c hc
      exact DoSendRouteUpdate.select_unchanged _ _ _ c (h c hc)
    rw [hsel] at h2
    have hp : pages = [] := by
      have hl := h2.2.2
      simp only [List.length_nil, Nat.zero_add, Nat.reduceDiv] at hl
      exact List.length_eq_zero.mp hl
    rw [h1, hp, List.map_nil, List.append_nil]

theorem DoSendRouteUpdate.sockets_quiet (s : Ripv2) (ipv4 : Ipv4)
    (h : ∀ c ∈ s.m_routes, c.1.m_changed = false) (socks : List (Nat × Nat)) :
    ∀ sent : List SentPacket,
      socks.foldl (DoSendRouteUpdate.onSocket s ipv4 false) sent = sent := by
  induction socks with
  | nil => intro sent; rfl
  | cons sock rest ih =>
    intro sent
    rw [List.foldl_cons, DoSendRouteUpdate.onSocket_quiet s ipv4 sent sock h, ih]

end Ripv2

/-- C36: every emission clears the changed flags.  `DoSendRouteUpdate`,
periodic or triggered, whatever the send sockets and the excluded interfaces,
returns the table with the same cells in the same order, each route with
`changed` cleared and every other field, and its handle, as before; the
simulator and the rest of the agent but the packets sent are as before.  So
a triggered emission right after an emission sends no packet and changes
nothing. -/
theorem emission_clears_changed (s : Ripv2) (ipv4 ipv4' : Ipv4) (periodic : Bool) :
    s.DoSendRouteUpdate ipv4 periodic =
        { s with
          sent := (s.DoSendRouteUpdate ipv4 periodic).sent
          m_routes := s.m_routes.map (fun c => ({ c.1 with m_changed := false }, c.2)) } ∧
      (∀ c ∈ (s.DoSendRouteUpdate ipv4 periodic).m_routes, c.1.m_changed = false) ∧
      (s.DoSendRouteUpdate ipv4 periodic).sim = s.sim ∧
      (s.DoSendRouteUpdate ipv4 periodic).DoSendRouteUpdate ipv4' false =
        s.DoSendRouteUpdate ipv4 periodic := by
  have h1 : s.DoSendRouteUpdate ipv4 periodic =
      { s with
        sent := (s.DoSendRouteUpdate ipv4 periodic).sent
        m_routes := s.m_routes.map (fun c => ({ c.1 with m_changed := false }, c.2)) } := by
    unfold Ripv2.DoSendRouteUpdate
    simp only [Ripv2RoutingTableEntry.SetRouteChanged]
  have h2 : ∀ c ∈ (s.DoSendRouteUpdate ipv4 periodic).m_routes, c.1.m_changed = false := by
    intro c hc
    rw [h1] at hc
    simp only [List.mem_map] at hc
    obtain ⟨c0, _, rfl⟩ := hc
    rfl
  refine ⟨h1, h2, by rw [h1], ?_⟩
  generalize s.DoSendRouteUpdate ipv4 periodic = t at h2
  unfold Ripv2.DoSendRouteUpdate
  rw [Ripv2.DoSendRouteUpdate.sockets_quiet t ipv4' h2]
  have hm : t.m_routes.map (fun cell => (cell.1.SetRouteChanged false, cell.2)) = t.m_routes := by
    conv_rhs => rw [← List.map_id t.m_routes]
    apply List.map_congr_left
    intro c hc
    have := h2 c hc
    simp only [Ripv2RoutingTableEntry.SetRouteChanged, id]
    rcases c with ⟨e, i⟩
    simp only at this
    simp only [← this]
  rw [hm]

/-- C38, what breaks it, and the part that holds.  On a buffer of
`L = 4 + body.length` bytes (below 2^32) with command 1 or 2, version 2 and a
zero reserved field, `Ripv2Header::Deserialize` appends
`(L - 4) / 20 mod 256` RTEs: the count is held in a `uint8_t`.  This is
`(L - 4) / 20` as long as that is below 256, counts above 25 included; from
5124 bytes on it is not.  A header of 256 RTEs is written as 5124 bytes, which
are read back as a header with no RTE and the size 4. -/
theorem rte_count_wraps :
    (∀ (c : Nat) (body : List Nat), (c = REQUEST ∨ c = RESPONSE) →
      4 + body.length < 2 ^ 32 →
        ∃ rtes : List Ripv2Rte,
          RemoveHeader {} (c :: 2 :: 0 :: 0 :: body) =
            .ok ({ m_command := c, m_rteList := rtes }, 4 + 20 * rtes.length) ∧
          rtes.length = body.length / 20 % 256 ∧
          (body.length / 20 < 256 → rtes.length = body.length / 20)) ∧
    (∀ rtes : List Ripv2Rte, rtes.length = 256 →
      (AddHeader { m_command := RESPONSE, m_rteList := rtes }).length = 5124 ∧
      (5124 - 4) / 20 = 256 ∧
      RemoveHeader {} (AddHeader { m_command := RESPONSE, m_rteList := rtes }) =
        .ok ({ m_command := RESPONSE, m_rteList := [] }, 4)) ∧
    (∃ rtes : List Ripv2Rte,
      RemoveHeader {} (AddHeader { m_command := RESPONSE, m_rteList := List.replicate 30 rteS6 }) =
        .ok ({ m_command := RESPONSE, m_rteList := rtes }, 604) ∧ rtes.length = 30) := by
  refine ⟨?_, ?_, ?_⟩
  · intro c body hc hL
    refine ⟨Ripv2Header.readRtes (body.length / 20 % 256)
      { data := c :: 2 :: 0 :: 0 :: body, cur := 4 } [], ?_, ?_, ?_⟩
    · rw [Ripv2Header.readRtes_length]
      simp only [List.length_nil, Nat.zero_add]
      exact Ripv2Header.Deserialize_body c body hc hL
    · rw [Ripv2Header.readRtes_length]
      simp only [List.length_nil, Nat.zero_add]
    · intro hlt
      rw [Ripv2Header.readRtes_length]
      simp only [List.length_nil, Nat.zero_add]
      exact Nat.mod_eq_of_lt hlt
  · intro rtes hlen
    have hw : AddHeader { m_command := RESPONSE, m_rteList := rtes } =
        RESPONSE :: 2 :: 0 :: 0 :: (rtes.map wireRte).flatten := by
      have hc : (RESPONSE : Nat) < 256 := by decide
      rw [AddHeader_eq_wireMessage { m_command := RESPONSE, m_rteList := rtes } hc
        (by simp only [hlen]; decide)]
      rfl
    have hbody : ((rtes.map wireRte).flatten).length = 5120 := by
      rw [flatten_wireRte_length, hlen]
    refine ⟨?_, by decide, ?_⟩
    · rw [hw]
      simp only [List.length_cons, hbody]
    · rw [hw, Ripv2Header.Deserialize_body RESPONSE _ (Or.inr rfl) (by rw [hbody]; decide), hbody]
      rfl
  · refine ⟨List.replicate 30 rteS6, ?_, by simp⟩
    have hr : ∀ r ∈ List.replicate 30 rteS6, r.InRange := by
      intro r hr
      rw [List.eq_of_mem_replicate hr]
      decide
    have hc : (RESPONSE : Nat) < 256 := by decide
    rw [AddHeader_eq_wireMessage { m_command := RESPONSE, m_rteList := List.replicate 30 rteS6 }
      hc (by simp only [List.length_replicate]; decide)]
    rw [RemoveHeader_wireMessage RESPONSE (List.replicate 30 rteS6) (Or.inr rfl)
      (by simp only [List.length_replicate]; decide) hr]
    simp only [List.length_replicate]

namespace Ripv2

theorem HandleResponses.onRoute_worse_other (td gd sa ii ra rm rme tag : Nat) (cell : RouteCell)
    (v : HandleResponses.Vars) (hkey : cell.1.m_dest = ra ∧ cell.1.m_destNetworkMask = rm)
    (hgt : cell.1.m_metric < rme) (hgw : sa ≠ cell.1.m_gateway) :
    HandleResponses.onRoute td gd sa ii ra rm rme tag cell v =
      (cell, { v with found := true }) := by
  have h1 : ¬ rme < cell.1.m_metric := by omega
  have h2 : ¬ rme = cell.1.m_metric := by omega
  unfold HandleResponses.onRoute
  simp only [hkey, and_self, if_true, h1, h2, hgw, and_false, if_false]

end Ripv2

namespace Ripv2

theorem HandleResponses.onRoute_tie_replace (td gd sa ii ra rm rme tag : Nat) (cell : RouteCell)
    (v : HandleResponses.Vars) (hkey : cell.1.m_dest = ra ∧ cell.1.m_destNetworkMask = rm)
    (heq : rme = cell.1.m_metric) (hgw : sa ≠ cell.1.m_gateway)
    (hleft : v.sim.GetDelayLeft cell.2 < td / 2) :
    HandleResponses.onRoute td gd sa ii ra rm rme tag cell v =
      (({ addr := v.heap, m_dest := ra, m_destNetworkMask := rm, m_gateway := sa,
          m_interface := ii, m_tag := tag, m_metric := rme, m_status := .RIPV2_VALID,
          m_changed := true },
        ((v.sim.Cancel cell.2).Schedule td (.InvalidateRoute v.heap)).1),
       { sim := ((v.sim.Cancel cell.2).Schedule td (.InvalidateRoute v.heap)).2,
         heap := v.heap + 1, found := true, changed := true }) := by
  have h1 : ¬ cell.1.m_metric < cell.1.m_metric := lt_irrefl _
  unfold HandleResponses.onRoute
  simp only [hkey, and_self, if_true, heq, h1, hgw, hleft, if_false,
    Ripv2RoutingTableEntry.setters_eq,
    Ripv2RoutingTableEntry.SetRouteChanged_addr, Ripv2RoutingTableEntry.SetRouteTag_addr,
    Ripv2RoutingTableEntry.SetRouteStatus_addr, Ripv2RoutingTableEntry.SetRouteMetric_addr]
  rfl

theorem HandleResponses.onRoute_tie_keep (td gd sa ii ra rm rme tag : Nat) (cell : RouteCell)
    (v : HandleResponses.Vars) (hkey : cell.1.m_dest = ra ∧ cell.1.m_destNetworkMask = rm)
    (heq : rme = cell.1.m_metric) (hgw : sa ≠ cell.1.m_gateway)
    (hleft : ¬ v.sim.GetDelayLeft cell.2 < td / 2) :
    HandleResponses.onRoute td gd sa ii ra rm rme tag cell v =
      (cell, { v with found := true }) := by
  have h1 : ¬ cell.1.m_metric < cell.1.m_metric := lt_irrefl _
  unfold HandleResponses.onRoute
  simp only [hkey, and_self, if_true, heq, h1, hgw, hleft, if_false]

end Ripv2

namespace Ripv2

theorem DoSendRouteUpdate.select_tag (strategy : SplitHorizonType_e) (ipv4 : Ipv4)
    (periodic : Bool) (interface : Nat) (cell : RouteCell) (rte : Ripv2Rte)
    (h : DoSendRouteUpdate.select strategy ipv4 periodic interface cell = some rte) :
    rte.m_tag = cell.1.m_tag := by
  unfold DoSendRouteUpdate.select at h
  simp only [] at h
  split_ifs at h <;> (cases h; rfl)

end Ripv2

/-- C34, what breaks it, and the part that holds.  A route that a Response
installs for a new prefix has the tag 0 whatever the tag of the RTE: that
branch of `HandleResponses` never calls `SetRouteTag`.  The three branches
that update a cell stored under the key (better metric, equal metric from
another gateway with less than half the timeout left, worse metric below 16
from the same gateway) give the route the tag of the RTE.  An RTE that an
emission makes of a route, and the answer to a request for its prefix, carry
the tag of the route.  So 192.168.1.0/24 learnt with tag 0x1234 at metric 5 is
stored with tag 0 and announced and answered with tag 0; once the same
gateway announces it at metric 1 the route has the tag 0x1234 and it is
announced and answered with it. -/
theorem new_route_tag_dropped :
    (∀ (sa ii : Nat) (s : Ripv2) (changed : Bool) (rte : Ripv2Rte),
      (∀ c ∈ s.m_routes, ¬ KeyOf rte c) → HandleResponses.rteMetric s ii rte ≠ 16 →
        ∃ E id, (HandleResponses.onRte sa ii (s, changed) rte).1.m_routes = (E, id) :: s.m_routes ∧
          E.m_tag = 0 ∧ E.m_metric = HandleResponses.rteMetric s ii rte ∧
          E.m_status = .RIPV2_VALID) ∧
    (∀ (td gd sa ii ra rm rme tag : Nat) (cell : RouteCell) (v : HandleResponses.Vars),
      (cell.1.m_dest = ra ∧ cell.1.m_destNetworkMask = rm) →
      (rme < cell.1.m_metric ∨
        (rme = cell.1.m_metric ∧ sa ≠ cell.1.m_gateway ∧ v.sim.GetDelayLeft cell.2 < td / 2) ∨
        (cell.1.m_metric < rme ∧ sa = cell.1.m_gateway ∧ rme < 16)) →
        (HandleResponses.onRoute td gd sa ii ra rm rme tag cell v).1.1.m_tag = tag) ∧
    (∀ (strategy : SplitHorizonType_e) (ipv4 : Ipv4) (periodic : Bool) (I : Nat)
        (cell : RouteCell) (rte : Ripv2Rte),
      Ripv2.DoSendRouteUpdate.select strategy ipv4 periodic I cell = some rte →
        rte.m_tag = cell.1.m_tag) ∧
    (∀ (rte : Ripv2Rte) (routes : List RouteCell) (cell : RouteCell),
      routes.find? (Ripv2.HandleRequests.matches rte) = some cell →
        (Ripv2.HandleRequests.answer rte routes).m_tag = cell.1.m_tag) ∧
    (run ipv4W id ribS [.receive (packetT 5) (Seconds 1), .runEvent 0,
        .receive (packetQ 64 520 [rteQ 0xC0A80100]) 0]).map tagsOf =
      some ([(0xC0A80100, 6, 0)],
        [(5, 520, [{ m_tag := 0, m_IpAddress := 0xC0A80100, m_SubnetMask := 0xFFFFFF00,
                     m_metric := 6 }]),
         (9, 520, [{ m_tag := 0, m_IpAddress := 0xC0A80100, m_SubnetMask := 0xFFFFFF00,
                     m_metric := 6 }])]) ∧
    (run ipv4W id ribS [.receive (packetT 5) (Seconds 1), .runEvent 0,
        .receive (packetT 1) (Seconds 1), .runEvent 0,
        .receive (packetQ 64 520 [rteQ 0xC0A80100]) 0]).map tagsOf =
      some ([(0xC0A80100, 2, 0x1234)],
        [(5, 520, [{ m_tag := 0, m_IpAddress := 0xC0A80100, m_SubnetMask := 0xFFFFFF00,
                     m_metric := 6 }]),
         (5, 520, [{ m_tag := 0x1234, m_IpAddress := 0xC0A80100, m_SubnetMask := 0xFFFFFF00,
                     m_metric := 2 }]),
         (9, 520, [{ m_tag := 0x1234, m_IpAddress := 0xC0A80100, m_SubnetMask := 0xFFFFFF00,
                     m_metric := 2 }])]) := by
  refine ⟨?_, ?_, ?_, ?_, by decide, by decide⟩
  · intro sa ii s changed rte hno h16
    rw [Ripv2.HandleResponses.onRte_new sa ii s changed rte hno, if_pos h16]
    refine ⟨_, _, rfl, ?_, ?_, ?_⟩
    · rw [Ripv2RoutingTableEntry.setters_eq_no_tag]; rfl
    · rw [Ripv2RoutingTableEntry.setters_eq_no_tag]
    · rw [Ripv2RoutingTableEntry.setters_eq_no_tag]
  · intro td gd sa ii ra rm rme tag cell v hkey hcase
    rcases hcase with h | ⟨h1, h2, h3⟩ | ⟨h1, h2, h3⟩
    · rw [Ripv2.HandleResponses.onRoute_better _ _ _ _ _ _ _ _ _ _ hkey h]
    · rw [Ripv2.HandleResponses.onRoute_tie_replace _ _ _ _ _ _ _ _ _ _ hkey h1 h2 h3]
    · rw [Ripv2.HandleResponses.onRoute_worse _ _ _ _ _ _ _ _ _ _ hkey h1 h2 h3]
  · intro strategy ipv4 periodic I cell rte h
    exact Ripv2.DoSendRouteUpdate.select_tag strategy ipv4 periodic I cell rte h
  · intro rte routes cell h
    rw [Ripv2.HandleRequests.answer_find, h]

namespace Ripv2

theorem HandleResponses.onRoute_connected (td gd sa ii ra rm rme tag : Nat) (cell : RouteCell)
    (v : HandleResponses.Vars) (hm : cell.1.m_metric = 1) (hg : cell.1.m_gateway = 0)
    (hsa : sa ≠ 0) (hr : 2 ≤ rme) :
    (HandleResponses.onRoute td gd sa ii ra rm rme tag cell v).1 = cell := by
  by_cases hkey : cell.1.m_dest = ra ∧ cell.1.m_destNetworkMask = rm
  · rw [HandleResponses.onRoute_worse_other td gd sa ii ra rm rme tag cell v hkey (by omega)
      (by rw [hg]; exact hsa)]
  · rw [HandleResponses.onRoute_other td gd sa ii ra rm rme tag cell v hkey]

theorem HandleResponses.routesLoop_connected (td gd sa ii ra rm rme tag : Nat)
    (hsa : sa ≠ 0) (hr : 2 ≤ rme) (l : List RouteCell) :
    ∀ (v : HandleResponses.Vars), ∀ c ∈ l, c.1.m_metric = 1 → c.1.m_gateway = 0 →
      c ∈ (HandleResponses.routesLoop td gd sa ii ra rm rme tag l v).1 := by
  induction l with
  | nil => intro v c hc; cases hc
  | cons x rest ih =>
    intro v c hc hm hg
    simp only [HandleResponses.routesLoop]
    rcases List.mem_cons.mp hc with h | h
    · subst h
      rw [HandleResponses.onRoute_connected td gd sa ii ra rm rme tag c v hm hg hsa hr]
      exact List.mem_cons_self _ _
    · exact List.mem_cons_of_mem _ (ih _ c h hm hg)

theorem HandleResponses.onRte_connected (sa ii : Nat) (st : Ripv2 × Bool) (rte : Ripv2Rte)
    (hsa : sa ≠ 0) (hr : 2 ≤ HandleResponses.rteMetric st.1 ii rte) :
    ∀ c ∈ st.1.m_routes, c.1.m_metric = 1 → c.1.m_gateway = 0 →
      c ∈ (HandleResponses.onRte sa ii st rte).1.m_routes := by
  intro c hc hm hg
  have h := HandleResponses.routesLoop_connected st.1.m_timeoutDelay
    st.1.m_garbageCollectionDelay sa ii (CombineMask rte.m_IpAddress rte.m_SubnetMask)
    rte.m_SubnetMask (HandleResponses.rteMetric st.1 ii rte) rte.m_tag hsa hr st.1.m_routes
    { sim := st.1.sim, heap := st.1.heap, found := false, changed := st.2 } c hc hm hg
  unfold HandleResponses.onRte
  simp only []
  split_ifs
  · exact List.mem_cons_of_mem _ h
  · exact h

theorem HandleResponses.rteMetric_ge_two (s : Ripv2) (ii : Nat) (rte : Ripv2Rte)
    (h1 : 1 ≤ rte.m_metric) (h2 : rte.m_metric ≤ 16)
    (hi : 1 ≤ HandleResponses.interfaceMetric s ii) (hk : HandleResponses.interfaceMetric s ii < 16) :
    2 ≤ HandleResponses.rteMetric s ii rte := by
  rw [HandleResponses.rteMetric_eq s ii rte h2 hk]
  exact Nat.le_min.mpr ⟨by omega, by decide⟩

theorem HandleResponses.foldl_connected (sa ii : Nat) (hsa : sa ≠ 0) (rtes : List Ripv2Rte) :
    ∀ (st : Ripv2 × Bool), HandleResponses.validate rtes = true →
      1 ≤ HandleResponses.interfaceMetric st.1 ii → HandleResponses.interfaceMetric st.1 ii < 16 →
      ∀ c ∈ st.1.m_routes, c.1.m_metric = 1 → c.1.m_gateway = 0 →
        c ∈ (rtes.foldl (HandleResponses.onRte sa ii) st).1.m_routes := by
  induction rtes with
  | nil => intro st _ _ _ c hc _ _; exact hc
  | cons r rest ih =>
    intro st hval hi hk c hc hm hg
    obtain ⟨v1, v2, _, _, vrest⟩ := HandleResponses.validate_cons r rest hval
    have hset := HandleResponses.onRte_settings sa ii st r
    have him : HandleResponses.interfaceMetric (HandleResponses.onRte sa ii st r).1 ii =
        HandleResponses.interfaceMetric st.1 ii := by
      unfold HandleResponses.interfaceMetric
      rw [hset.1]
    rw [List.foldl_cons]
    apply ih _ vrest (by rw [him]; exact hi) (by rw [him]; exact hk)
    · exact HandleResponses.onRte_connected sa ii st r hsa
        (HandleResponses.rteMetric_ge_two st.1 ii r v1 v2 hi hk) c hc hm hg
    · exact hm
    · exact hg

end Ripv2

/-- C40, what breaks it, and the part that holds.  When the metric of the
arrival interface is from 1 to 15 (1 when none was set), a Response from a
sender other than 0.0.0.0 leaves every cell whose route has metric 1 and
gateway 0.0.0.0 in the table as it was, route and handle.  With the metric 0,
which `SetInterfaceMetric` accepts, it does not: an RTE of metric 1 for the
prefix of the interface ties with the connected route, whose handle refers to
no timer and so has no time left, and the route learnt from the neighbour
takes its place, with a timeout timer.  In `ipv4U`, after
`SetInterfaceMetric (1, 0)` and `SetIpv4`, the Response of 10.0.0.1 for
10.0.0.0/24 turns the connected route into a route through 10.0.0.1; without
the call of `SetInterfaceMetric` the connected route stays. -/
theorem connected_route_overridden :
    (∀ (s : Ripv2) (hdr : Ripv2Header) (sa ii ttl delay : Nat),
      1 ≤ HandleResponses.interfaceMetric s ii → HandleResponses.interfaceMetric s ii < 16 →
      sa ≠ 0 →
        ∀ c ∈ s.m_routes, c.1.m_metric = 1 → c.1.m_gateway = 0 →
          c ∈ (s.HandleResponses hdr sa ii ttl delay).m_routes) ∧
    ((({} : Ripv2).SetInterfaceMetric 1 0).m_interfaceMetrics = [(1, 0)] ∧
      HandleResponses.interfaceMetric (({} : Ripv2).SetInterfaceMetric 1 0) 1 = 0) ∧
    (runIn id {} [(ipv4U, .setInterfaceMetric 1 0), (ipv4U, .setIpv4 0)]).map routesOf =
      some [(0x0A000000, 0, 1, .RIPV2_VALID, false)] ∧
    (runIn id {} [(ipv4U, .setInterfaceMetric 1 0), (ipv4U, .setIpv4 0),
        (ipv4U, .receive packetN 0)]).map routesOf =
      some [(0x0A000000, 0x0A000001, 1, .RIPV2_VALID, true)] ∧
    (runIn id {} [(ipv4U, .setIpv4 0), (ipv4U, .receive packetN 0)]).map routesOf =
      some [(0x0A000000, 0, 1, .RIPV2_VALID, false)] := by
  refine ⟨?_, by decide, by decide, by decide, by decide⟩
  intro s hdr sa ii ttl delay hi hk hsa c hc hm hg
  unfold Ripv2.HandleResponses
  simp only []
  split_ifs with h1 h2 h3 h4
  · exact hc
  · exact hc
  · exact hc
  · rw [Ripv2.SendTriggeredRouteUpdate_routes]
    exact Ripv2.HandleResponses.foldl_connected sa ii hsa hdr.m_rteList (s, false)
      (by simpa using h3) hi hk c hc hm hg
  · exact Ripv2.HandleResponses.foldl_connected sa ii hsa hdr.m_rteList (s, false)
      (by simpa using h3) hi hk c hc hm hg

theorem Simulator.Armed_Cancel_of_ne (sim : Simulator) (id other : EventId) (impl : EventImpl)
    (d : Nat) (h : sim.Armed id impl d) (hne : other.m_uid ≠ id.m_uid) :
    (sim.Cancel other).Armed id impl d := by
  obtain ⟨h1, h2, u, hu, hmem⟩ := h
  refine ⟨by rw [Simulator.Cancel_now]; exact h1, ?_, u, hu, ?_⟩
  · rw [Simulator.IsRunning_Cancel_of_ne sim other id (fun hc => hne hc.symm)]
    exact h2
  · rw [Simulator.Cancel_now]
    exact Simulator.Cancel_live sim other _ hmem (by rw [← hu]; exact hne)

theorem Simulator.Armed_Schedule_other (sim : Simulator) (id : EventId) (impl impl' : EventImpl)
    (d d' : Nat) (h : sim.Armed id impl d) (hne : id.m_uid ≠ some sim.uid) :
    (sim.Schedule d' impl').2.Armed id impl d := by
  obtain ⟨h1, h2, u, hu, hmem⟩ := h
  refine ⟨h1, ?_, u, hu, ?_⟩
  · rw [Simulator.IsRunning_Schedule_of_ne sim d' impl' id hne]
    exact h2
  · exact List.mem_append_left _ hmem

namespace Ripv2

theorem InvalidateRoute.each_armed (test : Ripv2RoutingTableEntry → Bool) (gd : Nat)
    (id : EventId) (impl : EventImpl) (d : Nat) (rest : List RouteCell) :
    ∀ (sim : Simulator), sim.Armed id impl d → (∀ u, id.m_uid = some u → u < sim.uid) →
      (∀ c ∈ rest, c.2.m_uid ≠ id.m_uid) →
      (InvalidateRoute.each test gd rest sim).2.Armed id impl d ∧
        sim.uid ≤ (InvalidateRoute.each test gd rest sim).2.uid := by
  induction rest with
  | nil => intro sim h _ _; exact ⟨h, Nat.le_refl _⟩
  | cons x rest ih =>
    intro sim h hlt hne
    unfold InvalidateRoute.each
    by_cases ht : test x.1 = true
    · simp only [ht, if_true]
      have hsim : (InvalidateRoute.onCell gd sim x).2 =
          ((sim.Cancel x.2).Schedule gd (.DeleteRoute x.1.addr)).2 := by
        rw [InvalidateRoute.onCell_eq]
      rw [hsim]
      have h1 := Simulator.Armed_Cancel_of_ne sim id x.2 impl d h (hne x (List.mem_cons_self _ _))
      have h2 := Simulator.Armed_Schedule_other (sim.Cancel x.2) id impl (.DeleteRoute x.1.addr)
        d gd h1 (by
          rw [Simulator.Cancel_uid]
          intro hc
          exact absurd (hlt _ hc) (lt_irrefl _))
      have huid : ((sim.Cancel x.2).Schedule gd (.DeleteRoute x.1.addr)).2.uid = sim.uid + 1 := by
        show (sim.Cancel x.2).uid + 1 = sim.uid + 1
        rw [Simulator.Cancel_uid]
      have h3 := ih _ h2 (fun u hu => by rw [huid]; exact Nat.lt_succ_of_lt (hlt u hu))
        (fun c hc => hne c (List.mem_cons_of_mem _ hc))
      exact ⟨h3.1, by have := h3.2; rw [huid] at this; omega⟩
    · simp only [ht, Bool.false_eq_true, if_false]
      exact ih sim h hlt (fun c hc => hne c (List.mem_cons_of_mem _ hc))

theorem InvalidateRoute.each_running (test : Ripv2RoutingTableEntry → Bool) (gd : Nat)
    (id : EventId) (u : Nat) (hu : id.m_uid = some u) (rest : List RouteCell) :
    ∀ (sim : Simulator), u < sim.uid →
      (∀ c ∈ rest, test c.1 = true → c.2.m_uid ≠ some u) →
      (InvalidateRoute.each test gd rest sim).2.IsRunning id = sim.IsRunning id := by
  induction rest with
  | nil => intro sim _ _; rfl
  | cons x rest ih =>
    intro sim hlt hne
    unfold InvalidateRoute.each
    by_cases ht : test x.1 = true
    · simp only [ht, if_true]
      have hsim : (InvalidateRoute.onCell gd sim x).2 =
          ((sim.Cancel x.2).Schedule gd (.DeleteRoute x.1.addr)).2 := by
        rw [InvalidateRoute.onCell_eq]
      rw [hsim]
      have huid : ((sim.Cancel x.2).Schedule gd (.DeleteRoute x.1.addr)).2.uid = sim.uid + 1 := by
        show (sim.Cancel x.2).uid + 1 = sim.uid + 1
        rw [Simulator.Cancel_uid]
      rw [ih _ (by rw [huid]; omega) (fun c hc => hne c (List.mem_cons_of_mem _ hc))]
      rw [Simulator.IsRunning_Schedule_of_ne _ _ _ id (by
        show id.m_uid ≠ some (sim.Cancel x.2).uid
        rw [Simulator.Cancel_uid, hu]
        intro hc
        injection hc with hc
        omega)]
      exact Simulator.IsRunning_Cancel_of_ne sim x.2 id (by
        rw [hu]
        exact fun hc => hne x (List.mem_cons_self _ _) ht hc.symm)
    · simp only [ht, Bool.false_eq_true, if_false]
      exact ih sim hlt (fun c hc => hne c (List.mem_cons_of_mem _ hc))

theorem InvalidateRoute.each_now (test : Ripv2RoutingTableEntry → Bool) (gd : Nat)
    (rest : List RouteCell) :
    ∀ (sim : Simulator), (InvalidateRoute.each test gd rest sim).2.now = sim.now := by
  induction rest with
  | nil => intro sim; rfl
  | cons x rest ih =>
    intro sim
    unfold InvalidateRoute.each
    split_ifs
    · simp only []
      rw [ih, InvalidateRoute.onCell_eq]
      exact Simulator.Cancel_now sim x.2
    · exact ih sim

theorem InvalidateRoute.each_forall (test : Ripv2RoutingTableEntry → Bool) (gd heap : Nat)
    (ut : EventId) (rest : List RouteCell) :
    ∀ (done : List RouteCell) (sim : Simulator), TimersOk (done ++ rest) sim heap ut →
      List.Forall₂
        (fun c c' =>
          if test c.1 = true then
            c'.1 = { c.1 with m_metric := 16, m_status := .RIPV2_INVALID, m_changed := true } ∧
              (InvalidateRoute.each test gd rest sim).2.Armed c'.2 (.DeleteRoute c.1.addr) gd
          else c' = c)
        rest (InvalidateRoute.each test gd rest sim).1 := by
  induction rest with
  | nil => intro done sim _; exact List.Forall₂.nil
  | cons x rest ih =>
    intro done sim h
    by_cases ht : test x.1 = true
    · have hstep : InvalidateRoute.each test gd (x :: rest) sim =
          ((InvalidateRoute.onCell gd sim x).1 ::
            (InvalidateRoute.each test gd rest (InvalidateRoute.onCell gd sim x).2).1,
           (InvalidateRoute.each test gd rest (InvalidateRoute.onCell gd sim x).2).2) := by
        rw [InvalidateRoute.each]
        simp only [ht, if_true]
      have h1 := InvalidateRoute.onCell_timers gd done rest x sim heap ut h
      have h2 := ih (done ++ [(InvalidateRoute.onCell gd sim x).1])
        (InvalidateRoute.onCell gd sim x).2 (by rw [List.append_assoc]; exact h1)
      rw [hstep]
      refine List.Forall₂.cons ?_ h2
      simp only [ht, if_true]
      refine ⟨by rw [InvalidateRoute.onCell_eq], ?_⟩
      have harm : (InvalidateRoute.onCell gd sim x).2.Armed (InvalidateRoute.onCell gd sim x).1.2
          (.DeleteRoute x.1.addr) gd := by
        rw [InvalidateRoute.onCell_eq]
        exact Simulator.Armed_Schedule _ _ _
      have hid : (InvalidateRoute.onCell gd sim x).1.2.m_uid = some sim.uid := by
        rw [InvalidateRoute.onCell_eq]
        show some (sim.Cancel x.2).uid = some sim.uid
        rw [Simulator.Cancel_uid]
      have huid : (InvalidateRoute.onCell gd sim x).2.uid = sim.uid + 1 := by
        rw [InvalidateRoute.onCell_eq]
        show (sim.Cancel x.2).uid + 1 = sim.uid + 1
        rw [Simulator.Cancel_uid]
      refine (InvalidateRoute.each_armed test gd _ _ gd rest _ harm ?_ ?_).1
      · intro u hu
        rw [hid] at hu
        injection hu with hu
        rw [huid]
        omega
      · intro c hc heq
        rw [hid] at heq
        have := h.handle_lt c (List.mem_append_right _ (List.mem_cons_of_mem _ hc)) _ heq
        exact absurd this (lt_irrefl _)
    · have hstep : InvalidateRoute.each test gd (x :: rest) sim =
          (x :: (InvalidateRoute.each test gd rest sim).1,
           (InvalidateRoute.each test gd rest sim).2) := by
        rw [InvalidateRoute.each]
        simp only [ht, Bool.false_eq_true, if_false]
      have h2 := ih (done ++ [x]) sim (by rw [List.append_assoc]; exact h)
      rw [hstep]
      refine List.Forall₂.cons ?_ h2
      simp only [ht, Bool.false_eq_true, if_false]

end Ripv2
namespace Ripv2

theorem InvalidateRoute.each_uid_le (test : Ripv2RoutingTableEntry → Bool) (gd : Nat)
    (rest : List RouteCell) :
    ∀ (sim : Simulator), sim.uid ≤ (InvalidateRoute.each test gd rest sim).2.uid := by
  induction rest with
  | nil => intro sim; exact Nat.le_refl _
  | cons x rest ih =>
    intro sim
    unfold InvalidateRoute.each
    split_ifs
    · have hsim : (InvalidateRoute.onCell gd sim x).2.uid = sim.uid + 1 := by
        rw [InvalidateRoute.onCell_eq]
        show (sim.Cancel x.2).uid + 1 = sim.uid + 1
        rw [Simulator.Cancel_uid]
      have := ih (InvalidateRoute.onCell gd sim x).2
      simp only []
      omega
    · exact ih sim

theorem InvalidateRoute.each_length (test : Ripv2RoutingTableEntry → Bool) (gd : Nat)
    (rest : List RouteCell) :
    ∀ (sim : Simulator), (InvalidateRoute.each test gd rest sim).1.length = rest.length := by
  induction rest with
  | nil => intro sim; rfl
  | cons x rest ih =>
    intro sim
    unfold InvalidateRoute.each
    split_ifs
    · simp only [List.length_cons, ih]
    · simp only [List.length_cons, ih]

theorem SendTriggeredRouteUpdate_sim (s : Ripv2) (delay : Nat) :
    (s.SendTriggeredRouteUpdate delay).sim = s.sim ∨
      (s.SendTriggeredRouteUpdate delay).sim =
        (s.sim.Schedule delay (.DoSendRouteUpdate false)).2 := by
  unfold SendTriggeredRouteUpdate
  simp only []
  split_ifs
  · exact Or.inl rfl
  · exact Or.inr rfl

theorem SendTriggeredRouteUpdate_count (s : Ripv2) (delay : Nat) :
    (s.SendTriggeredRouteUpdate delay).triggeredUpdateCalls = s.triggeredUpdateCalls + 1 := by
  unfold SendTriggeredRouteUpdate
  simp only []
  split_ifs <;> rfl

theorem NotifyInterfaceDown_parts (s : Ripv2) (i delay : Nat) :
    (s.NotifyInterfaceDown i delay).m_routes =
        (InvalidateRoute.each (fun e => decide (e.m_interface = i))
          s.m_garbageCollectionDelay s.m_routes s.sim).1 ∧
      ((s.NotifyInterfaceDown i delay).sim =
          (InvalidateRoute.each (fun e => decide (e.m_interface = i))
            s.m_garbageCollectionDelay s.m_routes s.sim).2 ∨
        (s.NotifyInterfaceDown i delay).sim =
          ((InvalidateRoute.each (fun e => decide (e.m_interface = i))
            s.m_garbageCollectionDelay s.m_routes s.sim).2.Schedule delay
              (.DoSendRouteUpdate false)).2) ∧
      (s.NotifyInterfaceDown i delay).triggeredUpdateCalls =
        s.triggeredUpdateCalls + (if i ∈ s.m_interfaceExclusions then 0 else 1) := by
  unfold NotifyInterfaceDown
  by_cases hex : i ∈ s.m_interfaceExclusions
  · simp only [hex, not_true_eq_false, if_false, if_true, Nat.add_zero, true_or, and_self]
  · simp only [hex, not_false_eq_true, if_true, if_false]
    exact ⟨SendTriggeredRouteUpdate_routes _ _, SendTriggeredRouteUpdate_sim _ _,
      SendTriggeredRouteUpdate_count _ _⟩

end Ripv2

theorem Simulator.IsRunning_none (sim : Simulator) (id : EventId) (h : id.m_uid = none) :
    sim.IsRunning id = false := by
  unfold Simulator.IsRunning Simulator.IsExpired
  rw [h]
  rfl

/-- C33: an interface goes down.  In a state whose timers are in order (as
they are after any operations on a new agent), `NotifyInterfaceDown (i)`
returns the table cell by cell: a cell whose route goes out through `i` holds
that route with status INVALID, metric 16 and `changed` set, every other field
as before, and a handle armed for `DeleteRoute` on the route at the garbage
collection delay; any other cell is as before, route and handle, and its timer
runs exactly if it ran before.  The table has the same number of cells, and
`SendTriggeredRouteUpdate` is called once if `i` is not excluded and not at
all if it is.  The garbage collection delay of a new agent is 120 s. -/
theorem interface_down (s : Ripv2) (i delay : Nat) (h : s.Timers) :
    let s' := s.NotifyInterfaceDown i delay
    List.Forall₂
        (fun c c' =>
          if c.1.m_interface = i then
            c'.1 = { c.1 with m_metric := 16, m_status := .RIPV2_INVALID, m_changed := true } ∧
              s'.sim.Armed c'.2 (.DeleteRoute c.1.addr) s.m_garbageCollectionDelay
          else c' = c)
        s.m_routes s'.m_routes ∧
      (∀ c ∈ s.m_routes, c.1.m_interface ≠ i → s'.sim.IsRunning c.2 = s.sim.IsRunning c.2) ∧
      s'.m_routes.length = s.m_routes.length ∧
      s'.triggeredUpdateCalls =
        s.triggeredUpdateCalls + (if i ∈ s.m_interfaceExclusions then 0 else 1) ∧
      ({} : Ripv2).m_garbageCollectionDelay = Seconds 120 := by
  intro s'
  have hT := Ripv2.InvalidateRoute.each_timers (fun e => decide (e.m_interface = i))
    s.m_garbageCollectionDelay s.heap s.m_nextTriggeredUpdate s.m_routes [] s.sim h
  have hF := Ripv2.InvalidateRoute.each_forall (fun e => decide (e.m_interface = i))
    s.m_garbageCollectionDelay s.heap s.m_nextTriggeredUpdate s.m_routes [] s.sim h
  simp only [List.nil_append] at hT
  have hparts := Ripv2.NotifyInterfaceDown_parts s i delay
  generalize hr : Ripv2.InvalidateRoute.each (fun e => decide (e.m_interface = i))
    s.m_garbageCollectionDelay s.m_routes s.sim = r at hT hF hparts
  obtain ⟨hroutes, hsim, hcount⟩ := hparts
  have harmed : ∀ (id : EventId) (impl : EventImpl) (d : Nat), r.2.Armed id impl d →
      s'.sim.Armed id impl d := by
    intro id impl d ha
    rcases hsim with h1 | h1
    · rw [h1]; exact ha
    · rw [h1]
      apply Simulator.Armed_Schedule_other _ _ _ _ _ _ ha
      obtain ⟨_, _, u, hu, hmem⟩ := ha
      rw [hu]
      intro hc
      injection hc with hc
      have := hT.uid_lt _ hmem
      simp only at this
      omega
  refine ⟨?_, ?_, ?_, hcount, rfl⟩
  · rw [hroutes]
    refine List.Forall₂.imp ?_ hF
    intro c c' hcc
    by_cases hi : c.1.m_interface = i
    · simp only [hi, decide_True, if_true] at hcc ⊢
      exact ⟨hcc.1, harmed _ _ _ hcc.2⟩
    · simp only [hi, decide_False, Bool.false_eq_true, if_false] at hcc ⊢
      exact hcc
  · intro c hc hi
    cases hu : c.2.m_uid with
    | none => rw [Simulator.IsRunning_none _ _ hu, Simulator.IsRunning_none _ _ hu]
    | some u =>
      have hlt : u < s.sim.uid := h.handle_lt c hc u hu
      have hle : s.sim.uid ≤ r.2.uid := by
        rw [← hr]
        exact Ripv2.InvalidateRoute.each_uid_le _ _ _ _
      have hrun : r.2.IsRunning c.2 = s.sim.IsRunning c.2 := by
        rw [← hr]
        apply Ripv2.InvalidateRoute.each_running _ _ c.2 u hu s.m_routes s.sim hlt
        intro c2 hc2 ht2 hu2
        obtain ⟨before, after, hsplit⟩ := List.append_of_mem hc
        have hn := h.handles
        rw [hsplit] at hn hc2
        rcases mem_middle before after c c2 hc2 with heq | hmem
        · rw [heq] at ht2
          exact hi (of_decide_eq_true ht2)
        · exact handle_unique before after c c2 u hn hu hmem hu2
      rcases hsim with h1 | h1
      · rw [h1]; exact hrun
      · rw [h1, Simulator.IsRunning_Schedule_of_ne _ _ _ _ (by
          rw [hu]
          show some u ≠ some r.2.uid
          intro hc
          injection hc with hc
          omega)]
        exact hrun
  · rw [hroutes, ← hr]
    exact Ripv2.InvalidateRoute.each_length _ _ _ _

theorem interface_down_witness :
    ((runIn id {} runTimers).getD {}).Timers ∧
      routesOf ((runIn id {} runTimers).getD {}) =
        [(0xC0A80100, 0x0A000001, 2, .RIPV2_VALID, true),
         (0x0A000000, 0, 1, .RIPV2_VALID, false), (0, 0x0A000001, 1, .RIPV2_VALID, false)] ∧
      routesOf (((runIn id {} runTimers).getD {}).NotifyInterfaceDown 1 (Seconds 1)) =
        [(0xC0A80100, 0x0A000001, 16, .RIPV2_INVALID, true),
         (0x0A000000, 0, 16, .RIPV2_INVALID, true), (0, 0x0A000001, 16, .RIPV2_INVALID, true)] ∧
      (((runIn id {} runTimers).getD {}).NotifyInterfaceDown 1 (Seconds 1)).triggeredUpdateCalls =
        ((runIn id {} runTimers).getD {}).triggeredUpdateCalls +
          (if 1 ∈ ((runIn id {} runTimers).getD {}).m_interfaceExclusions then 0 else 1) :=
  ⟨runIn_timers id runTimers {} _ (TimersOk.initial _ _ _ rfl rfl) rfl, by decide, by decide,
    (interface_down ((runIn id {} runTimers).getD {}) 1 (Seconds 1)
      (runIn_timers id runTimers {} _ (TimersOk.initial _ _ _ rfl rfl) rfl)).2.2.2.1⟩

theorem Simulator.mem_Cancel_ts (sim : Simulator) (h : EventId) (e' : Event)
    (he : e' ∈ (sim.Cancel h).events) :
    ∃ e ∈ sim.events, e'.ts = e.ts ∧ e'.uid = e.uid ∧ (e'.cancelled = false → e' = e) := by
  unfold Simulator.Cancel at he
  cases hu : h.m_uid with
  | none => rw [hu] at he; exact ⟨e', he, rfl, rfl, fun _ => rfl⟩
  | some u =>
    rw [hu] at he
    simp only [List.mem_map] at he
    obtain ⟨e, hmem, heq⟩ := he
    refine ⟨e, hmem, ?_⟩
    split_ifs at heq
    · rw [← heq]
      refine ⟨rfl, rfl, ?_⟩
      intro hc
      cases hc
    · rw [← heq]
      exact ⟨rfl, rfl, fun _ => rfl⟩

theorem Simulator.next_le_aux (l : List Event) :
    ∀ (init : Option Event) (e : Event),
      l.foldl
        (fun best e =>
          match best with
          | none => some e
          | some b => if e.ts < b.ts ∨ (e.ts = b.ts ∧ e.uid < b.uid) then some e else some b)
        init = some e → (∀ x ∈ l, e.ts ≤ x.ts) ∧ ∀ b, init = some b → e.ts ≤ b.ts := by
  induction l with
  | nil =>
    intro init e h
    simp only [List.foldl_nil] at h
    refine ⟨?_, ?_⟩
    · intro x hx
      cases hx
    · intro b hb
      rw [h] at hb
      cases hb
      exact Nat.le_refl _
  | cons x rest ih =>
    intro init e h
    simp only [List.foldl_cons] at h
    obtain ⟨h1, h2⟩ := ih _ e h
    cases init with
    | none =>
      simp only [] at h2
      have hx := h2 x rfl
      refine ⟨?_, ?_⟩
      swap
      · intro b hb
        cases hb
      intro y hy
      rcases List.mem_cons.mp hy with hy | hy
      · rw [hy]; exact hx
      · exact h1 y hy
    | some b0 =>
      simp only [] at h2
      by_cases hc : x.ts < b0.ts ∨ (x.ts = b0.ts ∧ x.uid < b0.uid)
      · simp only [hc, if_true] at h2
        have hx := h2 x rfl
        refine ⟨?_, ?_⟩
        · intro y hy
          rcases List.mem_cons.mp hy with hy | hy
          · rw [hy]; exact hx
          · exact h1 y hy
        · intro b hb
          cases hb
          rcases hc with hc | hc
          · omega
          · omega
      · simp only [hc, if_false] at h2
        have hb := h2 b0 rfl
        refine ⟨?_, ?_⟩
        · intro y hy
          rcases List.mem_cons.mp hy with hy | hy
          · rw [hy]
            have : b0.ts ≤ x.ts := by
              by_contra hlt
              exact hc (Or.inl (by omega))
            omega
          · exact h1 y hy
        · intro b hb'
          cases hb'
          exact hb

theorem Simulator.next_le (sim : Simulator) (e : Event) (h : sim.next = some e) :
    ∀ x ∈ sim.events, e.ts ≤ x.ts :=
  (Simulator.next_le_aux sim.events none e h).1

theorem UpdatesOk.cancel (sim : Simulator) (ut : EventId) (init : Bool) (maxT : Nat)
    (id : EventId) (h : UpdatesOk sim ut init maxT) : UpdatesOk (sim.Cancel id) ut init maxT := by
  have hnow := Simulator.Cancel_now sim id
  have hold : ∀ e' ∈ (sim.Cancel id).events, ∀ impl, e'.Live impl → e' ∈ sim.events := by
    intro e' he' impl hl
    obtain ⟨e, he, _, _, h3⟩ := Simulator.mem_Cancel_ts sim id e' he'
    rw [h3 hl.1]
    exact he
  constructor
  · intro e' he'
    obtain ⟨e, he, h1, _, _⟩ := Simulator.mem_Cancel_ts sim id e' he'
    rw [hnow, h1]
    exact h.future e he
  · intro e' he' hl
    rw [hnow]
    exact h.soon e' (hold e' he' _ hl) hl
  · intro e' he' hl hne p hp hpl
    exact h.orphan e' (hold e' he' _ hl) hl hne p (hold p hp _ hpl) hpl
  · intro p hp q hq hpl hql
    exact h.one p (hold p hp _ hpl) q (hold q hq _ hql) hpl hql
  · intro hi p hp hpl
    exact h.started hi p (hold p hp _ hpl) hpl

theorem UpdatesOk.schedule_unrelated (sim : Simulator) (ut : EventId) (init : Bool) (maxT d : Nat)
    (impl : EventImpl) (h1 : impl ≠ .DoSendRouteUpdate false)
    (h2 : impl ≠ .SendUnsolicitedRouteUpdate) (h : UpdatesOk sim ut init maxT) :
    UpdatesOk (sim.Schedule d impl).2 ut init maxT := by
  have hmem : ∀ e ∈ (sim.Schedule d impl).2.events,
      e ∈ sim.events ∨ e = { uid := sim.uid, ts := sim.now + d, impl := impl } := by
    intro e he
    simp only [Simulator.Schedule, List.mem_append, List.mem_singleton] at he
    exact he
  have hold : ∀ e ∈ (sim.Schedule d impl).2.events, ∀ i, e.Live i →
      (i = .DoSendRouteUpdate false ∨ i = .SendUnsolicitedRouteUpdate) → e ∈ sim.events := by
    intro e he i hl hi
    rcases hmem e he with h0 | h0
    · exact h0
    · rw [h0] at hl
      have := hl.2
      simp only at this
      rcases hi with hi | hi
      · exact absurd (this.trans hi) h1
      · exact absurd (this.trans hi) h2
  constructor
  · intro e he
    show sim.now ≤ e.ts
    rcases hmem e he with h0 | h0
    · exact h.future e h0
    · rw [h0]; exact Nat.le_add_right _ _
  · intro e he hl
    exact h.soon e (hold e he _ hl (Or.inl rfl)) hl
  · intro e he hl hne p hp hpl
    exact h.orphan e (hold e he _ hl (Or.inl rfl)) hl hne p (hold p hp _ hpl (Or.inr rfl)) hpl
  · intro p hp q hq hpl hql
    exact h.one p (hold p hp _ hpl (Or.inr rfl)) q (hold q hq _ hql (Or.inr rfl)) hpl hql
  · intro hi p hp hpl
    exact h.started hi p (hold p hp _ hpl (Or.inr rfl)) hpl

/-- A triggered update scheduled through a handle that is not running. -/
theorem UpdatesOk.schedule_triggered (sim : Simulator) (ut : EventId) (init : Bool)
    (maxT d : Nat) (hd : d ≤ maxT) (hrun : sim.IsRunning ut = false)
    (h : UpdatesOk sim ut init maxT) :
    UpdatesOk (sim.Schedule d (.DoSendRouteUpdate false)).2
      (sim.Schedule d (.DoSendRouteUpdate false)).1 init maxT := by
  have hmem : ∀ e ∈ (sim.Schedule d (.DoSendRouteUpdate false)).2.events,
      e ∈ sim.events ∨ e = { uid := sim.uid, ts := sim.now + d, impl := .DoSendRouteUpdate false } := by
    intro e he
    simp only [Simulator.Schedule, List.mem_append, List.mem_singleton] at he
    exact he
  have hper : ∀ p ∈ (sim.Schedule d (.DoSendRouteUpdate false)).2.events,
      p.Live .SendUnsolicitedRouteUpdate → p ∈ sim.events := by
    intro p hp hpl
    rcases hmem p hp with h0 | h0
    · exact h0
    · rw [h0] at hpl
      have := hpl.2
      cases this
  have hfree : ∀ e ∈ sim.events, e.Live (.DoSendRouteUpdate false) → ut.m_uid ≠ some e.uid := by
    intro e he hl hc
    have := Simulator.IsRunning_of_live sim ut e he hc hl.1
    rw [hrun] at this
    cases this
  constructor
  · intro e he
    show sim.now ≤ e.ts
    rcases hmem e he with h0 | h0
    · exact h.future e h0
    · rw [h0]; exact Nat.le_add_right _ _
  · intro e he hl
    show e.ts ≤ sim.now + maxT
    rcases hmem e he with h0 | h0
    · exact h.soon e h0 hl
    · rw [h0]
      show sim.now + d ≤ sim.now + maxT
      omega
  · intro e he hl hne p hp hpl
    rcases hmem e he with h0 | h0
    · exact h.orphan e h0 hl (hfree e h0 hl) p (hper p hp hpl) hpl
    · exfalso
      apply hne
      rw [h0]
      rfl
  · intro p hp q hq hpl hql
    exact h.one p (hper p hp hpl) q (hper q hq hql) hpl hql
  · intro hi p hp hpl
    exact h.started hi p (hper p hp hpl) hpl

/-- When every periodic update that waits is due later than `maxT` from now,
the handle of the triggered update may be set to anything. -/
theorem UpdatesOk.retarget (sim : Simulator) (ut ut' : EventId) (init : Bool) (maxT : Nat)
    (hlate : ∀ p ∈ sim.events, p.Live .SendUnsolicitedRouteUpdate → sim.now + maxT < p.ts)
    (h : UpdatesOk sim ut init maxT) : UpdatesOk sim ut' init maxT := by
  constructor
  · exact h.future
  · exact h.soon
  · intro e he hl _ p hp hpl
    have h1 := h.soon e he hl
    have h2 := hlate p hp hpl
    omega
  · exact h.one
  · exact h.started

/-- A triggered update scheduled when every periodic update that waits is due
later than `maxT` from now. -/
theorem UpdatesOk.schedule_early (sim : Simulator) (ut ut' : EventId) (init : Bool)
    (maxT d : Nat) (hd : d ≤ maxT)
    (hlate : ∀ p ∈ sim.events, p.Live .SendUnsolicitedRouteUpdate → sim.now + maxT < p.ts)
    (h : UpdatesOk sim ut init maxT) :
    UpdatesOk (sim.Schedule d (.DoSendRouteUpdate false)).2 ut' init maxT ∧
      ∀ p ∈ (sim.Schedule d (.DoSendRouteUpdate false)).2.events,
        p.Live .SendUnsolicitedRouteUpdate →
          (sim.Schedule d (.DoSendRouteUpdate false)).2.now + maxT < p.ts := by
  have hmem : ∀ e ∈ (sim.Schedule d (.DoSendRouteUpdate false)).2.events,
      e ∈ sim.events ∨ e = { uid := sim.uid, ts := sim.now + d, impl := .DoSendRouteUpdate false } := by
    intro e he
    simp only [Simulator.Schedule, List.mem_append, List.mem_singleton] at he
    exact he
  have hper : ∀ p ∈ (sim.Schedule d (.DoSendRouteUpdate false)).2.events,
      p.Live .SendUnsolicitedRouteUpdate → p ∈ sim.events := by
    intro p hp hpl
    rcases hmem p hp with h0 | h0
    · exact h0
    · rw [h0] at hpl
      have := hpl.2
      cases this
  have hsoon : ∀ e ∈ (sim.Schedule d (.DoSendRouteUpdate false)).2.events,
      e.Live (.DoSendRouteUpdate false) → e.ts ≤ sim.now + maxT := by
    intro e he hl
    rcases hmem e he with h0 | h0
    · exact h.soon e h0 hl
    · rw [h0]
      show sim.now + d ≤ sim.now + maxT
      omega
  refine ⟨?_, fun p hp hpl => hlate p (hper p hp hpl) hpl⟩
  constructor
  · intro e he
    show sim.now ≤ e.ts
    rcases hmem e he with h0 | h0
    · exact h.future e h0
    · rw [h0]; exact Nat.le_add_right _ _
  · exact hsoon
  · intro e he hl _ p hp hpl
    have h1 := hsoon e he hl
    have h2 := hlate p (hper p hp hpl) hpl
    omega
  · intro p hp q hq hpl hql
    exact h.one p (hper p hp hpl) q (hper q hq hql) hpl hql
  · intro hi p hp hpl
    exact h.started hi p (hper p hp hpl) hpl

/-- The next periodic update, scheduled when no periodic update is
pending. -/
theorem UpdatesOk.schedule_periodic (sim : Simulator) (ut : EventId) (init : Bool)
    (maxT d : Nat) (hd : maxT < d)
    (hnone : ∀ p ∈ sim.events, ¬ p.Live .SendUnsolicitedRouteUpdate)
    (h : UpdatesOk sim ut init maxT) :
    UpdatesOk (sim.Schedule d .SendUnsolicitedRouteUpdate).2 ut true maxT ∧
      ∀ p ∈ (sim.Schedule d .SendUnsolicitedRouteUpdate).2.events,
        p.Live .SendUnsolicitedRouteUpdate →
          (sim.Schedule d .SendUnsolicitedRouteUpdate).2.now + maxT < p.ts := by
  have hmem : ∀ e ∈ (sim.Schedule d .SendUnsolicitedRouteUpdate).2.events,
      e ∈ sim.events ∨ e = { uid := sim.uid, ts := sim.now + d, impl := .SendUnsolicitedRouteUpdate } := by
    intro e he
    simp only [Simulator.Schedule, List.mem_append, List.mem_singleton] at he
    exact he
  have hper : ∀ p ∈ (sim.Schedule d .SendUnsolicitedRouteUpdate).2.events,
      p.Live .SendUnsolicitedRouteUpdate →
        p = { uid := sim.uid, ts := sim.now + d, impl := .SendUnsolicitedRouteUpdate } := by
    intro p hp hpl
    rcases hmem p hp with h0 | h0
    · exact absurd hpl (hnone p h0)
    · exact h0
  have htrig : ∀ e ∈ (sim.Schedule d .SendUnsolicitedRouteUpdate).2.events,
      e.Live (.DoSendRouteUpdate false) → e ∈ sim.events := by
    intro e he hl
    rcases hmem e he with h0 | h0
    · exact h0
    · rw [h0] at hl
      have := hl.2
      cases this
  have hlate : ∀ p ∈ (sim.Schedule d .SendUnsolicitedRouteUpdate).2.events,
      p.Live .SendUnsolicitedRouteUpdate → sim.now + maxT < p.ts := by
    intro p hp hpl
    rw [hper p hp hpl]
    show sim.now + maxT < sim.now + d
    omega
  refine ⟨?_, hlate⟩
  constructor
  · intro e he
    show sim.now ≤ e.ts
    rcases hmem e he with h0 | h0
    · exact h.future e h0
    · rw [h0]; exact Nat.le_add_right _ _
  · intro e he hl
    exact h.soon e (htrig e he hl) hl
  · intro e he hl _ p hp hpl
    have h1 := h.soon e (htrig e he hl) hl
    have h2 := hlate p hp hpl
    omega
  · intro p hp q hq hpl hql
    rw [hper p hp hpl, hper q hq hql]
  · intro hi
    cases hi
namespace Ripv2

theorem Updates_AddNetworkRouteTo3 (maxT Tu : Nat) (s : Ripv2) (net mask i : Nat)
    (h : s.Updates maxT Tu) : (s.AddNetworkRouteTo3 net mask i).Updates maxT Tu := by
  unfold Updates AddNetworkRouteTo3
  exact h

theorem Updates_AddNetworkRouteTo4 (maxT Tu : Nat) (s : Ripv2) (net mask gw i : Nat)
    (h : s.Updates maxT Tu) : (s.AddNetworkRouteTo4 net mask gw i).Updates maxT Tu := by
  unfold Updates AddNetworkRouteTo4
  exact h

theorem Updates_SendTriggeredRouteUpdate (maxT Tu : Nat) (s : Ripv2) (delay : Nat)
    (hd : delay ≤ maxT) (h : s.Updates maxT Tu) :
    (s.SendTriggeredRouteUpdate delay).Updates maxT Tu := by
  unfold Updates SendTriggeredRouteUpdate
  simp only []
  split_ifs with hrun
  · exact h
  · exact ⟨UpdatesOk.schedule_triggered s.sim s.m_nextTriggeredUpdate s.m_initialized maxT delay
      hd (by simpa using hrun) h.1, h.2.1, h.2.2⟩

theorem InvalidateRoute.onCell_updates (gd : Nat) (sim : Simulator) (cell : RouteCell)
    (ut : EventId) (init : Bool) (maxT : Nat) (h : UpdatesOk sim ut init maxT) :
    UpdatesOk (InvalidateRoute.onCell gd sim cell).2 ut init maxT := by
  rw [InvalidateRoute.onCell_eq]
  exact UpdatesOk.schedule_unrelated _ ut init maxT gd _ (by intro hc; cases hc)
    (by intro hc; cases hc) (UpdatesOk.cancel sim ut init maxT cell.2 h)

theorem InvalidateRoute.each_updates (test : Ripv2RoutingTableEntry → Bool) (gd : Nat)
    (ut : EventId) (init : Bool) (maxT : Nat) (rest : List RouteCell) :
    ∀ (sim : Simulator), UpdatesOk sim ut init maxT →
      UpdatesOk (InvalidateRoute.each test gd rest sim).2 ut init maxT := by
  induction rest with
  | nil => intro sim h; exact h
  | cons x rest ih =>
    intro sim h
    unfold InvalidateRoute.each
    split_ifs
    · exact ih _ (InvalidateRoute.onCell_updates gd sim x ut init maxT h)
    · exact ih sim h

theorem InvalidateRoute.loop_updates (gd route : Nat) (ut : EventId) (init : Bool) (maxT : Nat)
    (l : List RouteCell) :
    ∀ (sim : Simulator) (r : List RouteCell × Simulator), UpdatesOk sim ut init maxT →
      InvalidateRoute.loop gd route l sim = some r → UpdatesOk r.2 ut init maxT := by
  induction l with
  | nil => intro sim r _ hr; cases hr
  | cons x rest ih =>
    intro sim r h hr
    unfold InvalidateRoute.loop at hr
    split_ifs at hr
    · cases hr
      exact InvalidateRoute.onCell_updates gd sim x ut init maxT h
    · split at hr
      · cases hr
      · rename_i r0 hr0
        cases hr
        exact ih sim r0 h hr0

theorem Updates_InvalidateRoute (maxT Tu : Nat) (s s' : Ripv2) (route : Nat)
    (h : s.Updates maxT Tu) (hs : s.InvalidateRoute route = .ok s') : s'.Updates maxT Tu := by
  unfold Ripv2.InvalidateRoute at hs
  split at hs
  · cases hs
  · rename_i r hr
    cases hs
    exact ⟨InvalidateRoute.loop_updates _ _ _ _ _ _ _ _ h.1 hr, h.2.1, h.2.2⟩

theorem Updates_DeleteRoute (maxT Tu : Nat) (s s' : Ripv2) (route : Nat)
    (h : s.Updates maxT Tu) (hs : s.DeleteRoute route = .ok s') : s'.Updates maxT Tu := by
  unfold Ripv2.DeleteRoute at hs
  split at hs
  · cases hs
  · cases hs
    exact h

theorem HandleResponses.onRoute_updates (td gd sa ii ra rm rme tag : Nat) (cell : RouteCell)
    (v : HandleResponses.Vars) (ut : EventId) (init : Bool) (maxT : Nat)
    (h : UpdatesOk v.sim ut init maxT) :
    UpdatesOk (HandleResponses.onRoute td gd sa ii ra rm rme tag cell v).2.sim ut init maxT := by
  unfold HandleResponses.onRoute
  simp only [Simulator.Cancel_Cancel, InvalidateRoute.onCell_eq]
  split_ifs <;>
    first
      | exact h
      | exact UpdatesOk.schedule_unrelated _ ut init maxT _ _ (by intro hc; cases hc)
          (by intro hc; cases hc) (UpdatesOk.cancel v.sim ut init maxT cell.2 h)

theorem HandleResponses.routesLoop_updates (td gd sa ii ra rm rme tag : Nat) (ut : EventId)
    (init : Bool) (maxT : Nat) (l : List RouteCell) :
    ∀ (v : HandleResponses.Vars), UpdatesOk v.sim ut init maxT →
      UpdatesOk (HandleResponses.routesLoop td gd sa ii ra rm rme tag l v).2.sim ut init maxT := by
  induction l with
  | nil => intro v h; exact h
  | cons x rest ih =>
    intro v h
    simp only [HandleResponses.routesLoop]
    exact ih _ (HandleResponses.onRoute_updates td gd sa ii ra rm rme tag x v ut init maxT h)

theorem HandleResponses.onRte_updates (maxT Tu : Nat) (sa ii : Nat) (st : Ripv2 × Bool)
    (rte : Ripv2Rte) (h : st.1.Updates maxT Tu) :
    (HandleResponses.onRte sa ii st rte).1.Updates maxT Tu := by
  have hloop := HandleResponses.routesLoop_updates st.1.m_timeoutDelay
    st.1.m_garbageCollectionDelay sa ii (CombineMask rte.m_IpAddress rte.m_SubnetMask)
    rte.m_SubnetMask (HandleResponses.rteMetric st.1 ii rte) rte.m_tag
    st.1.m_nextTriggeredUpdate st.1.m_initialized maxT st.1.m_routes
    { sim := st.1.sim, heap := st.1.heap, found := false, changed := st.2 } h.1
  unfold Updates HandleResponses.onRte
  simp only []
  split_ifs
  · exact ⟨UpdatesOk.schedule_unrelated _ _ _ maxT _ _ (by intro hc; cases hc)
      (by intro hc; cases hc) hloop, h.2.1, h.2.2⟩
  · exact ⟨hloop, h.2.1, h.2.2⟩

theorem HandleResponses.foldl_updates (maxT Tu : Nat) (sa ii : Nat) (rtes : List Ripv2Rte) :
    ∀ (st : Ripv2 × Bool), st.1.Updates maxT Tu →
      (rtes.foldl (HandleResponses.onRte sa ii) st).1.Updates maxT Tu := by
  induction rtes with
  | nil => intro st h; exact h
  | cons r rest ih => intro st h; exact ih _ (HandleResponses.onRte_updates maxT Tu sa ii st r h)

theorem Updates_HandleResponses (maxT Tu : Nat) (s : Ripv2) (hdr : Ripv2Header)
    (sa ii ttl delay : Nat) (hd : delay ≤ maxT) (h : s.Updates maxT Tu) :
    (s.HandleResponses hdr sa ii ttl delay).Updates maxT Tu := by
  unfold Ripv2.HandleResponses
  simp only []
  have hf := HandleResponses.foldl_updates maxT Tu sa ii hdr.m_rteList (s, false) h
  split_ifs
  · exact h
  · exact h
  · exact h
  · exact Updates_SendTriggeredRouteUpdate maxT Tu _ _ hd hf
  · exact hf

theorem Updates_HandleRequests (maxT Tu : Nat) (s s' : Ripv2) (ipv4 : Ipv4) (hdr : Ripv2Header)
    (sa sp ii ttl : Nat) (hU : s.Updates maxT Tu)
    (h : s.HandleRequests ipv4 hdr sa sp ii ttl = .ok s') : s'.Updates maxT Tu := by
  unfold Ripv2.HandleRequests at h
  simp only [] at h
  repeat' split at h
  all_goals first | (injection h with h; rw [← h]; exact hU) | (injection h)

theorem Updates_Receive (maxT Tu : Nat) (s s' : Ripv2) (ipv4 : Ipv4) (gd : Nat → Nat)
    (packet : Packet) (delay : Nat) (hd : delay ≤ maxT) (h : s.Updates maxT Tu)
    (hr : s.Receive ipv4 gd packet delay = .ok s') : s'.Updates maxT Tu := by
  unfold Ripv2.Receive at hr
  split at hr
  · cases hr
  · split at hr
    · cases hr
    · split at hr
      · cases hr
      · simp only [] at hr
        split_ifs at hr
        · cases hr; exact h
        · split at hr
          · cases hr
          · split_ifs at hr
            · cases hr; exact Updates_HandleResponses maxT Tu _ _ _ _ _ _ hd h
            · exact Updates_HandleRequests maxT Tu _ _ _ _ _ _ _ _ h hr
            · cases hr; exact h

theorem Updates_DoSendRouteUpdate (maxT Tu : Nat) (s : Ripv2) (ipv4 : Ipv4) (periodic : Bool)
    (h : s.Updates maxT Tu) : (s.DoSendRouteUpdate ipv4 periodic).Updates maxT Tu := by
  unfold Updates DoSendRouteUpdate
  exact h

theorem Updates_SendRouteRequest (maxT Tu : Nat) (s : Ripv2) (h : s.Updates maxT Tu) :
    s.SendRouteRequest.Updates maxT Tu := by
  unfold Updates SendRouteRequest
  exact h

theorem NotifyInterfaceUp.firstLoop_updates (maxT Tu : Nat) (i : Nat)
    (l : List Ipv4InterfaceAddress) :
    ∀ (s : Ripv2), s.Updates maxT Tu → (NotifyInterfaceUp.firstLoop i l s).Updates maxT Tu := by
  induction l with
  | nil => intro s h; exact h
  | cons a rest ih =>
    intro s h
    unfold NotifyInterfaceUp.firstLoop
    simp only []
    apply ih
    split_ifs
    · exact Updates_AddNetworkRouteTo3 _ _ _ _ _ _ h
    · exact Updates_AddNetworkRouteTo3 _ _ _ _ _ _ h
    · exact h

theorem NotifyInterfaceUp.secondLoop_updates (maxT Tu : Nat) (i : Nat) (f a : Bool)
    (delay : Nat) (hd : delay ≤ maxT) (l : List Ipv4InterfaceAddress) :
    ∀ (s : Ripv2), s.Updates maxT Tu →
      (NotifyInterfaceUp.secondLoop i f a delay l s).Updates maxT Tu := by
  induction l with
  | nil => intro s h; exact h
  | cons x rest ih =>
    intro s h
    unfold NotifyInterfaceUp.secondLoop
    simp only []
    apply ih
    have h1 := Updates_AddNetworkRouteTo3 maxT Tu s (CombineMask x.m_local x.m_mask) x.m_mask i h
    split_ifs
    · exact h1
    · exact Updates_SendTriggeredRouteUpdate maxT Tu _ _ hd h1
    · exact h1

theorem Updates_NotifyInterfaceUp (maxT Tu : Nat) (s : Ripv2) (ipv4 : Ipv4) (i delay : Nat)
    (hd : delay ≤ maxT) (h : s.Updates maxT Tu) :
    (s.NotifyInterfaceUp ipv4 i delay).Updates maxT Tu := by
  unfold NotifyInterfaceUp
  simp only []
  have h1 := NotifyInterfaceUp.firstLoop_updates maxT Tu i (ipv4.GetAddresses i) s h
  split_ifs
  · exact h1
  · have h2 := NotifyInterfaceUp.secondLoop_updates maxT Tu i
      ((NotifyInterfaceUp.firstLoop i (ipv4.GetAddresses i) s).m_sendSocketList.any
        (fun sock => decide (sock.2 = i)))
      (decide (i ∉ (NotifyInterfaceUp.firstLoop i (ipv4.GetAddresses i) s).m_interfaceExclusions))
      delay hd (ipv4.GetAddresses i) _ h1
    split
    · exact h2
    · exact h2

theorem Updates_NotifyInterfaceDown (maxT Tu : Nat) (s : Ripv2) (interface delay : Nat)
    (hd : delay ≤ maxT) (h : s.Updates maxT Tu) :
    (s.NotifyInterfaceDown interface delay).Updates maxT Tu := by
  unfold NotifyInterfaceDown
  simp only []
  have h1 := InvalidateRoute.each_updates (fun e => decide (e.m_interface = interface))
    s.m_garbageCollectionDelay s.m_nextTriggeredUpdate s.m_initialized maxT s.m_routes s.sim h.1
  split_ifs
  · exact ⟨h1, h.2.1, h.2.2⟩
  · apply Updates_SendTriggeredRouteUpdate maxT Tu _ _ hd
    exact ⟨h1, h.2.1, h.2.2⟩

theorem Updates_NotifyAddAddress (maxT Tu : Nat) (s : Ripv2) (ipv4 : Ipv4) (interface : Nat)
    (address : Ipv4InterfaceAddress) (delay : Nat) (hd : delay ≤ maxT) (h : s.Updates maxT Tu) :
    (s.NotifyAddAddress ipv4 interface address delay).Updates maxT Tu := by
  unfold NotifyAddAddress
  simp only []
  split_ifs
  · exact h
  · exact h
  · exact Updates_SendTriggeredRouteUpdate maxT Tu _ _ hd
      (Updates_AddNetworkRouteTo3 _ _ _ _ _ _ h)
  · exact Updates_SendTriggeredRouteUpdate maxT Tu _ _ hd h

theorem Updates_NotifyRemoveAddress (maxT Tu : Nat) (s : Ripv2) (ipv4 : Ipv4) (interface : Nat)
    (address : Ipv4InterfaceAddress) (delay : Nat) (hd : delay ≤ maxT) (h : s.Updates maxT Tu) :
    (s.NotifyRemoveAddress ipv4 interface address delay).Updates maxT Tu := by
  unfold NotifyRemoveAddress
  simp only []
  have h1 := InvalidateRoute.each_updates
    (fun e => decide (e.m_interface = interface) && e.IsNetwork &&
      decide (e.m_dest = CombineMask address.m_local address.m_mask) &&
      decide (e.m_destNetworkMask = address.m_mask))
    s.m_garbageCollectionDelay s.m_nextTriggeredUpdate s.m_initialized maxT s.m_routes s.sim h.1
  split_ifs
  · exact h
  · exact ⟨h1, h.2.1, h.2.2⟩
  · apply Updates_SendTriggeredRouteUpdate maxT Tu _ _ hd
    exact ⟨h1, h.2.1, h.2.2⟩

theorem SetIpv4.interfaces_updates (maxT Tu : Nat) (ipv4 : Ipv4) (delay : Nat) (hd : delay ≤ maxT)
    (n : Nat) :
    ∀ (i : Nat) (s : Ripv2), s.Updates maxT Tu →
      (SetIpv4.loop ipv4 delay n i s).Updates maxT Tu := by
  induction n with
  | zero => intro i s h; exact h
  | succ n ih =>
    intro i s h
    unfold SetIpv4.loop
    simp only []
    apply ih
    split_ifs
    · exact Updates_NotifyInterfaceUp maxT Tu _ _ _ _ hd h
    · exact Updates_NotifyInterfaceDown maxT Tu _ _ _ hd h

theorem Updates_SetIpv4 (maxT Tu : Nat) (s s' : Ripv2) (ipv4 : Ipv4) (delay : Nat)
    (hd : delay ≤ maxT) (h : s.Updates maxT Tu) (hs : s.SetIpv4 ipv4 delay = .ok s') :
    s'.Updates maxT Tu := by
  unfold SetIpv4 at hs
  split_ifs at hs
  simp only [Except.ok.injEq] at hs
  rw [← hs]
  exact SetIpv4.interfaces_updates maxT Tu ipv4 delay hd _ _ _ h

end Ripv2
theorem UpdatesOk.remove_next (sim : Simulator) (ut : EventId) (init : Bool) (maxT : Nat)
    (e : Event) (hnext : sim.next = some e) (h : UpdatesOk sim ut init maxT) :
    UpdatesOk { sim with now := e.ts, events := sim.events.filter (fun x => decide (x.uid ≠ e.uid)) }
      ut init maxT := by
  have hmin := Simulator.next_le sim e hnext
  have he := Simulator.next_mem sim e hnext
  have hnow := h.future e he
  constructor
  · intro x hx
    exact hmin x (List.mem_of_mem_filter hx)
  · intro x hx hl
    have := h.soon x (List.mem_of_mem_filter hx) hl
    show x.ts ≤ e.ts + maxT
    omega
  · intro x hx hl hu p hp hpl
    exact h.orphan x (List.mem_of_mem_filter hx) hl hu p (List.mem_of_mem_filter hp) hpl
  · intro p hp q hq hpl hql
    exact h.one p (List.mem_of_mem_filter hp) q (List.mem_of_mem_filter hq) hpl hql
  · intro hi p hp
    exact h.started hi p (List.mem_of_mem_filter hp)

theorem UpdatesOk.advance (sim : Simulator) (ut : EventId) (init : Bool) (maxT ticks : Nat)
    (hall : ∀ x ∈ sim.events, sim.now + ticks ≤ x.ts) (h : UpdatesOk sim ut init maxT) :
    UpdatesOk { sim with now := sim.now + ticks } ut init maxT := by
  constructor
  · intro x hx
    exact hall x hx
  · intro x hx hl
    have := h.soon x hx hl
    show x.ts ≤ sim.now + ticks + maxT
    omega
  · intro x hx hl hu p hp hpl
    exact h.orphan x hx hl hu p hp hpl
  · intro p hp q hq hpl hql
    exact h.one p hp q hq hpl hql
  · intro hi p hp
    exact h.started hi p hp

/-- When the next event is a periodic update that was not cancelled, the
agent is initialised, no other periodic update is pending, and every pending
triggered update is the one the handle refers to. -/
theorem UpdatesOk.at_periodic (sim : Simulator) (ut : EventId) (init : Bool) (maxT : Nat)
    (e : Event) (hnext : sim.next = some e) (hl : e.Live .SendUnsolicitedRouteUpdate)
    (h : UpdatesOk sim ut init maxT) :
    init = true ∧
      (∀ p ∈ sim.events.filter (fun x => decide (x.uid ≠ e.uid)),
        ¬ p.Live .SendUnsolicitedRouteUpdate) ∧
      ∀ x ∈ sim.events.filter (fun x => decide (x.uid ≠ e.uid)),
        x.Live (.DoSendRouteUpdate false) → ut.m_uid = some x.uid := by
  have hmin := Simulator.next_le sim e hnext
  have he := Simulator.next_mem sim e hnext
  refine ⟨?_, ?_, ?_⟩
  · cases hi : init with
    | true => rfl
    | false => exact absurd hl (h.started hi e he)
  · intro p hp hpl
    have hp0 := List.mem_of_mem_filter hp
    have hne := (List.mem_filter.mp hp).2
    have hpe := h.one p hp0 e he hpl hl
    rw [hpe] at hne
    simp at hne
  · intro x hx hxl
    by_contra hu
    have h1 := h.orphan x (List.mem_of_mem_filter hx) hxl hu e he hl
    have h2 := hmin x (List.mem_of_mem_filter hx)
    omega

theorem Simulator.Cancel_dead (sim : Simulator) (id : EventId) (x : Event)
    (hx : x ∈ (sim.Cancel id).events) (hu : id.m_uid = some x.uid) : x.cancelled = true := by
  cases hid : id.m_uid with
  | none => rw [hid] at hu; cases hu
  | some u =>
    have hux : u = x.uid := by
      rw [hid] at hu
      injection hu
    unfold Simulator.Cancel at hx
    rw [hid] at hx
    simp only [List.mem_map] at hx
    obtain ⟨y, _, hyx⟩ := hx
    by_cases hc : y.uid = u
    · rw [if_pos hc] at hyx
      rw [← hyx]
    · rw [if_neg hc] at hyx
      rw [← hyx] at hux
      exact absurd hux.symm hc

/-- What `Ripv2::SendUnsolicitedRouteUpdate` does first, cancelling the
triggered update if it is running, leaves no triggered update pending when
every pending one is the one the handle refers to. -/
theorem UpdatesOk.preempt (sim : Simulator) (ut : EventId) (init : Bool) (maxT : Nat)
    (hnone : ∀ p ∈ sim.events, ¬ p.Live .SendUnsolicitedRouteUpdate)
    (href : ∀ x ∈ sim.events, x.Live (.DoSendRouteUpdate false) → ut.m_uid = some x.uid)
    (h : UpdatesOk sim ut init maxT) :
    UpdatesOk (if sim.IsRunning ut = true then sim.Cancel ut else sim) ut init maxT ∧
      (∀ p ∈ (if sim.IsRunning ut = true then sim.Cancel ut else sim).events,
        ¬ p.Live .SendUnsolicitedRouteUpdate) ∧
      (∀ x ∈ (if sim.IsRunning ut = true then sim.Cancel ut else sim).events,
        ¬ x.Live (.DoSendRouteUpdate false)) ∧
      (if sim.IsRunning ut = true then sim.Cancel ut else sim).now = sim.now := by
  by_cases hrun : sim.IsRunning ut = true
  · simp only [hrun, if_true]
    refine ⟨UpdatesOk.cancel sim ut init maxT ut h, ?_, ?_, Simulator.Cancel_now sim ut⟩
    · intro p hp hpl
      obtain ⟨p0, hp0, _, _, hsame⟩ := Simulator.mem_Cancel_ts sim ut p hp
      have := hsame hpl.1
      rw [this] at hpl
      exact hnone p0 hp0 hpl
    · intro x hx hxl
      obtain ⟨x0, hx0, _, _, hsame⟩ := Simulator.mem_Cancel_ts sim ut x hx
      have hxx := hsame hxl.1
      have hu := href x0 hx0 (by rw [← hxx]; exact hxl)
      rw [← hxx] at hu
      have hdead := Simulator.Cancel_dead sim ut x hx hu
      rw [hxl.1] at hdead
      cases hdead
  · simp only [hrun, if_false]
    refine ⟨h, hnone, ?_, rfl⟩
    intro x hx hxl
    exact hrun (Simulator.IsRunning_of_live sim ut x hx (href x hx hxl) hxl.1)

namespace Ripv2

theorem DoInitialize.addressLoop_fields (P : Simulator → EventId → Bool → Nat → Nat → Prop)
    (i : Nat) (a : Bool) (l : List Ipv4InterfaceAddress) :
    ∀ (st : Ripv2 × Bool),
      P st.1.sim st.1.m_nextTriggeredUpdate st.1.m_initialized st.1.m_maxTriggeredUpdateDelay
        st.1.m_unsolicitedUpdate →
      P (DoInitialize.addressLoop i a l st).1.sim
        (DoInitialize.addressLoop i a l st).1.m_nextTriggeredUpdate
        (DoInitialize.addressLoop i a l st).1.m_initialized
        (DoInitialize.addressLoop i a l st).1.m_maxTriggeredUpdateDelay
        (DoInitialize.addressLoop i a l st).1.m_unsolicitedUpdate := by
  induction l with
  | nil => intro st h; exact h
  | cons x rest ih =>
    intro st h
    unfold DoInitialize.addressLoop
    simp only []
    apply ih
    split_ifs <;> exact h

theorem DoInitialize.interfaceLoop_fields (P : Simulator → EventId → Bool → Nat → Nat → Prop)
    (ipv4 : Ipv4) (n : Nat) :
    ∀ (i : Nat) (st : Ripv2 × Bool),
      P st.1.sim st.1.m_nextTriggeredUpdate st.1.m_initialized st.1.m_maxTriggeredUpdateDelay
        st.1.m_unsolicitedUpdate →
      P (DoInitialize.interfaceLoop ipv4 n i st).1.sim
        (DoInitialize.interfaceLoop ipv4 n i st).1.m_nextTriggeredUpdate
        (DoInitialize.interfaceLoop ipv4 n i st).1.m_initialized
        (DoInitialize.interfaceLoop ipv4 n i st).1.m_maxTriggeredUpdateDelay
        (DoInitialize.interfaceLoop ipv4 n i st).1.m_unsolicitedUpdate := by
  induction n with
  | zero => intro i st h; exact h
  | succ n ih =>
    intro i st h
    unfold DoInitialize.interfaceLoop
    simp only []
    apply ih
    exact DoInitialize.addressLoop_fields P _ _ _ _ h

theorem Updates_DoInitialize (maxT Tu : Nat) (s : Ripv2) (ipv4 : Ipv4) (d1 d2 d3 : Nat)
    (hi : s.m_initialized = false) (h1 : maxT < d1) (h2 : d2 ≤ maxT) (h : s.Updates maxT Tu) :
    (s.DoInitialize ipv4 d1 d2 d3).Updates maxT Tu := by
  have hU := h.1
  rw [hi] at hU
  have h0 := UpdatesOk.schedule_periodic s.sim s.m_nextTriggeredUpdate false maxT d1 h1
    (hU.started rfl) hU
  have hl := DoInitialize.interfaceLoop_fields
    (fun sim ut init a b =>
      (UpdatesOk sim ut init maxT ∧
        ∀ p ∈ sim.events, p.Live .SendUnsolicitedRouteUpdate → sim.now + maxT < p.ts) ∧
      a = maxT ∧ b = Tu)
    ipv4 ipv4.GetNInterfaces 0
    ({ s with m_initialized := true,
              m_nextUnsolicitedUpdate := (s.sim.Schedule d1 .SendUnsolicitedRouteUpdate).1,
              sim := (s.sim.Schedule d1 .SendUnsolicitedRouteUpdate).2 }, false)
    ⟨h0, h.2.1, h.2.2⟩
  unfold DoInitialize
  simp only []
  generalize DoInitialize.interfaceLoop ipv4 ipv4.GetNInterfaces 0
    ({ s with m_initialized := true,
              m_nextUnsolicitedUpdate := (s.sim.Schedule d1 .SendUnsolicitedRouteUpdate).1,
              sim := (s.sim.Schedule d1 .SendUnsolicitedRouteUpdate).2 }, false) = st at hl ⊢
  rcases st with ⟨t, b⟩
  simp only [] at hl ⊢
  have hl2 : (UpdatesOk (match t.m_recvSocket with
      | none => { t with m_recvSocket := some t.heap, heap := t.heap + 1 }
      | some _ => t).sim (match t.m_recvSocket with
      | none => { t with m_recvSocket := some t.heap, heap := t.heap + 1 }
      | some _ => t).m_nextTriggeredUpdate (match t.m_recvSocket with
      | none => { t with m_recvSocket := some t.heap, heap := t.heap + 1 }
      | some _ => t).m_initialized maxT ∧
        ∀ p ∈ (match t.m_recvSocket with
      | none => { t with m_recvSocket := some t.heap, heap := t.heap + 1 }
      | some _ => t).sim.events, p.Live .SendUnsolicitedRouteUpdate → (match t.m_recvSocket with
      | none => { t with m_recvSocket := some t.heap, heap := t.heap + 1 }
      | some _ => t).sim.now + maxT < p.ts) ∧
      (match t.m_recvSocket with
      | none => { t with m_recvSocket := some t.heap, heap := t.heap + 1 }
      | some _ => t).m_maxTriggeredUpdateDelay = maxT ∧ (match t.m_recvSocket with
      | none => { t with m_recvSocket := some t.heap, heap := t.heap + 1 }
      | some _ => t).m_unsolicitedUpdate = Tu := by
    split <;> exact hl
  generalize (match t.m_recvSocket with
      | none => { t with m_recvSocket := some t.heap, heap := t.heap + 1 }
      | some _ => t) = t2 at hl2 ⊢
  have hl3 : ∀ (ut : EventId), (UpdatesOk (if b = true then
      { t2 with m_nextTriggeredUpdate := (t2.sim.Schedule d2 (.DoSendRouteUpdate false)).1,
                sim := (t2.sim.Schedule d2 (.DoSendRouteUpdate false)).2 }
      else t2).sim ut (if b = true then
      { t2 with m_nextTriggeredUpdate := (t2.sim.Schedule d2 (.DoSendRouteUpdate false)).1,
                sim := (t2.sim.Schedule d2 (.DoSendRouteUpdate false)).2 }
      else t2).m_initialized maxT) ∧
      (if b = true then
      { t2 with m_nextTriggeredUpdate := (t2.sim.Schedule d2 (.DoSendRouteUpdate false)).1,
                sim := (t2.sim.Schedule d2 (.DoSendRouteUpdate false)).2 }
      else t2).m_maxTriggeredUpdateDelay = maxT ∧ (if b = true then
      { t2 with m_nextTriggeredUpdate := (t2.sim.Schedule d2 (.DoSendRouteUpdate false)).1,
                sim := (t2.sim.Schedule d2 (.DoSendRouteUpdate false)).2 }
      else t2).m_unsolicitedUpdate = Tu := by
    intro ut
    split_ifs
    · exact ⟨(UpdatesOk.schedule_early t2.sim t2.m_nextTriggeredUpdate ut t2.m_initialized maxT
        d2 h2 hl2.1.2 hl2.1.1).1, hl2.2.1, hl2.2.2⟩
    · exact ⟨UpdatesOk.retarget t2.sim t2.m_nextTriggeredUpdate ut t2.m_initialized maxT
        hl2.1.2 hl2.1.1, hl2.2.1, hl2.2.2⟩
  generalize (if b = true then
      { t2 with m_nextTriggeredUpdate := (t2.sim.Schedule d2 (.DoSendRouteUpdate false)).1,
                sim := (t2.sim.Schedule d2 (.DoSendRouteUpdate false)).2 }
      else t2) = t3 at hl3 ⊢
  have hl4 := hl3 (t3.sim.Schedule d3 .SendRouteRequest).1
  exact ⟨UpdatesOk.schedule_unrelated t3.sim _ t3.m_initialized maxT d3 .SendRouteRequest
    (by intro hc; cases hc) (by intro hc; cases hc) hl4.1, hl4.2.1, hl4.2.2⟩

theorem SendUnsolicitedRouteUpdate_post (maxT Tu : Nat) (s : Ripv2) (ipv4 : Ipv4) (delay : Nat)
    (hd : maxT < delay) (hi : s.m_initialized = true)
    (hnone : ∀ p ∈ s.sim.events, ¬ p.Live .SendUnsolicitedRouteUpdate)
    (href : ∀ x ∈ s.sim.events, x.Live (.DoSendRouteUpdate false) →
      s.m_nextTriggeredUpdate.m_uid = some x.uid)
    (h : s.Updates maxT Tu) :
    (s.SendUnsolicitedRouteUpdate ipv4 delay).Updates maxT Tu ∧
      (∀ x ∈ (s.SendUnsolicitedRouteUpdate ipv4 delay).sim.events,
        ¬ x.Live (.DoSendRouteUpdate false)) ∧
      (∀ c ∈ (s.SendUnsolicitedRouteUpdate ipv4 delay).m_routes, c.1.m_changed = false) ∧
      (s.SendUnsolicitedRouteUpdate ipv4 delay).sim.now = s.sim.now ∧
      ∃ p ∈ (s.SendUnsolicitedRouteUpdate ipv4 delay).sim.events,
        p.Live .SendUnsolicitedRouteUpdate ∧ p.ts = s.sim.now + delay ∧
        ∀ q ∈ (s.SendUnsolicitedRouteUpdate ipv4 delay).sim.events,
          q.Live .SendUnsolicitedRouteUpdate → q = p := by
  obtain ⟨hU, hper, htrig, hnow⟩ := UpdatesOk.preempt s.sim s.m_nextTriggeredUpdate
    s.m_initialized maxT hnone href h.1
  have hsim : (s.SendUnsolicitedRouteUpdate ipv4 delay).sim =
      ((if s.sim.IsRunning s.m_nextTriggeredUpdate = true then
        s.sim.Cancel s.m_nextTriggeredUpdate else s.sim).Schedule delay
          .SendUnsolicitedRouteUpdate).2 := by
    unfold SendUnsolicitedRouteUpdate DoSendRouteUpdate
    simp only []
    split_ifs <;> rfl
  have hut : (s.SendUnsolicitedRouteUpdate ipv4 delay).m_nextTriggeredUpdate =
      s.m_nextTriggeredUpdate := by
    unfold SendUnsolicitedRouteUpdate DoSendRouteUpdate
    simp only []
    split_ifs <;> rfl
  have hin : (s.SendUnsolicitedRouteUpdate ipv4 delay).m_initialized = s.m_initialized := by
    unfold SendUnsolicitedRouteUpdate DoSendRouteUpdate
    simp only []
    split_ifs <;> rfl
  have hmx : (s.SendUnsolicitedRouteUpdate ipv4 delay).m_maxTriggeredUpdateDelay =
      s.m_maxTriggeredUpdateDelay := by
    unfold SendUnsolicitedRouteUpdate DoSendRouteUpdate
    simp only []
    split_ifs <;> rfl
  have hun : (s.SendUnsolicitedRouteUpdate ipv4 delay).m_unsolicitedUpdate =
      s.m_unsolicitedUpdate := by
    unfold SendUnsolicitedRouteUpdate DoSendRouteUpdate
    simp only []
    split_ifs <;> rfl
  have hroutes : (s.SendUnsolicitedRouteUpdate ipv4 delay).m_routes =
      s.m_routes.map (fun cell => (cell.1.SetRouteChanged false, cell.2)) := by
    unfold SendUnsolicitedRouteUpdate DoSendRouteUpdate
    simp only []
    split_ifs <;> rfl
  generalize (if s.sim.IsRunning s.m_nextTriggeredUpdate = true then
        s.sim.Cancel s.m_nextTriggeredUpdate else s.sim) = sim2 at hU hper htrig hnow hsim
  have hmem : ∀ x ∈ (s.SendUnsolicitedRouteUpdate ipv4 delay).sim.events,
      x ∈ sim2.events ∨
        x = { uid := sim2.uid, ts := sim2.now + delay, impl := .SendUnsolicitedRouteUpdate } := by
    intro x hx
    rw [hsim] at hx
    simp only [Simulator.Schedule, List.mem_append, List.mem_singleton] at hx
    exact hx
  refine ⟨?_, ?_, ?_, ?_, ?_⟩
  · unfold Updates
    rw [hsim, hut, hin, hmx, hun, hi]
    rw [hi] at hU
    exact ⟨(UpdatesOk.schedule_periodic sim2 s.m_nextTriggeredUpdate true maxT delay hd hper
      hU).1, h.2.1, h.2.2⟩
  · intro x hx hxl
    rcases hmem x hx with h0 | h0
    · exact htrig x h0 hxl
    · rw [h0] at hxl
      have := hxl.2
      cases this
  · intro c hc
    rw [hroutes] at hc
    simp only [List.mem_map] at hc
    obtain ⟨c0, _, rfl⟩ := hc
    rfl
  · rw [hsim]
    exact hnow
  · refine ⟨{ uid := sim2.uid, ts := sim2.now + delay, impl := .SendUnsolicitedRouteUpdate },
      ?_, ⟨rfl, rfl⟩, ?_, ?_⟩
    · rw [hsim]
      simp only [Simulator.Schedule, List.mem_append, List.mem_singleton, or_true]
    · show sim2.now + delay = s.sim.now + delay
      rw [hnow]
    · intro q hq hql
      rcases hmem q hq with h0 | h0
      · exact absurd hql (hper q h0)
      · exact h0

end Ripv2
/-- One operation whose delays are in range keeps the update events in
order, when a triggered update never waits as long as the update period. -/
theorem step_updates (maxT Tu : Nat) (ipv4 : Ipv4) (gd : Nat → Nat) (s s' : Ripv2) (op : Op)
    (hlt : maxT < Tu) (h : s.Updates maxT Tu) (hin : Op.InRange s op = true)
    (hs : step ipv4 gd s op = some s') : s'.Updates maxT Tu := by
  have hmx := h.2.1
  have hun := h.2.2
  cases op with
  | runEvent delay =>
    simp only [Op.InRange, decide_eq_true_eq] at hin
    simp only [step] at hs
    split at hs
    · cases hs
    · rename_i e hnext
      have hrem := UpdatesOk.remove_next s.sim s.m_nextTriggeredUpdate s.m_initialized maxT e
        hnext h.1
      have hs1 : ({ s with
          sim := { s.sim with
                   now := e.ts
                   events := s.sim.events.filter (fun x => decide (x.uid ≠ e.uid)) } } :
          Ripv2).Updates maxT Tu := ⟨hrem, hmx, hun⟩
      try simp only [] at hs
      split_ifs at hs with hc
      · cases hs
        exact hs1
      · have hl : e.cancelled = false := by simpa using hc
        split at hs
        · rename_i route hi
          cases hr : ({ s with
              sim := { s.sim with
                       now := e.ts
                       events := s.sim.events.filter (fun x => decide (x.uid ≠ e.uid)) } } :
            Ripv2).InvalidateRoute route with
          | error err => rw [hr] at hs; cases hs
          | ok t =>
            rw [hr] at hs
            cases hs
            exact Ripv2.Updates_InvalidateRoute maxT Tu _ _ route hs1 hr
        · rename_i route hi
          cases hr : ({ s with
              sim := { s.sim with
                       now := e.ts
                       events := s.sim.events.filter (fun x => decide (x.uid ≠ e.uid)) } } :
            Ripv2).DeleteRoute route with
          | error err => rw [hr] at hs; cases hs
          | ok t =>
            rw [hr] at hs
            cases hs
            exact Ripv2.Updates_DeleteRoute maxT Tu _ _ route hs1 hr
        · rename_i periodic hi
          cases hs
          exact Ripv2.Updates_DoSendRouteUpdate maxT Tu _ ipv4 periodic hs1
        · rename_i hi
          cases hs
          obtain ⟨hinit, hnone, href⟩ := UpdatesOk.at_periodic s.sim s.m_nextTriggeredUpdate
            s.m_initialized maxT e hnext ⟨hl, hi⟩ h.1
          exact (Ripv2.SendUnsolicitedRouteUpdate_post maxT Tu
            ({ s with
                sim := { s.sim with
                         now := e.ts
                         events := s.sim.events.filter (fun x => decide (x.uid ≠ e.uid)) } } :
              Ripv2) ipv4 delay (by omega) hinit hnone href hs1).1
        · rename_i hi
          cases hs
          exact Ripv2.Updates_SendRouteRequest maxT Tu _ hs1
  | advance ticks =>
    simp only [step] at hs
    split_ifs at hs with hall
    cases hs
    simp only [List.all_eq_true, decide_eq_true_eq] at hall
    exact ⟨UpdatesOk.advance s.sim s.m_nextTriggeredUpdate s.m_initialized maxT ticks hall h.1,
      hmx, hun⟩
  | receive packet delay =>
    simp only [Op.InRange, decide_eq_true_eq] at hin
    simp only [step] at hs
    split_ifs at hs
    cases hr : s.Receive ipv4 gd packet delay with
    | error e => rw [hr] at hs; cases hs
    | ok s'' =>
      rw [hr] at hs
      cases hs
      exact Ripv2.Updates_Receive maxT Tu _ _ _ _ _ _ (by omega) h hr
  | addDefaultRouteTo nextHop interface =>
    simp only [step, Option.some.injEq] at hs
    rw [← hs]
    exact Ripv2.Updates_AddNetworkRouteTo4 maxT Tu s 0 0 nextHop interface h
  | setInterfaceMetric interface metric =>
    simp only [step, Option.some.injEq] at hs
    rw [← hs]
    unfold Ripv2.SetInterfaceMetric
    split_ifs <;> exact h
  | setInterfaceExclusions exceptions =>
    simp only [step, Option.some.injEq] at hs
    rw [← hs]
    exact h
  | setIpv4 delay =>
    simp only [Op.InRange, decide_eq_true_eq] at hin
    simp only [step] at hs
    cases hr : s.SetIpv4 ipv4 delay with
    | error e => rw [hr] at hs; cases hs
    | ok s'' =>
      rw [hr] at hs
      cases hs
      exact Ripv2.Updates_SetIpv4 maxT Tu _ _ _ _ (by omega) h hr
  | doInitialize d1 d2 d3 =>
    simp only [Op.InRange, decide_eq_true_eq] at hin
    simp only [step] at hs
    split_ifs at hs
    simp only [Option.some.injEq] at hs
    rw [← hs]
    exact Ripv2.Updates_DoInitialize maxT Tu _ _ _ _ _ hin.1 (by omega) (by omega) h
  | notifyInterfaceUp i delay =>
    simp only [Op.InRange, decide_eq_true_eq] at hin
    simp only [step] at hs
    split_ifs at hs
    simp only [Option.some.injEq] at hs
    rw [← hs]
    exact Ripv2.Updates_NotifyInterfaceUp maxT Tu _ _ _ _ (by omega) h
  | notifyInterfaceDown interface delay =>
    simp only [Op.InRange, decide_eq_true_eq] at hin
    simp only [step, Option.some.injEq] at hs
    rw [← hs]
    exact Ripv2.Updates_NotifyInterfaceDown maxT Tu _ _ _ (by omega) h
  | notifyAddAddress interface address delay =>
    simp only [Op.InRange, decide_eq_true_eq] at hin
    simp only [step] at hs
    split_ifs at hs
    simp only [Option.some.injEq] at hs
    rw [← hs]
    exact Ripv2.Updates_NotifyAddAddress maxT Tu _ _ _ _ _ (by omega) h
  | notifyRemoveAddress interface address delay =>
    simp only [Op.InRange, decide_eq_true_eq] at hin
    simp only [step] at hs
    split_ifs at hs
    simp only [Option.some.injEq] at hs
    rw [← hs]
    exact Ripv2.Updates_NotifyRemoveAddress maxT Tu _ _ _ _ _ (by omega) h

/-- A run whose delays are in range keeps the update events in order. -/
theorem runIn_updates (maxT Tu : Nat) (gd : Nat → Nat) (hlt : maxT < Tu)
    (ops : List (Ipv4 × Op)) :
    ∀ (s s' : Ripv2), s.Updates maxT Tu → runInRange gd s ops = true →
      runIn gd s ops = some s' → s'.Updates maxT Tu := by
  induction ops with
  | nil =>
    intro s s' h _ hr
    simp only [runIn, Option.some.injEq] at hr
    rw [← hr]; exact h
  | cons op rest ih =>
    intro s s' h hin hr
    unfold runIn at hr
    unfold runInRange at hin
    split at hr
    · cases hr
    · rename_i t ht
      rw [ht] at hin
      simp only [Bool.and_eq_true] at hin
      exact ih t s' (step_updates maxT Tu op.1 gd s t op.2 hlt h hin.1 ht) hin.2 hr

theorem UpdatesOk.empty_queue (sim : Simulator) (ut : EventId) (init : Bool) (maxT : Nat)
    (he : sim.events = []) : UpdatesOk sim ut init maxT := by
  constructor
  · intro e hmem; rw [he] at hmem; cases hmem
  · intro e hmem; rw [he] at hmem; cases hmem
  · intro e hmem; rw [he] at hmem; cases hmem
  · intro e hmem; rw [he] at hmem; cases hmem
  · intro _ e hmem; rw [he] at hmem; cases hmem

/-- C37, what breaks it, and the part that holds.  From a new agent (queue
empty) whose `MaxTriggeredCooldown` is below the update period `T_u`, as with
the defaults 5 s and 30 s, in every state a run reaches by operations whose
delays are draws in range, `DoInitialize` among them and on an agent not yet
initialised, when the next event is a periodic update that was not cancelled,
it runs, and right after `SendUnsolicitedRouteUpdate` no triggered
`DoSendRouteUpdate (false)` event is pending, every `changed` flag is false,
and exactly one `SendUnsolicitedRouteUpdate` event is pending, at the delay
`d = T_u + rnd [0, T_u / 2]` from now, so `T_u ≤ d ≤ 1.5 T_u`; the default
`T_u` is 30 s (`u` is the number the random stream draws).  On `runPeriodic`
the triggered update pending for 33 s is cancelled by the periodic update of
30 s.  With `T_u` set to 3 s and the cooldown left at 5 s it is not so: the
triggered update that `DoInitialize` schedules for an excluded interface with
a GLOBAL address, and whose handle it overwrites with the handle of the route
request, is due at 4 s and is still pending after the periodic update of
3 s. -/
theorem periodic_update_preemption :
    (∀ (gd : Nat → Nat) (ops : List (Ipv4 × Op)) (s0 s : Ripv2) (ipv4 : Ipv4) (e : Event)
        (u : Nat),
      s0.sim.events = [] → s0.m_maxTriggeredUpdateDelay < s0.m_unsolicitedUpdate →
      runInRange gd s0 ops = true → runIn gd s0 ops = some s →
      s.sim.next = some e → e.Live .SendUnsolicitedRouteUpdate →
        ∃ s' d, d = s.m_unsolicitedUpdate + GetValue u 0 (s.m_unsolicitedUpdate / 2) ∧
          step ipv4 gd s (.runEvent d) = some s' ∧
          (∀ x ∈ s'.sim.events, ¬ x.Live (.DoSendRouteUpdate false)) ∧
          (∀ c ∈ s'.m_routes, c.1.m_changed = false) ∧
          (∃ p ∈ s'.sim.events, p.Live .SendUnsolicitedRouteUpdate ∧ p.ts = s'.sim.now + d ∧
            ∀ q ∈ s'.sim.events, q.Live .SendUnsolicitedRouteUpdate → q = p) ∧
          s.m_unsolicitedUpdate ≤ d ∧ 2 * d ≤ 3 * s.m_unsolicitedUpdate ∧
          ({} : Ripv2).m_unsolicitedUpdate = Seconds 30) ∧
    (runInRange id {} runPeriodic = true ∧
      (runIn id {} runPeriodic).map (fun s => (s.sim.now, pendingOf s)) =
        some (Seconds 28, [(Seconds 30, .SendUnsolicitedRouteUpdate),
          (Seconds 208, .InvalidateRoute 4), (Seconds 33, .DoSendRouteUpdate false)]) ∧
      (runIn id {} (runPeriodic ++ [(ipv4U, .runEvent (Seconds 40))])).map
          (fun s => (s.sim.now, pendingOf s)) =
        some (Seconds 30, [(Seconds 208, .InvalidateRoute 4),
          (Seconds 70, .SendUnsolicitedRouteUpdate)])) ∧
    (agentFast.sim.events = [] ∧ agentFast.m_initialized = false ∧
      agentFast.m_unsolicitedUpdate = Seconds 3 ∧
      agentFast.m_minTriggeredUpdateDelay = Seconds 1 ∧
      agentFast.m_maxTriggeredUpdateDelay = Seconds 5 ∧
      runInRange id agentFast runOrphan = true ∧
      (runIn id agentFast (runOrphan.take 3)).map
          (fun s => (s.sim.now, pendingOf s, s.sim.IsRunning s.m_nextTriggeredUpdate)) =
        some (0, [(Seconds 3, .SendUnsolicitedRouteUpdate), (Seconds 4, .DoSendRouteUpdate false),
          (Seconds 1 / 2, .SendRouteRequest)], true) ∧
      (runIn id agentFast runOrphan).map
          (fun s => (s.sim.now, pendingOf s, s.sim.IsRunning s.m_nextTriggeredUpdate)) =
        some (Seconds 1 / 2, [(Seconds 3, .SendUnsolicitedRouteUpdate),
          (Seconds 4, .DoSendRouteUpdate false)], false) ∧
      (runIn id agentFast (runOrphan ++ [(ipv4U, .runEvent (Seconds 3))])).map
          (fun s => (s.sim.now, pendingOf s)) =
        some (Seconds 3, [(Seconds 4, .DoSendRouteUpdate false),
          (Seconds 6, .SendUnsolicitedRouteUpdate)])) := by
  refine ⟨?_, ⟨by decide, by decide, by decide⟩,
    ⟨rfl, rfl, rfl, rfl, rfl, by decide, by decide, by decide, by decide⟩⟩
  intro gd ops s0 s ipv4 e u hq hcfg hin hrun hnext hl
  have h0 : s0.Updates s0.m_maxTriggeredUpdateDelay s0.m_unsolicitedUpdate :=
    ⟨UpdatesOk.empty_queue s0.sim s0.m_nextTriggeredUpdate s0.m_initialized _ hq, rfl, rfl⟩
  have h := runIn_updates _ _ gd hcfg ops s0 s h0 hin hrun
  have hmx := h.2.1
  have hun := h.2.2
  have hrange := GetValue_range u 0 (s.m_unsolicitedUpdate / 2) (Nat.zero_le _)
  obtain ⟨hinit, hnone, href⟩ := UpdatesOk.at_periodic s.sim s.m_nextTriggeredUpdate
    s.m_initialized _ e hnext hl h.1
  have hrem := UpdatesOk.remove_next s.sim s.m_nextTriggeredUpdate s.m_initialized _ e
    hnext h.1
  have hpost := Ripv2.SendUnsolicitedRouteUpdate_post s0.m_maxTriggeredUpdateDelay
    s0.m_unsolicitedUpdate
    ({ s with
        sim := { s.sim with
                 now := e.ts
                 events := s.sim.events.filter (fun x => decide (x.uid ≠ e.uid)) } } : Ripv2)
    ipv4 (s.m_unsolicitedUpdate + GetValue u 0 (s.m_unsolicitedUpdate / 2))
    (by show _ < s.m_unsolicitedUpdate + _; omega) hinit hnone href ⟨hrem, hmx, hun⟩
  have hstep : step ipv4 gd s
      (.runEvent (s.m_unsolicitedUpdate + GetValue u 0 (s.m_unsolicitedUpdate / 2))) =
      some (({ s with
        sim := { s.sim with
                 now := e.ts
                 events := s.sim.events.filter (fun x => decide (x.uid ≠ e.uid)) } } :
        Ripv2).SendUnsolicitedRouteUpdate ipv4
          (s.m_unsolicitedUpdate + GetValue u 0 (s.m_unsolicitedUpdate / 2))) := by
    simp only [step, hnext, hl.1, hl.2, Bool.false_eq_true, if_false]
  refine ⟨_, _, rfl, hstep, hpost.2.1, hpost.2.2.1, ?_, by omega, by omega, rfl⟩
  obtain ⟨p, hp, hpl, hpts, huniq⟩ := hpost.2.2.2.2
  refine ⟨p, hp, hpl, ?_, huniq⟩
  rw [hpost.2.2.2.1]
  exact hpts

namespace Ripv2

theorem DoSendRouteUpdate.onSocket_batch (s : Ripv2) (ipv4 : Ipv4) (periodic : Bool)
    (sent : List SentPacket) (sock : Nat × Nat) :
    ∃ batch : List SentPacket,
      DoSendRouteUpdate.onSocket s ipv4 periodic sent sock = sent ++ batch ∧
      DoSendRouteUpdate.Batch s ipv4 periodic sock batch := by
  by_cases hex : sock.2 ∈ s.m_interfaceExclusions
  · refine ⟨[], ?_, ?_⟩
    · unfold DoSendRouteUpdate.onSocket
      simp only [hex, not_true_eq_false, if_false, List.append_nil]
    · unfold DoSendRouteUpdate.Batch
      simp only [hex, if_true]
  · obtain ⟨pages, h1, h2⟩ := DoSendRouteUpdate.onSocket_pages s ipv4 periodic sent sock hex
    refine ⟨_, h1, ?_⟩
    unfold DoSendRouteUpdate.Batch
    simp only [hex, if_false]
    exact ⟨pages, rfl, h2⟩

theorem DoSendRouteUpdate.sockets_batches (s : Ripv2) (ipv4 : Ipv4) (periodic : Bool)
    (socks : List (Nat × Nat)) :
    ∀ (sent : List SentPacket), ∃ batches : List (List SentPacket),
      socks.foldl (DoSendRouteUpdate.onSocket s ipv4 periodic) sent = sent ++ batches.flatten ∧
      List.Forall₂ (DoSendRouteUpdate.Batch s ipv4 periodic) socks batches := by
  induction socks with
  | nil => intro sent; exact ⟨[], by simp, List.Forall₂.nil⟩
  | cons sock rest ih =>
    intro sent
    obtain ⟨batch, h1, h2⟩ := DoSendRouteUpdate.onSocket_batch s ipv4 periodic sent sock
    obtain ⟨batches, h3, h4⟩ := ih (sent ++ batch)
    refine ⟨batch :: batches, ?_, List.Forall₂.cons h2 h4⟩
    rw [List.foldl_cons, h1, h3, List.flatten_cons, List.append_assoc]

theorem DoSendRouteUpdate_batches (s : Ripv2) (ipv4 : Ipv4) (periodic : Bool) :
    ∃ batches : List (List SentPacket),
      (s.DoSendRouteUpdate ipv4 periodic).sent = s.sent ++ batches.flatten ∧
      List.Forall₂ (DoSendRouteUpdate.Batch s ipv4 periodic) s.m_sendSocketList batches :=
  DoSendRouteUpdate.sockets_batches s ipv4 periodic s.m_sendSocketList s.sent

end Ripv2
namespace Ripv2

theorem DoSendRouteUpdate.select_rule (strategy : SplitHorizonType_e) (ipv4 : Ipv4)
    (periodic : Bool) (I_o : Nat) (cell : RouteCell) :
    (DoSendRouteUpdate.select strategy ipv4 periodic I_o cell).toList =
      if DoSendRouteUpdate.Eligible ipv4 periodic I_o cell.1 then
        SplitHorizonRule strategy I_o cell.1
      else [] := by
  by_cases h : DoSendRouteUpdate.Eligible ipv4 periodic I_o cell.1
  · have hcond : ((decide (ipv4.PrefixScope cell.1.m_dest cell.1.m_destNetworkMask = .GLOBAL) ||
        (decide (cell.1.m_dest = 0) && decide (cell.1.m_destNetworkMask = 0) &&
          decide (cell.1.m_interface ≠ I_o))) && (periodic || cell.1.m_changed)) = true := by
      unfold DoSendRouteUpdate.Eligible at h
      simp only [Bool.and_eq_true, Bool.or_eq_true, decide_eq_true_eq]
      exact ⟨h.1.imp id (fun h3 => ⟨⟨h3.1, h3.2.1⟩, h3.2.2⟩), h.2⟩
    rw [if_pos h]
    unfold DoSendRouteUpdate.select SplitHorizonRule
    simp only [hcond, if_true]
    by_cases hi : cell.1.m_interface = I_o <;> cases strategy <;> simp [hi]
  · have hcond : ((decide (ipv4.PrefixScope cell.1.m_dest cell.1.m_destNetworkMask = .GLOBAL) ||
        (decide (cell.1.m_dest = 0) && decide (cell.1.m_destNetworkMask = 0) &&
          decide (cell.1.m_interface ≠ I_o))) && (periodic || cell.1.m_changed)) = false := by
      rw [Bool.eq_false_iff]
      intro hc
      apply h
      unfold DoSendRouteUpdate.Eligible
      simp only [Bool.and_eq_true, Bool.or_eq_true, decide_eq_true_eq] at hc
      exact ⟨hc.1.imp id (fun h3 => ⟨h3.1.1, h3.1.2, h3.2⟩), hc.2⟩
    rw [if_neg h]
    unfold DoSendRouteUpdate.select
    simp only [hcond, Bool.false_eq_true, if_false, Option.toList]

theorem filterMap_flatten_toList {α β : Type} (f : α → Option β) (l : List α) :
    l.filterMap f = (l.map (fun a => (f a).toList)).flatten := by
  induction l with
  | nil => rfl
  | cons a rest ih =>
    rw [List.filterMap_cons, List.map_cons, List.flatten_cons, ← ih]
    cases f a <;> rfl

theorem DoSendRouteUpdate.selected_rule (strategy : SplitHorizonType_e) (ipv4 : Ipv4)
    (periodic : Bool) (I_o : Nat) (routes : List RouteCell) :
    DoSendRouteUpdate.selected strategy ipv4 periodic I_o routes =
      (routes.map (fun c =>
        if DoSendRouteUpdate.Eligible ipv4 periodic I_o c.1 then
          SplitHorizonRule strategy I_o c.1
        else [])).flatten := by
  unfold DoSendRouteUpdate.selected
  rw [filterMap_flatten_toList]
  congr 1
  apply List.map_congr_left
  intro c _
  exact DoSendRouteUpdate.select_rule strategy ipv4 periodic I_o c

end Ripv2

/-- C17: the split-horizon rule of an emission.  One `DoSendRouteUpdate`
adds to the packets sent one batch for each send socket, in the order of the
sockets.  The packets of the batch of a socket are Responses sent through it,
and when its interface `I_o` is not excluded their RTEs, one packet after the
other, are what the rule of the spec gives for the entries of the table that
are eligible on `I_o`, entry after entry: under NO_SPLIT_HORIZON the RTE with
the metric of the entry; under SPLIT_HORIZON that RTE exactly when the entry
is not reached through `I_o`; under POISON_REVERSE always an RTE, with metric
16 when the entry is reached through `I_o` and its own metric otherwise; the
RTE has the destination, mask and tag of the entry.  An entry that is not
eligible gives none.  In `ribD` under POISON_REVERSE, the periodic update on
interface 1 sends the default route and 192.168.0.0/16 (both reached through
interface 1) with metric 16 and 10.0.0.0/8 (interface 2) with its metric 3. -/
theorem split_horizon_emission (s : Ripv2) (ipv4 : Ipv4) (periodic : Bool) :
    (∃ batches : List (List SentPacket),
      (s.DoSendRouteUpdate ipv4 periodic).sent = s.sent ++ batches.flatten ∧
      List.Forall₂ (fun sock batch =>
          (∀ p ∈ batch, p.socket = sock.1 ∧ p.hdr.m_command = RESPONSE) ∧
          (sock.2 ∉ s.m_interfaceExclusions →
            rtesOf batch = (s.m_routes.map (fun c =>
              if DoSendRouteUpdate.Eligible ipv4 periodic sock.2 c.1 then
                SplitHorizonRule s.m_splitHorizonStrategy sock.2 c.1
              else [])).flatten))
        s.m_sendSocketList batches) ∧
    (∀ (I_o : Nat) (E : Ripv2RoutingTableEntry),
      let rte := fun m : Nat =>
        ({ m_AFI := 2, m_tag := E.m_tag, m_IpAddress := E.m_dest,
           m_SubnetMask := E.m_destNetworkMask, m_NextHop := 0, m_metric := m } : Ripv2Rte)
      SplitHorizonRule .NO_SPLIT_HORIZON I_o E = [rte E.m_metric] ∧
      (E.m_interface ≠ I_o → SplitHorizonRule .SPLIT_HORIZON I_o E = [rte E.m_metric]) ∧
      (E.m_interface = I_o → SplitHorizonRule .SPLIT_HORIZON I_o E = []) ∧
      (E.m_interface = I_o → SplitHorizonRule .POISON_REVERSE I_o E = [rte 16]) ∧
      (E.m_interface ≠ I_o → SplitHorizonRule .POISON_REVERSE I_o E = [rte E.m_metric])) ∧
    (ribD.m_splitHorizonStrategy = .POISON_REVERSE ∧ ribD.m_sendSocketList = [(5, 1)] ∧
      (ribD.DoSendRouteUpdate ipv4W true).sent.map
          (fun p => (p.socket, p.hdr.m_rteList.map
            (fun r => (r.m_IpAddress, r.m_SubnetMask, r.m_tag, r.m_metric)))) =
        [(5, [(0, 0, 0, 16), (0x0A000000, 0xFF000000, 7, 3),
              (0xC0A80000, 0xFFFF0000, 0, 16)])]) := by
  refine ⟨?_, ?_, ⟨rfl, rfl, by decide⟩⟩
  · obtain ⟨batches, h1, h2⟩ := Ripv2.DoSendRouteUpdate_batches s ipv4 periodic
    refine ⟨batches, h1, ?_⟩
    refine List.Forall₂.imp ?_ h2
    intro sock batch hb
    unfold Ripv2.DoSendRouteUpdate.Batch at hb
    by_cases hex : sock.2 ∈ s.m_interfaceExclusions
    · rw [if_pos hex] at hb
      rw [hb]
      refine ⟨?_, fun hne => absurd hex hne⟩
      intro p hp
      cases hp
    · rw [if_neg hex] at hb
      obtain ⟨pages, hbatch, hpag⟩ := hb
      refine ⟨?_, fun _ => ?_⟩
      · intro p hp
        rw [hbatch, List.mem_map] at hp
        obtain ⟨h, hh, rfl⟩ := hp
        exact ⟨rfl, (hpag.1 h hh).1⟩
      · rw [hbatch, rtesOf_map _ (fun _ => rfl) pages, hpag.2.1]
        exact Ripv2.DoSendRouteUpdate.selected_rule _ _ _ _ _
  · intro I_o E rte
    refine ⟨rfl, ?_, ?_, ?_, ?_⟩
    · intro h; simp [SplitHorizonRule, h, rte]
    · intro h; simp [SplitHorizonRule, h]
    · intro h; simp [SplitHorizonRule, h, rte]
    · intro h; simp [SplitHorizonRule, h, rte]
set_option maxRecDepth 100000 in
/-- C19, as amended: pagination per send socket.  One `DoSendRouteUpdate` adds
to the packets sent one batch for each send socket, in the order of the
sockets: none for a socket whose interface is excluded, and else Responses of
1 to 25 RTEs each, whose RTE lists one after the other are the RTEs selected
for the interface of the socket, in the order of the table, `ceil (n / 25)`
packets for `n` selected RTEs.  The whole-table reply on an interface that is
not excluded is paginated in the same way, through one socket.  So 60
selected RTEs make 3 packets per socket, 50 make 2 and 0 make none; the table
of 60 routes `ribN 60` is sent through its socket in packets of 25, 25 and 10
RTEs. -/
theorem pagination (s : Ripv2) (ipv4 : Ipv4) (periodic : Bool) :
    (∃ batches : List (List SentPacket),
      (s.DoSendRouteUpdate ipv4 periodic).sent = s.sent ++ batches.flatten ∧
      List.Forall₂ (DoSendRouteUpdate.Batch s ipv4 periodic) s.m_sendSocketList batches) ∧
    (∀ (sock : Nat × Nat) (batch : List SentPacket),
      DoSendRouteUpdate.Batch s ipv4 periodic sock batch →
        (sock.2 ∈ s.m_interfaceExclusions → batch = []) ∧
        (sock.2 ∉ s.m_interfaceExclusions →
          (∀ p ∈ batch, p.socket = sock.1 ∧ p.hdr.m_command = RESPONSE ∧
            1 ≤ p.hdr.m_rteList.length ∧ p.hdr.m_rteList.length ≤ 25) ∧
          rtesOf batch =
            DoSendRouteUpdate.selected s.m_splitHorizonStrategy ipv4 periodic sock.2
              s.m_routes ∧
          batch.length =
            ((DoSendRouteUpdate.selected s.m_splitHorizonStrategy ipv4 periodic sock.2
              s.m_routes).length + 24) / 25)) ∧
    (∀ (incomingInterface : Nat) (requestHdr : Ripv2Header) (first : Ripv2Rte)
        (senderAddress senderPort sendingSoket : Nat),
      incomingInterface ∉ s.m_interfaceExclusions →
      requestHdr.m_rteList = [first] →
      (first.m_IpAddress = 0 ∧ first.m_SubnetMask = 0 ∧ first.m_metric = 16) →
      findSendingSocket incomingInterface s.m_sendSocketList none = some sendingSoket →
      ∃ pages : List Ripv2Header,
        s.HandleRequests ipv4 requestHdr senderAddress senderPort incomingInterface 255 =
          .ok { s with sent := s.sent ++ pages.map (fun h =>
                  { socket := sendingSoket, hdr := h, toAddress := senderAddress,
                    toPort := RIPV2_PORT }) } ∧
        Paginated pages
          (HandleRequests.selected s.m_splitHorizonStrategy ipv4 incomingInterface
            s.m_routes)) ∧
    (∀ (pages : List Ripv2Header) (sel : List Ripv2Rte), Paginated pages sel →
      (sel.length = 60 → pages.length = 3) ∧ (sel.length = 50 → pages.length = 2) ∧
        (sel.length = 0 → pages = [])) ∧
    ((DoSendRouteUpdate.selected (ribN 60).m_splitHorizonStrategy ipv4W true 1
        (ribN 60).m_routes).length = 60 ∧
      ((ribN 60).DoSendRouteUpdate ipv4W true).sent.map
          (fun p => (p.socket, p.hdr.m_rteList.length)) = [(5, 25), (5, 25), (5, 10)]) := by
  refine ⟨Ripv2.DoSendRouteUpdate_batches s ipv4 periodic, ?_, ?_, ?_, ⟨by decide, by decide⟩⟩
  · intro sock batch hb
    unfold Ripv2.DoSendRouteUpdate.Batch at hb
    by_cases hex : sock.2 ∈ s.m_interfaceExclusions
    · rw [if_pos hex] at hb
      exact ⟨fun _ => hb, fun hne => absurd hex hne⟩
    · rw [if_neg hex] at hb
      obtain ⟨pages, hbatch, hpag⟩ := hb
      refine ⟨fun hin => absurd hin hex, fun _ => ⟨?_, ?_, ?_⟩⟩
      · intro p hp
        rw [hbatch, List.mem_map] at hp
        obtain ⟨h, hh, rfl⟩ := hp
        exact ⟨rfl, hpag.1 h hh⟩
      · rw [hbatch, rtesOf_map _ (fun _ => rfl) pages, hpag.2.1]
      · rw [hbatch, List.length_map, hpag.2.2]
  · intro incomingInterface requestHdr first senderAddress senderPort sendingSoket hex hreq
      hfirst hsock
    exact Ripv2.HandleRequests.whole_table_pages s ipv4 requestHdr first senderAddress senderPort
      incomingInterface sendingSoket hreq hfirst hex hsock
  · intro pages sel hp
    refine ⟨?_, ?_, ?_⟩
    · intro hn; rw [hp.2.2, hn]
    · intro hn; rw [hp.2.2, hn]
    · intro hn
      apply List.length_eq_zero.mp
      rw [hp.2.2, hn]

/-- C19, what breaks it: two send sockets on one interface.  On `ipv4T`
interface 1 has two GLOBAL addresses and `DoInitialize` makes a send socket
for each (3 and 4).  Before the first periodic update the table holds the two
connected prefixes, both selected for interface 1 (`n = 2`, one packet by
`ceil (n / 25)`).  The emission sends two packets on interface 1, one through
each socket, each with the two RTEs: the RTE lists of the packets of the
emission on interface 1, one after the other, are the selected list twice.
The periodic update of 30 s sends them after the two route requests. -/
theorem pagination_two_sockets :
    (runIn id {} runTwoSockets).map
        (fun s => (s.m_sendSocketList, s.m_interfaceExclusions,
          (DoSendRouteUpdate.selected s.m_splitHorizonStrategy ipv4T true 1 s.m_routes).length,
          ((s.DoSendRouteUpdate ipv4T true).sent.drop s.sent.length).map
            (fun p => (p.socket, p.hdr.m_rteList.length)))) =
      some ([(3, 1), (4, 1)], [], 2, [(3, 2), (4, 2)]) ∧
    (runIn id {} runTwoSockets).map
        (fun s => rtesOf ((s.DoSendRouteUpdate ipv4T true).sent.drop s.sent.length) ==
          DoSendRouteUpdate.selected s.m_splitHorizonStrategy ipv4T true 1 s.m_routes) =
      some false ∧
    (runIn id {} runTwoSockets).map
        (fun s => rtesOf ((s.DoSendRouteUpdate ipv4T true).sent.drop s.sent.length) ==
          DoSendRouteUpdate.selected s.m_splitHorizonStrategy ipv4T true 1 s.m_routes ++
            DoSendRouteUpdate.selected s.m_splitHorizonStrategy ipv4T true 1 s.m_routes) =
      some true ∧
    (2 + 24) / 25 = 1 ∧
    (runIn id {} (runTwoSockets ++ [(ipv4T, .runEvent (Seconds 30))])).map
        (fun s => (s.sim.now, s.sent.map
          (fun p => (p.socket, p.hdr.m_command, p.hdr.m_rteList.length)))) =
      some (Seconds 30, [(3, REQUEST, 1), (4, REQUEST, 1), (3, RESPONSE, 2),
        (4, RESPONSE, 2)]) := by
  refine ⟨by decide, by decide, by decide, by decide, by decide⟩

theorem Simulator.GetDelayLeft_congr (sim sim' : Simulator) (id : EventId)
    (hnow : sim'.now = sim.now) (hrun : sim'.IsRunning id = sim.IsRunning id) :
    sim'.GetDelayLeft id = sim.GetDelayLeft id := by
  unfold Simulator.GetDelayLeft
  unfold Simulator.IsRunning at hrun
  have he : sim'.IsExpired id = sim.IsExpired id := by
    cases h1 : sim'.IsExpired id <;> cases h2 : sim.IsExpired id <;> simp_all
  rw [he, hnow]


namespace Ripv2

/-- What one turn of the loop of `HandleResponses` does to the simulator:
nothing, or it cancels the event of the cell and schedules one event. -/
theorem HandleResponses.onRoute_sim_cases (td gd sa ii ra rm rme tag : Nat) (cell : RouteCell)
    (v : HandleResponses.Vars) :
    (HandleResponses.onRoute td gd sa ii ra rm rme tag cell v).2.sim = v.sim ∨
      ∃ d impl, (HandleResponses.onRoute td gd sa ii ra rm rme tag cell v).2.sim =
        ((v.sim.Cancel cell.2).Schedule d impl).2 := by
  unfold HandleResponses.onRoute
  simp only [Simulator.Cancel_Cancel, InvalidateRoute.onCell_eq]
  split_ifs <;> first | exact Or.inl rfl | exact Or.inr ⟨_, _, rfl⟩

/-- A handle that is not the handle of the cell, and was given before this
turn of the loop, is left as it is by the turn. -/
theorem HandleResponses.onRoute_keeps (td gd sa ii ra rm rme tag : Nat) (cell : RouteCell)
    (v : HandleResponses.Vars) (id : EventId)
    (hid : ∀ u, id.m_uid = some u → u < v.sim.uid ∧ cell.2.m_uid ≠ some u) :
    v.sim.uid ≤ (HandleResponses.onRoute td gd sa ii ra rm rme tag cell v).2.sim.uid ∧
      (HandleResponses.onRoute td gd sa ii ra rm rme tag cell v).2.sim.IsRunning id =
        v.sim.IsRunning id ∧
      ∀ impl d, v.sim.Armed id impl d →
        (HandleResponses.onRoute td gd sa ii ra rm rme tag cell v).2.sim.Armed id impl d := by
  rcases HandleResponses.onRoute_sim_cases td gd sa ii ra rm rme tag cell v with h | ⟨d0, impl0, h⟩
  · rw [h]
    exact ⟨Nat.le_refl _, rfl, fun _ _ ha => ha⟩
  · rw [h]
    cases hu : id.m_uid with
    | none =>
      refine ⟨?_, ?_, ?_⟩
      · show v.sim.uid ≤ (v.sim.Cancel cell.2).uid + 1
        rw [Simulator.Cancel_uid]
        omega
      · rw [Simulator.IsRunning_none _ id hu, Simulator.IsRunning_none _ id hu]
      · intro impl d ha
        obtain ⟨_, _, u, hu', _⟩ := ha
        rw [hu] at hu'
        cases hu'
    | some u =>
      obtain ⟨hlt, hne⟩ := hid u hu
      have hne1 : cell.2.m_uid ≠ id.m_uid := by rw [hu]; exact hne
      have hne2 : id.m_uid ≠ some (v.sim.Cancel cell.2).uid := by
        rw [hu, Simulator.Cancel_uid]
        intro hc
        injection hc with hc
        omega
      refine ⟨?_, ?_, ?_⟩
      · show v.sim.uid ≤ (v.sim.Cancel cell.2).uid + 1
        rw [Simulator.Cancel_uid]
        omega
      · rw [Simulator.IsRunning_Schedule_of_ne _ _ _ _ hne2,
          Simulator.IsRunning_Cancel_of_ne _ _ _ (fun hc => hne1 hc.symm)]
      · intro impl d ha
        exact Simulator.Armed_Schedule_other _ _ _ _ _ _
          (Simulator.Armed_Cancel_of_ne _ _ _ _ _ ha hne1) hne2

theorem HandleResponses.routesLoop_keeps (td gd sa ii ra rm rme tag : Nat) (id : EventId)
    (l : List RouteCell) :
    ∀ (v : HandleResponses.Vars),
      (∀ u, id.m_uid = some u → u < v.sim.uid ∧ ∀ c ∈ l, c.2.m_uid ≠ some u) →
      v.sim.uid ≤ (HandleResponses.routesLoop td gd sa ii ra rm rme tag l v).2.sim.uid ∧
        (HandleResponses.routesLoop td gd sa ii ra rm rme tag l v).2.sim.IsRunning id =
          v.sim.IsRunning id ∧
        ∀ impl d, v.sim.Armed id impl d →
          (HandleResponses.routesLoop td gd sa ii ra rm rme tag l v).2.sim.Armed id impl d := by
  induction l with
  | nil => intro v _; exact ⟨Nat.le_refl _, rfl, fun _ _ ha => ha⟩
  | cons x rest ih =>
    intro v hid
    simp only [HandleResponses.routesLoop]
    have h1 := HandleResponses.onRoute_keeps td gd sa ii ra rm rme tag x v id
      (fun u hu => ⟨(hid u hu).1, (hid u hu).2 x (List.mem_cons_self _ _)⟩)
    have h2 := ih (HandleResponses.onRoute td gd sa ii ra rm rme tag x v).2
      (fun u hu => ⟨Nat.lt_of_lt_of_le (hid u hu).1 h1.1,
        fun c hc => (hid u hu).2 c (List.mem_cons_of_mem _ hc)⟩)
    exact ⟨Nat.le_trans h1.1 h2.1, h2.2.1.trans h1.2.1, fun impl d ha => h2.2.2 impl d (h1.2.2 impl d ha)⟩

theorem HandleResponses.routesLoop_uid_le (td gd sa ii ra rm rme tag : Nat) (l : List RouteCell)
    (v : HandleResponses.Vars) :
    v.sim.uid ≤ (HandleResponses.routesLoop td gd sa ii ra rm rme tag l v).2.sim.uid :=
  (HandleResponses.routesLoop_keeps td gd sa ii ra rm rme tag {} l v
    (fun u hu => by cases hu)).1

theorem HandleResponses.routesLoop_length (td gd sa ii ra rm rme tag : Nat)
    (l : List RouteCell) :
    ∀ (v : HandleResponses.Vars),
      (HandleResponses.routesLoop td gd sa ii ra rm rme tag l v).1.length = l.length := by
  induction l with
  | nil => intro v; rfl
  | cons x rest ih =>
    intro v
    simp only [HandleResponses.routesLoop, List.length_cons, ih]

theorem HandleResponses.onRoute_found_keeps (td gd sa ii ra rm rme tag : Nat) (cell : RouteCell)
    (v : HandleResponses.Vars) (h : v.found = true) :
    (HandleResponses.onRoute td gd sa ii ra rm rme tag cell v).2.found = true := by
  unfold HandleResponses.onRoute
  simp only [InvalidateRoute.onCell_eq]
  split_ifs <;> first | exact h | rfl

theorem HandleResponses.routesLoop_found (td gd sa ii ra rm rme tag : Nat) (l : List RouteCell) :
    ∀ (v : HandleResponses.Vars), v.found = true →
      (HandleResponses.routesLoop td gd sa ii ra rm rme tag l v).2.found = true := by
  induction l with
  | nil => intro v h; exact h
  | cons x rest ih =>
    intro v h
    simp only [HandleResponses.routesLoop]
    exact ih _ (HandleResponses.onRoute_found_keeps td gd sa ii ra rm rme tag x v h)

theorem HandleResponses.onRoute_heap_le (td gd sa ii ra rm rme tag : Nat) (cell : RouteCell)
    (v : HandleResponses.Vars) :
    v.heap ≤ (HandleResponses.onRoute td gd sa ii ra rm rme tag cell v).2.heap := by
  unfold HandleResponses.onRoute
  simp only [InvalidateRoute.onCell_eq]
  split_ifs <;> first | exact Nat.le_refl _ | exact Nat.le_succ _

theorem HandleResponses.routesLoop_heap_le (td gd sa ii ra rm rme tag : Nat)
    (l : List RouteCell) :
    ∀ (v : HandleResponses.Vars),
      v.heap ≤ (HandleResponses.routesLoop td gd sa ii ra rm rme tag l v).2.heap := by
  induction l with
  | nil => intro v; exact Nat.le_refl _
  | cons x rest ih =>
    intro v
    simp only [HandleResponses.routesLoop]
    exact Nat.le_trans (HandleResponses.onRoute_heap_le td gd sa ii ra rm rme tag x v) (ih _)

/-- One RTE on a table that holds its key in the cell after `before`: the
loop runs over `before`, reaches the cell with the variables `v`, runs over
`after` and ends with the variables `w`; no cell is added.  When the timers
are in order, the handle of the cell is as before when the loop reaches it,
and the handles that are not in `after` are kept by the rest of the loop. -/
theorem HandleResponses.onRte_at (sa ii : Nat) (st : Ripv2 × Bool) (rte : Ripv2Rte)
    (before after : List RouteCell) (cell : RouteCell)
    (hs : st.1.m_routes = before ++ cell :: after) (hk : KeyOf rte cell)
    (hT : st.1.Timers) :
    ∃ (v w : HandleResponses.Vars) (before' after' : List RouteCell),
      HandleResponses.onRte sa ii st rte =
        ({ st.1 with
           m_routes := before' ++
             (HandleResponses.onRoute st.1.m_timeoutDelay st.1.m_garbageCollectionDelay sa ii
               (CombineMask rte.m_IpAddress rte.m_SubnetMask) rte.m_SubnetMask
               (HandleResponses.rteMetric st.1 ii rte) rte.m_tag cell v).1 :: after'
           sim := w.sim
           heap := w.heap }, w.changed) ∧
      before'.length = before.length ∧ after'.length = after.length ∧
      ((∀ c ∈ before, ¬ KeyOf rte c) → before' = before ∧
        v = { sim := st.1.sim, heap := st.1.heap, found := false, changed := st.2 }) ∧
      ((∀ c ∈ after, ¬ KeyOf rte c) → after' = after ∧
        w = (HandleResponses.onRoute st.1.m_timeoutDelay st.1.m_garbageCollectionDelay sa ii
               (CombineMask rte.m_IpAddress rte.m_SubnetMask) rte.m_SubnetMask
               (HandleResponses.rteMetric st.1 ii rte) rte.m_tag cell v).2) ∧
      v.sim.now = st.1.sim.now ∧ st.1.sim.uid ≤ v.sim.uid ∧ st.1.heap ≤ v.heap ∧
      (st.2 = true → v.changed = true) ∧
      v.sim.IsRunning cell.2 = st.1.sim.IsRunning cell.2 ∧
      (∀ impl d, st.1.sim.Armed cell.2 impl d → v.sim.Armed cell.2 impl d) ∧
      (∀ u, cell.2.m_uid = some u → u < st.1.sim.uid) ∧
      ((HandleResponses.onRoute st.1.m_timeoutDelay st.1.m_garbageCollectionDelay sa ii
          (CombineMask rte.m_IpAddress rte.m_SubnetMask) rte.m_SubnetMask
          (HandleResponses.rteMetric st.1 ii rte) rte.m_tag cell v).2.changed = true →
        w.changed = true) ∧
      (∀ id : EventId,
        (∀ u, id.m_uid = some u →
          u < (HandleResponses.onRoute st.1.m_timeoutDelay st.1.m_garbageCollectionDelay sa ii
            (CombineMask rte.m_IpAddress rte.m_SubnetMask) rte.m_SubnetMask
            (HandleResponses.rteMetric st.1 ii rte) rte.m_tag cell v).2.sim.uid ∧
          ∀ c ∈ after, c.2.m_uid ≠ some u) →
        w.sim.IsRunning id =
          (HandleResponses.onRoute st.1.m_timeoutDelay st.1.m_garbageCollectionDelay sa ii
            (CombineMask rte.m_IpAddress rte.m_SubnetMask) rte.m_SubnetMask
            (HandleResponses.rteMetric st.1 ii rte) rte.m_tag cell v).2.sim.IsRunning id ∧
        ∀ impl d,
          (HandleResponses.onRoute st.1.m_timeoutDelay st.1.m_garbageCollectionDelay sa ii
            (CombineMask rte.m_IpAddress rte.m_SubnetMask) rte.m_SubnetMask
            (HandleResponses.rteMetric st.1 ii rte) rte.m_tag cell v).2.sim.Armed id impl d →
          w.sim.Armed id impl d) ∧
      (∀ c ∈ after, ∀ u, c.2.m_uid = some u → u < st.1.sim.uid ∧ cell.2.m_uid ≠ some u) := by
  have hT' : TimersOk (before ++ cell :: after) st.1.sim st.1.heap st.1.m_nextTriggeredUpdate := by
    have := hT
    unfold Ripv2.Timers at this
    rw [hs] at this
    exact this
  generalize hv0 : ({ sim := st.1.sim, heap := st.1.heap, found := false, changed := st.2 } :
    HandleResponses.Vars) = v0
  have hv0sim : v0.sim = st.1.sim := by rw [← hv0]
  have hv0ch : v0.changed = st.2 := by rw [← hv0]
  generalize htd : st.1.m_timeoutDelay = td
  generalize hgd : st.1.m_garbageCollectionDelay = gd
  generalize hra : CombineMask rte.m_IpAddress rte.m_SubnetMask = ra
  generalize hrme : HandleResponses.rteMetric st.1 ii rte = rme
  have hkey : cell.1.m_dest = ra ∧ cell.1.m_destNetworkMask = rte.m_SubnetMask := by
    rw [← hra]; exact hk
  have hcellh : ∀ u, cell.2.m_uid = some u → u < st.1.sim.uid ∧
      ∀ c ∈ before, c.2.m_uid ≠ some u := by
    intro u hu
    refine ⟨hT'.handle_lt cell (by simp) u hu, ?_⟩
    intro c hc hcu
    exact handle_unique before after cell c u hT'.handles hu (Or.inl hc) hcu
  have hB := HandleResponses.routesLoop_keeps td gd sa ii ra rte.m_SubnetMask rme rte.m_tag
    cell.2 before v0 (by rw [hv0sim]; exact hcellh)
  have hafter : ∀ c ∈ after, ∀ u, c.2.m_uid = some u →
      u < st.1.sim.uid ∧ cell.2.m_uid ≠ some u := by
    intro c hc u hu
    refine ⟨hT'.handle_lt c (by simp [hc]) u hu, ?_⟩
    intro hcu
    exact handle_unique before after cell c u hT'.handles hcu (Or.inr hc) hu
  refine ⟨(HandleResponses.routesLoop td gd sa ii ra rte.m_SubnetMask rme rte.m_tag before v0).2,
    (HandleResponses.routesLoop td gd sa ii ra rte.m_SubnetMask rme rte.m_tag after
      (HandleResponses.onRoute td gd sa ii ra rte.m_SubnetMask rme rte.m_tag cell
        (HandleResponses.routesLoop td gd sa ii ra rte.m_SubnetMask rme rte.m_tag before
          v0).2).2).2,
    (HandleResponses.routesLoop td gd sa ii ra rte.m_SubnetMask rme rte.m_tag before v0).1,
    (HandleResponses.routesLoop td gd sa ii ra rte.m_SubnetMask rme rte.m_tag after
      (HandleResponses.onRoute td gd sa ii ra rte.m_SubnetMask rme rte.m_tag cell
        (HandleResponses.routesLoop td gd sa ii ra rte.m_SubnetMask rme rte.m_tag before
          v0).2).2).1, ?_, ?_, ?_, ?_, ?_, ?_, ?_, ?_, ?_, ?_, ?_, ?_, ?_, ?_, ?_⟩
  · have hfound : (HandleResponses.routesLoop td gd sa ii ra rte.m_SubnetMask rme rte.m_tag after
        (HandleResponses.onRoute td gd sa ii ra rte.m_SubnetMask rme rte.m_tag cell
          (HandleResponses.routesLoop td gd sa ii ra rte.m_SubnetMask rme rte.m_tag before
            v0).2).2).2.found = true :=
      HandleResponses.routesLoop_found _ _ _ _ _ _ _ _ _ _
        (HandleResponses.onRoute_found _ _ _ _ _ _ _ _ _ _ hkey)
    unfold HandleResponses.onRte
    simp only [htd, hgd, hra, hrme, hv0, hs, HandleResponses.routesLoop_append,
      HandleResponses.routesLoop, hfound, Bool.true_eq_false, false_and, if_false]
  · exact HandleResponses.routesLoop_length _ _ _ _ _ _ _ _ _ _
  · exact HandleResponses.routesLoop_length _ _ _ _ _ _ _ _ _ _
  · intro hb
    have := HandleResponses.routesLoop_other td gd sa ii ra rte.m_SubnetMask rme rte.m_tag before
      v0 (by intro c hc; rw [← hra]; exact hb c hc)
    rw [this]
    exact ⟨rfl, rfl⟩
  · intro ha
    have := HandleResponses.routesLoop_other td gd sa ii ra rte.m_SubnetMask rme rte.m_tag after
      (HandleResponses.onRoute td gd sa ii ra rte.m_SubnetMask rme rte.m_tag cell
        (HandleResponses.routesLoop td gd sa ii ra rte.m_SubnetMask rme rte.m_tag before
          v0).2).2 (by intro c hc; rw [← hra]; exact ha c hc)
    rw [this]
    exact ⟨rfl, rfl⟩
  · rw [HandleResponses.routesLoop_now, hv0sim]
  · rw [← hv0sim]; exact hB.1
  · have := HandleResponses.routesLoop_heap_le td gd sa ii ra rte.m_SubnetMask rme rte.m_tag
      before v0
    rw [← hv0] at this
    rw [← hv0]
    exact this
  · intro hc
    exact HandleResponses.routesLoop_changed _ _ _ _ _ _ _ _ _ _ (by rw [hv0ch]; exact hc)
  · rw [← hv0sim]; exact hB.2.1
  · intro impl d ha
    exact hB.2.2 impl d (by rw [hv0sim]; exact ha)
  · intro u hu
    exact (hcellh u hu).1
  · intro hc
    exact HandleResponses.routesLoop_changed _ _ _ _ _ _ _ _ _ _ hc
  · intro id hid
    have hA := HandleResponses.routesLoop_keeps td gd sa ii ra rte.m_SubnetMask rme rte.m_tag
      id after
      (HandleResponses.onRoute td gd sa ii ra rte.m_SubnetMask rme rte.m_tag cell
        (HandleResponses.routesLoop td gd sa ii ra rte.m_SubnetMask rme rte.m_tag before
          v0).2).2 hid
    exact ⟨hA.2.1, hA.2.2⟩
  · exact hafter

end Ripv2
namespace Ripv2

/-- One RTE whose turn on the cell that holds its key cancels the event of
the cell and arms a new handle: the cell keeps its place, the new handle is
armed when the loop over the table ends and the old one is not running. -/
theorem HandleResponses.onRte_rearm (sa ii : Nat) (st : Ripv2 × Bool) (rte : Ripv2Rte)
    (before after : List RouteCell) (cell : RouteCell)
    (hs : st.1.m_routes = before ++ cell :: after) (hk : KeyOf rte cell) (hT : st.1.Timers)
    (F : HandleResponses.Vars → Ripv2RoutingTableEntry) (impl : HandleResponses.Vars → EventImpl)
    (d : Nat) (H : HandleResponses.Vars → Nat) (C : HandleResponses.Vars → Bool)
    (hturn : ∀ v : HandleResponses.Vars, v.sim.now = st.1.sim.now →
      v.sim.IsRunning cell.2 = st.1.sim.IsRunning cell.2 →
      HandleResponses.onRoute st.1.m_timeoutDelay st.1.m_garbageCollectionDelay sa ii
          (CombineMask rte.m_IpAddress rte.m_SubnetMask) rte.m_SubnetMask
          (HandleResponses.rteMetric st.1 ii rte) rte.m_tag cell v =
        ((F v, ((v.sim.Cancel cell.2).Schedule d (impl v)).1),
         { sim := ((v.sim.Cancel cell.2).Schedule d (impl v)).2, heap := H v, found := true,
           changed := C v })) :
    ∃ (v : HandleResponses.Vars) (before' after' : List RouteCell) (id' : EventId),
      (HandleResponses.onRte sa ii st rte).1.m_routes = before' ++ (F v, id') :: after' ∧
      before'.length = before.length ∧ after'.length = after.length ∧
      ((∀ c ∈ before, ¬ KeyOf rte c) → before' = before ∧
        v = { sim := st.1.sim, heap := st.1.heap, found := false, changed := st.2 }) ∧
      ((∀ c ∈ after, ¬ KeyOf rte c) → after' = after ∧
        (HandleResponses.onRte sa ii st rte).2 = C v ∧
        (id', (HandleResponses.onRte sa ii st rte).1.sim) =
          (v.sim.Cancel cell.2).Schedule d (impl v)) ∧
      (HandleResponses.onRte sa ii st rte).1.sim.Armed id' (impl v) d ∧
      (HandleResponses.onRte sa ii st rte).1.sim.IsRunning cell.2 = false ∧
      (C v = true → (HandleResponses.onRte sa ii st rte).2 = true) ∧
      (st.2 = true → v.changed = true) ∧ st.1.heap ≤ v.heap ∧
      v.sim.now = st.1.sim.now ∧ v.sim.IsRunning cell.2 = st.1.sim.IsRunning cell.2 := by
  obtain ⟨v, w, b', a', heq, hlb, hla, hub, hua, hnow, huid, hheap, hch, hrun, _, hidlt, hchg,
    hkeep, haft⟩ := HandleResponses.onRte_at sa ii st rte before after cell hs hk hT
  rw [hturn v hnow hrun] at heq hua hchg hkeep
  have huid' : ((v.sim.Cancel cell.2).Schedule d (impl v)).2.uid = v.sim.uid + 1 := by
    show (v.sim.Cancel cell.2).uid + 1 = v.sim.uid + 1
    rw [Simulator.Cancel_uid]
  have hid' : ((v.sim.Cancel cell.2).Schedule d (impl v)).1.m_uid = some v.sim.uid := by
    show some (v.sim.Cancel cell.2).uid = some v.sim.uid
    rw [Simulator.Cancel_uid]
  have hk1 := hkeep ((v.sim.Cancel cell.2).Schedule d (impl v)).1 (by
    intro u hu
    rw [hid'] at hu
    injection hu with hu
    subst hu
    refine ⟨by show v.sim.uid < _; rw [huid']; omega, ?_⟩
    intro c hc hcu
    have := (haft c hc _ hcu).1
    omega)
  have hk2 := hkeep cell.2 (by
    intro u hu
    refine ⟨by show u < _; rw [huid']; have := hidlt u hu; omega, ?_⟩
    intro c hc hcu
    exact (haft c hc u hcu).2 hu)
  have hold : ((v.sim.Cancel cell.2).Schedule d (impl v)).2.IsRunning cell.2 = false := by
    apply Simulator_not_running_after
    rw [hid']
    intro hc
    have := hidlt _ hc
    omega
  refine ⟨v, b', a', ((v.sim.Cancel cell.2).Schedule d (impl v)).1, ?_, hlb, hla, hub, ?_, ?_, ?_,
    ?_, hch, hheap, hnow, hrun⟩
  · rw [heq]
  · intro ha
    obtain ⟨h1, h2⟩ := hua ha
    refine ⟨h1, ?_, ?_⟩
    · rw [heq, h2]
    · rw [heq, h2]
  · rw [heq]
    exact hk1.2 _ _ (Simulator.Armed_Schedule _ _ _)
  · rw [heq]
    show w.sim.IsRunning cell.2 = false
    rw [hk2.1]
    exact hold
  · intro hc
    rw [heq]
    exact hchg hc

/-- One RTE whose turn on the cell that holds its key leaves the cell alone:
the cell keeps its place, its handle and the event of its handle. -/
theorem HandleResponses.onRte_kept (sa ii : Nat) (st : Ripv2 × Bool) (rte : Ripv2Rte)
    (before after : List RouteCell) (cell : RouteCell)
    (hs : st.1.m_routes = before ++ cell :: after) (hk : KeyOf rte cell) (hT : st.1.Timers)
    (hturn : ∀ v : HandleResponses.Vars, v.sim.now = st.1.sim.now →
      v.sim.IsRunning cell.2 = st.1.sim.IsRunning cell.2 →
      HandleResponses.onRoute st.1.m_timeoutDelay st.1.m_garbageCollectionDelay sa ii
          (CombineMask rte.m_IpAddress rte.m_SubnetMask) rte.m_SubnetMask
          (HandleResponses.rteMetric st.1 ii rte) rte.m_tag cell v =
        (cell, { v with found := true })) :
    ∃ (before' after' : List RouteCell),
      (HandleResponses.onRte sa ii st rte).1.m_routes = before' ++ cell :: after' ∧
      before'.length = before.length ∧ after'.length = after.length ∧
      (HandleResponses.onRte sa ii st rte).1.sim.now = st.1.sim.now ∧
      (HandleResponses.onRte sa ii st rte).1.sim.IsRunning cell.2 =
        st.1.sim.IsRunning cell.2 ∧
      (HandleResponses.onRte sa ii st rte).1.sim.GetDelayLeft cell.2 =
        st.1.sim.GetDelayLeft cell.2 ∧
      (∀ impl d, st.1.sim.Armed cell.2 impl d →
        (HandleResponses.onRte sa ii st rte).1.sim.Armed cell.2 impl d) ∧
      ((∀ c ∈ before, ¬ KeyOf rte c) → (∀ c ∈ after, ¬ KeyOf rte c) →
        HandleResponses.onRte sa ii st rte = st) := by
  obtain ⟨v, w, b', a', heq, hlb, hla, hub, hua, hnow, huid, hheap, hch, hrun, harm, hidlt, hchg,
    hkeep, haft⟩ := HandleResponses.onRte_at sa ii st rte before after cell hs hk hT
  rw [hturn v hnow hrun] at heq hua hchg hkeep
  have hk2 := hkeep cell.2 (by
    intro u hu
    refine ⟨by show u < v.sim.uid; have := hidlt u hu; omega, ?_⟩
    intro c hc hcu
    exact (haft c hc u hcu).2 hu)
  have hwnow : w.sim.now = st.1.sim.now := by
    have h1 := congrArg (fun x => x.1.sim.now) heq
    simp only [] at h1
    rw [← h1]
    exact (HandleResponses.onRte_settings sa ii st rte).2.2.2.1
  have hwrun : w.sim.IsRunning cell.2 = st.1.sim.IsRunning cell.2 := by
    rw [hk2.1]
    exact hrun
  refine ⟨b', a', by rw [heq], hlb, hla, by rw [heq]; exact hwnow, by rw [heq]; exact hwrun,
    ?_, ?_, ?_⟩
  · rw [heq]
    exact Simulator.GetDelayLeft_congr _ _ _ hwnow hwrun
  · intro impl d ha
    rw [heq]
    exact hk2.2 impl d (harm impl d ha)
  · intro hb ha
    obtain ⟨h1, h2⟩ := hub hb
    obtain ⟨h3, h4⟩ := hua ha
    rw [heq, h1, h3, h4, h2, ← hs]

end Ripv2
theorem ribV_timers : ribV.Timers := by
  unfold Ripv2.Timers
  constructor
  · decide
  · decide
  · decide
  · decide
  · decide
  · intro c hc u hu
    have hall : ∀ x ∈ ribV.m_routes, x.2.m_uid = none ∨ x.2.m_uid = some 7 := by decide
    have hc' := hall c hc
    rcases hc' with h | h
    · rw [h] at hu; cases hu
    · rw [h] at hu
      injection hu with hu
      rw [← hu]
      decide
  · intro e he _ a ha
    have he' : e = { uid := 7, ts := Seconds 100, impl := .InvalidateRoute 2 } := by
      simpa [ribV] using he
    subst he'
    have ha' : a = 2 := by
      simp only [EventImpl.routeOf, Option.some.injEq] at ha
      exact ha.symm
    subst ha'
    exact ⟨_, List.mem_cons_of_mem _ (List.mem_cons_self _ _), rfl, rfl⟩
  · intro c hc _ u hu
    have hall : ∀ x ∈ ribV.m_routes, x.2.m_uid = none ∨ (x.2.m_uid = some 7 ∧ x.1.addr = 2) := by
      decide
    have hc' := hall c hc
    rcases hc' with h | ⟨h, ha⟩
    · rw [h] at hu; cases hu
    · rw [h] at hu
      injection hu with hu
      rw [← hu, ha]
      exact ⟨_, List.mem_cons_self _ _, rfl, rfl, rfl⟩
  · intro u hu; cases hu
  · intro u hu; cases hu

/-- C5: better metric rule.  The timers of the agent being in order, as they
are in every state it reaches, in an accepted Response, when the loop reaches
an RTE whose key a cell `(E, id)` of the table has, and `newMetric` is less
than the metric of `E`: after the RTE the cell at that place (the table has as
many cells before and after it as it had) holds a route with metric
`newMetric`, status VALID, the tag of the RTE, `changed` set, the sender as
gateway and the destination and mask of `E`; the event of the handle `id` is
not running and the new handle is armed for `InvalidateRoute` on the new
route at the timeout delay; the variable `changed` is set.  The cells that do
not hold the key are as before.  Nothing is asked of the status of `E`: an
INVALID route of metric 16 is replaced in place the same way; and nothing is
asked of the other cells, which may hold the key too.  The timeout delay of a
new agent is 180 s. -/
theorem better_metric_rule (s : Ripv2) (hdr : Ripv2Header) (sa ii ttl delay : Nat)
    (pre post : List Ripv2Rte) (rte : Ripv2Rte)
    (before after : List RouteCell) (E : Ripv2RoutingTableEntry) (id : EventId)
    (hT : s.Timers)
    (hacc : HandleResponses.Accepted s hdr ii ttl)
    (hsplit : hdr.m_rteList = pre ++ rte :: post)
    (hk : HandleResponses.interfaceMetric s ii < 16)
    (hs : (HandleResponses.reached s sa ii pre).1.m_routes = before ++ (E, id) :: after)
    (hkey : KeyOf rte (E, id))
    (hlt : min (rte.m_metric + HandleResponses.interfaceMetric s ii) 16 < E.m_metric) :
    let st := HandleResponses.reached s sa ii pre
    let st' := HandleResponses.onRte sa ii st rte
    let newMetric := min (rte.m_metric + HandleResponses.interfaceMetric s ii) 16
    s.HandleResponses hdr sa ii ttl delay = HandleResponses.finish sa ii st' post delay ∧
    (∃ before' after' E' id', st'.1.m_routes = before' ++ (E', id') :: after' ∧
      before'.length = before.length ∧ after'.length = after.length ∧
      ((∀ c ∈ before, ¬ KeyOf rte c) → before' = before) ∧
      ((∀ c ∈ after, ¬ KeyOf rte c) → after' = after) ∧
      E'.m_metric = newMetric ∧ E'.m_status = .RIPV2_VALID ∧ E'.m_tag = rte.m_tag ∧
      E'.m_changed = true ∧ E'.m_gateway = sa ∧ E'.m_dest = E.m_dest ∧
      E'.m_destNetworkMask = E.m_destNetworkMask ∧
      st'.1.sim.Armed id' (.InvalidateRoute E'.addr) s.m_timeoutDelay ∧
      st'.1.sim.IsRunning id = false) ∧
    st'.2 = true ∧ ({} : Ripv2).m_timeoutDelay = Seconds 180 := by
  intro st st' newMetric
  have hset := HandleResponses.reached_settings s sa ii pre
  have hval := HandleResponses.validate_split pre post rte (hsplit ▸ hacc.2.2)
  have hm : HandleResponses.rteMetric st.1 ii rte = newMetric := by
    rw [HandleResponses.rteMetric_settings _ _ ii rte hset]
    exact HandleResponses.rteMetric_eq s ii rte hval.2 hk
  have hTst : st.1.Timers := HandleResponses.foldl_timers sa ii pre (s, false) hT
  obtain ⟨v, b', a', id', hr, hlb, hla, hub, hua, harm, hold, hch, _, _, _, _⟩ :=
    HandleResponses.onRte_rearm sa ii st rte before after (E, id) hs hkey hTst
      (fun v => { (if sa ≠ E.m_gateway then
          Ripv2RoutingTableEntry.new4 v.heap (CombineMask rte.m_IpAddress rte.m_SubnetMask)
            rte.m_SubnetMask sa ii else E) with
          m_metric := newMetric, m_status := .RIPV2_VALID, m_tag := rte.m_tag,
          m_changed := true })
      (fun v => .InvalidateRoute (if sa ≠ E.m_gateway then
          Ripv2RoutingTableEntry.new4 v.heap (CombineMask rte.m_IpAddress rte.m_SubnetMask)
            rte.m_SubnetMask sa ii else E).addr)
      st.1.m_timeoutDelay
      (fun v => if sa ≠ E.m_gateway then v.heap + 1 else v.heap) (fun _ => true)
      (by
        intro v _ _
        rw [hm]
        exact HandleResponses.onRoute_better _ _ _ _ _ _ _ _ (E, id) v hkey hlt)
  refine ⟨HandleResponses.accepted_eq s hdr sa ii ttl delay pre post rte hacc hsplit, ?_,
    hch rfl, rfl⟩
  refine ⟨b', a', _, id', hr, hlb, hla, fun h => (hub h).1, fun h => (hua h).1, rfl, rfl, rfl,
    rfl, ?_, ?_, ?_, ?_, hold⟩
  · show (Ripv2RoutingTableEntry.m_gateway
      (if sa ≠ E.m_gateway then Ripv2RoutingTableEntry.new4 v.heap
        (CombineMask rte.m_IpAddress rte.m_SubnetMask) rte.m_SubnetMask sa ii else E)) = sa
    by_cases hg : sa = E.m_gateway
    · simp [hg]
    · simp [hg, Ripv2RoutingTableEntry.new4]
  · show (Ripv2RoutingTableEntry.m_dest
      (if sa ≠ E.m_gateway then Ripv2RoutingTableEntry.new4 v.heap
        (CombineMask rte.m_IpAddress rte.m_SubnetMask) rte.m_SubnetMask sa ii else E)) = E.m_dest
    by_cases hg : sa = E.m_gateway
    · simp [hg]
    · simp only [hg, ne_eq, not_false_eq_true, if_true, Ripv2RoutingTableEntry.new4]
      exact hkey.1.symm
  · show (Ripv2RoutingTableEntry.m_destNetworkMask
      (if sa ≠ E.m_gateway then Ripv2RoutingTableEntry.new4 v.heap
        (CombineMask rte.m_IpAddress rte.m_SubnetMask) rte.m_SubnetMask sa ii else E)) =
        E.m_destNetworkMask
    by_cases hg : sa = E.m_gateway
    · simp [hg]
    · simp only [hg, ne_eq, not_false_eq_true, if_true, Ripv2RoutingTableEntry.new4]
      exact hkey.2.symm
  · rw [← hset.2.1]
    exact harm

theorem better_metric_rule_witness :
    ribV.Timers ∧
      HandleResponses.Accepted ribV { m_command := 2, m_rteList := [rteV 1] } 1 255 ∧
      min ((rteV 1).m_metric + HandleResponses.interfaceMetric ribV 1) 16 < 5 ∧
      ribV.HandleResponses { m_command := 2, m_rteList := [rteV 1] } 0x0A000002 1 255 0 =
        HandleResponses.finish 0x0A000002 1
          (HandleResponses.onRte 0x0A000002 1 (HandleResponses.reached ribV 0x0A000002 1 [])
            (rteV 1)) [] 0 ∧
      (HandleResponses.onRte 0x0A000002 1 (HandleResponses.reached ribV 0x0A000002 1 [])
            (rteV 1)).2 = true :=
  ⟨ribV_timers, by decide, by decide,
    (better_metric_rule ribV { m_command := 2, m_rteList := [rteV 1] } 0x0A000002 1 255 0
      [] [] (rteV 1)
      [({ addr := 1, m_dest := 0xC0A80000, m_destNetworkMask := 0xFFFF0000,
          m_gateway := 0, m_interface := 2, m_metric := 1,
          m_status := .RIPV2_VALID }, {})] []
      { addr := 2, m_dest := 0x0A000000, m_destNetworkMask := 0xFF000000,
        m_gateway := 0x0A000001, m_interface := 1, m_metric := 5,
        m_status := .RIPV2_VALID } { m_uid := some 7, m_ts := Seconds 100 }
      ribV_timers (by decide) rfl (by decide) rfl (by decide) (by decide)).1,
    (better_metric_rule ribV { m_command := 2, m_rteList := [rteV 1] } 0x0A000002 1 255 0
      [] [] (rteV 1)
      [({ addr := 1, m_dest := 0xC0A80000, m_destNetworkMask := 0xFFFF0000,
          m_gateway := 0, m_interface := 2, m_metric := 1,
          m_status := .RIPV2_VALID }, {})] []
      { addr := 2, m_dest := 0x0A000000, m_destNetworkMask := 0xFF000000,
        m_gateway := 0x0A000001, m_interface := 1, m_metric := 5,
        m_status := .RIPV2_VALID } { m_uid := some 7, m_ts := Seconds 100 }
      ribV_timers (by decide) rfl (by decide) rfl (by decide) (by decide)).2.2.1⟩
/-- C6: worsening rule.  The timers of the agent being in order, as they are
in every state it reaches, in an accepted Response, when the loop reaches an
RTE whose key a cell `(E, id)` of the table has, `newMetric` is greater than
the metric of `E` and the sender is the gateway of `E`: after the RTE the
cell at that place (the table has as many cells before and after it as it
had) holds, if `newMetric < 16`, the route `E` with metric `newMetric`,
status VALID, the tag of the RTE and `changed` set, and a new handle armed
for `InvalidateRoute` at the timeout delay; if `newMetric = 16`, the route
`E` with status INVALID, metric 16 and `changed` set, and a new handle armed
for `DeleteRoute` at the garbage collection delay.  In both cases the event
of `id` is not running, the variable `changed` is set, and the method ends
with one call of `SendTriggeredRouteUpdate`.  Nothing is asked of the other
cells, which may hold the key too; those that do not are as before. -/
theorem worsening_rule (s : Ripv2) (hdr : Ripv2Header) (sa ii ttl delay : Nat)
    (pre post : List Ripv2Rte) (rte : Ripv2Rte)
    (before after : List RouteCell) (E : Ripv2RoutingTableEntry) (id : EventId)
    (hT : s.Timers)
    (hacc : HandleResponses.Accepted s hdr ii ttl)
    (hsplit : hdr.m_rteList = pre ++ rte :: post)
    (hk : HandleResponses.interfaceMetric s ii < 16)
    (hs : (HandleResponses.reached s sa ii pre).1.m_routes = before ++ (E, id) :: after)
    (hkey : KeyOf rte (E, id))
    (hgt : E.m_metric < min (rte.m_metric + HandleResponses.interfaceMetric s ii) 16)
    (hgw : sa = E.m_gateway) :
    let st := HandleResponses.reached s sa ii pre
    let st' := HandleResponses.onRte sa ii st rte
    let newMetric := min (rte.m_metric + HandleResponses.interfaceMetric s ii) 16
    s.HandleResponses hdr sa ii ttl delay = HandleResponses.finish sa ii st' post delay ∧
    (newMetric < 16 →
      ∃ before' after' id', st'.1.m_routes = before' ++
          ({ E with m_metric := newMetric, m_status := .RIPV2_VALID, m_tag := rte.m_tag,
                    m_changed := true }, id') :: after' ∧
        before'.length = before.length ∧ after'.length = after.length ∧
        ((∀ c ∈ before, ¬ KeyOf rte c) → before' = before) ∧
        ((∀ c ∈ after, ¬ KeyOf rte c) → after' = after) ∧
        st'.1.sim.Armed id' (.InvalidateRoute E.addr) s.m_timeoutDelay ∧
        st'.1.sim.IsRunning id = false) ∧
    (newMetric = 16 →
      ∃ before' after' id', st'.1.m_routes = before' ++
          ({ E with m_metric := 16, m_status := .RIPV2_INVALID, m_changed := true }, id') ::
            after' ∧
        before'.length = before.length ∧ after'.length = after.length ∧
        ((∀ c ∈ before, ¬ KeyOf rte c) → before' = before) ∧
        ((∀ c ∈ after, ¬ KeyOf rte c) → after' = after) ∧
        st'.1.sim.Armed id' (.DeleteRoute E.addr) s.m_garbageCollectionDelay ∧
        st'.1.sim.IsRunning id = false) ∧
    st'.2 = true ∧
    (s.HandleResponses hdr sa ii ttl delay).triggeredUpdateCalls =
      s.triggeredUpdateCalls + 1 := by
  intro st st' newMetric
  have hset := HandleResponses.reached_settings s sa ii pre
  have hval := HandleResponses.validate_split pre post rte (hsplit ▸ hacc.2.2)
  have hm : HandleResponses.rteMetric st.1 ii rte = newMetric := by
    rw [HandleResponses.rteMetric_settings _ _ ii rte hset]
    exact HandleResponses.rteMetric_eq s ii rte hval.2 hk
  have hTst : st.1.Timers := HandleResponses.foldl_timers sa ii pre (s, false) hT
  have hle : newMetric ≤ 16 := Nat.min_le_right _ _
  have hlow : newMetric < 16 →
      ∃ before' after' id', st'.1.m_routes = before' ++
          ({ E with m_metric := newMetric, m_status := .RIPV2_VALID, m_tag := rte.m_tag,
                    m_changed := true }, id') :: after' ∧
        before'.length = before.length ∧ after'.length = after.length ∧
        ((∀ c ∈ before, ¬ KeyOf rte c) → before' = before) ∧
        ((∀ c ∈ after, ¬ KeyOf rte c) → after' = after) ∧
        st'.1.sim.Armed id' (.InvalidateRoute E.addr) s.m_timeoutDelay ∧
        st'.1.sim.IsRunning id = false ∧ st'.2 = true := by
    intro h16
    obtain ⟨v, b', a', id', hr, hlb, hla, hub, hua, harm, hold, hch, _, _, _, _⟩ :=
      HandleResponses.onRte_rearm sa ii st rte before after (E, id) hs hkey hTst
        (fun _ => { E with m_metric := newMetric, m_status := .RIPV2_VALID,
                           m_tag := rte.m_tag, m_changed := true })
        (fun _ => .InvalidateRoute E.addr) st.1.m_timeoutDelay (fun v => v.heap)
        (fun _ => true)
        (by
          intro v _ _
          rw [hm]
          exact HandleResponses.onRoute_worse _ _ _ _ _ _ _ _ (E, id) v hkey hgt hgw h16)
    exact ⟨b', a', id', hr, hlb, hla, fun h => (hub h).1, fun h => (hua h).1,
      by rw [← hset.2.1]; exact harm, hold, hch rfl⟩
  have hhigh : newMetric = 16 →
      ∃ before' after' id', st'.1.m_routes = before' ++
          ({ E with m_metric := 16, m_status := .RIPV2_INVALID, m_changed := true }, id') ::
            after' ∧
        before'.length = before.length ∧ after'.length = after.length ∧
        ((∀ c ∈ before, ¬ KeyOf rte c) → before' = before) ∧
        ((∀ c ∈ after, ¬ KeyOf rte c) → after' = after) ∧
        st'.1.sim.Armed id' (.DeleteRoute E.addr) s.m_garbageCollectionDelay ∧
        st'.1.sim.IsRunning id = false ∧ st'.2 = true := by
    intro h16
    have hn : ¬ newMetric < 16 := by omega
    obtain ⟨v, b', a', id', hr, hlb, hla, hub, hua, harm, hold, hch, _, _, _, _⟩ :=
      HandleResponses.onRte_rearm sa ii st rte before after (E, id) hs hkey hTst
        (fun _ => { E with m_metric := 16, m_status := .RIPV2_INVALID, m_changed := true })
        (fun _ => .DeleteRoute E.addr) st.1.m_garbageCollectionDelay (fun v => v.heap)
        (fun _ => true)
        (by
          intro v _ _
          rw [hm]
          exact HandleResponses.onRoute_unreachable _ _ _ _ _ _ _ _ (E, id) v hkey hgt hgw hn)
    exact ⟨b', a', id', hr, hlb, hla, fun h => (hub h).1, fun h => (hua h).1,
      by rw [← hset.2.2.1]; exact harm, hold, hch rfl⟩
  have hch : st'.2 = true := by
    by_cases h16 : newMetric < 16
    · obtain ⟨_, _, _, h⟩ := hlow h16
      exact h.2.2.2.2.2.2.2
    · obtain ⟨_, _, _, h⟩ := hhigh (by omega)
      exact h.2.2.2.2.2.2.2
  refine ⟨HandleResponses.accepted_eq s hdr sa ii ttl delay pre post rte hacc hsplit, ?_, ?_,
    hch, ?_⟩
  · intro h16
    obtain ⟨b', a', id', h1, h2, h3, h4, h5, h6, h7, _⟩ := hlow h16
    exact ⟨b', a', id', h1, h2, h3, h4, h5, h6, h7⟩
  · intro h16
    obtain ⟨b', a', id', h1, h2, h3, h4, h5, h6, h7, _⟩ := hhigh h16
    exact ⟨b', a', id', h1, h2, h3, h4, h5, h6, h7⟩
  · rw [HandleResponses.accepted_eq s hdr sa ii ttl delay pre post rte hacc hsplit,
      HandleResponses.finish_calls sa ii _ post delay hch,
      (HandleResponses.onRte_settings sa ii st rte).2.2.2.2.2, hset.2.2.2.2.2]

theorem worsening_rule_witness :
    ribV.Timers ∧
      HandleResponses.Accepted ribV { m_command := 2, m_rteList := [rteV 16] } 1 255 ∧
      5 < min ((rteV 16).m_metric + HandleResponses.interfaceMetric ribV 1) 16 ∧
      (HandleResponses.onRte 0x0A000001 1 (HandleResponses.reached ribV 0x0A000001 1 [])
        (rteV 16)).2 = true ∧
      (ribV.HandleResponses { m_command := 2, m_rteList := [rteV 16] } 0x0A000001 1 255
        0).triggeredUpdateCalls = ribV.triggeredUpdateCalls + 1 :=
  ⟨ribV_timers, by decide, by decide,
    (worsening_rule ribV { m_command := 2, m_rteList := [rteV 16] } 0x0A000001 1 255 0
      [] [] (rteV 16)
      [({ addr := 1, m_dest := 0xC0A80000, m_destNetworkMask := 0xFFFF0000,
          m_gateway := 0, m_interface := 2, m_metric := 1,
          m_status := .RIPV2_VALID }, {})] []
      { addr := 2, m_dest := 0x0A000000, m_destNetworkMask := 0xFF000000,
        m_gateway := 0x0A000001, m_interface := 1, m_metric := 5,
        m_status := .RIPV2_VALID } { m_uid := some 7, m_ts := Seconds 100 }
      ribV_timers (by decide) rfl (by decide) rfl (by decide) (by decide) rfl).2.2.2.1,
    (worsening_rule ribV { m_command := 2, m_rteList := [rteV 16] } 0x0A000001 1 255 0
      [] [] (rteV 16)
      [({ addr := 1, m_dest := 0xC0A80000, m_destNetworkMask := 0xFFFF0000,
          m_gateway := 0, m_interface := 2, m_metric := 1,
          m_status := .RIPV2_VALID }, {})] []
      { addr := 2, m_dest := 0x0A000000, m_destNetworkMask := 0xFF000000,
        m_gateway := 0x0A000001, m_interface := 1, m_metric := 5,
        m_status := .RIPV2_VALID } { m_uid := some 7, m_ts := Seconds 100 }
      ribV_timers (by decide) rfl (by decide) rfl (by decide) (by decide) rfl).2.2.2.2⟩
theorem ribT_timers : ribT.Timers :=
  TimersOk.now ribV.m_routes ribV.sim ribV.heap ribV.m_nextTriggeredUpdate (Seconds 20)
    ribV_timers

/-- C35: the equal-metric tie-break.  The timers of the agent being in
order, as they are in every state it reaches, in an accepted Response, when
the loop reaches an RTE whose key a cell `(E, id)` of the table has,
`newMetric` is the metric of `E` and the sender is not the gateway of `E`.
If the delay left on the handle `id` is less than half the timeout delay,
after the RTE the cell at that place (the table has as many cells before and
after it as it had) holds a new route, an object that did not exist, with the
destination and mask of `E`, the sender as gateway, the arrival interface,
metric `newMetric`, status VALID, the tag of the RTE and `changed` set; the
event of `id` is not running and the new handle is armed for
`InvalidateRoute` on the new route at the full timeout delay; the variable
`changed` is set and the method ends with one call of
`SendTriggeredRouteUpdate`.  Otherwise the cell at that place is `(E, id)` as
before, and the event of `id` is as before: running or not, with the same
delay left, armed as it was.  Nothing is asked of the other cells, which may
hold the key too; when none does, the agent and the variable are as they
were. -/
theorem equal_metric_tie_break (s : Ripv2) (hdr : Ripv2Header) (sa ii ttl delay : Nat)
    (pre post : List Ripv2Rte) (rte : Ripv2Rte)
    (before after : List RouteCell) (E : Ripv2RoutingTableEntry) (id : EventId)
    (hT : s.Timers)
    (hacc : HandleResponses.Accepted s hdr ii ttl)
    (hsplit : hdr.m_rteList = pre ++ rte :: post)
    (hk : HandleResponses.interfaceMetric s ii < 16)
    (hs : (HandleResponses.reached s sa ii pre).1.m_routes = before ++ (E, id) :: after)
    (hkey : KeyOf rte (E, id))
    (heq : min (rte.m_metric + HandleResponses.interfaceMetric s ii) 16 = E.m_metric)
    (hgw : sa ≠ E.m_gateway) :
    let st := HandleResponses.reached s sa ii pre
    let st' := HandleResponses.onRte sa ii st rte
    let newMetric := min (rte.m_metric + HandleResponses.interfaceMetric s ii) 16
    s.HandleResponses hdr sa ii ttl delay = HandleResponses.finish sa ii st' post delay ∧
    (st.1.sim.GetDelayLeft id < s.m_timeoutDelay / 2 →
      ∃ before' after' E' id', st'.1.m_routes = before' ++ (E', id') :: after' ∧
        before'.length = before.length ∧ after'.length = after.length ∧
        ((∀ c ∈ before, ¬ KeyOf rte c) → before' = before) ∧
        ((∀ c ∈ after, ¬ KeyOf rte c) → after' = after) ∧
        st.1.heap ≤ E'.addr ∧ (∀ c ∈ st.1.m_routes, c.1.addr ≠ E'.addr) ∧
        E'.m_dest = E.m_dest ∧
        E'.m_destNetworkMask = E.m_destNetworkMask ∧ E'.m_gateway = sa ∧
        E'.m_interface = ii ∧ E'.m_tag = rte.m_tag ∧ E'.m_metric = newMetric ∧
        E'.m_status = .RIPV2_VALID ∧ E'.m_changed = true ∧
        st'.1.sim.Armed id' (.InvalidateRoute E'.addr) s.m_timeoutDelay ∧
        st'.1.sim.IsRunning id = false ∧
        st'.2 = true ∧
        (s.HandleResponses hdr sa ii ttl delay).triggeredUpdateCalls =
          s.triggeredUpdateCalls + 1) ∧
    (¬ st.1.sim.GetDelayLeft id < s.m_timeoutDelay / 2 →
      ∃ before' after', st'.1.m_routes = before' ++ (E, id) :: after' ∧
        before'.length = before.length ∧ after'.length = after.length ∧
        st'.1.sim.now = st.1.sim.now ∧
        st'.1.sim.IsRunning id = st.1.sim.IsRunning id ∧
        st'.1.sim.GetDelayLeft id = st.1.sim.GetDelayLeft id ∧
        (∀ impl d, st.1.sim.Armed id impl d → st'.1.sim.Armed id impl d) ∧
        ((∀ c ∈ before, ¬ KeyOf rte c) → (∀ c ∈ after, ¬ KeyOf rte c) → st' = st)) := by
  intro st st' newMetric
  have hset := HandleResponses.reached_settings s sa ii pre
  have hval := HandleResponses.validate_split pre post rte (hsplit ▸ hacc.2.2)
  have hm : HandleResponses.rteMetric st.1 ii rte = E.m_metric := by
    rw [HandleResponses.rteMetric_settings _ _ ii rte hset,
      HandleResponses.rteMetric_eq s ii rte hval.2 hk]
    exact heq
  have hTst : st.1.Timers := HandleResponses.foldl_timers sa ii pre (s, false) hT
  have hacc_eq := HandleResponses.accepted_eq s hdr sa ii ttl delay pre post rte hacc hsplit
  refine ⟨hacc_eq, ?_, ?_⟩
  · intro hleft
    have hleft' : st.1.sim.GetDelayLeft id < st.1.m_timeoutDelay / 2 := by
      rw [hset.2.1]; exact hleft
    obtain ⟨v, b', a', id', hr, hlb, hla, hub, hua, harm, hold, hch, _, hheap, _, _⟩ :=
      HandleResponses.onRte_rearm sa ii st rte before after (E, id) hs hkey hTst
        (fun v => { addr := v.heap, m_dest := CombineMask rte.m_IpAddress rte.m_SubnetMask,
                    m_destNetworkMask := rte.m_SubnetMask, m_gateway := sa, m_interface := ii,
                    m_tag := rte.m_tag, m_metric := E.m_metric, m_status := .RIPV2_VALID,
                    m_changed := true })
        (fun v => .InvalidateRoute v.heap) st.1.m_timeoutDelay (fun v => v.heap + 1)
        (fun _ => true)
        (by
          intro v hnow hrun
          rw [hm]
          have hl : v.sim.GetDelayLeft id < st.1.m_timeoutDelay / 2 := by
            rw [Simulator.GetDelayLeft_congr st.1.sim v.sim id hnow hrun]
            exact hleft'
          exact HandleResponses.onRoute_tie_replace _ _ _ _ _ _ _ _ (E, id) v hkey rfl hgw hl)
    have hchanged : st'.2 = true := hch rfl
    have hcalls : (s.HandleResponses hdr sa ii ttl delay).triggeredUpdateCalls =
        s.triggeredUpdateCalls + 1 := by
      rw [hacc_eq, HandleResponses.finish_calls sa ii st' post delay hchanged,
        (HandleResponses.onRte_settings sa ii st rte).2.2.2.2.2, hset.2.2.2.2.2]
    refine ⟨b', a', _, id', hr, hlb, hla, fun h => (hub h).1, fun h => (hua h).1, hheap, ?_,
      hkey.1.symm, hkey.2.symm, rfl, rfl, rfl, heq.symm, rfl, rfl, ?_, hold, hchanged, hcalls⟩
    · intro c hc hcv
      have := hTst.addr_lt c hc
      have hcv' : c.1.addr = v.heap := hcv
      omega
    · rw [← hset.2.1]
      exact harm
  · intro hleft
    have hleft' : ¬ st.1.sim.GetDelayLeft id < st.1.m_timeoutDelay / 2 := by
      rw [hset.2.1]; exact hleft
    exact HandleResponses.onRte_kept sa ii st rte before after (E, id) hs hkey hTst
      (by
        intro v hnow hrun
        rw [hm]
        have hl : ¬ v.sim.GetDelayLeft id < st.1.m_timeoutDelay / 2 := by
          rw [Simulator.GetDelayLeft_congr st.1.sim v.sim id hnow hrun]
          exact hleft'
        exact HandleResponses.onRoute_tie_keep _ _ _ _ _ _ _ _ (E, id) v hkey rfl hgw hl)

theorem equal_metric_tie_break_witness :
    ribT.Timers ∧ ribV.Timers ∧
      HandleResponses.Accepted ribV { m_command := 2, m_rteList := [rteV 4] } 1 255 ∧
      min ((rteV 4).m_metric + HandleResponses.interfaceMetric ribV 1) 16 = 5 ∧
      (0x0A000002 : Nat) ≠ 0x0A000001 ∧
      ribT.sim.GetDelayLeft { m_uid := some 7, m_ts := Seconds 100 } = Seconds 80 ∧
      ribV.sim.GetDelayLeft { m_uid := some 7, m_ts := Seconds 100 } = Seconds 90 ∧
      ribV.m_timeoutDelay / 2 = Seconds 90 ∧
      (ribT.HandleResponses { m_command := 2, m_rteList := [rteV 4] } 0x0A000002 1 255
        0).triggeredUpdateCalls = ribT.triggeredUpdateCalls + 1 ∧
      HandleResponses.onRte 0x0A000002 1 (HandleResponses.reached ribV 0x0A000002 1 [])
        (rteV 4) = HandleResponses.reached ribV 0x0A000002 1 [] := by
  refine ⟨ribT_timers, ribV_timers, by decide, by decide, by decide, by decide, by decide,
    by decide, ?_, ?_⟩
  · obtain ⟨b', a', E', id', h⟩ :=
      (equal_metric_tie_break ribT { m_command := 2, m_rteList := [rteV 4] } 0x0A000002 1 255 0
        [] [] (rteV 4)
        [({ addr := 1, m_dest := 0xC0A80000, m_destNetworkMask := 0xFFFF0000,
            m_gateway := 0, m_interface := 2, m_metric := 1,
            m_status := .RIPV2_VALID }, {})] []
        { addr := 2, m_dest := 0x0A000000, m_destNetworkMask := 0xFF000000,
          m_gateway := 0x0A000001, m_interface := 1, m_metric := 5,
          m_status := .RIPV2_VALID } { m_uid := some 7, m_ts := Seconds 100 }
        ribT_timers (by decide) rfl (by decide) rfl (by decide) (by decide)
        (by decide)).2.1 (by decide)
    exact h.2.2.2.2.2.2.2.2.2.2.2.2.2.2.2.2.2.2
  · obtain ⟨b', a', h⟩ :=
      (equal_metric_tie_break ribV { m_command := 2, m_rteList := [rteV 4] } 0x0A000002 1 255 0
        [] [] (rteV 4)
        [({ addr := 1, m_dest := 0xC0A80000, m_destNetworkMask := 0xFFFF0000,
            m_gateway := 0, m_interface := 2, m_metric := 1,
            m_status := .RIPV2_VALID }, {})] []
        { addr := 2, m_dest := 0x0A000000, m_destNetworkMask := 0xFF000000,
          m_gateway := 0x0A000001, m_interface := 1, m_metric := 5,
          m_status := .RIPV2_VALID } { m_uid := some 7, m_ts := Seconds 100 }
        ribV_timers (by decide) rfl (by decide) rfl (by decide) (by decide)
        (by decide)).2.2 (by decide)
    exact h.2.2.2.2.2.2.2 (by decide) (by decide)
/-- C7: the refresh rule, and what breaks its last clause.  The timers of the
agent being in order, as they are in every state it reaches, in an accepted
Response, when the loop reaches an RTE whose key a cell `(E, id)` of the table
has, `newMetric` is the metric of `E` and the sender is the gateway of `E`:
after the RTE the cell at that place (the table has as many cells before and
after it as it had) holds the same route `E`, every field as it was; the
event of `id` is not running and the new handle of the cell is armed for
`InvalidateRoute` on `E` at the full timeout delay.  When no other cell has
the key, the other cells are as before and the variable `changed` keeps its
value, so that a Response made of this RTE alone does not call
`SendTriggeredRouteUpdate` and leaves `m_nextTriggeredUpdate` as it was (in
`ribV`: 10.0.0.0/8 at metric 4 from 10.0.0.1, the timeout moves from 100 s to
190 s).  But
the table can hold the key twice.  After `runTwice` the table holds
10.0.1.0/24 learnt from 10.0.0.1 at metric 2, VALID, and 10.0.1.0/24 of
interface 2, INVALID at metric 16, and no triggered update is pending.  The
Response `packetM` from 10.0.0.1 with 10.0.1.0/24 at metric 1 then refreshes
the first (same fields, new handle) and, for the second, asks for a triggered
update: `SendTriggeredRouteUpdate` is called once more and a
`DoSendRouteUpdate (false)` event is pending. -/
theorem refresh_rule :
    (∀ (s : Ripv2) (hdr : Ripv2Header) (sa ii ttl delay : Nat)
      (pre post : List Ripv2Rte) (rte : Ripv2Rte)
      (before after : List RouteCell) (E : Ripv2RoutingTableEntry) (id : EventId),
      s.Timers →
      HandleResponses.Accepted s hdr ii ttl →
      hdr.m_rteList = pre ++ rte :: post →
      HandleResponses.interfaceMetric s ii < 16 →
      (HandleResponses.reached s sa ii pre).1.m_routes = before ++ (E, id) :: after →
      KeyOf rte (E, id) →
      min (rte.m_metric + HandleResponses.interfaceMetric s ii) 16 = E.m_metric →
      sa = E.m_gateway →
      let st := HandleResponses.reached s sa ii pre
      let st' := HandleResponses.onRte sa ii st rte
      s.HandleResponses hdr sa ii ttl delay = HandleResponses.finish sa ii st' post delay ∧
      ∃ before' after' id', st'.1.m_routes = before' ++ (E, id') :: after' ∧
        before'.length = before.length ∧ after'.length = after.length ∧
        st'.1.sim.Armed id' (.InvalidateRoute E.addr) s.m_timeoutDelay ∧
        st'.1.sim.IsRunning id = false ∧
        ((∀ c ∈ before, ¬ KeyOf rte c) → (∀ c ∈ after, ¬ KeyOf rte c) →
          before' = before ∧ after' = after ∧
          (id', st'.1.sim) =
            (st.1.sim.Cancel id).Schedule s.m_timeoutDelay (.InvalidateRoute E.addr) ∧
          st'.2 = st.2 ∧
          (pre = [] → post = [] →
            (s.HandleResponses hdr sa ii ttl delay).triggeredUpdateCalls =
              s.triggeredUpdateCalls ∧
            (s.HandleResponses hdr sa ii ttl delay).m_nextTriggeredUpdate =
              s.m_nextTriggeredUpdate))) ∧
    (HandleResponses.Accepted ribV { m_command := 2, m_rteList := [rteV 4] } 1 255 ∧
      cellsOf (ribV.HandleResponses { m_command := 2, m_rteList := [rteV 4] } 0x0A000001 1 255
        0) = cellsOf ribV ∧
      pendingOf ribV = [(Seconds 100, .InvalidateRoute 2)] ∧
      pendingOf (ribV.HandleResponses { m_command := 2, m_rteList := [rteV 4] } 0x0A000001 1
        255 0) = [(Seconds 190, .InvalidateRoute 2)] ∧
      (ribV.HandleResponses { m_command := 2, m_rteList := [rteV 4] } 0x0A000001 1 255
        0).triggeredUpdateCalls = ribV.triggeredUpdateCalls) ∧
    ((runIn id {} runTwice).map (fun s => s.sim.now) = some (Seconds 3 / 2) ∧
      (runIn id {} runTwice).map cellsOf =
        some [(0x0A000100, 0x0A000001, 2, .RIPV2_VALID, false),
              (0x0A000000, 0, 1, .RIPV2_VALID, false),
              (0x0A000100, 0, 16, .RIPV2_INVALID, false)] ∧
      (runIn id {} runTwice).map handlesOf = some [some 3, none, some 5] ∧
      (runIn id {} runTwice).map pendingOf =
        some [(Seconds 30, .SendUnsolicitedRouteUpdate), (Seconds 361 / 2, .InvalidateRoute 4),
              (Seconds 241 / 2, .DeleteRoute 5)] ∧
      (runIn id {} runTwice).map (fun s => s.triggeredUpdateCalls) = some 3 ∧
      (runIn id {} runTwice).map (fun s => s.sim.IsRunning s.m_nextTriggeredUpdate) =
        some false) ∧
    ((runIn id {} (runTwice ++ [(ipv4X, .receive packetM (Seconds 2))])).map cellsOf =
        some [(0x0A000100, 0x0A000001, 2, .RIPV2_VALID, false),
              (0x0A000000, 0, 1, .RIPV2_VALID, false),
              (0x0A000100, 0x0A000001, 2, .RIPV2_VALID, true)] ∧
      (runIn id {} (runTwice ++ [(ipv4X, .receive packetM (Seconds 2))])).map handlesOf =
        some [some 6, none, some 7] ∧
      (runIn id {} (runTwice ++ [(ipv4X, .receive packetM (Seconds 2))])).map pendingOf =
        some [(Seconds 30, .SendUnsolicitedRouteUpdate), (Seconds 363 / 2, .InvalidateRoute 4),
              (Seconds 363 / 2, .InvalidateRoute 6), (Seconds 7 / 2, .DoSendRouteUpdate false)] ∧
      (runIn id {} (runTwice ++ [(ipv4X, .receive packetM (Seconds 2))])).map
          (fun s => s.triggeredUpdateCalls) = some 4 ∧
      (runIn id {} (runTwice ++ [(ipv4X, .receive packetM (Seconds 2))])).map
          (fun s => s.sim.IsRunning s.m_nextTriggeredUpdate) = some true) := by
  refine ⟨?_, ⟨by decide, by decide, by decide, by decide, by decide⟩,
    ⟨by decide, by decide, by decide, by decide, by decide, by decide⟩,
    ⟨by decide, by decide, by decide, by decide, by decide⟩⟩
  intro s hdr sa ii ttl delay pre post rte before after E id hT hacc hsplit hk hs hkey heq hgw
    st st'
  have hset := HandleResponses.reached_settings s sa ii pre
  have hval := HandleResponses.validate_split pre post rte (hsplit ▸ hacc.2.2)
  have hm : HandleResponses.rteMetric st.1 ii rte = E.m_metric := by
    rw [HandleResponses.rteMetric_settings _ _ ii rte hset,
      HandleResponses.rteMetric_eq s ii rte hval.2 hk]
    exact heq
  have hTst : st.1.Timers := HandleResponses.foldl_timers sa ii pre (s, false) hT
  have hacc_eq := HandleResponses.accepted_eq s hdr sa ii ttl delay pre post rte hacc hsplit
  obtain ⟨v, b', a', id', hr, hlb, hla, hub, hua, harm, hold, _, _, _, _, _⟩ :=
    HandleResponses.onRte_rearm sa ii st rte before after (E, id) hs hkey hTst
      (fun _ => E) (fun _ => .InvalidateRoute E.addr) st.1.m_timeoutDelay (fun v => v.heap)
      (fun v => v.changed)
      (by
        intro v _ _
        rw [hm]
        exact HandleResponses.onRoute_refresh _ _ _ _ _ _ _ _ (E, id) v hkey rfl hgw)
  refine ⟨hacc_eq, b', a', id', hr, hlb, hla, ?_, hold, ?_⟩
  · rw [← hset.2.1]
    exact harm
  · intro hb ha
    obtain ⟨hb', hv⟩ := hub hb
    obtain ⟨ha', hc, hsim⟩ := hua ha
    have hst2 : st'.2 = st.2 := by
      rw [hc, hv]
    refine ⟨hb', ha', ?_, hst2, ?_⟩
    · rw [hsim, hv, hset.2.1]
    · intro hpre hpost
      have hst : st = (s, false) := by
        show HandleResponses.reached s sa ii pre = (s, false)
        rw [hpre]; rfl
      have hf : st'.2 = false := by rw [hst2, hst]
      have hs' := HandleResponses.onRte_settings sa ii st rte
      rw [hacc_eq, hpost]
      unfold HandleResponses.finish
      simp only [List.foldl_nil]
      rw [if_neg (by rw [hf]; exact Bool.false_ne_true)]
      exact ⟨hs'.2.2.2.2.2.trans (by rw [hst]), hs'.2.2.2.2.1.trans (by rw [hst])⟩
/-- C39: a worse advertisement from another neighbour, and what breaks the
last clause of the claim.  The timers of the agent being in order, as they
are in every state it reaches, in an accepted Response, when the loop reaches
an RTE whose key a cell `(E, id)` of the table has, `newMetric` is greater
than the metric of `E` and the sender is not the gateway of `E`: after the RTE
the cell at that place (the table has as many cells before and after it as it
had) is `(E, id)` as before, and the event of `id` is as before: running or
not, with the same delay left, armed as it was.  When no other cell has the
key, the turn of the loop leaves the agent as it was, table, handles,
simulator and all, and the variable `changed` keeps its value, so that a
Response made of this RTE alone returns the agent unchanged (in `ribV`:
10.0.0.0/8 at metric 8 from 10.0.0.2).  But the table can hold the key more
than once.  After `runDownUp` the table holds 10.0.0.0/24 three times, INVALID
at metric 16 and twice VALID at metric 1 without gateway, and no triggered
update is pending.  The Response `packetN` from 10.0.0.1 with 10.0.0.0/24 at
metric 1 is worse than the VALID cells, which it leaves as they were, but for
the INVALID cell it asks for a triggered update: `SendTriggeredRouteUpdate` is
called once more and a `DoSendRouteUpdate (false)` event is pending. -/
theorem worse_from_other_ignored :
    (∀ (s : Ripv2) (hdr : Ripv2Header) (sa ii ttl delay : Nat)
      (pre post : List Ripv2Rte) (rte : Ripv2Rte)
      (before after : List RouteCell) (E : Ripv2RoutingTableEntry) (id : EventId),
      s.Timers →
      HandleResponses.Accepted s hdr ii ttl →
      hdr.m_rteList = pre ++ rte :: post →
      HandleResponses.interfaceMetric s ii < 16 →
      (HandleResponses.reached s sa ii pre).1.m_routes = before ++ (E, id) :: after →
      KeyOf rte (E, id) →
      E.m_metric < min (rte.m_metric + HandleResponses.interfaceMetric s ii) 16 →
      sa ≠ E.m_gateway →
      let st := HandleResponses.reached s sa ii pre
      let st' := HandleResponses.onRte sa ii st rte
      s.HandleResponses hdr sa ii ttl delay = HandleResponses.finish sa ii st' post delay ∧
      ∃ before' after', st'.1.m_routes = before' ++ (E, id) :: after' ∧
        before'.length = before.length ∧ after'.length = after.length ∧
        st'.1.sim.now = st.1.sim.now ∧
        st'.1.sim.IsRunning id = st.1.sim.IsRunning id ∧
        st'.1.sim.GetDelayLeft id = st.1.sim.GetDelayLeft id ∧
        (∀ impl d, st.1.sim.Armed id impl d → st'.1.sim.Armed id impl d) ∧
        ((∀ c ∈ before, ¬ KeyOf rte c) → (∀ c ∈ after, ¬ KeyOf rte c) →
          st' = st ∧
          (pre = [] → post = [] → s.HandleResponses hdr sa ii ttl delay = s))) ∧
    (HandleResponses.Accepted ribV { m_command := 2, m_rteList := [rteV 8] } 1 255 ∧
      ribV.HandleResponses { m_command := 2, m_rteList := [rteV 8] } 0x0A000002 1 255 0 =
        ribV) ∧
    ((runIn id {} runDownUp).map (fun s => s.sim.now) = some (Seconds 3 / 2) ∧
      (runIn id {} runDownUp).map cellsOf =
        some [(0x0A000000, 0, 16, .RIPV2_INVALID, false),
              (0x0A000000, 0, 1, .RIPV2_VALID, false),
              (0x0A000000, 0, 1, .RIPV2_VALID, false)] ∧
      (runIn id {} runDownUp).map handlesOf = some [some 3, none, none] ∧
      (runIn id {} runDownUp).map pendingOf =
        some [(Seconds 30, .SendUnsolicitedRouteUpdate), (Seconds 241 / 2, .DeleteRoute 1)] ∧
      (runIn id {} runDownUp).map (fun s => s.triggeredUpdateCalls) = some 2 ∧
      (runIn id {} runDownUp).map (fun s => s.sim.IsRunning s.m_nextTriggeredUpdate) =
        some false) ∧
    ((runIn id {} (runDownUp ++ [(ipv4U, .receive packetN (Seconds 2))])).map cellsOf =
        some [(0x0A000000, 0x0A000001, 2, .RIPV2_VALID, true),
              (0x0A000000, 0, 1, .RIPV2_VALID, false),
              (0x0A000000, 0, 1, .RIPV2_VALID, false)] ∧
      (runIn id {} (runDownUp ++ [(ipv4U, .receive packetN (Seconds 2))])).map handlesOf =
        some [some 5, none, none] ∧
      (runIn id {} (runDownUp ++ [(ipv4U, .receive packetN (Seconds 2))])).map pendingOf =
        some [(Seconds 30, .SendUnsolicitedRouteUpdate), (Seconds 363 / 2, .InvalidateRoute 6),
              (Seconds 7 / 2, .DoSendRouteUpdate false)] ∧
      (runIn id {} (runDownUp ++ [(ipv4U, .receive packetN (Seconds 2))])).map
          (fun s => s.triggeredUpdateCalls) = some 3 ∧
      (runIn id {} (runDownUp ++ [(ipv4U, .receive packetN (Seconds 2))])).map
          (fun s => s.sim.IsRunning s.m_nextTriggeredUpdate) = some true) := by
  refine ⟨?_, ⟨by decide, by decide⟩,
    ⟨by decide, by decide, by decide, by decide, by decide, by decide⟩,
    ⟨by decide, by decide, by decide, by decide, by decide⟩⟩
  intro s hdr sa ii ttl delay pre post rte before after E id hT hacc hsplit hk hs hkey hgt hgw
    st st'
  have hset := HandleResponses.reached_settings s sa ii pre
  have hval := HandleResponses.validate_split pre post rte (hsplit ▸ hacc.2.2)
  have hm : HandleResponses.rteMetric st.1 ii rte =
      min (rte.m_metric + HandleResponses.interfaceMetric s ii) 16 := by
    rw [HandleResponses.rteMetric_settings _ _ ii rte hset]
    exact HandleResponses.rteMetric_eq s ii rte hval.2 hk
  have hTst : st.1.Timers := HandleResponses.foldl_timers sa ii pre (s, false) hT
  have hacc_eq := HandleResponses.accepted_eq s hdr sa ii ttl delay pre post rte hacc hsplit
  obtain ⟨b', a', hr, hlb, hla, hnow, hrun, hleft, harm, huniq⟩ :=
    HandleResponses.onRte_kept sa ii st rte before after (E, id) hs hkey hTst
      (by
        intro v _ _
        rw [hm]
        exact HandleResponses.onRoute_worse_other _ _ _ _ _ _ _ _ (E, id) v hkey hgt hgw)
  refine ⟨hacc_eq, b', a', hr, hlb, hla, hnow, hrun, hleft, harm, ?_⟩
  intro hb ha
  have heq : st' = st := huniq hb ha
  refine ⟨heq, ?_⟩
  intro hpre hpost
  have hst : st = (s, false) := by
    show HandleResponses.reached s sa ii pre = (s, false)
    rw [hpre]; rfl
  have hst' : st' = (s, false) := heq.trans hst
  have hst'' : HandleResponses.onRte sa ii (HandleResponses.reached s sa ii pre) rte =
      (s, false) := hst'
  rw [hacc_eq, hpost, hst'']
  unfold HandleResponses.finish
  simp only [List.foldl_nil, Bool.false_eq_true, if_false]
/-! ## Where the cells without a timer come from -/

namespace Ripv2

theorem HandlesFrom.refl (b : Bool) (s : Ripv2) : HandlesFrom b s s :=
  ⟨Nat.le_refl _, fun c hc hu => Or.inl ⟨c, hc, rfl, hu⟩⟩

theorem HandlesFrom.of_cells (b : Bool) (s s' : Ripv2) (hh : s.heap ≤ s'.heap)
    (h : ∀ c' ∈ s'.m_routes, c'.2.m_uid = none →
      ∃ c ∈ s.m_routes, c.1.addr = c'.1.addr ∧ c.2.m_uid = none) : HandlesFrom b s s' :=
  ⟨hh, fun c hc hu => Or.inl (h c hc hu)⟩

theorem HandlesFrom.of_subset (b : Bool) (s s' : Ripv2) (hh : s.heap ≤ s'.heap)
    (h : ∀ c' ∈ s'.m_routes, c'.2.m_uid = none → c' ∈ s.m_routes) : HandlesFrom b s s' :=
  ⟨hh, fun c hc hu => Or.inl ⟨c, h c hc hu, rfl, hu⟩⟩

theorem HandlesFrom.of_routes (b : Bool) (s s' : Ripv2) (hh : s.heap ≤ s'.heap)
    (hr : s'.m_routes = s.m_routes) : HandlesFrom b s s' :=
  HandlesFrom.of_subset b s s' hh (fun _ hc _ => hr ▸ hc)

theorem HandlesFrom.trans (b : Bool) (s t u : Ripv2) (h1 : HandlesFrom b s t)
    (h2 : HandlesFrom b t u) : HandlesFrom b s u := by
  refine ⟨Nat.le_trans h1.1 h2.1, ?_⟩
  intro c hc hu
  rcases h2.2 c hc hu with ⟨c1, hc1, ha1, hu1⟩ | ⟨hb, hle⟩
  · rcases h1.2 c1 hc1 hu1 with ⟨c0, hc0, ha0, hu0⟩ | ⟨hb, hle⟩
    · exact Or.inl ⟨c0, hc0, ha0.trans ha1, hu0⟩
    · exact Or.inr ⟨hb, by rw [← ha1]; exact hle⟩
  · exact Or.inr ⟨hb, Nat.le_trans h1.1 hle⟩

theorem HandlesFrom.weaken (b : Bool) (s s' : Ripv2) (h : HandlesFrom false s s') :
    HandlesFrom b s s' := by
  refine ⟨h.1, ?_⟩
  intro c hc hu
  rcases h.2 c hc hu with h1 | ⟨hb, _⟩
  · exact Or.inl h1
  · cases hb

theorem HandlesFrom.lenient (b : Bool) (s s' : Ripv2) (h : HandlesFrom b s s') :
    HandlesFrom true s s' :=
  ⟨h.1, fun c hc hu => (h.2 c hc hu).elim Or.inl (fun h' => Or.inr ⟨rfl, h'.2⟩)⟩

theorem HandlesFrom_AddNetworkRouteTo3 (s : Ripv2) (net mask i : Nat) :
    HandlesFrom true s (s.AddNetworkRouteTo3 net mask i) := by
  refine ⟨Nat.le_succ _, ?_⟩
  intro c hc hu
  unfold AddNetworkRouteTo3 at hc
  simp only [List.mem_append, List.mem_singleton] at hc
  rcases hc with hc | hc
  · exact Or.inl ⟨c, hc, rfl, hu⟩
  · right
    rw [hc]
    exact ⟨rfl, Nat.le_refl _⟩

theorem HandlesFrom_AddNetworkRouteTo4 (s : Ripv2) (net mask gw i : Nat) :
    HandlesFrom true s (s.AddNetworkRouteTo4 net mask gw i) := by
  refine ⟨Nat.le_succ _, ?_⟩
  intro c hc hu
  unfold AddNetworkRouteTo4 at hc
  simp only [List.mem_append, List.mem_singleton] at hc
  rcases hc with hc | hc
  · exact Or.inl ⟨c, hc, rfl, hu⟩
  · right
    rw [hc]
    exact ⟨rfl, Nat.le_refl _⟩

theorem SendTriggeredRouteUpdate_heap (s : Ripv2) (delay : Nat) :
    (s.SendTriggeredRouteUpdate delay).heap = s.heap := by
  unfold SendTriggeredRouteUpdate
  simp only []
  split_ifs <;> rfl

theorem HandlesFrom_SendTriggeredRouteUpdate (b : Bool) (s : Ripv2) (delay : Nat) :
    HandlesFrom b s (s.SendTriggeredRouteUpdate delay) :=
  HandlesFrom.of_routes b _ _ (Nat.le_of_eq (SendTriggeredRouteUpdate_heap s delay).symm)
    (SendTriggeredRouteUpdate_routes s delay)

theorem InvalidateRoute.onCell_handle (gd : Nat) (sim : Simulator) (cell : RouteCell) :
    (InvalidateRoute.onCell gd sim cell).1.2.m_uid ≠ none := by
  unfold InvalidateRoute.onCell Simulator.Schedule
  simp

theorem HandleResponses.onRoute_handle (td gd sa ii ra rm rme tag : Nat) (cell : RouteCell)
    (v : HandleResponses.Vars) :
    (HandleResponses.onRoute td gd sa ii ra rm rme tag cell v).1.2.m_uid = none →
      (HandleResponses.onRoute td gd sa ii ra rm rme tag cell v).1 = cell := by
  have hi := InvalidateRoute.onCell_handle gd ((v.sim.Cancel cell.2)) cell
  unfold HandleResponses.onRoute
  simp only []
  split_ifs <;> intro h <;>
    first
      | rfl
      | exact absurd h hi
      | (exfalso; simp [Simulator.Schedule] at h)

theorem HandleResponses.routesLoop_handle (td gd sa ii ra rm rme tag : Nat) :
    ∀ (l : List RouteCell) (v : HandleResponses.Vars),
      ∀ c ∈ (HandleResponses.routesLoop td gd sa ii ra rm rme tag l v).1, c.2.m_uid = none →
        c ∈ l := by
  intro l
  induction l with
  | nil => intro v c hc; cases hc
  | cons x rest ih =>
    intro v c hc hu
    unfold HandleResponses.routesLoop at hc
    simp only [List.mem_cons] at hc
    rcases hc with hc | hc
    · rw [hc] at hu
      rw [hc, HandleResponses.onRoute_handle td gd sa ii ra rm rme tag x v hu]
      exact List.mem_cons_self _ _
    · exact List.mem_cons_of_mem _ (ih _ c hc hu)

theorem HandleResponses.onRte_handlesFrom (sa ii : Nat) (st : Ripv2 × Bool) (rte : Ripv2Rte) :
    HandlesFrom false st.1 (HandleResponses.onRte sa ii st rte).1 := by
  have hh := HandleResponses.routesLoop_heap_le st.1.m_timeoutDelay
    st.1.m_garbageCollectionDelay sa ii (CombineMask rte.m_IpAddress rte.m_SubnetMask)
    rte.m_SubnetMask (HandleResponses.rteMetric st.1 ii rte) rte.m_tag st.1.m_routes
    { sim := st.1.sim, heap := st.1.heap, found := false, changed := st.2 }
  have hl := HandleResponses.routesLoop_handle st.1.m_timeoutDelay
    st.1.m_garbageCollectionDelay sa ii (CombineMask rte.m_IpAddress rte.m_SubnetMask)
    rte.m_SubnetMask (HandleResponses.rteMetric st.1 ii rte) rte.m_tag st.1.m_routes
    { sim := st.1.sim, heap := st.1.heap, found := false, changed := st.2 }
  unfold HandleResponses.onRte
  simp only []
  split_ifs
  · apply HandlesFrom.of_subset
    · exact Nat.le_trans hh (Nat.le_succ _)
    · intro c hc hu
      simp only [List.mem_cons] at hc
      rcases hc with hc | hc
      · rw [hc] at hu
        simp [Simulator.Schedule] at hu
      · exact hl c hc hu
  · exact HandlesFrom.of_subset _ _ _ hh hl

theorem HandleResponses.foldl_handlesFrom (sa ii : Nat) (rtes : List Ripv2Rte) :
    ∀ (st : Ripv2 × Bool),
      HandlesFrom false st.1 (rtes.foldl (HandleResponses.onRte sa ii) st).1 := by
  induction rtes with
  | nil => intro st; exact HandlesFrom.refl _ _
  | cons r rest ih =>
    intro st
    exact HandlesFrom.trans _ _ _ _ (HandleResponses.onRte_handlesFrom sa ii st r) (ih _)

theorem HandlesFrom_HandleResponses (s : Ripv2) (hdr : Ripv2Header) (sa ii ttl delay : Nat) :
    HandlesFrom false s (s.HandleResponses hdr sa ii ttl delay) := by
  unfold Ripv2.HandleResponses
  simp only []
  have hf := HandleResponses.foldl_handlesFrom sa ii hdr.m_rteList (s, false)
  split_ifs
  · exact HandlesFrom.refl _ _
  · exact HandlesFrom.refl _ _
  · exact HandlesFrom.refl _ _
  · exact HandlesFrom.trans _ _ _ _ hf (HandlesFrom_SendTriggeredRouteUpdate _ _ _)
  · exact hf

theorem HandlesFrom_Receive (s s' : Ripv2) (ipv4 : Ipv4) (gd : Nat → Nat) (packet : Packet)
    (delay : Nat) (hr : s.Receive ipv4 gd packet delay = .ok s') : HandlesFrom false s s' := by
  unfold Ripv2.Receive at hr
  split at hr
  · cases hr
  · split at hr
    · cases hr
    · split at hr
      · cases hr
      · simp only [] at hr
        split_ifs at hr
        · cases hr; exact HandlesFrom.refl _ _
        · split at hr
          · cases hr
          · split_ifs at hr
            · cases hr; exact HandlesFrom_HandleResponses _ _ _ _ _ _
            · obtain ⟨h1, _, h3, _⟩ := HandleRequests_frame _ _ _ _ _ _ _ _ hr
              exact HandlesFrom.of_routes _ _ _ (Nat.le_of_eq h3.symm) h1
            · cases hr; exact HandlesFrom.refl _ _

theorem InvalidateRoute.loop_handle (gd route : Nat) :
    ∀ (l : List RouteCell) (sim : Simulator) (r : List RouteCell × Simulator),
      InvalidateRoute.loop gd route l sim = some r →
        ∀ c ∈ r.1, c.2.m_uid = none → c ∈ l := by
  intro l
  induction l with
  | nil => intro sim r h; cases h
  | cons x rest ih =>
    intro sim r h c hc hu
    unfold InvalidateRoute.loop at h
    split_ifs at h
    · simp only [Option.some.injEq] at h
      rw [← h] at hc
      simp only [List.mem_cons] at hc
      rcases hc with hc | hc
      · rw [hc] at hu
        exact absurd hu (InvalidateRoute.onCell_handle gd sim x)
      · exact List.mem_cons_of_mem _ hc
    · cases hl : InvalidateRoute.loop gd route rest sim with
      | none => rw [hl] at h; cases h
      | some r' =>
        rw [hl] at h
        simp only [Option.some.injEq] at h
        rw [← h] at hc
        simp only [List.mem_cons] at hc
        rcases hc with hc | hc
        · rw [hc]; exact List.mem_cons_self _ _
        · exact List.mem_cons_of_mem _ (ih sim r' hl c hc hu)

theorem HandlesFrom_InvalidateRoute (s s' : Ripv2) (route : Nat)
    (h : s.InvalidateRoute route = .ok s') : HandlesFrom false s s' := by
  unfold Ripv2.InvalidateRoute at h
  cases hl : InvalidateRoute.loop s.m_garbageCollectionDelay route s.m_routes s.sim with
  | none => rw [hl] at h; cases h
  | some r =>
    rw [hl] at h
    cases h
    exact HandlesFrom.of_subset _ _ _ (Nat.le_refl _)
      (InvalidateRoute.loop_handle _ _ _ _ _ hl)

theorem DeleteRoute.loop_subset (route : Nat) :
    ∀ (l r : List RouteCell), DeleteRoute.loop route l = some r → ∀ c ∈ r, c ∈ l := by
  intro l
  induction l with
  | nil => intro r h; cases h
  | cons x rest ih =>
    intro r h c hc
    unfold DeleteRoute.loop at h
    split_ifs at h
    · simp only [Option.some.injEq] at h
      rw [← h] at hc
      exact List.mem_cons_of_mem _ hc
    · cases hl : DeleteRoute.loop route rest with
      | none => rw [hl] at h; cases h
      | some r' =>
        rw [hl] at h
        simp only [Option.some.injEq] at h
        rw [← h] at hc
        simp only [List.mem_cons] at hc
        rcases hc with hc | hc
        · rw [hc]; exact List.mem_cons_self _ _
        · exact List.mem_cons_of_mem _ (ih r' hl c hc)

theorem HandlesFrom_DeleteRoute (s s' : Ripv2) (route : Nat)
    (h : s.DeleteRoute route = .ok s') : HandlesFrom false s s' := by
  unfold Ripv2.DeleteRoute at h
  cases hl : DeleteRoute.loop route s.m_routes with
  | none => rw [hl] at h; cases h
  | some r =>
    rw [hl] at h
    cases h
    exact HandlesFrom.of_subset _ _ _ (Nat.le_refl _)
      (fun c hc _ => DeleteRoute.loop_subset _ _ _ hl c hc)

theorem InvalidateRoute.each_handle (test : Ripv2RoutingTableEntry → Bool) (gd : Nat) :
    ∀ (l : List RouteCell) (sim : Simulator),
      ∀ c ∈ (InvalidateRoute.each test gd l sim).1, c.2.m_uid = none → c ∈ l := by
  intro l
  induction l with
  | nil => intro sim c hc; cases hc
  | cons x rest ih =>
    intro sim c hc hu
    unfold InvalidateRoute.each at hc
    split_ifs at hc
    · simp only [List.mem_cons] at hc
      rcases hc with hc | hc
      · rw [hc] at hu
        exact absurd hu (InvalidateRoute.onCell_handle gd sim x)
      · exact List.mem_cons_of_mem _ (ih _ c hc hu)
    · simp only [List.mem_cons] at hc
      rcases hc with hc | hc
      · rw [hc]; exact List.mem_cons_self _ _
      · exact List.mem_cons_of_mem _ (ih _ c hc hu)

theorem HandlesFrom_DoSendRouteUpdate (s : Ripv2) (ipv4 : Ipv4) (periodic : Bool) :
    HandlesFrom false s (s.DoSendRouteUpdate ipv4 periodic) := by
  refine HandlesFrom.of_cells false s (s.DoSendRouteUpdate ipv4 periodic) (Nat.le_refl _) ?_
  intro c hc hu
  unfold DoSendRouteUpdate at hc
  simp only [List.mem_map] at hc
  obtain ⟨c0, hc0, h0⟩ := hc
  rw [← h0] at hu ⊢
  exact ⟨c0, hc0, rfl, hu⟩

theorem HandlesFrom_SendUnsolicitedRouteUpdate (s : Ripv2) (ipv4 : Ipv4) (delay : Nat) :
    HandlesFrom false s (s.SendUnsolicitedRouteUpdate ipv4 delay) := by
  unfold SendUnsolicitedRouteUpdate
  simp only []
  have h1 : HandlesFrom false s (if s.sim.IsRunning s.m_nextTriggeredUpdate = true then
      { s with sim := s.sim.Cancel s.m_nextTriggeredUpdate } else s) := by
    split_ifs
    · exact HandlesFrom.of_routes _ _ _ (Nat.le_refl _) rfl
    · exact HandlesFrom.refl _ _
  generalize (if s.sim.IsRunning s.m_nextTriggeredUpdate = true then
      { s with sim := s.sim.Cancel s.m_nextTriggeredUpdate } else s) = t at h1 ⊢
  have h2 := HandlesFrom.trans _ _ _ _ h1 (HandlesFrom_DoSendRouteUpdate t ipv4 true)
  generalize t.DoSendRouteUpdate ipv4 true = t2 at h2 ⊢
  exact ⟨h2.1, h2.2⟩

theorem NotifyInterfaceUp.firstLoop_handlesFrom (i : Nat) (l : List Ipv4InterfaceAddress) :
    ∀ (s : Ripv2), HandlesFrom true s (NotifyInterfaceUp.firstLoop i l s) := by
  induction l with
  | nil => intro s; exact HandlesFrom.refl _ _
  | cons x rest ih =>
    intro s
    unfold NotifyInterfaceUp.firstLoop
    simp only []
    apply HandlesFrom.trans _ _ _ _ _ (ih _)
    split_ifs
    · exact HandlesFrom_AddNetworkRouteTo3 _ _ _ _
    · exact HandlesFrom_AddNetworkRouteTo3 _ _ _ _
    · exact HandlesFrom.refl _ _

theorem NotifyInterfaceUp.secondLoop_handlesFrom (i : Nat) (f a : Bool) (delay : Nat)
    (l : List Ipv4InterfaceAddress) :
    ∀ (s : Ripv2), HandlesFrom true s (NotifyInterfaceUp.secondLoop i f a delay l s) := by
  induction l with
  | nil => intro s; exact HandlesFrom.refl _ _
  | cons x rest ih =>
    intro s
    unfold NotifyInterfaceUp.secondLoop
    simp only []
    apply HandlesFrom.trans _ _ _ _ _ (ih _)
    have h1 := HandlesFrom_AddNetworkRouteTo3 s (CombineMask x.m_local x.m_mask) x.m_mask i
    generalize s.AddNetworkRouteTo3 (CombineMask x.m_local x.m_mask) x.m_mask i = t at h1 ⊢
    split_ifs
    · exact HandlesFrom.trans _ _ _ _ h1
        (HandlesFrom.of_routes _ _ _ (Nat.le_succ _) rfl)
    · exact HandlesFrom.trans _ _ _ _ h1 (HandlesFrom_SendTriggeredRouteUpdate _ _ _)
    · exact h1

theorem HandlesFrom_NotifyInterfaceUp (s : Ripv2) (ipv4 : Ipv4) (i delay : Nat) :
    HandlesFrom true s (s.NotifyInterfaceUp ipv4 i delay) := by
  unfold NotifyInterfaceUp
  simp only []
  have h1 := NotifyInterfaceUp.firstLoop_handlesFrom i (ipv4.GetAddresses i) s
  generalize NotifyInterfaceUp.firstLoop i (ipv4.GetAddresses i) s = t at h1 ⊢
  split_ifs
  · exact h1
  · have h2 := NotifyInterfaceUp.secondLoop_handlesFrom i
      (t.m_sendSocketList.any (fun sock => decide (sock.2 = i)))
      (decide (i ∉ t.m_interfaceExclusions)) delay (ipv4.GetAddresses i) t
    generalize NotifyInterfaceUp.secondLoop i
      (t.m_sendSocketList.any (fun sock => decide (sock.2 = i)))
      (decide (i ∉ t.m_interfaceExclusions)) delay (ipv4.GetAddresses i) t = t2 at h2 ⊢
    apply HandlesFrom.trans _ _ _ _ (HandlesFrom.trans _ _ _ _ h1 h2)
    split
    · exact HandlesFrom.of_routes _ _ _ (Nat.le_succ _) rfl
    · exact HandlesFrom.refl _ _

theorem HandlesFrom_NotifyInterfaceDown (s : Ripv2) (interface delay : Nat) :
    HandlesFrom false s (s.NotifyInterfaceDown interface delay) := by
  unfold NotifyInterfaceDown
  simp only []
  have h1 := InvalidateRoute.each_handle (fun e => decide (e.m_interface = interface))
    s.m_garbageCollectionDelay s.m_routes s.sim
  generalize InvalidateRoute.each (fun e => decide (e.m_interface = interface))
    s.m_garbageCollectionDelay s.m_routes s.sim = r at h1 ⊢
  have h2 : HandlesFrom false s
      { s with m_routes := r.1, sim := r.2,
               m_sendSocketList :=
                 NotifyInterfaceDown.eraseSocket interface s.m_sendSocketList } :=
    HandlesFrom.of_subset false s _ (Nat.le_refl _) h1
  split_ifs
  · exact h2
  · exact HandlesFrom.trans _ _ _ _ h2 (HandlesFrom_SendTriggeredRouteUpdate _ _ _)

theorem HandlesFrom_NotifyAddAddress (s : Ripv2) (ipv4 : Ipv4) (interface : Nat)
    (address : Ipv4InterfaceAddress) (delay : Nat) :
    HandlesFrom true s (s.NotifyAddAddress ipv4 interface address delay) := by
  unfold NotifyAddAddress
  simp only []
  split_ifs
  · exact HandlesFrom.refl _ _
  · exact HandlesFrom.refl _ _
  · exact HandlesFrom.trans _ _ _ _ (HandlesFrom_AddNetworkRouteTo3 _ _ _ _)
      (HandlesFrom_SendTriggeredRouteUpdate _ _ _)
  · exact HandlesFrom_SendTriggeredRouteUpdate _ _ _

theorem HandlesFrom_NotifyRemoveAddress (s : Ripv2) (ipv4 : Ipv4) (interface : Nat)
    (address : Ipv4InterfaceAddress) (delay : Nat) :
    HandlesFrom false s (s.NotifyRemoveAddress ipv4 interface address delay) := by
  unfold NotifyRemoveAddress
  simp only []
  have h1 := InvalidateRoute.each_handle
    (fun e => decide (e.m_interface = interface) && e.IsNetwork &&
      decide (e.m_dest = CombineMask address.m_local address.m_mask) &&
      decide (e.m_destNetworkMask = address.m_mask))
    s.m_garbageCollectionDelay s.m_routes s.sim
  generalize InvalidateRoute.each
    (fun e => decide (e.m_interface = interface) && e.IsNetwork &&
      decide (e.m_dest = CombineMask address.m_local address.m_mask) &&
      decide (e.m_destNetworkMask = address.m_mask))
    s.m_garbageCollectionDelay s.m_routes s.sim = r at h1 ⊢
  have h2 : HandlesFrom false s { s with m_routes := r.1, sim := r.2 } :=
    HandlesFrom.of_subset false s _ (Nat.le_refl _) h1
  split_ifs
  · exact HandlesFrom.refl _ _
  · exact h2
  · exact HandlesFrom.trans _ _ _ _ h2 (HandlesFrom_SendTriggeredRouteUpdate _ _ _)

theorem SetIpv4.loop_handlesFrom (ipv4 : Ipv4) (delay : Nat) (n : Nat) :
    ∀ (i : Nat) (s : Ripv2), HandlesFrom true s (SetIpv4.loop ipv4 delay n i s) := by
  induction n with
  | zero => intro i s; exact HandlesFrom.refl _ _
  | succ n ih =>
    intro i s
    unfold SetIpv4.loop
    simp only []
    apply HandlesFrom.trans _ _ _ _ _ (ih _ _)
    split_ifs
    · exact HandlesFrom_NotifyInterfaceUp _ _ _ _
    · exact HandlesFrom.weaken _ _ _ (HandlesFrom_NotifyInterfaceDown _ _ _)

theorem HandlesFrom_SetIpv4 (s s' : Ripv2) (ipv4 : Ipv4) (delay : Nat)
    (h : s.SetIpv4 ipv4 delay = .ok s') : HandlesFrom true s s' := by
  unfold Ripv2.SetIpv4 at h
  split_ifs at h
  simp only [Except.ok.injEq] at h
  rw [← h]
  exact HandlesFrom.trans _ s { s with hasIpv4 := true } _
    (HandlesFrom.of_routes _ _ _ (Nat.le_refl _) rfl) (SetIpv4.loop_handlesFrom ipv4 delay _ _ _)

theorem DoInitialize.addressLoop_heap (i : Nat) (a : Bool) (l : List Ipv4InterfaceAddress) :
    ∀ (st : Ripv2 × Bool), st.1.heap ≤ (DoInitialize.addressLoop i a l st).1.heap := by
  induction l with
  | nil => intro st; exact Nat.le_refl _
  | cons x rest ih =>
    intro st
    unfold DoInitialize.addressLoop
    simp only []
    refine Nat.le_trans ?_ (ih _)
    split_ifs
    · exact Nat.le_succ _
    · exact Nat.le_refl _
    · exact Nat.le_refl _

theorem DoInitialize.interfaceLoop_heap (ipv4 : Ipv4) (n : Nat) :
    ∀ (i : Nat) (st : Ripv2 × Bool),
      st.1.heap ≤ (DoInitialize.interfaceLoop ipv4 n i st).1.heap := by
  induction n with
  | zero => intro i st; exact Nat.le_refl _
  | succ n ih =>
    intro i st
    unfold DoInitialize.interfaceLoop
    simp only []
    exact Nat.le_trans (DoInitialize.addressLoop_heap _ _ _ _) (ih _ _)

theorem DoInitialize_heap (s : Ripv2) (ipv4 : Ipv4) (d1 d2 d3 : Nat) :
    s.heap ≤ (s.DoInitialize ipv4 d1 d2 d3).heap := by
  unfold DoInitialize
  simp only []
  have h := DoInitialize.interfaceLoop_heap ipv4 ipv4.GetNInterfaces 0
    ({ s with m_initialized := true,
              m_nextUnsolicitedUpdate := (s.sim.Schedule d1 .SendUnsolicitedRouteUpdate).1,
              sim := (s.sim.Schedule d1 .SendUnsolicitedRouteUpdate).2 }, false)
  generalize DoInitialize.interfaceLoop ipv4 ipv4.GetNInterfaces 0
    ({ s with m_initialized := true,
              m_nextUnsolicitedUpdate := (s.sim.Schedule d1 .SendUnsolicitedRouteUpdate).1,
              sim := (s.sim.Schedule d1 .SendUnsolicitedRouteUpdate).2 }, false) = st at h ⊢
  rcases st with ⟨t, b⟩
  simp only [] at h ⊢
  refine Nat.le_trans h ?_
  cases b <;> cases hr : t.m_recvSocket <;> simp

theorem HandlesFrom_DoInitialize (s : Ripv2) (ipv4 : Ipv4) (d1 d2 d3 : Nat) :
    HandlesFrom false s (s.DoInitialize ipv4 d1 d2 d3) :=
  HandlesFrom.of_routes _ _ _ (DoInitialize_heap s ipv4 d1 d2 d3)
    (DoInitialize_routes s ipv4 d1 d2 d3)

end Ripv2
theorem step_handlesFrom (ipv4 : Ipv4) (gd : Nat → Nat) (s s' : Ripv2) (op : Op)
    (hs : step ipv4 gd s op = some s') : s.HandlesFrom op.AddsNetworkRoute s' := by
  cases op with
  | runEvent delay =>
    simp only [step] at hs
    split at hs
    · cases hs
    · rename_i e hnext
      try simp only [] at hs
      have h0 : s.HandlesFrom false
          ({ s with
             sim := { s.sim with
                      now := e.ts
                      events := s.sim.events.filter (fun x => decide (x.uid ≠ e.uid)) } } :
            Ripv2) := Ripv2.HandlesFrom.of_routes _ _ _ (Nat.le_refl _) rfl
      split_ifs at hs with hc
      · cases hs
        exact h0
      · split at hs
        · rename_i route hi
          cases hr : ({ s with
              sim := { s.sim with
                       now := e.ts
                       events := s.sim.events.filter (fun x => decide (x.uid ≠ e.uid)) } } :
            Ripv2).InvalidateRoute route with
          | error err => rw [hr] at hs; cases hs
          | ok t =>
            rw [hr] at hs
            cases hs
            exact Ripv2.HandlesFrom.trans _ _ _ _ h0 (Ripv2.HandlesFrom_InvalidateRoute _ _ _ hr)
        · rename_i route hi
          cases hr : ({ s with
              sim := { s.sim with
                       now := e.ts
                       events := s.sim.events.filter (fun x => decide (x.uid ≠ e.uid)) } } :
            Ripv2).DeleteRoute route with
          | error err => rw [hr] at hs; cases hs
          | ok t =>
            rw [hr] at hs
            cases hs
            exact Ripv2.HandlesFrom.trans _ _ _ _ h0 (Ripv2.HandlesFrom_DeleteRoute _ _ _ hr)
        · cases hs
          exact Ripv2.HandlesFrom.trans _ _ _ _ h0 (Ripv2.HandlesFrom_DoSendRouteUpdate _ _ _)
        · cases hs
          exact Ripv2.HandlesFrom.trans _ _ _ _ h0
            (Ripv2.HandlesFrom_SendUnsolicitedRouteUpdate _ _ _)
        · cases hs
          exact Ripv2.HandlesFrom.trans _ _ _ _ h0
            (Ripv2.HandlesFrom.of_routes _ _ _ (Nat.le_refl _) rfl)
  | advance ticks =>
    simp only [step] at hs
    split_ifs at hs
    cases hs
    exact Ripv2.HandlesFrom.of_routes _ _ _ (Nat.le_refl _) rfl
  | receive packet delay =>
    simp only [step] at hs
    split_ifs at hs
    cases hr : s.Receive ipv4 gd packet delay with
    | error e => rw [hr] at hs; cases hs
    | ok s'' =>
      rw [hr] at hs
      cases hs
      exact Ripv2.HandlesFrom_Receive _ _ _ _ _ _ hr
  | addDefaultRouteTo nextHop interface =>
    simp only [step, Option.some.injEq] at hs
    rw [← hs]
    exact Ripv2.HandlesFrom_AddNetworkRouteTo4 s 0 0 nextHop interface
  | setInterfaceMetric interface metric =>
    simp only [step, Option.some.injEq] at hs
    rw [← hs]
    unfold Ripv2.SetInterfaceMetric
    split_ifs
    · exact Ripv2.HandlesFrom.of_routes _ _ _ (Nat.le_refl _) rfl
    · exact Ripv2.HandlesFrom.refl _ _
  | setInterfaceExclusions exceptions =>
    simp only [step, Option.some.injEq] at hs
    rw [← hs]
    exact Ripv2.HandlesFrom.of_routes _ _ _ (Nat.le_refl _) rfl
  | setIpv4 delay =>
    simp only [step] at hs
    cases hr : s.SetIpv4 ipv4 delay with
    | error e => rw [hr] at hs; cases hs
    | ok s'' =>
      rw [hr] at hs
      cases hs
      exact Ripv2.HandlesFrom_SetIpv4 _ _ _ _ hr
  | doInitialize d1 d2 d3 =>
    simp only [step] at hs
    split_ifs at hs
    simp only [Option.some.injEq] at hs
    rw [← hs]
    exact Ripv2.HandlesFrom_DoInitialize _ _ _ _ _
  | notifyInterfaceUp i delay =>
    simp only [step] at hs
    split_ifs at hs
    simp only [Option.some.injEq] at hs
    rw [← hs]
    exact Ripv2.HandlesFrom_NotifyInterfaceUp _ _ _ _
  | notifyInterfaceDown interface delay =>
    simp only [step, Option.some.injEq] at hs
    rw [← hs]
    exact Ripv2.HandlesFrom_NotifyInterfaceDown _ _ _
  | notifyAddAddress interface address delay =>
    simp only [step] at hs
    split_ifs at hs
    simp only [Option.some.injEq] at hs
    rw [← hs]
    exact Ripv2.HandlesFrom_NotifyAddAddress _ _ _ _ _
  | notifyRemoveAddress interface address delay =>
    simp only [step] at hs
    split_ifs at hs
    simp only [Option.some.injEq] at hs
    rw [← hs]
    exact Ripv2.HandlesFrom_NotifyRemoveAddress _ _ _ _ _

/-- Along a run no object is taken back, and a cell without timer holds the
object of a cell without timer of the start or an object created since. -/
theorem runIn_handlesFrom (gd : Nat → Nat) (ops : List (Ipv4 × Op)) :
    ∀ (s s' : Ripv2), runIn gd s ops = some s' → s.HandlesFrom true s' := by
  induction ops with
  | nil =>
    intro s s' hr
    simp only [runIn, Option.some.injEq] at hr
    rw [← hr]; exact Ripv2.HandlesFrom.refl _ _
  | cons op rest ih =>
    intro s s' hr
    unfold runIn at hr
    split at hr
    · cases hr
    · rename_i t ht
      exact Ripv2.HandlesFrom.trans _ _ _ _
        (Ripv2.HandlesFrom.lenient _ _ _ (step_handlesFrom op.1 gd s t op.2 ht)) (ih t s' hr)

theorem runIn_append (gd : Nat → Nat) (ops1 ops2 : List (Ipv4 × Op)) :
    ∀ (s : Ripv2), runIn gd s (ops1 ++ ops2) = (runIn gd s ops1).bind (fun t => runIn gd t ops2) := by
  induction ops1 with
  | nil => intro s; rfl
  | cons op rest ih =>
    intro s
    simp only [List.cons_append, runIn]
    cases step op.1 gd s op.2 with
    | none => rfl
    | some t => exact ih t

/-- A cell without timer at the end of a run holds the object of a cell
without timer of the start, or an object that a step of the run created, and
that step calls `AddNetworkRouteTo`. -/
theorem runIn_created (gd : Nat → Nat) (ops : List (Ipv4 × Op)) :
    ∀ (s0 s : Ripv2), s0.Timers → runIn gd s0 ops = some s →
      ∀ c ∈ s.m_routes, c.2.m_uid = none →
        (∃ c0 ∈ s0.m_routes, c0.1.addr = c.1.addr ∧ c0.2.m_uid = none) ∨
          ∃ ops1 ipv4 op ops2 s1 s2, ops = ops1 ++ (ipv4, op) :: ops2 ∧
            runIn gd s0 ops1 = some s1 ∧ step ipv4 gd s1 op = some s2 ∧
            op.AddsNetworkRoute = true ∧ s1.heap ≤ c.1.addr ∧ c.1.addr < s2.heap := by
  induction ops with
  | nil =>
    intro s0 s _ hr c hc hu
    simp only [runIn, Option.some.injEq] at hr
    rw [← hr] at hc
    exact Or.inl ⟨c, hc, rfl, hu⟩
  | cons x rest ih =>
    intro s0 s hT hr c hc hu
    unfold runIn at hr
    split at hr
    · cases hr
    · rename_i t ht
      have hTt : t.Timers := step_timers x.1 gd s0 t x.2 hT ht
      rcases ih t s hTt hr c hc hu with ⟨ct, hct, hat, hut⟩ | ⟨ops1, ipv4, op, ops2, s1, s2, h1, h2, h3, h4, h5, h6⟩
      · rcases (step_handlesFrom x.1 gd s0 t x.2 ht).2 ct hct hut with h0 | ⟨hb, hle⟩
        · obtain ⟨c0, hc0, ha0, hu0⟩ := h0
          exact Or.inl ⟨c0, hc0, ha0.trans hat, hu0⟩
        · right
          refine ⟨[], x.1, x.2, rest, s0, t, rfl, rfl, ht, hb, ?_, ?_⟩
          · rw [← hat]; exact hle
          · rw [← hat]; exact hTt.addr_lt ct hct
      · right
        refine ⟨x :: ops1, ipv4, op, ops2, s1, s2, by rw [h1]; rfl, ?_, h3, h4, h5, h6⟩
        unfold runIn
        rw [ht]
        exact h2

/-- The objects that the processing of a received packet creates never sit
in a cell without timer afterwards. -/
theorem runIn_learnt (gd : Nat → Nat) (s1 s2 s : Ripv2) (ipv4 : Ipv4) (packet : Packet)
    (delay : Nat) (ops2 : List (Ipv4 × Op)) (hT : s1.Timers)
    (hstep : step ipv4 gd s1 (.receive packet delay) = some s2)
    (hrun : runIn gd s2 ops2 = some s) :
    ∀ c ∈ s.m_routes, s1.heap ≤ c.1.addr → c.1.addr < s2.heap → c.2.m_uid ≠ none := by
  intro c hc hlo hhi hu
  rcases (runIn_handlesFrom gd ops2 s2 s hrun).2 c hc hu with ⟨c2, hc2, ha2, hu2⟩ | ⟨_, hle⟩
  · rcases (step_handlesFrom ipv4 gd s1 s2 _ hstep).2 c2 hc2 hu2 with
      ⟨c1, hc1, ha1, _⟩ | ⟨hb, _⟩
    · have := hT.addr_lt c1 hc1
      rw [ha1, ha2] at this
      omega
    · cases hb
  · omega

/-- C13 as it holds: after any operations from a new agent (no route, no
event in the queue, no triggered update pending), each with the IP layer it
finds, for every route that is VALID: its timeout timer is armed, unless its
cell holds a handle that refers to no event, and then the route is an object created
by a step of the run that calls `AddNetworkRouteTo` (`AddDefaultRouteTo`,
`SetIpv4`, `NotifyInterfaceUp`, `NotifyAddAddress`); no event of the queue
that is not cancelled runs `DeleteRoute` on it; and if the route is an object
created by a step that receives a packet, a route learnt from a Response, its
timeout timer is armed. -/
theorem valid_timer_invariant (gd : Nat → Nat) (s0 s : Ripv2) (ops : List (Ipv4 × Op))
    (hr0 : s0.m_routes = []) (he0 : s0.sim.events = [])
    (hu0 : s0.m_nextTriggeredUpdate.m_uid = none) (hrun : runIn gd s0 ops = some s) :
    ∀ c ∈ s.m_routes, c.1.m_status = .RIPV2_VALID →
      (s.TimeoutArmed c ∨
        (c.2.m_uid = none ∧
          ∃ ops1 ipv4 op ops2 s1 s2, ops = ops1 ++ (ipv4, op) :: ops2 ∧
            runIn gd s0 ops1 = some s1 ∧ step ipv4 gd s1 op = some s2 ∧
            op.AddsNetworkRoute = true ∧ s1.heap ≤ c.1.addr ∧ c.1.addr < s2.heap)) ∧
      (∀ e ∈ s.sim.events, e.cancelled = false → e.impl ≠ .DeleteRoute c.1.addr) ∧
      (∀ ops1 ipv4 packet delay ops2 s1 s2,
        ops = ops1 ++ (ipv4, .receive packet delay) :: ops2 →
        runIn gd s0 ops1 = some s1 → step ipv4 gd s1 (.receive packet delay) = some s2 →
        s1.heap ≤ c.1.addr → c.1.addr < s2.heap → s.TimeoutArmed c) := by
  have h0 : s0.Timers := by
    unfold Ripv2.Timers
    rw [hr0]
    exact TimersOk.initial _ _ _ he0 hu0
  have h : TimersOk s.m_routes s.sim s.heap s.m_nextTriggeredUpdate :=
    runIn_timers gd ops s0 s h0 hrun
  intro c hc hv
  have harmed : ∀ u, c.2.m_uid = some u → s.TimeoutArmed c := by
    intro u hu
    obtain ⟨e, he, h1, h2, h3⟩ := h.valid c hc hv u hu
    exact ⟨Simulator.IsRunning_of_live s.sim c.2 e he (by rw [hu, h1]) h2,
      e, he, by rw [hu, h1], h2, h3⟩
  refine ⟨?_, ?_, ?_⟩
  · cases hu : c.2.m_uid with
    | some u => exact Or.inl (harmed u hu)
    | none =>
      right
      refine ⟨rfl, ?_⟩
      rcases runIn_created gd ops s0 s h0 hrun c hc hu with ⟨c0, hc0, _⟩ | hsplit
      · rw [hr0] at hc0
        cases hc0
      · exact hsplit
  · intro e he hl hi
    obtain ⟨c', hc', hca, hcu⟩ := h.owner e he hl c.1.addr (by rw [hi]; rfl)
    have hcc : c' = c := List.inj_on_of_nodup_map h.addrs hc' hc hca
    rw [hcc] at hcu
    obtain ⟨e1, he1, h1, h2, h3⟩ := h.valid c hc hv e.uid hcu
    have := uid_unique s.sim.events e1 e h.uids he1 he h1
    rw [this, hi] at h3
    cases h3
  · intro ops1 ipv4 packet delay ops2 s1 s2 hsplit hr1 hstep hlo hhi
    have hT1 : s1.Timers := runIn_timers gd ops1 s0 s1 h0 hr1
    have hr2 : runIn gd s2 ops2 = some s := by
      rw [hsplit, runIn_append, hr1] at hrun
      have hrun' : runIn gd s1 ((ipv4, .receive packet delay) :: ops2) = some s := hrun
      unfold runIn at hrun'
      simp only [hstep] at hrun'
      exact hrun'

    cases hu : c.2.m_uid with
    | some u => exact harmed u hu
    | none => exact absurd hu (runIn_learnt gd s1 s2 s ipv4 packet delay ops2 hT1 hstep hr2 c hc hlo hhi)
/-- C13 as it holds, at an input: after the run `runTimers` the route learnt
from 10.0.0.1, the first of the table, an object that the last step of the
run created on receiving `packetA`, has its timeout timer armed, and the
connected route and the default route hold `EventId ()`. -/
theorem valid_timer_invariant_witness :
    (runIn id {} runTimers).map
        (fun s => s.m_routes.map
          (fun c => (c.1.addr, c.1.m_dest, c.1.m_status, c.2, s.sim.IsRunning c.2))) =
      some [(5, 0xC0A80100, .RIPV2_VALID, { m_uid := some 3, m_ts := Seconds 180 }, true),
            (1, 0x0A000000, .RIPV2_VALID, {}, false), (2, 0, .RIPV2_VALID, {}, false)] ∧
    (runIn id {} (runTimers.take 3)).map (fun s => s.heap) = some 5 ∧
    (runIn id {} runTimers).map (fun s => s.heap) = some 6 ∧
    ∀ c ∈ ((runIn id {} runTimers).getD {}).m_routes.take 1,
      ((runIn id {} runTimers).getD {}).TimeoutArmed c := by
  refine ⟨by decide, by decide, by decide, ?_⟩
  intro c hc
  have hall : ∀ x ∈ ((runIn id {} runTimers).getD {}).m_routes.take 1,
      x ∈ ((runIn id {} runTimers).getD {}).m_routes ∧ x.1.m_status = .RIPV2_VALID ∧
        ((runIn id {} (runTimers.take 3)).getD {}).heap ≤ x.1.addr ∧
        x.1.addr < ((runIn id {} runTimers).getD {}).heap := by decide
  obtain ⟨hmem, hv, hlo, hhi⟩ := hall c hc
  exact (valid_timer_invariant id {} ((runIn id {} runTimers).getD {}) runTimers rfl rfl rfl
    (by decide) c hmem hv).2.2 (runTimers.take 3) ipv4U packetA (Seconds 1) []
    ((runIn id {} (runTimers.take 3)).getD {}) ((runIn id {} runTimers).getD {}) rfl (by decide)
    (by decide) hlo hhi

end ns3
